import Mathlib

/-!
# RSDKv5 (PS2 port) audio core: channel table, effect registry, WAV streaming

A shallow embedding of `RSDK/Audio/Audio.cpp` and `RSDK/Audio/PS2/PS2AudioDevice.cpp`
(the `RETRO_PLATFORM == RETRO_PS2` branches) together with theorems about it.

Conventions of the embedding

* C arrays (`channels`, `sfxList`, `adpcm_channels`, ...) are total functions on the
  index; the bounds of the C loops are the constants of `AudioConsts`.
* `uint32` arithmetic is arithmetic on `Nat` reduced by `u32`; `int16`/`int32` values
  are `Int`.
* `float` values are the rationals they denote (NaN and infinities are outside the model).
* A file is the list of its bytes; a byte is a `Nat` below 256. `SAMPLE_FORMAT` is the
  16-bit sample of the PS2 build, so the mix buffer has `MIX_BUFFER_SIZE * 2` bytes.
* The external audio server, the allocator and the file system are inputs of the
  operations that call them.
* A loop with a data-dependent number of iterations takes a bound on that number as its
  first argument; the bound the caller passes is proved sufficient
  (`skipLoop_stable`, `scanChunks_enough_fuel`).
-/

namespace RSDK

/-! ## Constants and enumerations of the absent headers -/

/-- Modelled from the spec: the sizes `CHANNEL_COUNT`, `SFX_COUNT`, `MIX_BUFFER_SIZE`, the
size `SFX_NAME_SIZE` of the member `SFXInfo::fileName` and the hash macro `GEN_HASH_MD5`
are declared in headers that are not part of the sources at hand (the spec only says the
pools are "fixed-size"); they are parameters of the embedding. -/
structure AudioConsts where
  CHANNEL_COUNT : Nat
  SFX_COUNT : Nat
  MIX_BUFFER_SIZE : Nat
  SFX_NAME_SIZE : Nat
  GEN_HASH_MD5 : String → List Nat

/-- Modelled from the spec: channel state `Idle` (enumerator of the absent audio header;
the states are numbered in the order the spec lists them). -/
def CHANNEL_IDLE : Nat := 0

/-- Modelled from the spec: channel state `PlayingEffect`. -/
def CHANNEL_SFX : Nat := 1

/-- Modelled from the spec: channel state `PlayingStream`. -/
def CHANNEL_STREAM : Nat := 2

/-- Modelled from the spec: channel state `LoadingStream`. -/
def CHANNEL_LOADING_STREAM : Nat := 3

/-- Modelled from the spec: the orthogonal paused bit that composes with a playing state
by bitwise or. -/
def CHANNEL_PAUSED : Nat := 0x40

/-- Modelled from the spec: scope `None` (the scopes are numbered in the order the spec
lists them: `None`, `Global`, `Stage`). -/
def SCOPE_NONE : Nat := 0

/-- Modelled from the spec: scope `Global`. -/
def SCOPE_GLOBAL : Nat := 1

/-- Modelled from the spec: scope `Stage`. -/
def SCOPE_STAGE : Nat := 2

/-- The constant `STREAM_BUFFER_SIZE` of `Audio.cpp`. -/
def STREAM_BUFFER_SIZE : Nat := 64 * 1024

/-- The constant `MAX_VOLUME` of `PS2AudioDevice.hpp`. -/
def MAX_VOLUME : Nat := 100

/-- The macro `STREAM_SLOT` of `Audio.cpp`. -/
def STREAM_SLOT (k : AudioConsts) : Nat := k.SFX_COUNT - 2

/-- Reduction of a natural number to a `uint32` value. -/
def u32 (n : Nat) : Nat := n % 4294967296

/-- Conversion of an unsigned 16-bit value to `int16` (two's complement). -/
def toInt16 (n : Nat) : Int :=
  if n % 65536 < 32768 then ((n % 65536 : Nat) : Int) else ((n % 65536 : Nat) : Int) - 65536

/-- Fixed-point one: `TO_FIXED(1)`. -/
def FIXED_ONE : Nat := 65536

/-! ## Data model -/

/-- A pointer to sample memory. The only sample block this port allocates is the stream
mix buffer (`InitAudioChannels`); every other buffer pointer is `NULL`. -/
inductive SamplePtr where
  | null
  | mixBuffer
deriving DecidableEq, Repr

/-- One entry of `sfxList` (`SFXInfo`). -/
structure SFXInfo where
  hash : List Nat
  buffer : SamplePtr
  length : Nat
  playCount : Int
  maxConcurrentPlays : Nat
  scope : Nat
  fileName : String
deriving DecidableEq, Repr

/-- The result of `memset(&entry, 0, sizeof(SFXInfo))`. -/
def SFXInfo.zero : SFXInfo :=
  { hash := List.replicate 16 0, buffer := SamplePtr.null, length := 0, playCount := 0,
    maxConcurrentPlays := 0, scope := 0, fileName := "" }

/-- One entry of `channels` (`ChannelInfo`). -/
structure ChannelInfo where
  samplePtr : SamplePtr
  pan : ℚ
  volume : ℚ
  speed : Int
  sampleLength : Nat
  bufferPos : Nat
  playIndex : Int
  loop : Nat
  soundID : Int
  priority : Nat
  state : Nat
deriving DecidableEq

/-- A zero-initialised channel (static storage). -/
def ChannelInfo.zero : ChannelInfo :=
  { samplePtr := SamplePtr.null, pan := 0, volume := 0, speed := 0, sampleLength := 0,
    bufferPos := 0, playIndex := 0, loop := 0, soundID := 0, priority := 0, state := 0 }

/-- Modelled from the spec: the file handle `FileInfo` (its header is absent). `file` is
the open handle, holding the bytes of the file (`none` when closed), `readPos` the read
cursor and `fileSize` the size recorded when the file was opened. -/
structure FileInfo where
  file : Option (List Nat)
  readPos : Nat
  fileSize : Nat
deriving DecidableEq, Repr

/-- The descriptor `StreamFileInfo` of the one active stream. -/
structure StreamFileInfo where
  fileInfo : FileInfo
  dataStartPos : Nat
  dataSize : Nat
  currentReadPos : Nat
  loopPoint : Nat
  isActive : Bool
  numChannels : Nat
  sampleRate : Nat
deriving DecidableEq, Repr

/-- An entry of `channel_timers`. -/
structure ChannelTimer where
  startTime : Nat
  duration : Nat
  active : Bool
deriving DecidableEq, Repr

/-- The global state of the audio core: the statics of `Audio.cpp` and of
`PS2AudioDevice.cpp`, the engine flag `streamsEnabled`, and the two memory blocks the
core allocates (the stream mix buffer, as bytes, and the circular stream buffer). -/
structure AudioState where
  channels : Nat → ChannelInfo
  sfxList : Nat → SFXInfo
  activeStream : StreamFileInfo
  streamFilePath : String
  streamStartPos : Nat
  streamLoopPoint : Nat
  mixBuffer : List Nat
  circularStreamBuffer : Option (List Nat)
  streamsEnabled : Bool
  adpcm_buffers : Nat → Option (List Nat)
  adpcm_channels : Nat → Int
  adpcm_loaded : Nat → Bool
  adpcm_system_initialized : Bool
  channel_timers : Nat → ChannelTimer
  current_frame : Nat

/-- A request the stream refill sends to the file: seek to `dataStartPos + offset` and
read `length` bytes. -/
structure ReadRequest where
  offset : Nat
  length : Nat
deriving DecidableEq, Repr

/-! ## File access -/

/-- Modelled from the spec: `InitFileInfo` (absent reader header) resets the handle. -/
def InitFileInfo : FileInfo := { file := none, readPos := 0, fileSize := 0 }

/-- Modelled from the spec: `LoadFile` (absent reader header). The file system is the
function `fs` from paths to file contents; opening succeeds when the path exists and
leaves the cursor at 0. -/
def LoadFile (fs : String → Option (List Nat)) (path : String) : Option FileInfo :=
  match fs path with
  | some bytes => some { file := some bytes, readPos := 0, fileSize := bytes.length }
  | none => none

/-- Modelled from the spec: `CloseFile` (absent reader header) drops the handle. -/
def CloseFile (info : FileInfo) : FileInfo := { info with file := none }

/-- Modelled from the spec: `ReadBytes` (absent reader header) returns the bytes actually
read, at most `count` and at most what is left of the file after the cursor, and advances
the cursor by their number. -/
def ReadBytes (info : FileInfo) (count : Nat) : List Nat × FileInfo :=
  let got := ((info.file.getD []).drop info.readPos).take count
  (got, { info with readPos := info.readPos + got.length })

/-- Modelled from the spec: `Seek_Set` (absent reader header) moves the cursor. -/
def Seek_Set (info : FileInfo) (pos : Nat) : FileInfo := { info with readPos := pos }

/-- Little-endian decoding of the bytes of an unsigned integer field. -/
def leDecode : List Nat → Nat
  | [] => 0
  | b :: bs => b % 256 + 256 * leDecode bs

/-- Little-endian encoding of `n` on `w` bytes. -/
def leEncode : Nat → Nat → List Nat
  | 0, _ => []
  | w + 1, n => n % 256 :: leEncode w (n / 256)

/-- The bytes of an ASCII tag such as `"RIFF"`. -/
def tag (s : String) : List Nat := s.toList.map Char.toNat

/-- Writing `src` over the beginning of the memory `dst` (a read into a buffer that
returned `src`). -/
def overlay (src dst : List Nat) : List Nat := src ++ dst.drop src.length

/-! ## Streaming pipeline -/

/-- The locals of the chunk walk of `LoadStream`. -/
structure ScanState where
  info : FileInfo
  fmt : List Nat
  dataSize : Nat
  dataOffset : Nat
  foundFmt : Bool
  foundData : Bool
deriving DecidableEq, Repr

/-- The skip loop of `LoadStream`:
`while (remaining > 0) { toSkip = remaining > 256 ? 256 : remaining; ReadBytes(..., toSkip);
remaining -= toSkip; }`. The first argument bounds the number of iterations; `remaining`
itself is enough, since every iteration takes at least one off. -/
def skipLoop : Nat → FileInfo → Nat → FileInfo
  | 0, info, _ => info
  | fuel + 1, info, remaining =>
    if remaining > 0 then
      let toSkip := if remaining > 256 then 256 else remaining
      skipLoop fuel (ReadBytes info toSkip).2 (remaining - toSkip)
    else info

/-- One iteration of the chunk loop of `LoadStream` after the loop condition held:
`none` is the `break` on a short chunk header. -/
def scanStep (st : ScanState) : Option ScanState :=
  let r := ReadBytes st.info 8
  if r.1.length ≠ 8 then none
  else
    let chunkID := r.1.take 4
    let chunkSize := leDecode (r.1.drop 4)
    if chunkID = tag "fmt " then
      let f := ReadBytes r.2 16
      let remaining := u32 (chunkSize + 4294967296 - 16)
      some { st with info := skipLoop remaining f.2 remaining, fmt := overlay f.1 st.fmt,
                     foundFmt := true }
    else if chunkID = tag "data" then
      some { st with info := r.2, dataSize := chunkSize, dataOffset := r.2.readPos,
                     foundData := true }
    else
      some { st with info := skipLoop chunkSize r.2 chunkSize }

/-- The chunk loop of `LoadStream`:
`while (!foundData && readPos < fileSize) { ... }`. The first argument bounds the number
of iterations; the file size is enough, since an iteration that does not break reads
eight bytes. -/
def scanChunks : Nat → ScanState → ScanState
  | 0, st => st
  | fuel + 1, st =>
    if !st.foundData && decide (st.info.readPos < st.info.fileSize) then
      match scanStep st with
      | none => { st with info := (ReadBytes st.info 8).2 }
      | some st' => scanChunks fuel st'
    else st

/-- Replacing entry `c` of the channel table. -/
def setChannel (s : AudioState) (c : Nat) (ch : ChannelInfo) : AudioState :=
  { s with channels := Function.update s.channels c ch }

/-- The `int16` sample of index `i` of a byte buffer (little endian). -/
def getI16 (buf : List Nat) (i : Nat) : Int :=
  toInt16 (buf.getD (2 * i) 0 % 256 + 256 * (buf.getD (2 * i + 1) 0 % 256))

/-- Storing the `int16` value `v` as sample `i` of a byte buffer. -/
def setI16 (buf : List Nat) (i : Nat) (v : Int) : List Nat :=
  let u := (v % 65536).toNat
  (buf.set (2 * i) (u % 256)).set (2 * i + 1) (u / 256)

/-- The "quick fade" of `UpdateStreamBuffer`:
`lastSamples = buffer + (MIX_BUFFER_SIZE - 4); for (i < 4) lastSamples[i] = lastSamples[i] / 2;`
(C division truncates toward zero). -/
def fadeLast (buf : List Nat) (mixBufferSize : Nat) : List Nat :=
  (List.range 4).foldl
    (fun b i => setI16 b (mixBufferSize - 4 + i) (Int.tdiv (getI16 b (mixBufferSize - 4 + i)) 2))
    buf

/-- A write to the memory `channel->samplePtr` points at: it lands in the mix buffer when
the pointer is the mix buffer (a write through `NULL` is outside the model and dropped). -/
def writeSamples (p : SamplePtr) (f : List Nat → List Nat) (s : AudioState) : AudioState :=
  match p with
  | SamplePtr.mixBuffer => { s with mixBuffer := f s.mixBuffer }
  | SamplePtr.null => s

/-- The call `memset(p, 0, n)` on a block of memory. -/
def zeroFill (n : Nat) (buf : List Nat) : List Nat := overlay (List.replicate n 0) buf

/-- The tail of `UpdateStreamBuffer` (from `uint32 remaining = ...` on) with the local
`filePos`: the aligned read into the mix buffer, the zero padding and the advance of the
read cursor. -/
def streamRefill (k : AudioConsts) (s : AudioState) (c : Nat) (filePos : Nat) :
    AudioState × Option ReadRequest :=
  let bytesToCopy := k.MIX_BUFFER_SIZE * 2
  let remaining := u32 (s.activeStream.dataSize + 4294967296 - filePos)
  let toRead := if remaining > bytesToCopy then bytesToCopy else remaining
  let toRead := (toRead / 4) * 4
  let info := Seek_Set s.activeStream.fileInfo (u32 (s.activeStream.dataStartPos + filePos))
  let r := ReadBytes info toRead
  let s1 := writeSamples (s.channels c).samplePtr (overlay r.1) s
  let s2 := if toRead < bytesToCopy then
      writeSamples (s.channels c).samplePtr
        (fun buf => buf.take toRead ++ zeroFill (bytesToCopy - toRead) (buf.drop toRead)) s1
    else s1
  ({ s2 with activeStream :=
      { s2.activeStream with fileInfo := r.2,
                             currentReadPos := u32 (s2.activeStream.currentReadPos + toRead) } },
   some { offset := filePos, length := toRead })

/-- The function `UpdateStreamBuffer(channel)` for the channel of index `c`, together
with the read it sends to the file, if any. -/
def UpdateStreamBuffer (k : AudioConsts) (s : AudioState) (c : Nat) :
    AudioState × Option ReadRequest :=
  let channel := s.channels c
  let bytesToCopy := k.MIX_BUFFER_SIZE * 2
  if !s.activeStream.isActive || s.circularStreamBuffer.isNone then
    (writeSamples channel.samplePtr (zeroFill bytesToCopy) s, none)
  else
    let filePos := s.activeStream.currentReadPos
    if filePos ≥ s.activeStream.dataSize then
      if channel.loop ≠ 0 then
        let alignedLoopPoint := (s.activeStream.loopPoint / 4) * 4
        let s1 := { s with activeStream :=
                      { s.activeStream with currentReadPos := alignedLoopPoint } }
        let s2 := if bytesToCopy ≥ 16 then
            writeSamples channel.samplePtr (fun buf => fadeLast buf k.MIX_BUFFER_SIZE) s1
          else s1
        streamRefill k s2 c alignedLoopPoint
      else
        let s1 := writeSamples channel.samplePtr (zeroFill bytesToCopy) s
        let s2 := setChannel s1 c { s1.channels c with state := CHANNEL_IDLE }
        ({ s2 with activeStream :=
            { s2.activeStream with isActive := false,
                                   fileInfo := CloseFile s2.activeStream.fileInfo } }, none)
    else
      streamRefill k s c filePos

/-- The state after the early exits of `LoadStream` that follow a successful open:
`CloseFile(&activeStream.fileInfo); channel->state = CHANNEL_IDLE; return;`. -/
def rejectStream (s : AudioState) (c : Nat) (info : FileInfo) : AudioState :=
  setChannel { s with activeStream := { s.activeStream with fileInfo := CloseFile info } } c
    { s.channels c with state := CHANNEL_IDLE }

/-- The function `LoadStream(channel)` for the channel of index `c`; `fs` is the file
system `LoadFile` looks the path `streamFilePath` up in. -/
def LoadStream (k : AudioConsts) (fs : String → Option (List Nat)) (s : AudioState) (c : Nat) :
    AudioState :=
  let s := if s.activeStream.isActive then
      { s with activeStream :=
          { s.activeStream with fileInfo := CloseFile s.activeStream.fileInfo,
                                isActive := false } }
    else s
  let s := { s with activeStream := { s.activeStream with fileInfo := InitFileInfo } }
  match LoadFile fs s.streamFilePath with
  | some info =>
    let h := ReadBytes info 12
    if h.1.take 4 ≠ tag "RIFF" ∨ (h.1.drop 8).take 4 ≠ tag "WAVE" then
      rejectStream s c h.2
    else
      let st := scanChunks h.2.fileSize
        { info := h.2, fmt := List.replicate 16 0, dataSize := 0, dataOffset := 0,
          foundFmt := false, foundData := false }
      if !st.foundFmt || !st.foundData then
        rejectStream s c st.info
      else
        let currentReadPos := if s.streamStartPos < st.dataSize then s.streamStartPos else 0
        let loopPoint := if s.streamLoopPoint < st.dataSize then s.streamLoopPoint else 0
        let info1 := { st.info with readPos := u32 (st.dataOffset + currentReadPos) }
        let initialLoad :=
          if st.dataSize > STREAM_BUFFER_SIZE then STREAM_BUFFER_SIZE else st.dataSize
        let r := ReadBytes info1 initialLoad
        let s1 : AudioState :=
          { s with
            activeStream :=
              { fileInfo := r.2, dataStartPos := st.dataOffset, dataSize := st.dataSize,
                currentReadPos := u32 (currentReadPos + initialLoad), loopPoint := loopPoint,
                isActive := true, numChannels := leDecode ((st.fmt.drop 2).take 2),
                sampleRate := leDecode ((st.fmt.drop 4).take 4) },
            circularStreamBuffer :=
              s.circularStreamBuffer.map
                (fun buf => overlay r.1 (zeroFill STREAM_BUFFER_SIZE buf)) }
        let s2 := (UpdateStreamBuffer k s1 c).1
        setChannel s2 c { s2.channels c with state := CHANNEL_STREAM }
  | none =>
    setChannel s c { s.channels c with state := CHANNEL_IDLE }

/-- The index of the last `'.'` of a C string (`strrchr`). -/
def strrchrDot (cs : List Char) : Option Nat :=
  (List.range cs.length).foldl (fun acc i => if cs.getD i ' ' = '.' then some i else acc) none

/-- The extension rewrite of `PlayStream`: a name ending in `.ogg` gets `.wav`. -/
def oggToWav (cs : List Char) : List Char :=
  match strrchrDot cs with
  | some i => if cs.drop i = ".ogg".toList then cs.take i ++ ".wav".toList else cs
  | none => cs

/-- The path `PlayStream` leaves in `streamFilePath`: the name is cut to the 0x40 bytes of
`tempPath`, a final `.ogg` becomes `.wav`, and the music directory is put in front. -/
def streamPath (filename : String) : String :=
  String.mk (("Data/Music/".toList ++ oggToWav (filename.toList.take 63)).take 63)

/-- The first selection loop of `PlayStream`:
`for (c = 0; c < CHANNEL_COUNT && slot >= CHANNEL_COUNT; ++c)
   if (channels[c].soundID == -1 && channels[c].state != CHANNEL_LOADING_STREAM) slot = c;`
entered with `slot >= CHANNEL_COUNT`: the loop stops at the first channel that passes. -/
def firstPass (k : AudioConsts) (s : AudioState) (slot : Nat) : Nat :=
  match (List.range k.CHANNEL_COUNT).find? (fun c =>
      decide ((s.channels c).soundID = -1) &&
      decide ((s.channels c).state ≠ CHANNEL_LOADING_STREAM)) with
  | some c => c
  | none => slot

/-- The second selection loop of `PlayStream` over the channels below `n`, on the pair of
locals `(slot, len)` with `len` starting at `0xFFFFFFFF`:
`if (channels[c].sampleLength < len && channels[c].state != CHANNEL_LOADING_STREAM)
   { slot = c; len = (uint32)channels[c].sampleLength; }`. -/
def secondPass (n : Nat) (s : AudioState) (slot : Nat) : Nat × Nat :=
  (List.range n).foldl
    (fun (p : Nat × Nat) c =>
      if (s.channels c).sampleLength < p.2 ∧ (s.channels c).state ≠ CHANNEL_LOADING_STREAM
      then (c, u32 (s.channels c).sampleLength) else p)
    (slot, 0xFFFFFFFF)

/-- The channel selection of `PlayStream` (the block under `// find available channel`):
the slot the call goes on with. -/
def selectStreamSlot (k : AudioConsts) (s : AudioState) (slot : Nat) : Nat :=
  if slot ≥ k.CHANNEL_COUNT then
    let slot1 := firstPass k s slot
    if slot1 ≥ k.CHANNEL_COUNT then (secondPass k.CHANNEL_COUNT s slot1).1 else slot1
  else slot

/-- The part of `PlayStream` between the channel selection and the call of
`HandleStreamLoad`, for the selected channel `slot`: a stream on that channel is stopped,
the mix buffer is cleared, the channel is configured in `LoadingStream`, and the path and
the aligned offsets are stored. -/
def prepareStream (k : AudioConsts) (s : AudioState) (filename : String)
    (slot startPos loopPoint : Nat) : AudioState :=
  let channel := s.channels slot
  let s1 :=
    if channel.state = CHANNEL_STREAM ∨ channel.state = CHANNEL_LOADING_STREAM then
      let t := if s.activeStream.isActive then
          { s with activeStream :=
              { s.activeStream with fileInfo := CloseFile s.activeStream.fileInfo,
                                    isActive := false } }
        else s
      setChannel t slot { channel with state := CHANNEL_IDLE }
    else s
  let s2 := writeSamples (s1.sfxList (STREAM_SLOT k)).buffer
    (zeroFill (k.MIX_BUFFER_SIZE * 2)) s1
  let s3 := setChannel s2 slot
    { s2.channels slot with
      soundID := 0xFF, loop := if loopPoint ≠ 0 then 1 else 0, priority := 0xFF,
      state := CHANNEL_LOADING_STREAM, pan := 0, volume := 1,
      sampleLength := (s2.sfxList (STREAM_SLOT k)).length,
      samplePtr := (s2.sfxList (STREAM_SLOT k)).buffer, bufferPos := 0, speed := 52428 }
  { s3 with
    streamFilePath := streamPath filename,
    streamStartPos := (startPos / 4) * 4,
    streamLoopPoint := (loopPoint / 4) * 4 }

/-- The function `PlayStream(filename, slot, startPos, loopPoint, loadASync)`: the value
it returns and the state it leaves (`HandleStreamLoad` of the PS2 device is `LoadStream`;
the flag `loadASync` is not read on this path). -/
def PlayStream (k : AudioConsts) (fs : String → Option (List Nat)) (s : AudioState)
    (filename : String) (slot startPos loopPoint : Nat) : Int × AudioState :=
  if !s.streamsEnabled then (-1, s)
  else
    let slot := selectStreamSlot k s slot
    if slot ≥ k.CHANNEL_COUNT then (-1, s)
    else ((slot : Int), LoadStream k fs (prepareStream k s filename slot startPos loopPoint) slot)

/-! ## PS2 audio device: hardware ADPCM channels -/

/-- The outcome of the calls one operation makes to the audio server and to the heap
(`audsrv_adpcm_init`, `memalign`, `audsrv_load_adpcm`, `audsrv_ch_play_adpcm`). -/
structure Audsrv where
  audsrv_adpcm_init : Int
  memalignFails : Bool
  audsrv_load_adpcm : Int
  audsrv_ch_play_adpcm : Int

/-- The function `GetADPCMDuration(slot)`; `none` is the integer division by zero.
The header fields `pitch` and `samples` are the little-endian words at offsets 8 and 12
of the container. -/
def GetADPCMDuration (k : AudioConsts) (s : AudioState) (slot : Nat) : Option Nat :=
  if slot ≥ k.SFX_COUNT ∨ s.adpcm_loaded slot = false then some 0
  else
    let header := (s.adpcm_buffers slot).getD []
    if header.take 4 = tag "APCM" then
      let pitch := leDecode ((header.drop 8).take 4)
      let samples := leDecode ((header.drop 12).take 4)
      let sample_rate := u32 (pitch * 22050) / 4096
      if sample_rate = 0 then none
      else
        let duration_ms := u32 (samples * 1000) / sample_rate
        let duration_frames := u32 (duration_ms * 60) / 1000
        some (u32 (duration_frames + 10))
    else some 120

/-- The function `AudioDevice::IsADPCMLoaded(slot)`. -/
def IsADPCMLoaded (k : AudioConsts) (s : AudioState) (slot : Nat) : Bool :=
  if slot ≥ k.SFX_COUNT then false else s.adpcm_loaded slot

/-- The function `AudioDevice::StopADPCM(channel)`. -/
def StopADPCM (k : AudioConsts) (s : AudioState) (channel : Int) : AudioState :=
  if channel < 0 ∨ channel ≥ k.CHANNEL_COUNT then s
  else if s.adpcm_channels channel.toNat ≠ -1 then
    { s with
      adpcm_channels := Function.update s.adpcm_channels channel.toNat (-1),
      channel_timers := Function.update s.channel_timers channel.toNat
        { s.channel_timers channel.toNat with active := false } }
  else s

/-- The function `AudioDevice::UnloadADPCM(slot)`. -/
def UnloadADPCM (k : AudioConsts) (s : AudioState) (slot : Nat) : AudioState :=
  if slot ≥ k.SFX_COUNT then s
  else if s.adpcm_loaded slot = false then s
  else
    let s1 := (List.range k.CHANNEL_COUNT).foldl
      (fun t (c : Nat) =>
        if t.adpcm_channels c ≠ -1 ∧ (t.channels c).soundID = (slot : Int) then
          StopADPCM k t (c : Int)
        else t) s
    { s1 with adpcm_buffers := Function.update s1.adpcm_buffers slot none,
              adpcm_loaded := Function.update s1.adpcm_loaded slot false }

/-- The function `AudioDevice::LoadADPCM(filename, slot)`: its result and the state. -/
def LoadADPCM (k : AudioConsts) (fs : String → Option (List Nat)) (srv : Audsrv)
    (s : AudioState) (filename : String) (slot : Nat) : Bool × AudioState :=
  if slot ≥ k.SFX_COUNT then (false, s)
  else if s.adpcm_loaded slot then (true, s)
  else if !s.adpcm_system_initialized && decide (srv.audsrv_adpcm_init ≠ 0) then (false, s)
  else
    let s1 := { s with adpcm_system_initialized := true }
    match LoadFile fs filename with
    | none => (false, s1)
    | some info =>
      if srv.memalignFails then
        (false, { s1 with adpcm_buffers := Function.update s1.adpcm_buffers slot none })
      else
        let r := ReadBytes info info.fileSize
        if srv.audsrv_load_adpcm < 0 then
          (false, { s1 with adpcm_buffers := Function.update s1.adpcm_buffers slot none })
        else
          (true, { s1 with adpcm_buffers := Function.update s1.adpcm_buffers slot (some r.1),
                           adpcm_loaded := Function.update s1.adpcm_loaded slot true })

/-- The function `AudioDevice::PlayADPCM(slot, loopPoint, priority)`: the hardware channel
index it returns (or -1) and the state; `none` when `GetADPCMDuration` divides by zero. -/
def PlayADPCM (k : AudioConsts) (srv : Audsrv) (s : AudioState) (slot : Nat) :
    Option (Int × AudioState) :=
  if slot ≥ k.SFX_COUNT ∨ s.adpcm_loaded slot = false then some (-1, s)
  else
    match (List.range k.CHANNEL_COUNT).find? (fun c => decide (s.adpcm_channels c = -1)) with
    | none => some (-1, s)
    | some channel =>
      if srv.audsrv_ch_play_adpcm < 0 then some (-1, s)
      else
        match GetADPCMDuration k s slot with
        | none => none
        | some duration =>
          some ((channel : Int),
            { s with
              adpcm_channels := Function.update s.adpcm_channels channel srv.audsrv_ch_play_adpcm,
              channel_timers := Function.update s.channel_timers channel
                { startTime := s.current_frame, duration := duration, active := true } })

/-- The function `AudioDevice::UpdateADPCMChannels()`. -/
def UpdateADPCMChannels (k : AudioConsts) (s : AudioState) : AudioState :=
  (List.range k.CHANNEL_COUNT).foldl
    (fun t (c : Nat) =>
      if (t.channels c).state = CHANNEL_STREAM ∨ (t.channels c).state = CHANNEL_LOADING_STREAM
      then t
      else if (t.channel_timers c).active = false then t
      else
        let elapsed := u32 (t.current_frame + 4294967296 - (t.channel_timers c).startTime)
        if elapsed ≥ (t.channel_timers c).duration then
          let t1 := { t with
            adpcm_channels := Function.update t.adpcm_channels c (-1),
            channel_timers := Function.update t.channel_timers c
              { t.channel_timers c with active := false } }
          if (t1.channels c).soundID ≠ -1 ∧ (t1.channels c).state = CHANNEL_SFX then
            setChannel t1 c { t1.channels c with state := CHANNEL_IDLE, soundID := -1 }
          else t1
        else t)
    { s with current_frame := u32 (s.current_frame + 1) }

/-! ## Sound effect registry -/

/-- The comparison loop of `LoadSfx`:
`for (h < 16) if (sfxList[i].hash[h] != newHash[h]) { match = false; break; }`. -/
def hashMatch (a b : List Nat) : Bool :=
  (List.range 16).all (fun h => a.getD h 0 == b.getD h 0)

/-- The copy of the sixteen bytes of a hash (`HASH_COPY_MD5`, and the copy loop of
`LoadSfx`). -/
def copyHash (h : List Nat) : List Nat := (List.range 16).map (fun i => h.getD i 0)

/-- The name conversion of `LoadSfx` and `LoadSfxToSlot` ("convert .wav to .adp on ps2"):
the name is cut to 255 characters, an extension that is `.wav` in any letter case becomes
`.adp`, and the result is cut to the size of `SFXInfo::fileName`. -/
def convertSfxName (k : AudioConsts) (filename : String) : String :=
  let converted := filename.toList.take 255
  let converted :=
    match strrchrDot converted with
    | some i =>
      if (converted.drop i).map Char.toLower = ".wav".toList then
        converted.take i ++ ".adp".toList
      else converted
    | none => converted
  String.mk (converted.take (k.SFX_NAME_SIZE - 1))

/-- The registry entry both loaders write on acceptance. -/
def newSfxEntry (k : AudioConsts) (filename : String) (plays scope : Nat) : SFXInfo :=
  { hash := copyHash (k.GEN_HASH_MD5 filename), scope := scope, maxConcurrentPlays := plays,
    length := 0, buffer := SamplePtr.null, playCount := 0,
    fileName := convertSfxName k filename }

/-- Replacing entry `i` of the registry. -/
def setSfx (s : AudioState) (i : Nat) (e : SFXInfo) : AudioState :=
  { s with sfxList := Function.update s.sfxList i e }

/-- The function `LoadSfxToSlot(filename, slot, plays, scope)`. -/
def LoadSfxToSlot (k : AudioConsts) (s : AudioState) (filename : String)
    (slot plays scope : Nat) : AudioState :=
  if (s.sfxList slot).scope ≠ SCOPE_NONE then s
  else setSfx s slot (newSfxEntry k filename plays scope)

/-- The duplicate test of `LoadSfx`: some live entry of the pool `0 .. SFX_COUNT - 3`
has the hash `newHash`. -/
def sfxRegistered (k : AudioConsts) (s : AudioState) (newHash : List Nat) : Bool :=
  (List.range (k.SFX_COUNT - 2)).any
    (fun i => decide ((s.sfxList i).scope ≠ SCOPE_NONE) && hashMatch (s.sfxList i).hash newHash)

/-- The loop of `LoadSfx` under `if (scope == SCOPE_STAGE)`: every Stage-scoped entry of
the pool is unloaded and zeroed (`UnloadADPCM` takes the index as `uint8`). -/
def clearStageEntries (k : AudioConsts) (s : AudioState) : AudioState :=
  (List.range (k.SFX_COUNT - 2)).foldl
    (fun t i =>
      if (t.sfxList i).scope = SCOPE_STAGE then
        setSfx (UnloadADPCM k t (i % 256)) i { SFXInfo.zero with scope := SCOPE_NONE }
      else t) s

/-- The search of `LoadSfx` for a free slot: the local `uint16 id`, 65535 when there is
none. -/
def findFreeSfx (k : AudioConsts) (s : AudioState) : Nat :=
  match (List.range (k.SFX_COUNT - 2)).find? (fun i => decide ((s.sfxList i).scope = SCOPE_NONE))
  with
  | some i => i % 65536
  | none => 65535

/-- The function `LoadSfx(filename, plays, scope)`. -/
def LoadSfx (k : AudioConsts) (s : AudioState) (filename : String) (plays scope : Nat) :
    AudioState :=
  if sfxRegistered k s (k.GEN_HASH_MD5 filename) then s
  else
    let s1 := if scope = SCOPE_STAGE then clearStageEntries k s else s
    let id := findFreeSfx k s1
    if id ≠ 65535 then setSfx s1 id (newSfxEntry k filename plays scope) else s1

/-- The loop of `PlaySfx` that stops every channel already playing `sfx`. -/
def stopSfxChannels (k : AudioConsts) (s : AudioState) (sfx : Nat) : AudioState :=
  (List.range k.CHANNEL_COUNT).foldl
    (fun t (c : Nat) =>
      if (t.channels c).soundID = (sfx : Int) then
        let t1 := StopADPCM k t (c : Int)
        setChannel t1 c { t1.channels c with state := CHANNEL_IDLE, soundID := -1 }
      else t) s

/-- The function `PlaySfx(sfx, loopPoint, priority)`: the value it returns and the state;
`none` when the duration estimate of `PlayADPCM` divides by zero. The device functions
take the slot as `uint8`. -/
def PlaySfx (k : AudioConsts) (fs : String → Option (List Nat)) (srv : Audsrv)
    (s : AudioState) (sfx loopPoint priority : Nat) : Option (Int × AudioState) :=
  if sfx = 65535 ∨ sfx ≥ k.SFX_COUNT ∨ (s.sfxList sfx).scope = SCOPE_NONE then some (-1, s)
  else
    let s1 := stopSfxChannels k s sfx
    let l : Bool × AudioState :=
      if !IsADPCMLoaded k s1 (sfx % 256) then
        LoadADPCM k fs srv s1
          (String.mk (("Data/SoundFX/".toList ++ (s1.sfxList sfx).fileName.toList).take 127))
          (sfx % 256)
      else (true, s1)
    if !l.1 then some (-1, l.2)
    else
      match (List.range k.CHANNEL_COUNT).find?
          (fun c => decide ((l.2.channels c).state = CHANNEL_IDLE)) with
      | none => some (-1, l.2)
      | some channel =>
        match PlayADPCM k srv l.2 (sfx % 256) with
        | none => none
        | some (audsrvChannel, s3) =>
          if audsrvChannel ≥ 0 then
            let s4 := setChannel s3 channel
              { s3.channels channel with
                soundID := toInt16 sfx, state := CHANNEL_SFX, priority := priority % 256,
                playIndex := (s3.sfxList sfx).playCount, loop := loopPoint,
                volume := 1, pan := 0 }
            some ((channel : Int),
              setSfx s4 sfx { s4.sfxList sfx with playCount := (s4.sfxList sfx).playCount + 1 })
          else some ((channel : Int), s3)

/-- The function `SetChannelAttributes(channel, volume, panning, speed)`; `fminf` and
`fmaxf` are the minimum and the maximum on the values of the model, and the conversion
`(int32)(speed * TO_FIXED(1))` of a positive value is the integer part. The PS2 block
at the end only computes two locals. -/
def SetChannelAttributes (k : AudioConsts) (s : AudioState) (channel : Nat)
    (volume panning speed : ℚ) : AudioState :=
  if channel < k.CHANNEL_COUNT then
    let volume := min 4 volume
    let volume := max 0 volume
    let s1 := setChannel s channel { s.channels channel with volume := volume }
    let panning := min 1 panning
    let panning := max (-1) panning
    let s2 := setChannel s1 channel { s1.channels channel with pan := panning }
    if speed > 0 then
      setChannel s2 channel { s2.channels channel with speed := ⌊speed * 65536⌋ }
    else if speed = 1 then
      setChannel s2 channel { s2.channels channel with speed := 65536 }
    else s2
  else s

/-- The channel loop shared by `ClearStageSfx` and `ClearGlobalSfx`: every channel in
state `CHANNEL_SFX` or `CHANNEL_SFX | CHANNEL_PAUSED` is stopped. -/
def stopEffectChannels (k : AudioConsts) (s : AudioState) : AudioState :=
  (List.range k.CHANNEL_COUNT).foldl
    (fun t (c : Nat) =>
      if (t.channels c).state = CHANNEL_SFX ∨
          (t.channels c).state = CHANNEL_SFX ||| CHANNEL_PAUSED then
        let t1 := StopADPCM k t (c : Int)
        setChannel t1 c { t1.channels c with soundID := -1, state := CHANNEL_IDLE }
      else t) s

/-- The function `ClearStageSfx()`. -/
def ClearStageSfx (k : AudioConsts) (s : AudioState) : AudioState :=
  (List.range (k.SFX_COUNT - 2)).foldl
    (fun t i =>
      if (t.sfxList i).scope ≥ SCOPE_STAGE then
        setSfx (UnloadADPCM k t (i % 256)) i { SFXInfo.zero with scope := SCOPE_NONE }
      else t)
    (stopEffectChannels k s)

/-- The function `ClearGlobalSfx()`. -/
def ClearGlobalSfx (k : AudioConsts) (s : AudioState) : AudioState :=
  (List.range (k.SFX_COUNT - 2)).foldl
    (fun t i =>
      if (t.sfxList i).scope = SCOPE_GLOBAL then
        setSfx t i { SFXInfo.zero with scope := SCOPE_NONE }
      else t)
    (stopEffectChannels k s)

/-- The function `AudioDeviceBase::InitAudioChannels()`; `mixAlloc` and `circAlloc` are
the blocks `AllocateStorage` hands out for the mix buffer and for the circular stream
buffer (`none` when the allocation fails). -/
def InitAudioChannels (k : AudioConsts) (mixAlloc circAlloc : Option (List Nat))
    (s : AudioState) : AudioState :=
  let s1 := (List.range k.CHANNEL_COUNT).foldl
    (fun t i => setChannel t i { t.channels i with soundID := -1, state := CHANNEL_IDLE }) s
  let s2 := setSfx s1 (STREAM_SLOT k)
    { s1.sfxList (STREAM_SLOT k) with
      hash := copyHash (k.GEN_HASH_MD5 "Stream Channel 0"), scope := SCOPE_NONE,
      maxConcurrentPlays := 1, length := k.MIX_BUFFER_SIZE,
      buffer := if mixAlloc.isSome then SamplePtr.mixBuffer else SamplePtr.null }
  let s3 := { s2 with
    mixBuffer := mixAlloc.getD [],
    circularStreamBuffer :=
      if s2.circularStreamBuffer.isNone then circAlloc else s2.circularStreamBuffer }
  let s4 := setSfx s3 (k.SFX_COUNT - 1) SFXInfo.zero
  { s4 with activeStream :=
      { fileInfo := InitFileInfo, dataStartPos := 0, dataSize := 0, currentReadPos := 0,
        loopPoint := 0, isActive := false, numChannels := 0, sampleRate := 0 } }

/-- The statics of both translation units before any call: everything zero-initialised;
`streamsEnabled` is the engine setting. -/
def bootState (streamsEnabled : Bool) : AudioState :=
  { channels := fun _ => ChannelInfo.zero, sfxList := fun _ => SFXInfo.zero,
    activeStream :=
      { fileInfo := InitFileInfo, dataStartPos := 0, dataSize := 0, currentReadPos := 0,
        loopPoint := 0, isActive := false, numChannels := 0, sampleRate := 0 },
    streamFilePath := "", streamStartPos := 0, streamLoopPoint := 0, mixBuffer := [],
    circularStreamBuffer := none, streamsEnabled := streamsEnabled,
    adpcm_buffers := fun _ => none, adpcm_channels := fun _ => 0,
    adpcm_loaded := fun _ => false, adpcm_system_initialized := false,
    channel_timers := fun _ => { startTime := 0, duration := 0, active := false },
    current_frame := 0 }

/-- The state part of a successful `AudioDevice::Init()`: the device tables are reset,
every hardware handle is -1, and `InitAudioChannels` runs. -/
def Init (k : AudioConsts) (mixAlloc circAlloc : Option (List Nat)) (s : AudioState) :
    AudioState :=
  InitAudioChannels k mixAlloc circAlloc
    { s with
      adpcm_buffers := fun _ => none, adpcm_loaded := fun _ => false,
      channel_timers := fun _ => { startTime := 0, duration := 0, active := false },
      current_frame := 0,
      adpcm_channels := fun c => if c < k.CHANNEL_COUNT then -1 else s.adpcm_channels c }

/-! ## Auxiliary notions used in the statements -/

/-- A chunk of a WAV file: its four-byte identifier and its payload. -/
structure Chunk where
  id : List Nat
  payload : List Nat
deriving DecidableEq, Repr

/-- The bytes of a chunk: identifier, little-endian payload size, payload. -/
def Chunk.encode (c : Chunk) : List Nat := c.id ++ leEncode 4 c.payload.length ++ c.payload

/-- The bytes of a chunk stream. -/
def encodeChunks : List Chunk → List Nat
  | [] => []
  | c :: cs => c.encode ++ encodeChunks cs

/-- A file with a valid twelve-byte header (`"RIFF"`, size, `"WAVE"`) followed by the
chunk stream `chunks`. -/
def wavFile (riffSize : Nat) (chunks : List Chunk) : List Nat :=
  tag "RIFF" ++ leEncode 4 riffSize ++ tag "WAVE" ++ encodeChunks chunks

/-- The load of the file at `path` is rejected by `LoadStream`: the file cannot be opened,
its signature is wrong, or the chunk walk ends without a format chunk or without a data
chunk. -/
def streamLoadRejected (fs : String → Option (List Nat)) (path : String) : Bool :=
  match LoadFile fs path with
  | none => true
  | some info =>
    let h := ReadBytes info 12
    if h.1.take 4 ≠ tag "RIFF" ∨ (h.1.drop 8).take 4 ≠ tag "WAVE" then true
    else
      let st := scanChunks h.2.fileSize
        { info := h.2, fmt := List.replicate 16 0, dataSize := 0, dataOffset := 0,
          foundFmt := false, foundData := false }
      !st.foundFmt || !st.foundData

/-- The test of the first selection pass of `PlayStream` on channel `c`. -/
def firstPassEligible (s : AudioState) (c : Nat) : Prop :=
  (s.channels c).soundID = -1 ∧ (s.channels c).state ≠ CHANNEL_LOADING_STREAM

/-- The test of the second selection pass of `PlayStream` on channel `c` when the running
minimum still has its initial value `0xFFFFFFFF`. -/
def secondPassEligible (s : AudioState) (c : Nat) : Prop :=
  (s.channels c).state ≠ CHANNEL_LOADING_STREAM ∧ (s.channels c).sampleLength < 0xFFFFFFFF

/-- No two live entries of the effect pool (slots `0 .. SFX_COUNT - 3`) have hashes the
comparison of `LoadSfx` takes for equal. -/
def NoDuplicateHash (k : AudioConsts) (s : AudioState) : Prop :=
  ∀ i j, i < k.SFX_COUNT - 2 → j < k.SFX_COUNT - 2 → i ≠ j →
    (s.sfxList i).scope ≠ SCOPE_NONE → (s.sfxList j).scope ≠ SCOPE_NONE →
    hashMatch (s.sfxList i).hash (s.sfxList j).hash = false

/-- The number of live entries of the effect pool whose hash is `h`. -/
def liveHashCount (k : AudioConsts) (s : AudioState) (h : List Nat) : Nat :=
  ((List.range (k.SFX_COUNT - 2)).filter
    (fun i => decide ((s.sfxList i).scope ≠ SCOPE_NONE) && hashMatch (s.sfxList i).hash h)).length

/-- The registry states reached from `InitAudioChannels` (on the zero-initialised statics)
by `LoadSfx`, `ClearStageSfx` and `ClearGlobalSfx`. -/
inductive SfxReachable (k : AudioConsts) : AudioState → Prop where
  | init (mixAlloc circAlloc : Option (List Nat)) (streamsEnabled : Bool) :
      SfxReachable k (InitAudioChannels k mixAlloc circAlloc (bootState streamsEnabled))
  | loadSfx (s : AudioState) (filename : String) (plays scope : Nat) :
      SfxReachable k s → SfxReachable k (LoadSfx k s filename plays scope)
  | clearStage (s : AudioState) : SfxReachable k s → SfxReachable k (ClearStageSfx k s)
  | clearGlobal (s : AudioState) : SfxReachable k s → SfxReachable k (ClearGlobalSfx k s)

/-- The states reached after a `PlayStream` call that got as far as `LoadStream` (any
earlier state, any file, any requested offsets), followed by any number of
`UpdateStreamBuffer` calls on any channels. -/
inductive StreamReachable (k : AudioConsts) : AudioState → Prop where
  | play (fs : String → Option (List Nat)) (s : AudioState) (filename : String)
      (slot startPos loopPoint : Nat) :
      s.streamsEnabled = true → selectStreamSlot k s slot < k.CHANNEL_COUNT →
      StreamReachable k (PlayStream k fs s filename slot startPos loopPoint).2
  | update (s : AudioState) (c : Nat) :
      StreamReachable k s → StreamReachable k (UpdateStreamBuffer k s c).1

/-! ## Concrete instances -/

/-- An instance of the constants: sixteen channels, 256 registry slots, a mix buffer of
0x800 samples; the hash of a name is taken to be its character codes. -/
def demoConsts : AudioConsts :=
  { CHANNEL_COUNT := 16, SFX_COUNT := 256, MIX_BUFFER_SIZE := 2048, SFX_NAME_SIZE := 64,
    GEN_HASH_MD5 := fun f => f.toList.map Char.toNat }

/-- The state after a successful `AudioDevice::Init()` with streams enabled. -/
def demoInit : AudioState :=
  Init demoConsts (some (List.replicate 4096 0)) (some (List.replicate 65536 0))
    (bootState true)

/-- A sixteen-byte format chunk: PCM, two channels, 48000 Hz, sixteen bits. -/
def demoFmt : Chunk :=
  { id := tag "fmt ",
    payload := [1, 0, 2, 0] ++ leEncode 4 48000 ++ leEncode 4 192000 ++ [4, 0, 16, 0] }

/-- A data chunk of `n` bytes. -/
def demoData (n : Nat) : Chunk := { id := tag "data", payload := List.replicate n 7 }

/-- An audio server on which every call succeeds. -/
def demoAudsrv : Audsrv :=
  { audsrv_adpcm_init := 0, memalignFails := false, audsrv_load_adpcm := 0,
    audsrv_ch_play_adpcm := 3 }

/-- An audio server that has no free voice: `audsrv_ch_play_adpcm` fails. -/
def busyAudsrv : Audsrv :=
  { audsrv_adpcm_init := 0, memalignFails := false, audsrv_load_adpcm := 0,
    audsrv_ch_play_adpcm := -1 }

/-- A hardware-codec container: magic `APCM`, pitch 4096, 22050 samples. -/
def demoAdpcm : List Nat :=
  tag "APCM" ++ [1, 1, 0, 0] ++ leEncode 4 4096 ++ leEncode 4 22050 ++ [0, 0, 0, 0]

instance (s : AudioState) (c : Nat) : Decidable (firstPassEligible s c) := by
  unfold firstPassEligible
  infer_instance

instance (s : AudioState) (c : Nat) : Decidable (secondPassEligible s c) := by
  unfold secondPassEligible
  infer_instance

/-- The state after a `PlayStream` on slot 0 whose file cannot be opened: channel 0 is
back in `CHANNEL_IDLE` and keeps the stream marker `0xFF` as `soundID`. -/
def afterRejectedStream : AudioState :=
  (PlayStream demoConsts (fun _ => none) demoInit "a.ogg" 0 0 0).2

/-- The bytes of an open file from the read cursor on. -/
def remainingBytes (info : FileInfo) : List Nat := (info.file.getD []).drop info.readPos

/-- The chunks of a WAV file without sample data: four-byte identifiers other than
`"data"`, payload sizes that fit the 32-bit size field. -/
def noDataChunks (chunks : List Chunk) : Prop :=
  ∀ c ∈ chunks, c.id.length = 4 ∧ c.id ≠ tag "data" ∧ c.payload.length < 4294967296

/-- Every live registry entry of `t` is the same entry in `s`. -/
def LiveSub (s t : AudioState) : Prop :=
  ∀ i, (t.sfxList i).scope ≠ SCOPE_NONE → t.sfxList i = s.sfxList i

/-- A registry whose pool of 254 slots is full: slot 0 holds a Stage-scoped entry, the
other slots Global-scoped ones, all with different hashes. -/
def fullPool : AudioState :=
  { demoInit with
    sfxList := fun i =>
      if i < 254 then
        { SFXInfo.zero with
          hash := copyHash [1, i], maxConcurrentPlays := 1,
          scope := if i = 0 then SCOPE_STAGE else SCOPE_GLOBAL }
      else demoInit.sfxList i }

/-- The state `s` with the field `maxConcurrentPlays` of every registry entry `i` replaced
by `g i`. -/
def withMaxPlays (g : Nat → Nat) (s : AudioState) : AudioState :=
  { s with sfxList := fun i => { s.sfxList i with maxConcurrentPlays := g i } }

/-- The initialised state after `LoadSfx("jump.wav", 3, Stage)`: the effect is in slot 0. -/
def jumpLoaded : AudioState := LoadSfx demoConsts demoInit "jump.wav" 3 SCOPE_STAGE

/-- One `PlaySfx(0, 0, 0)` on the effect of slot 0, with the container `demoAdpcm` on disk
and the audio server `srv`. -/
def playJump (srv : Audsrv) (s : AudioState) : Option (Int × AudioState) :=
  PlaySfx demoConsts (fun _ => some demoAdpcm) srv s 0 0 0

/-- The state after `n` consecutive plays of the effect on `jumpLoaded`, every call of the
audio server succeeding. -/
def jumpState : Nat → Option AudioState
  | 0 => some jumpLoaded
  | n + 1 => (jumpState n).bind (fun s => (playJump demoAudsrv s).map Prod.snd)

/-- The value returned by the play that follows `n` consecutive plays. -/
def jumpResult (n : Nat) : Option Int :=
  (jumpState n).bind (fun s => (playJump demoAudsrv s).map Prod.fst)

/-- The number of channels in `PlayingEffect` state for the effect `sfx`. -/
def playingCount (k : AudioConsts) (s : AudioState) (sfx : Nat) : Nat :=
  ((List.range k.CHANNEL_COUNT).filter
    (fun c => decide ((s.channels c).state = CHANNEL_SFX ∧
      (s.channels c).soundID = (sfx : Int)))).length

/-- The length `UpdateStreamBuffer` asks the file for at the data offset `filePos`:
what is left of the data region, at most the byte size of the mix buffer, rounded down to
a multiple of four. -/
def refillLength (k : AudioConsts) (dataSize filePos : Nat) : Nat :=
  ((if u32 (dataSize + 4294967296 - filePos) > k.MIX_BUFFER_SIZE * 2 then k.MIX_BUFFER_SIZE * 2
    else u32 (dataSize + 4294967296 - filePos)) / 4) * 4

/-- The invariant of an active stream descriptor: the data size is a 32-bit value, the
loop offset lies in the data region, and a read cursor inside the data region is a
multiple of four. -/
def StreamInv (st : StreamFileInfo) : Prop :=
  st.isActive = true →
    st.dataSize < 4294967296 ∧ st.loopPoint ≤ st.dataSize ∧
    (st.currentReadPos < st.dataSize → st.currentReadPos % 4 = 0)

/-- A file with a format chunk and 100 bytes of sample data. -/
def shortWav : List Nat := wavFile 144 [demoFmt, demoData 100]

/-- The state after `PlayStream("theme.ogg", 0, 0, 8)` on the file `shortWav`: a looping
stream on channel 0. -/
def loopingStream : AudioState :=
  (PlayStream demoConsts (fun _ => some shortWav) demoInit "theme.ogg" 0 0 8).2

/-- The state after two `PlayStream` calls without an explicit slot on the initialised
state, both on the looping file `shortWav`. -/
def twoStreams : AudioState :=
  (PlayStream demoConsts (fun _ => some shortWav)
    (PlayStream demoConsts (fun _ => some shortWav) demoInit "a.ogg" 16 0 8).2 "b.ogg" 16 0 8).2

/-- The result of `PlaySfx(0, 0, 0)` after `LoadSfx("jump.wav", 3, Stage)` and a `PlayStream`
on slot 0, every call of the audio server succeeding. -/
def streamThenJump : Option (Int × AudioState) :=
  playJump demoAudsrv
    (PlayStream demoConsts (fun _ => some shortWav) jumpLoaded "theme.ogg" 0 0 8).2

/-- The state after `LoadSfx("jump.wav", 3, Stage)`, `PlaySfx(0, 0, 0)` and
`LoadSfx("ring.wav", 1, Stage)`. -/
def jumpThenRing : Option AudioState :=
  (playJump demoAudsrv jumpLoaded).map (fun r => LoadSfx demoConsts r.2 "ring.wav" 1 SCOPE_STAGE)

/-- A hardware-codec container with the magic `APCM` and pitch 0. -/
def zeroPitchAdpcm : List Nat :=
  tag "APCM" ++ [1, 1, 0, 0] ++ leEncode 4 0 ++ leEncode 4 22050 ++ [0, 0, 0, 0]

/-- The state after `PlayStream("a.ogg", 0, 0, 0)` and `PlayStream("b.ogg", 1, 0, 8)` on
the file `shortWav`: channel 0 is a stream channel without loop, channel 1 one with loop,
and the active stream has its read cursor at the end of the data. -/
def mixedStreams : AudioState :=
  (PlayStream demoConsts (fun _ => some shortWav)
    (PlayStream demoConsts (fun _ => some shortWav) demoInit "a.ogg" 0 0 0).2 "b.ogg" 1 0 8).2

/-- The channel states the channel loop of the scope clears stops: `PlayingEffect`, with
or without the paused bit. -/
def effectState (ch : ChannelInfo) : Prop :=
  ch.state = CHANNEL_SFX ∨ ch.state = CHANNEL_SFX ||| CHANNEL_PAUSED

instance (ch : ChannelInfo) : Decidable (effectState ch) := by
  unfold effectState
  infer_instance


/-- The state after `LoadSfx("jump.wav", 3, Stage)` and one successful `PlaySfx(0, 0, 0)`:
channel 0 plays the Stage-scoped effect of slot 0. -/
def playingJump : AudioState :=
  ((playJump demoAudsrv jumpLoaded).map Prod.snd).getD jumpLoaded

/-! ## Mixing -/

/-- Modelled from the spec: the macro `FROM_FIXED` (absent header), the integer part of a
value with sixteen fractional bits. -/
def FROM_FIXED (x : Nat) : Nat := x / 65536

/-- The constant `AUDIO_CHANNELS` of `PS2AudioDevice.hpp` (`#define AUDIO_CHANNELS 2`). -/
def AUDIO_CHANNELS : Nat := 2

/-- The constant `LINEAR_INTERPOLATION_LOOKUP_DIVISOR` of `Audio.cpp`. -/
def LINEAR_INTERPOLATION_LOOKUP_DIVISOR : Nat := 0x40

/-- The constant `LINEAR_INTERPOLATION_LOOKUP_LENGTH` of `Audio.cpp`. -/
def LINEAR_INTERPOLATION_LOOKUP_LENGTH : Nat := FIXED_ONE / LINEAR_INTERPOLATION_LOOKUP_DIVISOR

/-- The table `linearInterpolationLookup` as the loop of `InitAudioChannels` fills it:
`linearInterpolationLookup[i] = i / (float)LINEAR_INTERPOLATION_LOOKUP_LENGTH`. -/
def linearInterpolationLookup (i : Nat) : ℚ := (i : ℚ) / (LINEAR_INTERPOLATION_LOOKUP_LENGTH : ℚ)

/-- The statement `speedPercent += channel->speed` on the `uint32` accumulator: the `int32`
speed is converted to `uint32` and the sum is reduced modulo 2^32. -/
def addSpeed (speedPercent : Nat) (speed : Int) : Nat :=
  (((speedPercent : Int) + speed) % 4294967296).toNat

/-- The macro `CLAMP(value, minimum, maximum)`. -/
def CLAMP (value minimum maximum : Int) : Int :=
  if value < minimum then minimum else if value > maximum then maximum else value

/-- The conversion `(int32_t)x` of a value of the model: the integer part, toward zero. -/
def truncToInt (x : ℚ) : Int := if 0 ≤ x then ⌊x⌋ else ⌈x⌉

/-- The left and right gains of a channel:
`volL = volR = volume; if (pan < 0) volR = (1 + pan) * volume; else volL = (1 - pan) * volume;`
each multiplied by the master volume of the channel kind. -/
def panGains (channel : ChannelInfo) (masterVolume : ℚ) : ℚ × ℚ :=
  if channel.pan < 0 then
    (channel.volume * masterVolume, (1 + channel.pan) * channel.volume * masterVolume)
  else
    ((1 - channel.pan) * channel.volume * masterVolume, channel.volume * masterVolume)

/-- The `int16` sample of index `i` of the block a sample pointer points at (a read through
`NULL` is outside the model and gives 0). -/
def readSample (s : AudioState) (p : SamplePtr) (i : Nat) : Int :=
  match p with
  | SamplePtr.mixBuffer => getI16 s.mixBuffer i
  | SamplePtr.null => 0

/-- The locals of the stream loop of `FrameInit` and of `ProcessAudioMixing`, with the
global state: `streamBuffer` is the offset of the pointer of that name in the sample block,
`stopped` records that the `break` of the loop was taken. The cursor `bufferPos` is kept
as its 32-bit pattern. -/
structure StreamMix where
  state : AudioState
  streamBuffer : Nat
  speedPercent : Nat
  outputBuffer : Nat → Int
  stopped : Bool

/-- One iteration of the stream loop for the channel of index `c` and the output frame
`outPos`:
`speedPercent += speed; next = FROM_FIXED(speedPercent); speedPercent %= TO_FIXED(1);`
the two clamped output samples, `streamBuffer += next * 2; bufferPos += next * 2;` and, when
`bufferPos >= sampleLength`, `bufferPos -= (uint32)sampleLength`, the reset of
`streamBuffer` and `UpdateStreamBuffer(channel)`. With `breakOnIdle` (the loop of
`FrameInit`) an `Idle` channel after the refill leaves the loop. -/
def streamFrame (k : AudioConsts) (c : Nat) (panL panR : ℚ) (breakOnIdle : Bool)
    (m : StreamMix) (outPos : Nat) : StreamMix :=
  if m.stopped then m
  else
    let channel := m.state.channels c
    let speedPercent := addSpeed m.speedPercent channel.speed
    let next := FROM_FIXED speedPercent
    let speedPercent := speedPercent % FIXED_ONE
    let left := m.outputBuffer (outPos * 2) +
      truncToInt ((readSample m.state channel.samplePtr m.streamBuffer : ℚ) * panL)
    let right := m.outputBuffer (outPos * 2 + 1) +
      truncToInt ((readSample m.state channel.samplePtr (m.streamBuffer + 1) : ℚ) * panR)
    let out := Function.update
      (Function.update m.outputBuffer (outPos * 2) (CLAMP left (-32768) 32767))
      (outPos * 2 + 1) (CLAMP right (-32768) 32767)
    let bufferPos := u32 (channel.bufferPos + next * 2)
    if bufferPos ≥ channel.sampleLength then
      let bufferPos := u32 (bufferPos + 4294967296 - u32 channel.sampleLength)
      let s1 := setChannel m.state c { channel with bufferPos := bufferPos }
      let s2 := (UpdateStreamBuffer k s1 c).1
      { state := s2, streamBuffer := bufferPos, speedPercent := speedPercent,
        outputBuffer := out,
        stopped := breakOnIdle && decide ((s2.channels c).state = CHANNEL_IDLE) }
    else
      { state := setChannel m.state c { channel with bufferPos := bufferPos },
        streamBuffer := m.streamBuffer + next * 2, speedPercent := speedPercent,
        outputBuffer := out, stopped := false }

/-- The stream loop for the channel of index `c` over `frames` output frames, from the
locals `streamBuffer = &samplePtr[bufferPos]`, the gains and `speedPercent = 0`. -/
def mixStream (k : AudioConsts) (c : Nat) (streamVolume : ℚ) (breakOnIdle : Bool)
    (frames : Nat) (t : AudioState × (Nat → Int)) : AudioState × (Nat → Int) :=
  let channel := t.1.channels c
  let g := panGains channel streamVolume
  let m := (List.range frames).foldl (streamFrame k c g.1 g.2 breakOnIdle)
    { state := t.1, streamBuffer := channel.bufferPos, speedPercent := 0,
      outputBuffer := t.2, stopped := false }
  (m.state, m.outputBuffer)

/-- The function `AudioDevice::FrameInit()`: the state it leaves and the buffer it hands
to `audsrv_play_audio`, if any. `audioState` is the flag of that name, `available` the
value of `audsrv_available()` and `streamVolume` the engine setting. -/
def FrameInit (k : AudioConsts) (audioState : Bool) (available : Int) (streamVolume : ℚ)
    (s : AudioState) : AudioState × Option (Nat → Int) :=
  if !audioState then (s, none)
  else
    let s1 := UpdateADPCMChannels k s
    if available < ((k.MIX_BUFFER_SIZE * 2 : Nat) : Int) then (s1, none)
    else
      let numSamples := k.MIX_BUFFER_SIZE / AUDIO_CHANNELS
      let r := (List.range k.CHANNEL_COUNT).foldl
        (fun t (c : Nat) =>
          if (t.1.channels c).state ≠ CHANNEL_STREAM then t
          else mixStream k c streamVolume true numSamples t)
        (s1, fun _ => 0)
      (r.1, some r.2)

/-- The function `AudioDeviceBase::ProcessAudioMixing(stream, length)` as this port
compiles it (`RETRO_PLATFORM == RETRO_PS2`, where the body of the case `CHANNEL_SFX` is
empty): the state it leaves and the contents of `stream`. The loop
`while (curStreamF < streamEndF && streamF < streamEndF)` runs once per two samples of
`length`. -/
def ProcessAudioMixing (k : AudioConsts) (streamVolume : ℚ) (length : Nat) (s : AudioState) :
    AudioState × (Nat → Int) :=
  (List.range k.CHANNEL_COUNT).foldl
    (fun t (c : Nat) =>
      if (t.1.channels c).state = CHANNEL_STREAM then
        mixStream k c streamVolume false ((length + 1) / 2) t
      else t)
    (s, fun _ => 0)

/-- What one output frame of the effect loop is computed from: the offset `src` of
`sfxBuffer[0]` in the sample block, the index `lut` into `linearInterpolationLookup`, and
the interpolated `sample` before the gains. -/
structure MixFrame where
  src : Nat
  lut : Nat
  sample : ℚ
deriving DecidableEq

/-- The locals of the effect loop of `ProcessAudioMixing` (the case `CHANNEL_SFX` of the
builds with `RETRO_PLATFORM != RETRO_PS2`), with the channel: `sfxBuffer` is the offset of
the pointer of that name in the sample block, `stream` the output, `frames` the record of
the output frames computed so far, `stopped` records that the `break` was taken. -/
structure EffectMix where
  channel : ChannelInfo
  sfxBuffer : Nat
  speedPercent : Nat
  stream : Nat → ℚ
  frames : List MixFrame
  stopped : Bool

/-- One iteration of the effect loop for the output frame `f`; `samples` is the block
`samplePtr` points at (`none` for `NULL`, which gives the sample 0):
the interpolated sample from `sfxBuffer[0]`, `sfxBuffer[1]` and the table entry of index
`speedPercent / LINEAR_INTERPOLATION_LOOKUP_DIVISOR`, then `speedPercent += speed;
sfxBuffer += FROM_FIXED(speedPercent); bufferPos += FROM_FIXED(speedPercent);
speedPercent %= TO_FIXED(1);` the two accumulations into the output, and at
`bufferPos >= sampleLength` either the end of the effect (`loop == (uint32)-1`) or the
wrap `bufferPos -= (uint32)sampleLength; bufferPos += loop`. -/
def effectFrame (samples : Option (Nat → ℚ)) (panL panR : ℚ) (m : EffectMix) (f : Nat) :
    EffectMix :=
  if m.stopped then m
  else
    let lut := m.speedPercent / LINEAR_INTERPOLATION_LOOKUP_DIVISOR
    let sample : ℚ := match samples with
      | none => 0
      | some buf =>
        (buf (m.sfxBuffer + 1) - buf m.sfxBuffer) * linearInterpolationLookup lut +
          buf m.sfxBuffer
    let speedPercent := addSpeed m.speedPercent m.channel.speed
    let sfxBuffer := m.sfxBuffer + FROM_FIXED speedPercent
    let bufferPos := u32 (m.channel.bufferPos + FROM_FIXED speedPercent)
    let speedPercent := speedPercent % FIXED_ONE
    let out := Function.update
      (Function.update m.stream (f * 2) (m.stream (f * 2) + sample * panL))
      (f * 2 + 1) (m.stream (f * 2 + 1) + sample * panR)
    let frames := m.frames ++ [{ src := m.sfxBuffer, lut := lut, sample := sample }]
    if bufferPos ≥ m.channel.sampleLength then
      if m.channel.loop = 4294967295 then
        { channel := { m.channel with bufferPos := bufferPos, state := CHANNEL_IDLE,
                                      soundID := -1 },
          sfxBuffer := sfxBuffer, speedPercent := speedPercent, stream := out,
          frames := frames, stopped := true }
      else
        let bufferPos :=
          u32 (u32 (bufferPos + 4294967296 - u32 m.channel.sampleLength) + m.channel.loop)
        { channel := { m.channel with bufferPos := bufferPos },
          sfxBuffer := bufferPos, speedPercent := speedPercent, stream := out,
          frames := frames, stopped := false }
    else
      { channel := { m.channel with bufferPos := bufferPos },
        sfxBuffer := sfxBuffer, speedPercent := speedPercent, stream := out,
        frames := frames, stopped := false }

/-- The effect loop of `ProcessAudioMixing` for one channel over `frames` output frames,
from the locals `sfxBuffer = &samplePtr[bufferPos]`, the gains and `speedPercent = 0`. -/
def mixEffect (samples : Option (Nat → ℚ)) (soundFXVolume : ℚ) (frames : Nat)
    (channel : ChannelInfo) (stream : Nat → ℚ) : EffectMix :=
  let g := panGains channel soundFXVolume
  (List.range frames).foldl (effectFrame samples g.1 g.2)
    { channel := channel, sfxBuffer := channel.bufferPos, speedPercent := 0,
      stream := stream, frames := [], stopped := false }

/-- The bound on the speed of a stream channel under which the single subtraction of the
wrap brings the cursor back below `sampleLength`: a speed of at least 0, and twice the
largest advance of one frame at most `sampleLength`. -/
def streamSpeedOK (ch : ChannelInfo) : Prop :=
  0 ≤ ch.speed ∧ ch.speed < 2147483648 ∧ ch.sampleLength ≤ 2147483648 ∧
  2 * ((ch.speed.toNat + 65535) / 65536) ≤ ch.sampleLength

instance (ch : ChannelInfo) : Decidable (streamSpeedOK ch) := by
  unfold streamSpeedOK
  infer_instance

/-- The bound on the speed and the loop point of an effect channel under which the wrap
brings the cursor back below `sampleLength`: the largest advance of one frame plus the loop
point is at most `sampleLength`. -/
def effectSpeedOK (ch : ChannelInfo) : Prop :=
  0 ≤ ch.speed ∧ ch.speed < 2147483648 ∧ ch.sampleLength ≤ 2147483648 ∧
  (ch.speed.toNat + 65535) / 65536 + ch.loop ≤ ch.sampleLength

instance (ch : ChannelInfo) : Decidable (effectSpeedOK ch) := by
  unfold effectSpeedOK
  infer_instance

/-- An instance of the constants with a mix buffer of sixteen samples (eight stereo
frames). -/
def tinyConsts : AudioConsts := { demoConsts with MIX_BUFFER_SIZE := 16 }

/-- The state after a successful `AudioDevice::Init()` with the constants `tinyConsts`. -/
def tinyInit : AudioState :=
  Init tinyConsts (some (List.replicate 32 0)) (some (List.replicate 65536 0)) (bootState true)

/-- The state after `PlayStream("theme.ogg", 0, 0, 8)` on the file `shortWav` (a looping
stream on channel 0) and `SetChannelAttributes(0, 1.0, 0.0, 10.0)`. -/
def fastStream : AudioState :=
  SetChannelAttributes tinyConsts
    (PlayStream tinyConsts (fun _ => some shortWav) tinyInit "theme.ogg" 0 0 8).2 0 1 0 10

/-- An effect channel without loop (`loop == (uint32)-1`) at speed 1.0 on a block of 100
samples, two samples before the end. -/
def endingEffect : ChannelInfo :=
  { samplePtr := SamplePtr.null, pan := 0, volume := 1, speed := 65536, sampleLength := 100,
    bufferPos := 98, playIndex := 0, loop := 4294967295, soundID := 5, priority := 0,
    state := CHANNEL_SFX }
/-- An effect channel at speed 2.0 with the loop point 99 on a block of 100 samples, two
samples before the end. -/
def wrappingEffect : ChannelInfo :=
  { samplePtr := SamplePtr.null, pan := 0, volume := 1, speed := 131072, sampleLength := 100,
    bufferPos := 98, playIndex := 0, loop := 99, soundID := 5, priority := 0,
    state := CHANNEL_SFX }

/-- An effect channel at speed 1.0 with the loop point 0 on a block of 100 samples, at
sample 10. -/
def unitEffect : ChannelInfo :=
  { samplePtr := SamplePtr.null, pan := 0, volume := 1, speed := 65536, sampleLength := 100,
    bufferPos := 10, playIndex := 0, loop := 0, soundID := 5, priority := 0,
    state := CHANNEL_SFX }

/-- A sample block whose sample of index `i` has the value `i`. -/
def rampSamples : Nat → ℚ := fun i => (i : ℚ)

/-- The locals `LoadStream` enters its chunk loop with on the file `file`: the handle after
the twelve header bytes, `fmt = {0}`, no chunk found. -/
def scanStart (file : List Nat) : ScanState :=
  { info := (ReadBytes { file := some file, readPos := 0, fileSize := file.length } 12).2,
    fmt := List.replicate 16 0, dataSize := 0, dataOffset := 0,
    foundFmt := false, foundData := false }

/-- The chunk walk as the specification words it, for one chunk other than the data chunk:
the chunk is consumed whole (eight header bytes and the declared size), and a format chunk
yields the sixteen bytes of the format record. It is compared with `scanStep`. -/
def walkChunk (st : ScanState) (c : Chunk) : ScanState :=
  { st with
    info := { st.info with readPos := st.info.readPos + 8 + c.payload.length },
    fmt := if c.id = tag "fmt " then overlay (c.payload.take 16) st.fmt else st.fmt,
    foundFmt := st.foundFmt || decide (c.id = tag "fmt ") }

/-- The scan state `st` reads the file `file` and the bytes from its cursor on are
`rest`. -/
def ScanAt (file : List Nat) (st : ScanState) (rest : List Nat) : Prop :=
  st.info.file = some file ∧ st.info.fileSize = file.length ∧
  file.drop st.info.readPos = rest

/-- The chunks before the data chunk of a WAV file the walk consumes one by one: no data
chunk among them, four-byte identifiers, sizes that fit the size field, and every format
chunk of at least the sixteen bytes of the format record. -/
def walkableChunks (chunks : List Chunk) : Prop :=
  ∀ c ∈ chunks, c.id.length = 4 ∧ c.id ≠ tag "data" ∧ c.payload.length < 4294967296 ∧
    (c.id = tag "fmt " → 16 ≤ c.payload.length)

/-- The state of `LoadStream` between the priming read and its call of
`UpdateStreamBuffer`, for an accepted file whose chunk walk ended in `st`: the lines from
`activeStream.dataStartPos = dataOffset` to `activeStream.currentReadPos += initialLoad`
(the descriptor is configured, the file cursor is set to the start offset in the data
region, the circular buffer is cleared and `initialLoad` bytes are read into it). -/
def primeStream (s : AudioState) (st : ScanState) : AudioState :=
  let currentReadPos := if s.streamStartPos < st.dataSize then s.streamStartPos else 0
  let loopPoint := if s.streamLoopPoint < st.dataSize then s.streamLoopPoint else 0
  let info1 := { st.info with readPos := u32 (st.dataOffset + currentReadPos) }
  let initialLoad :=
    if st.dataSize > STREAM_BUFFER_SIZE then STREAM_BUFFER_SIZE else st.dataSize
  let r := ReadBytes info1 initialLoad
  { s with
    activeStream :=
      { fileInfo := r.2, dataStartPos := st.dataOffset, dataSize := st.dataSize,
        currentReadPos := u32 (currentReadPos + initialLoad), loopPoint := loopPoint,
        isActive := true, numChannels := leDecode ((st.fmt.drop 2).take 2),
        sampleRate := leDecode ((st.fmt.drop 4).take 4) },
    circularStreamBuffer :=
      s.circularStreamBuffer.map
        (fun buf => overlay r.1 (zeroFill STREAM_BUFFER_SIZE buf)) }

/-- A format chunk of eight bytes, shorter than the format record. -/
def shortFmt : Chunk := { id := tag "fmt ", payload := [1, 0, 2, 0, 0x80, 0xBB, 0, 0] }

/-- A file of well-formed chunks: a sixteen-byte format chunk, a second format chunk of
eight bytes, and a data chunk of 100 bytes. -/
def twoFmtWav : List Nat := wavFile 152 [demoFmt, shortFmt, demoData 100]
/-- An unrecognized chunk of three bytes. -/
def listChunk : Chunk := { id := tag "LIST", payload := [1, 2, 3] }

/-- A file of well-formed chunks: an unrecognized chunk, a sixteen-byte format chunk and a
data chunk of 100 bytes. -/
def listWav : List Nat := wavFile 147 ([listChunk, demoFmt] ++ [demoData 100])

/-- A file with a format chunk and a data region of 200,000 bytes. -/
def longWav : List Nat := wavFile 200036 [demoFmt, demoData 200000]

/-- The state of `LoadStream` between its priming read and its call of
`UpdateStreamBuffer`, in `PlayStream("theme.ogg", 0, 0, 0)` on the file `longWav` from the
initialised state. -/
def primedLongWav : AudioState :=
  primeStream (prepareStream demoConsts demoInit "theme.ogg" 0 0 0)
    (scanChunks longWav.length (scanStart longWav))

/-- The duration estimate as the specification words it, over unbounded integers: the
milliseconds `samples * 1000 / ((pitch * 22050) / 4096)`, converted to frames of 1/60 s,
plus the margin of ten frames. It is compared with `GetADPCMDuration`. -/
def specDuration (pitch samples : Nat) : Nat :=
  ((samples * 1000) / ((pitch * 22050) / 4096)) * 60 / 1000 + 10

/-- A hardware-codec container with the magic `APCM`, pitch 4096 and 5,000,000 samples. -/
def longAdpcm : List Nat :=
  tag "APCM" ++ [1, 1, 0, 0] ++ leEncode 4 4096 ++ leEncode 4 5000000 ++ [0, 0, 0, 0]

/-- The initialised state after `LoadADPCM` of the container `longAdpcm` into slot 0. -/
def longAdpcmLoaded : AudioState :=
  (LoadADPCM demoConsts (fun _ => some longAdpcm) demoAudsrv demoInit "Data/SoundFX/long.adp"
    0).2

/-- A data chunk whose `n` bytes are 0, 1, 2, ... (below 256). -/
def rampData (n : Nat) : Chunk := { id := tag "data", payload := List.range n }

/-- A file with a format chunk and 96 bytes of sample data, the bytes 0 to 95. -/
def rampWav : List Nat := wavFile 132 [demoFmt, rampData 96]

/-- The state after `PlayStream("theme.ogg", 0, 0, 32)` on the file `rampWav` with the
constants `tinyConsts` (a mix buffer of 32 bytes) and one further `UpdateStreamBuffer` on
channel 0: a looping stream whose read cursor is at the end of the data and whose mix
buffer holds the data bytes 64 to 95. -/
def rampAtEnd : AudioState :=
  (UpdateStreamBuffer tinyConsts
    (PlayStream tinyConsts (fun _ => some rampWav) tinyInit "theme.ogg" 0 0 32).2 0).1

/-- The last four samples of a mix buffer of `mixBufferSize` samples. -/
def lastFour (buf : List Nat) (mixBufferSize : Nat) : List Int :=
  (List.range 4).map (fun i => getI16 buf (mixBufferSize - 4 + i))

/-- `UpdateStreamBuffer` on the channel `c`, `n` times in a row. -/
def refillTimes (k : AudioConsts) (c : Nat) : Nat → AudioState → AudioState
  | 0, s => s
  | n + 1, s => refillTimes k c n (UpdateStreamBuffer k s c).1

/-- A file with a format chunk and 102 bytes of sample data, a size that is not a multiple
of four. -/
def oddWav : List Nat := wavFile 138 [demoFmt, demoData 102]

/-- The state after `PlayStream("theme.ogg", 0, 0, 8)` on the file `oddWav` with the
constants `tinyConsts` and three further `UpdateStreamBuffer` calls on channel 0. -/
def oddStream : AudioState :=
  refillTimes tinyConsts 0 3
    (PlayStream tinyConsts (fun _ => some oddWav) tinyInit "theme.ogg" 0 0 8).2

/-- A file with a format chunk, 100 bytes of sample data and a chunk after the data. -/
def trailedWav : List Nat := wavFile 147 [demoFmt, demoData 100, listChunk]

/-- The state of `LoadStream` between its priming read and its call of
`UpdateStreamBuffer`, in `PlayStream("a.ogg", 0, 8, 0)` on the file `trailedWav`. -/
def primedTrailed : AudioState :=
  primeStream (prepareStream demoConsts demoInit "a.ogg" 0 8 0)
    (scanChunks trailedWav.length (scanStart trailedWav))

/-- A file with a format chunk and a data chunk of declared size 0. -/
def emptyDataWav : List Nat := wavFile 36 [demoFmt, demoData 0]

/-- A data chunk of 200,000 bytes: 65,536 bytes of value 1 followed by 134,464 bytes of
value 2. -/
def splitData : Chunk :=
  { id := tag "data", payload := List.replicate 65536 1 ++ List.replicate 134464 2 }

/-- A file with a format chunk and the data chunk `splitData`. -/
def splitWav : List Nat := wavFile 200036 [demoFmt, splitData]

/-- The locals after `frames` iterations of the stream loop for the channel of index `c`,
from the locals `streamBuffer = &samplePtr[bufferPos]`, the gains and `speedPercent = 0`:
the loop of `mixStream`, which keeps the state and the output of these locals. -/
def streamLoop (k : AudioConsts) (c : Nat) (streamVolume : ℚ) (breakOnIdle : Bool)
    (frames : Nat) (s : AudioState) (out : Nat → Int) : StreamMix :=
  let channel := s.channels c
  let g := panGains channel streamVolume
  (List.range frames).foldl (streamFrame k c g.1 g.2 breakOnIdle)
    { state := s, streamBuffer := channel.bufferPos, speedPercent := 0,
      outputBuffer := out, stopped := false }

/-- An effect channel at speed 1.5 with the loop point 0 on a block of 100 samples, at
sample 10. -/
def sesquiEffect : ChannelInfo := { unitEffect with speed := 98304 }

/-- The state after a second `PlaySfx(0, 0, 0)`, on the state `playingJump`. -/
def playingJump2 : AudioState :=
  ((playJump demoAudsrv playingJump).map Prod.snd).getD playingJump

/-- The states reached through `PlayStream` (a call that got as far as `LoadStream`),
`LoadStream`, `UpdateStreamBuffer` and the mixing passes `FrameInit` and
`ProcessAudioMixing`; the calls of `PlayStream` and of `LoadStream` start from any state. -/
inductive PlaybackReachable (k : AudioConsts) : AudioState → Prop where
  | play (fs : String → Option (List Nat)) (s : AudioState) (filename : String)
      (slot startPos loopPoint : Nat) :
      s.streamsEnabled = true → selectStreamSlot k s slot < k.CHANNEL_COUNT →
      PlaybackReachable k (PlayStream k fs s filename slot startPos loopPoint).2
  | load (fs : String → Option (List Nat)) (s : AudioState) (c : Nat) :
      PlaybackReachable k (LoadStream k fs s c)
  | update (s : AudioState) (c : Nat) :
      PlaybackReachable k s → PlaybackReachable k (UpdateStreamBuffer k s c).1
  | frameInit (s : AudioState) (audioState : Bool) (available : Int) (streamVolume : ℚ) :
      PlaybackReachable k s →
      PlaybackReachable k (FrameInit k audioState available streamVolume s).1
  | mixing (s : AudioState) (streamVolume : ℚ) (length : Nat) :
      PlaybackReachable k s →
      PlaybackReachable k (ProcessAudioMixing k streamVolume length s).1

/-- The property of the specification "`isActive` implies its file handle is open". -/
def StreamFileOpen (st : StreamFileInfo) : Prop :=
  st.isActive = true → st.fileInfo.file.isSome = true

/-- The property of the specification "`isActive` implies its data range is non-empty". -/
def StreamNonEmpty (st : StreamFileInfo) : Prop :=
  st.isActive = true → 0 < st.dataSize

/-- The states reached from `AudioDevice::Init()` on the zero-initialised statics through
the operations of the audio core: `PlayStream`, `UpdateStreamBuffer`, `PlaySfx` (a call
that returns), `SetChannelAttributes`, `LoadSfx`, `LoadSfxToSlot`, `ClearStageSfx`,
`ClearGlobalSfx` and the mixing passes `FrameInit` and `ProcessAudioMixing`, with any
arguments, any files and any answers of the audio server. -/
inductive AudioReachable (k : AudioConsts) : AudioState → Prop where
  | init (mixAlloc circAlloc : Option (List Nat)) (streamsEnabled : Bool) :
      AudioReachable k (Init k mixAlloc circAlloc (bootState streamsEnabled))
  | playStream (fs : String → Option (List Nat)) (s : AudioState) (filename : String)
      (slot startPos loopPoint : Nat) :
      AudioReachable k s →
      AudioReachable k (PlayStream k fs s filename slot startPos loopPoint).2
  | updateStream (s : AudioState) (c : Nat) :
      AudioReachable k s → AudioReachable k (UpdateStreamBuffer k s c).1
  | playSfx (fs : String → Option (List Nat)) (srv : Audsrv) (s : AudioState)
      (sfx loopPoint priority : Nat) (c : Int) (t : AudioState) :
      AudioReachable k s → PlaySfx k fs srv s sfx loopPoint priority = some (c, t) →
      AudioReachable k t
  | setAttributes (s : AudioState) (channel : Nat) (volume panning speed : ℚ) :
      AudioReachable k s →
      AudioReachable k (SetChannelAttributes k s channel volume panning speed)
  | loadSfx (s : AudioState) (filename : String) (plays scope : Nat) :
      AudioReachable k s → AudioReachable k (LoadSfx k s filename plays scope)
  | loadSfxToSlot (s : AudioState) (filename : String) (slot plays scope : Nat) :
      AudioReachable k s → AudioReachable k (LoadSfxToSlot k s filename slot plays scope)
  | clearStage (s : AudioState) : AudioReachable k s → AudioReachable k (ClearStageSfx k s)
  | clearGlobal (s : AudioState) : AudioReachable k s → AudioReachable k (ClearGlobalSfx k s)
  | frameInit (s : AudioState) (audioState : Bool) (available : Int) (streamVolume : ℚ) :
      AudioReachable k s →
      AudioReachable k (FrameInit k audioState available streamVolume s).1
  | mixing (s : AudioState) (streamVolume : ℚ) (length : Nat) :
      AudioReachable k s →
      AudioReachable k (ProcessAudioMixing k streamVolume length s).1

/-- The bound every run keeps: the only value written to `sampleLength` is
`sfxList[STREAM_SLOT].length`, and the only values written to the member `length` of a
registry entry are `MIX_BUFFER_SIZE` and 0. -/
def LengthsBounded (k : AudioConsts) (s : AudioState) : Prop :=
  (∀ c, (s.channels c).sampleLength ≤ k.MIX_BUFFER_SIZE) ∧
  (∀ i, (s.sfxList i).length ≤ k.MIX_BUFFER_SIZE)

/-- The state after `LoadSfx("jump.wav", 3, Stage)`, a `PlayStream` on slot 0 (a looping
stream), `PlaySfx(0, 0, 0)` (the effect goes to channel 1), and then `n` calls of
`PlayStream` without an explicit slot on a file that does not exist: each of them takes the
lowest channel with `soundID == -1`, fails to load and leaves the channel `Idle` with the
`soundID` and the `sampleLength` of a stream. -/
def crowdedChannels (n : Nat) : AudioState :=
  (List.range n).foldl
    (fun s _ => (PlayStream demoConsts (fun _ => none) s "b.ogg" 16 0 0).2)
    ((streamThenJump.map Prod.snd).getD demoInit)

/-- The state after `PlayStream("theme.ogg", 0, 0, 8)` on the file `shortWav` (a looping
stream on channel 0, mix buffer of sixteen samples) and
`SetChannelAttributes(0, 1.0, 0.0, 2.0)`: each output frame advances the cursor by four
samples, so the cursor reaches `sampleLength` every fourth frame. -/
def doubleStream : AudioState :=
  SetChannelAttributes tinyConsts
    (PlayStream tinyConsts (fun _ => some shortWav) tinyInit "theme.ogg" 0 0 8).2 0 1 0 2

/-- An effect channel at speed 2.0 with the loop point 10 on a block of 100 samples, two
samples before the end. -/
def loopingEffect : ChannelInfo := { wrappingEffect with loop := 10 }

/-! ## Theorems -/

/-- Claim C9. After `SetChannelAttributes(c, v, p, speed)` on a channel index below
`CHANNEL_COUNT` the stored volume is `min 4 (max 0 v)` and the stored pan is
`min 1 (max (-1) p)`, so that volume 10 is stored as 4 and pan -5 as -1; on an index at or
above `CHANNEL_COUNT` the state is unchanged. -/
theorem SetChannelAttributes_clamps (k : AudioConsts) (s : AudioState) (c : Nat)
    (v p speed : ℚ) :
    (c < k.CHANNEL_COUNT →
      ((SetChannelAttributes k s c v p speed).channels c).volume = min 4 (max 0 v) ∧
      ((SetChannelAttributes k s c v p speed).channels c).pan = min 1 (max (-1) p)) ∧
    (c < k.CHANNEL_COUNT →
      ((SetChannelAttributes k s c 10 (-5) speed).channels c).volume = 4 ∧
      ((SetChannelAttributes k s c 10 (-5) speed).channels c).pan = -1) ∧
    (k.CHANNEL_COUNT ≤ c → SetChannelAttributes k s c v p speed = s) := by
  have key : ∀ v p : ℚ, c < k.CHANNEL_COUNT →
      ((SetChannelAttributes k s c v p speed).channels c).volume = max 0 (min 4 v) ∧
      ((SetChannelAttributes k s c v p speed).channels c).pan = max (-1) (min 1 p) := by
    intro v p hc
    unfold SetChannelAttributes
    rw [if_pos hc]
    by_cases h1 : speed > 0
    · simp [h1, setChannel]
    · by_cases h2 : speed = 1
      · simp [h1, h2, setChannel]
      · simp [h1, h2, setChannel]
  refine ⟨fun hc => ?_, fun hc => ?_, fun hc => ?_⟩
  · obtain ⟨hv, hp⟩ := key v p hc
    rw [hv, hp]
    constructor
    · rw [max_min_distrib_left, max_eq_right (by norm_num : (0 : ℚ) ≤ 4)]
    · rw [max_min_distrib_left, max_eq_right (by norm_num : (-1 : ℚ) ≤ 1)]
  · obtain ⟨hv, hp⟩ := key 10 (-5) hc
    rw [hv, hp]
    constructor
    · norm_num
    · norm_num
  · unfold SetChannelAttributes
    rw [if_neg (by omega)]

/-- Witness of claim C9 on channel 3 of the initialised state, and on the index 16. -/
theorem SetChannelAttributes_clamps_witness :
    (((SetChannelAttributes demoConsts demoInit 3 10 (-5) 1).channels 3).volume = 4 ∧
      ((SetChannelAttributes demoConsts demoInit 3 10 (-5) 1).channels 3).pan = -1) ∧
    SetChannelAttributes demoConsts demoInit 16 10 (-5) 1 = demoInit :=
  ⟨(SetChannelAttributes_clamps demoConsts demoInit 3 10 (-5) 1).2.1 (by decide),
   (SetChannelAttributes_clamps demoConsts demoInit 16 10 (-5) 1).2.2 (by decide)⟩

/-- When some channel passes the first selection test, `firstPass` is the lowest such
channel. -/
theorem firstPass_spec (k : AudioConsts) (s : AudioState) (slot : Nat)
    (hex : ∃ c, c < k.CHANNEL_COUNT ∧ firstPassEligible s c) :
    firstPass k s slot < k.CHANNEL_COUNT ∧ firstPassEligible s (firstPass k s slot) ∧
    ∀ j, j < firstPass k s slot → ¬ firstPassEligible s j := by
  unfold firstPass
  cases hfind : (List.range k.CHANNEL_COUNT).find? (fun c =>
      decide ((s.channels c).soundID = -1) &&
      decide ((s.channels c).state ≠ CHANNEL_LOADING_STREAM)) with
  | none =>
    exfalso
    obtain ⟨c, hc, h1, h2⟩ := hex
    rw [List.find?_range_eq_none] at hfind
    have := hfind c hc
    simp [h1, h2] at this
  | some c =>
    rw [List.find?_range_eq_some] at hfind
    obtain ⟨hp, hmem, hlow⟩ := hfind
    simp only [Bool.and_eq_true, decide_eq_true_eq] at hp
    refine ⟨List.mem_range.mp hmem, hp, ?_⟩
    intro j hj hel
    have := hlow j hj
    simp [hel.1, hel.2] at this

/-- When no channel passes the first selection test, `firstPass` keeps `slot`. -/
theorem firstPass_none (k : AudioConsts) (s : AudioState) (slot : Nat)
    (hno : ∀ c, c < k.CHANNEL_COUNT → ¬ firstPassEligible s c) :
    firstPass k s slot = slot := by
  unfold firstPass
  have : (List.range k.CHANNEL_COUNT).find? (fun c =>
      decide ((s.channels c).soundID = -1) &&
      decide ((s.channels c).state ≠ CHANNEL_LOADING_STREAM)) = none := by
    rw [List.find?_range_eq_none]
    intro i hi
    have := hno i hi
    unfold firstPassEligible at this
    by_cases h : (s.channels i).soundID = -1
    · have h2 : ¬ (s.channels i).state ≠ CHANNEL_LOADING_STREAM := fun h2 => this ⟨h, h2⟩
      simp [h, h2]
    · simp [h]
  rw [this]

/-- One more iteration of the second selection loop. -/
theorem secondPass_succ (n : Nat) (s : AudioState) (slot : Nat) :
    secondPass (n + 1) s slot =
      if (s.channels n).sampleLength < (secondPass n s slot).2 ∧
          (s.channels n).state ≠ CHANNEL_LOADING_STREAM
      then (n, u32 (s.channels n).sampleLength) else secondPass n s slot := by
  unfold secondPass
  rw [List.range_succ, List.foldl_append]
  rfl

/-- The second selection loop over the channels below `n`: either no channel passes its
test and the locals keep their initial values, or the loop holds the lowest-indexed
channel of least `sampleLength` among those that pass. -/
theorem secondPass_spec (s : AudioState) (slot : Nat) (n : Nat) :
    ((∀ c, c < n → ¬ secondPassEligible s c) ∧ secondPass n s slot = (slot, 0xFFFFFFFF)) ∨
    ((secondPass n s slot).1 < n ∧ secondPassEligible s (secondPass n s slot).1 ∧
      (secondPass n s slot).2 = (s.channels (secondPass n s slot).1).sampleLength ∧
      (∀ j, j < n → secondPassEligible s j →
        (s.channels (secondPass n s slot).1).sampleLength ≤ (s.channels j).sampleLength) ∧
      (∀ j, j < (secondPass n s slot).1 → secondPassEligible s j →
        (s.channels (secondPass n s slot).1).sampleLength < (s.channels j).sampleLength)) := by
  induction n with
  | zero =>
    left
    exact ⟨fun c hc => absurd hc (Nat.not_lt_zero c), rfl⟩
  | succ n ih =>
    rw [secondPass_succ]
    rcases ih with ⟨hnone, heq⟩ | ⟨hlt, hel, hlen, hmin, hlow⟩
    · rw [heq]
      by_cases hc : (s.channels n).sampleLength < 0xFFFFFFFF ∧
          (s.channels n).state ≠ CHANNEL_LOADING_STREAM
      · right
        have hu : u32 (s.channels n).sampleLength = (s.channels n).sampleLength := by
          unfold u32; omega
        dsimp only
        rw [if_pos hc]
        refine ⟨Nat.lt_succ_self n, ⟨hc.2, hc.1⟩, hu, ?_, ?_⟩
        · intro j hj hej
          rcases Nat.lt_succ_iff_lt_or_eq.mp hj with h | h
          · exact absurd hej (hnone j h)
          · rw [h]
        · intro j hj hej
          exact absurd hej (hnone j hj)
      · left
        dsimp only
        rw [if_neg hc]
        refine ⟨?_, rfl⟩
        intro c hcl hec
        rcases Nat.lt_succ_iff_lt_or_eq.mp hcl with h | h
        · exact hnone c h hec
        · subst h
          exact hc ⟨hec.2, hec.1⟩
    · right
      rw [hlen]
      by_cases hc : (s.channels n).sampleLength <
            (s.channels (secondPass n s slot).1).sampleLength ∧
          (s.channels n).state ≠ CHANNEL_LOADING_STREAM
      · have hbound : (s.channels n).sampleLength < 0xFFFFFFFF := lt_trans hc.1 hel.2
        have hu : u32 (s.channels n).sampleLength = (s.channels n).sampleLength := by
          unfold u32; omega
        rw [if_pos hc]
        refine ⟨Nat.lt_succ_self n, ⟨hc.2, hbound⟩, hu, ?_, ?_⟩
        · intro j hj hej
          rcases Nat.lt_succ_iff_lt_or_eq.mp hj with h | h
          · exact le_trans (le_of_lt hc.1) (hmin j h hej)
          · rw [h]
        · intro j hj hej
          exact lt_of_lt_of_le hc.1 (hmin j hj hej)
      · rw [if_neg hc]
        refine ⟨Nat.lt_succ_of_lt hlt, hel, hlen, ?_, hlow⟩
        intro j hj hej
        rcases Nat.lt_succ_iff_lt_or_eq.mp hj with h | h
        · exact hmin j h hej
        · subst h
          by_contra hcon
          exact hc ⟨Nat.lt_of_not_le hcon, hej.1⟩

/-- The value `PlayStream` returns with streams enabled: the selected slot, or -1 when the
selection ends at or above `CHANNEL_COUNT`. -/
theorem PlayStream_fst (k : AudioConsts) (fs : String → Option (List Nat)) (s : AudioState)
    (filename : String) (slot startPos loopPoint : Nat) (hen : s.streamsEnabled = true) :
    (PlayStream k fs s filename slot startPos loopPoint).1 =
      if k.CHANNEL_COUNT ≤ selectStreamSlot k s slot then -1
      else (selectStreamSlot k s slot : Int) := by
  unfold PlayStream
  simp only [hen, Bool.not_true, Bool.false_eq_true, if_false, ge_iff_le]
  split <;> rfl

/-- Without a selected slot `PlayStream` returns -1 and leaves the state as it is. -/
theorem PlayStream_no_slot (k : AudioConsts) (fs : String → Option (List Nat)) (s : AudioState)
    (filename : String) (slot startPos loopPoint : Nat)
    (h : k.CHANNEL_COUNT ≤ selectStreamSlot k s slot) :
    PlayStream k fs s filename slot startPos loopPoint = (-1, s) := by
  unfold PlayStream
  by_cases hen : s.streamsEnabled = true
  · simp only [hen, Bool.not_true, Bool.false_eq_true, if_false, ge_iff_le]
    rw [if_pos h]
  · simp [hen]

/-- Claim C7 (amended). With streams enabled and no explicit slot, when some channel has
`soundID == -1` and is not in `LoadingStream`, `PlayStream` selects and returns the lowest
index of such a channel; the test is on `soundID`, not on the `Idle` state. -/
theorem PlayStream_first_pass (k : AudioConsts) (fs : String → Option (List Nat))
    (s : AudioState) (filename : String) (slot startPos loopPoint : Nat)
    (hen : s.streamsEnabled = true) (hslot : k.CHANNEL_COUNT ≤ slot)
    (hex : ∃ c, c < k.CHANNEL_COUNT ∧ firstPassEligible s c) :
    ∃ c, c < k.CHANNEL_COUNT ∧ selectStreamSlot k s slot = c ∧
      (PlayStream k fs s filename slot startPos loopPoint).1 = (c : Int) ∧
      firstPassEligible s c ∧ ∀ j, j < c → ¬ firstPassEligible s j := by
  obtain ⟨hlt, hel, hlow⟩ := firstPass_spec k s slot hex
  have hsel : selectStreamSlot k s slot = firstPass k s slot := by
    unfold selectStreamSlot
    rw [if_pos hslot]
    simp only [ge_iff_le]
    rw [if_neg (Nat.not_le.mpr hlt)]
  refine ⟨firstPass k s slot, hlt, hsel, ?_, hel, hlow⟩
  rw [PlayStream_fst k fs s filename slot startPos loopPoint hen, hsel,
    if_neg (Nat.not_le.mpr hlt)]

/-- Witness of claim C7 (amended): after a rejected stream on channel 0, channel 1 is the
lowest channel with `soundID == -1`. -/
theorem PlayStream_first_pass_witness :
    ∃ c, c < demoConsts.CHANNEL_COUNT ∧ selectStreamSlot demoConsts afterRejectedStream 16 = c ∧
      (PlayStream demoConsts (fun _ => none) afterRejectedStream "b.ogg" 16 0 0).1 = (c : Int) ∧
      firstPassEligible afterRejectedStream c ∧
      ∀ j, j < c → ¬ firstPassEligible afterRejectedStream j :=
  PlayStream_first_pass demoConsts (fun _ => none) afterRejectedStream "b.ogg" 16 0 0
    (by decide) (by decide) ⟨1, by decide, by decide, by decide⟩

/-- Claim C7 fails as stated: channel 0 is `Idle` (with the stale `soundID` 0xFF of a
rejected stream), yet the automatic selection returns channel 1. -/
theorem PlayStream_passes_over_idle_channel :
    (afterRejectedStream.channels 0).state = CHANNEL_IDLE ∧
    (PlayStream demoConsts (fun _ => none) afterRejectedStream "b.ogg" 16 0 0).1 = 1 := by
  decide

/-- The second selection pass on any channel table. With streams disabled `PlayStream`
returns -1 and changes nothing. With streams enabled, no explicit slot and a first pass
that finds no channel, it selects and returns the lowest-indexed channel of least
`sampleLength` among the channels that pass the test of the second loop
(`secondPassEligible`), and it returns -1 (changing nothing) exactly when there is no such
channel. -/
theorem PlayStream_second_pass (k : AudioConsts) (fs : String → Option (List Nat))
    (s : AudioState) (filename : String) (slot startPos loopPoint : Nat) :
    (s.streamsEnabled = false →
      PlayStream k fs s filename slot startPos loopPoint = (-1, s)) ∧
    (s.streamsEnabled = true → k.CHANNEL_COUNT ≤ slot →
      (∀ c, c < k.CHANNEL_COUNT → ¬ firstPassEligible s c) →
      ((PlayStream k fs s filename slot startPos loopPoint).1 = -1 ↔
        ∀ c, c < k.CHANNEL_COUNT → ¬ secondPassEligible s c) ∧
      ((∀ c, c < k.CHANNEL_COUNT → ¬ secondPassEligible s c) →
        PlayStream k fs s filename slot startPos loopPoint = (-1, s)) ∧
      ((∃ c, c < k.CHANNEL_COUNT ∧ secondPassEligible s c) →
        ∃ m, m < k.CHANNEL_COUNT ∧ selectStreamSlot k s slot = m ∧
          (PlayStream k fs s filename slot startPos loopPoint).1 = (m : Int) ∧
          secondPassEligible s m ∧
          (∀ j, j < k.CHANNEL_COUNT → secondPassEligible s j →
            (s.channels m).sampleLength ≤ (s.channels j).sampleLength) ∧
          (∀ j, j < m → secondPassEligible s j →
            (s.channels m).sampleLength < (s.channels j).sampleLength))) := by
  refine ⟨fun hdis => ?_, fun hen hslot hfirst => ?_⟩
  · unfold PlayStream
    simp [hdis]
  · have hsel : selectStreamSlot k s slot = (secondPass k.CHANNEL_COUNT s slot).1 := by
      unfold selectStreamSlot
      rw [if_pos hslot]
      simp only [ge_iff_le]
      rw [firstPass_none k s slot hfirst, if_pos hslot]
    have hnone : (∀ c, c < k.CHANNEL_COUNT → ¬ secondPassEligible s c) →
        PlayStream k fs s filename slot startPos loopPoint = (-1, s) := by
      intro hno
      apply PlayStream_no_slot
      rw [hsel]
      rcases secondPass_spec s slot k.CHANNEL_COUNT with ⟨_, heq⟩ | ⟨hlt, hel, _⟩
      · rw [heq]; exact hslot
      · exact absurd hel (hno _ hlt)
    have hsome : (∃ c, c < k.CHANNEL_COUNT ∧ secondPassEligible s c) →
        ∃ m, m < k.CHANNEL_COUNT ∧ selectStreamSlot k s slot = m ∧
          (PlayStream k fs s filename slot startPos loopPoint).1 = (m : Int) ∧
          secondPassEligible s m ∧
          (∀ j, j < k.CHANNEL_COUNT → secondPassEligible s j →
            (s.channels m).sampleLength ≤ (s.channels j).sampleLength) ∧
          (∀ j, j < m → secondPassEligible s j →
            (s.channels m).sampleLength < (s.channels j).sampleLength) := by
      rintro ⟨c, hc, hec⟩
      rcases secondPass_spec s slot k.CHANNEL_COUNT with ⟨hno, _⟩ | ⟨hlt, hel, _, hmin, hlow⟩
      · exact absurd hec (hno c hc)
      · refine ⟨(secondPass k.CHANNEL_COUNT s slot).1, hlt, hsel, ?_, hel, hmin, hlow⟩
        rw [PlayStream_fst k fs s filename slot startPos loopPoint hen, hsel,
          if_neg (Nat.not_le.mpr hlt)]
    refine ⟨⟨fun hret c hc hec => ?_, fun hno => ?_⟩, hnone, hsome⟩
    · obtain ⟨m, _, _, hm, _⟩ := hsome ⟨c, hc, hec⟩
      rw [hm] at hret
      omega
    · rw [hnone hno]

/-- The bytes `ReadBytes` returns are the next `n` bytes after the cursor. -/
theorem ReadBytes_fst (info : FileInfo) (n : Nat) :
    (ReadBytes info n).1 = (remainingBytes info).take n := rfl

/-- After `ReadBytes` the bytes left are those after the `n` just read. -/
theorem ReadBytes_remaining (info : FileInfo) (n : Nat) :
    remainingBytes (ReadBytes info n).2 = (remainingBytes info).drop n := by
  unfold ReadBytes remainingBytes
  simp only [List.length_take, List.length_drop]
  rw [← List.drop_drop]
  rcases Nat.le_total n ((info.file.getD []).length - info.readPos) with h | h
  · rw [Nat.min_eq_left h]
  · rw [Nat.min_eq_right h]
    rw [List.drop_of_length_le (by simp), List.drop_of_length_le (by simp; omega)]

/-- The skip loop, given at least `n` iterations, leaves the bytes after the `n` skipped
ones: its bound is sufficient and its effect is that of one read of `n` bytes. -/
theorem skipLoop_remaining (fuel : Nat) :
    ∀ (info : FileInfo) (n : Nat), n ≤ fuel →
      remainingBytes (skipLoop fuel info n) = (remainingBytes info).drop n := by
  induction fuel with
  | zero =>
    intro info n hn
    have : n = 0 := by omega
    subst this
    simp [skipLoop]
  | succ fuel ih =>
    intro info n hn
    unfold skipLoop
    by_cases h : n > 0
    · rw [if_pos h]
      dsimp only
      rw [ih _ _ (by split <;> omega), ReadBytes_remaining, List.drop_drop]
      congr 1
      split <;> omega
    · rw [if_neg h]
      have : n = 0 := by omega
      subst this
      simp

/-- The little-endian encoding on `w` bytes has `w` bytes. -/
theorem leEncode_length (w n : Nat) : (leEncode w n).length = w := by
  induction w generalizing n with
  | zero => rfl
  | succ w ih => simp [leEncode, ih]

/-- Decoding the little-endian encoding of a value that fits gives the value back. -/
theorem leDecode_leEncode (w : Nat) : ∀ n, n < 256 ^ w → leDecode (leEncode w n) = n := by
  induction w with
  | zero =>
    intro n hn
    simp at hn
    simp [leEncode, leDecode, hn]
  | succ w ih =>
    intro n hn
    have h1 : n / 256 < 256 ^ w := by
      rw [Nat.div_lt_iff_lt_mul (by norm_num)]
      rw [pow_succ] at hn
      exact hn
    simp only [leEncode, leDecode, Nat.mod_mod, ih _ h1]
    omega

/-- An iteration of the chunk loop sets `foundData` only on a chunk identifier `"data"`. -/
theorem scanStep_foundData (st st' : ScanState) (hnd : st.foundData = false)
    (h : scanStep st = some st') (hid : (remainingBytes st.info).take 4 ≠ tag "data") :
    st'.foundData = false := by
  unfold scanStep at h
  simp only [ReadBytes_fst] at h
  split at h
  · exact absurd h (by simp)
  · rename_i h8
    have htake : ((remainingBytes st.info).take 8).take 4 = (remainingBytes st.info).take 4 := by
      rw [List.take_take]; rfl
    rw [htake] at h
    by_cases hf : (remainingBytes st.info).take 4 = tag "fmt "
    · rw [if_pos hf] at h
      simp only [Option.some.injEq] at h
      rw [← h]; exact hnd
    · rw [if_neg hf, if_neg hid] at h
      simp only [Option.some.injEq] at h
      rw [← h]; exact hnd

/-- The chunk loop on a stream of chunks none of which is a data chunk never sets
`foundData`, whatever the number of iterations. -/
theorem scanChunks_noData (fuel : Nat) :
    ∀ (st : ScanState) (cs : List Chunk), st.foundData = false → noDataChunks cs →
      remainingBytes st.info = encodeChunks cs →
      (remainingBytes st.info).length < 2147483648 →
      (scanChunks fuel st).foundData = false := by
  induction fuel with
  | zero => intro st cs hnd _ _ _; exact hnd
  | succ fuel ih =>
    intro st cs hnd hcs hrem hlen
    unfold scanChunks
    split
    · cases hstep : scanStep st with
      | none => exact hnd
      | some st' =>
        dsimp only
        cases cs with
        | nil =>
          exfalso
          unfold scanStep at hstep
          simp [ReadBytes_fst, hrem, encodeChunks] at hstep
        | cons c cs' =>
          obtain ⟨hid4, hidne, hpl⟩ := hcs c (List.mem_cons_self c cs')
          have hcs' : noDataChunks cs' := fun x hx => hcs x (List.mem_cons_of_mem c hx)
          have henc : remainingBytes st.info =
              c.id ++ (leEncode 4 c.payload.length ++ (c.payload ++ encodeChunks cs')) := by
            rw [hrem]; simp [encodeChunks, Chunk.encode]
          have hid : (remainingBytes st.info).take 4 = c.id := by
            rw [henc, List.take_append_of_le_length (by omega), List.take_of_length_le (by omega)]
          have hnd' : st'.foundData = false :=
            scanStep_foundData st st' hnd hstep (by rw [hid]; exact hidne)
          have hr8 : (remainingBytes st.info).take 8 = c.id ++ leEncode 4 c.payload.length := by
            rw [henc, ← List.append_assoc, List.take_append_of_le_length
              (by simp [leEncode_length, hid4]), List.take_of_length_le
              (by simp [leEncode_length, hid4])]
          have hd8 : (remainingBytes st.info).drop 8 = c.payload ++ encodeChunks cs' := by
            rw [henc, ← List.append_assoc, ← List.append_assoc, List.append_assoc _ c.payload,
              List.drop_append_of_le_length (by simp [leEncode_length, hid4]),
              List.drop_of_length_le (by simp [leEncode_length, hid4]), List.nil_append]
          have hsize : leDecode (((remainingBytes st.info).take 8).drop 4) = c.payload.length := by
            rw [hr8, List.drop_append_of_le_length (by omega), List.drop_of_length_le (by omega),
              List.nil_append]
            exact leDecode_leEncode 4 _ (by norm_num; exact hpl)
          unfold scanStep at hstep
          simp only [ReadBytes_fst] at hstep
          rw [if_neg (by rw [hr8]; simp [leEncode_length, hid4])] at hstep
          have htake : ((remainingBytes st.info).take 8).take 4 = c.id := by
            rw [List.take_take]; exact hid
          rw [htake, hsize] at hstep
          have hlen8 : ((remainingBytes st.info).drop 8).length < 2147483648 := by
            rw [List.length_drop]; omega
          by_cases hf : c.id = tag "fmt "
          · rw [if_pos hf] at hstep
            simp only [Option.some.injEq] at hstep
            have hinfo : remainingBytes st'.info =
                ((remainingBytes st.info).drop 8).drop (16 + u32 (c.payload.length + 4294967296 - 16)) := by
              rw [← hstep]
              dsimp only
              rw [skipLoop_remaining _ _ _ (le_refl _), ReadBytes_remaining, ReadBytes_remaining,
                List.drop_drop]
            by_cases h16 : 16 ≤ c.payload.length
            · have hu : u32 (c.payload.length + 4294967296 - 16) = c.payload.length - 16 := by
                unfold u32; omega
              apply ih st' cs' hnd' hcs'
              · rw [hinfo, hu, hd8, List.drop_append_of_le_length (by omega),
                  List.drop_of_length_le (by omega), List.nil_append]
              · rw [hinfo, List.length_drop]; omega
            · have hu : u32 (c.payload.length + 4294967296 - 16) =
                  c.payload.length + 4294967296 - 16 := by
                unfold u32; omega
              have hnil : remainingBytes st'.info = [] := by
                rw [hinfo, hu]
                apply List.drop_of_length_le
                omega
              apply ih st' [] hnd' (fun x hx => absurd hx (List.not_mem_nil x))
              · rw [hnil]; rfl
              · rw [hnil]; simp
          · rw [if_neg hf, if_neg hidne] at hstep
            simp only [Option.some.injEq] at hstep
            have hinfo : remainingBytes st'.info = encodeChunks cs' := by
              rw [← hstep]
              dsimp only
              rw [skipLoop_remaining _ _ _ (le_refl _), ReadBytes_remaining, hd8,
                List.drop_append_of_le_length (le_refl _), List.drop_of_length_le (le_refl _),
                List.nil_append]
            apply ih st' cs' hnd' hcs' hinfo
            rw [hinfo]
            have : (encodeChunks cs').length ≤ ((remainingBytes st.info).drop 8).length := by
              rw [hd8]; simp
            omega
    · exact hnd

/-- A rejected load leaves the channel table as it was except for the state of the
channel, which is `CHANNEL_IDLE`, and leaves the stream descriptor inactive. -/
theorem LoadStream_rejected (k : AudioConsts) (fs : String → Option (List Nat))
    (s : AudioState) (c : Nat) (h : streamLoadRejected fs s.streamFilePath = true) :
    (LoadStream k fs s c).channels =
        Function.update s.channels c { s.channels c with state := CHANNEL_IDLE } ∧
      (LoadStream k fs s c).activeStream.isActive = false := by
  unfold streamLoadRejected at h
  unfold LoadStream
  cases hact : s.activeStream.isActive <;>
  · simp only [Bool.false_eq_true, if_false, if_true]
    cases hfile : LoadFile fs s.streamFilePath with
    | none => exact ⟨rfl, by simp [setChannel, hact]⟩
    | some info =>
      rw [hfile] at h
      dsimp only at h ⊢
      split
      · exact ⟨rfl, by simp [setChannel, rejectStream, hact]⟩
      · rename_i hhead
        rw [if_neg hhead] at h
        rw [if_pos h]
        exact ⟨rfl, by simp [setChannel, rejectStream, hact]⟩

/-- A file with a valid header whose chunk stream has no data chunk is rejected. -/
theorem wavFile_noData_rejected (fs : String → Option (List Nat)) (path : String)
    (riffSize : Nat) (chunks : List Chunk)
    (hfile : fs path = some (wavFile riffSize chunks)) (hchunks : noDataChunks chunks)
    (hsize : (wavFile riffSize chunks).length < 2147483648) :
    streamLoadRejected fs path = true := by
  unfold streamLoadRejected LoadFile
  rw [hfile]
  dsimp only
  split
  · rfl
  · have hnd := scanChunks_noData ((wavFile riffSize chunks).length)
      { info := (ReadBytes { file := some (wavFile riffSize chunks), readPos := 0,
                             fileSize := (wavFile riffSize chunks).length } 12).2,
        fmt := List.replicate 16 0, dataSize := 0, dataOffset := 0,
        foundFmt := false, foundData := false } chunks rfl hchunks
      (by
        dsimp only
        rw [ReadBytes_remaining]
        unfold remainingBytes wavFile
        simp only [Option.getD_some, List.drop_zero]
        rw [List.drop_append_of_le_length (by simp [leEncode_length, tag]),
          List.drop_of_length_le (by simp [leEncode_length, tag]), List.nil_append])
      (by
        dsimp only
        rw [ReadBytes_remaining, List.length_drop]
        unfold remainingBytes
        simp only [Option.getD_some, List.drop_zero]
        omega)
    have hfs : (ReadBytes
        { file := some (wavFile riffSize chunks), readPos := 0,
          fileSize := (wavFile riffSize chunks).length } 12).2.fileSize =
        (wavFile riffSize chunks).length := rfl
    rw [hfs, hnd]
    simp

/-- With streams enabled and a selected slot, `PlayStream` returns the slot and the state
`LoadStream` leaves on the prepared channel. -/
theorem PlayStream_to_slot (k : AudioConsts) (fs : String → Option (List Nat))
    (s : AudioState) (filename : String) (slot startPos loopPoint : Nat)
    (hen : s.streamsEnabled = true) (hsel : selectStreamSlot k s slot < k.CHANNEL_COUNT) :
    PlayStream k fs s filename slot startPos loopPoint =
      ((selectStreamSlot k s slot : Int),
        LoadStream k fs
          (prepareStream k s filename (selectStreamSlot k s slot) startPos loopPoint)
          (selectStreamSlot k s slot)) := by
  unfold PlayStream
  simp only [hen, Bool.not_true, Bool.false_eq_true, if_false, ge_iff_le]
  rw [if_neg (Nat.not_le.mpr hsel)]

/-- An explicit slot below `CHANNEL_COUNT` is taken as it is. -/
theorem selectStreamSlot_explicit (k : AudioConsts) (s : AudioState) (slot : Nat)
    (hslot : slot < k.CHANNEL_COUNT) : selectStreamSlot k s slot = slot := by
  unfold selectStreamSlot
  rw [if_neg (by omega)]

/-- The fields `PlayStream` writes on the selected channel before the load. -/
theorem prepareStream_channel (k : AudioConsts) (s : AudioState) (filename : String)
    (slot startPos loopPoint : Nat) :
    ((prepareStream k s filename slot startPos loopPoint).channels slot).soundID = 0xFF ∧
    ((prepareStream k s filename slot startPos loopPoint).channels slot).priority = 0xFF ∧
    ((prepareStream k s filename slot startPos loopPoint).channels slot).speed = 52428 ∧
    ((prepareStream k s filename slot startPos loopPoint).channels slot).bufferPos = 0 := by
  unfold prepareStream
  simp [setChannel]

/-- Claim C1 (amended). For every file with a valid RIFF/WAVE header whose chunk stream
has no `"data"` chunk (and whose size fits the signed 32-bit file size) and every
requested slot below `CHANNEL_COUNT`, `PlayStream` with streams enabled returns the
requested slot (a rejected load has no failure return) and leaves that channel in the
`Idle` state with the stream descriptor inactive. -/
theorem PlayStream_missing_data_chunk (k : AudioConsts) (fs : String → Option (List Nat))
    (s : AudioState) (filename : String) (slot startPos loopPoint riffSize : Nat)
    (chunks : List Chunk)
    (hen : s.streamsEnabled = true) (hslot : slot < k.CHANNEL_COUNT)
    (hfile : fs (streamPath filename) = some (wavFile riffSize chunks))
    (hchunks : noDataChunks chunks) (hsize : (wavFile riffSize chunks).length < 2147483648) :
    (PlayStream k fs s filename slot startPos loopPoint).1 = (slot : Int) ∧
    ((PlayStream k fs s filename slot startPos loopPoint).2.channels slot).state = CHANNEL_IDLE ∧
    (PlayStream k fs s filename slot startPos loopPoint).2.activeStream.isActive = false := by
  have hsel := selectStreamSlot_explicit k s slot hslot
  rw [PlayStream_to_slot k fs s filename slot startPos loopPoint hen (by rw [hsel]; exact hslot),
    hsel]
  obtain ⟨hch, hact⟩ := LoadStream_rejected k fs
    (prepareStream k s filename slot startPos loopPoint) slot
    (wavFile_noData_rejected fs _ riffSize chunks hfile hchunks hsize)
  refine ⟨rfl, ?_, hact⟩
  dsimp only
  rw [hch, Function.update_same]

/-- Witness of claim C1 (amended): a file made of the header and one format chunk, played
on slot 2 of the initialised state. -/
theorem PlayStream_missing_data_chunk_witness :
    (PlayStream demoConsts (fun _ => some (wavFile 28 [demoFmt])) demoInit "theme.ogg" 2 0 0).1
      = ((2 : Nat) : Int) ∧
    ((PlayStream demoConsts (fun _ => some (wavFile 28 [demoFmt])) demoInit "theme.ogg" 2 0
      0).2.channels 2).state = CHANNEL_IDLE ∧
    (PlayStream demoConsts (fun _ => some (wavFile 28 [demoFmt])) demoInit "theme.ogg" 2 0
      0).2.activeStream.isActive = false :=
  PlayStream_missing_data_chunk demoConsts (fun _ => some (wavFile 28 [demoFmt])) demoInit
    "theme.ogg" 2 0 0 28 [demoFmt] (by decide) (by decide) rfl
    (by unfold noDataChunks; decide) (by decide)

/-- Claim C1 fails as stated: on a file with a valid header, a format chunk and no data
chunk, `PlayStream` on slot 2 returns 2, not -1. -/
theorem PlayStream_missing_data_chunk_returns_slot :
    (PlayStream demoConsts (fun _ => some (wavFile 28 [demoFmt])) demoInit "theme.ogg" 2 0 0).1
      = 2 ∧
    (PlayStream demoConsts (fun _ => some (wavFile 28 [demoFmt])) demoInit "theme.ogg" 2 0 0).1
      ≠ -1 := by
  decide

/-- Claim C2 (amended). After a `PlayStream` call whose load is rejected (file cannot be
opened, bad signature, missing format or data chunk) the selected channel is `Idle` and
`activeStream.isActive` is false, but the channel keeps what was written for the attempted
stream: `soundID` is still the stream marker 0xFF (and priority 0xFF, speed 52428), so
the channel does not pass the first selection test of the next `PlayStream`. -/
theorem PlayStream_rejected_load (k : AudioConsts) (fs : String → Option (List Nat))
    (s : AudioState) (filename : String) (slot startPos loopPoint : Nat)
    (hen : s.streamsEnabled = true) (hsel : selectStreamSlot k s slot < k.CHANNEL_COUNT)
    (hrej : streamLoadRejected fs (streamPath filename) = true) :
    ((PlayStream k fs s filename slot startPos loopPoint).2.channels
        (selectStreamSlot k s slot)).state = CHANNEL_IDLE ∧
    (PlayStream k fs s filename slot startPos loopPoint).2.activeStream.isActive = false ∧
    ((PlayStream k fs s filename slot startPos loopPoint).2.channels
        (selectStreamSlot k s slot)).soundID = 0xFF ∧
    ((PlayStream k fs s filename slot startPos loopPoint).2.channels
        (selectStreamSlot k s slot)).priority = 0xFF ∧
    ((PlayStream k fs s filename slot startPos loopPoint).2.channels
        (selectStreamSlot k s slot)).speed = 52428 ∧
    ¬ firstPassEligible (PlayStream k fs s filename slot startPos loopPoint).2
        (selectStreamSlot k s slot) := by
  rw [PlayStream_to_slot k fs s filename slot startPos loopPoint hen hsel]
  obtain ⟨hch, hact⟩ := LoadStream_rejected k fs
    (prepareStream k s filename (selectStreamSlot k s slot) startPos loopPoint)
    (selectStreamSlot k s slot) hrej
  obtain ⟨hid, hprio, hspeed, _⟩ :=
    prepareStream_channel k s filename (selectStreamSlot k s slot) startPos loopPoint
  dsimp only
  unfold firstPassEligible
  rw [hch, Function.update_same]
  dsimp only
  refine ⟨rfl, hact, hid, hprio, hspeed, ?_⟩
  rw [hid]
  intro h
  exact absurd h.1 (by decide)

/-- Witness of claim C2 (amended): a file that cannot be opened, no explicit slot. -/
theorem PlayStream_rejected_load_witness :
    ((PlayStream demoConsts (fun _ => none) demoInit "a.ogg" 16 0 0).2.channels
        (selectStreamSlot demoConsts demoInit 16)).state = CHANNEL_IDLE ∧
    (PlayStream demoConsts (fun _ => none) demoInit "a.ogg" 16 0 0).2.activeStream.isActive
      = false ∧
    ((PlayStream demoConsts (fun _ => none) demoInit "a.ogg" 16 0 0).2.channels
        (selectStreamSlot demoConsts demoInit 16)).soundID = 0xFF ∧
    ((PlayStream demoConsts (fun _ => none) demoInit "a.ogg" 16 0 0).2.channels
        (selectStreamSlot demoConsts demoInit 16)).priority = 0xFF ∧
    ((PlayStream demoConsts (fun _ => none) demoInit "a.ogg" 16 0 0).2.channels
        (selectStreamSlot demoConsts demoInit 16)).speed = 52428 ∧
    ¬ firstPassEligible (PlayStream demoConsts (fun _ => none) demoInit "a.ogg" 16 0 0).2
        (selectStreamSlot demoConsts demoInit 16) :=
  PlayStream_rejected_load demoConsts (fun _ => none) demoInit "a.ogg" 16 0 0
    (by decide) (by decide) (by decide)

/-- Claim C2 fails as stated: after a `PlayStream` on slot 0 whose file cannot be opened,
channel 0 is `Idle` but its `soundID` is not -1 (it is the stream marker 0xFF). -/
theorem PlayStream_rejected_load_keeps_soundID :
    streamLoadRejected (fun _ => none) (streamPath "a.ogg") = true ∧
    ((PlayStream demoConsts (fun _ => none) demoInit "a.ogg" 0 0 0).2.channels 0).state
      = CHANNEL_IDLE ∧
    ((PlayStream demoConsts (fun _ => none) demoInit "a.ogg" 0 0 0).2.channels 0).soundID
      ≠ -1 := by
  decide

set_option maxRecDepth 100000 in
/-- Claim C3 fails as stated: on a full pool the first `LoadSfx("new.wav", 1, Global)`
finds no slot and changes nothing, and the second `LoadSfx("new.wav", 1, Stage)` clears the
Stage-scoped entry of slot 0 and registers the effect there. -/
theorem LoadSfx_not_idempotent_on_full_pool :
    (LoadSfx demoConsts (LoadSfx demoConsts fullPool "new.wav" 1 SCOPE_GLOBAL) "new.wav" 1
        SCOPE_STAGE).sfxList 0 ≠
      (LoadSfx demoConsts fullPool "new.wav" 1 SCOPE_GLOBAL).sfxList 0 := by
  decide

/-- Claim C4 fails as stated: two `LoadSfxToSlot` calls with the same name on the free slots
0 and 1 leave two live entries with the same hash. -/
theorem LoadSfxToSlot_duplicates :
    ((LoadSfxToSlot demoConsts (LoadSfxToSlot demoConsts demoInit "a.wav" 0 1 SCOPE_GLOBAL)
        "a.wav" 1 1 SCOPE_GLOBAL).sfxList 0).scope ≠ SCOPE_NONE ∧
    ((LoadSfxToSlot demoConsts (LoadSfxToSlot demoConsts demoInit "a.wav" 0 1 SCOPE_GLOBAL)
        "a.wav" 1 1 SCOPE_GLOBAL).sfxList 1).scope ≠ SCOPE_NONE ∧
    ((LoadSfxToSlot demoConsts (LoadSfxToSlot demoConsts demoInit "a.wav" 0 1 SCOPE_GLOBAL)
        "a.wav" 1 1 SCOPE_GLOBAL).sfxList 0).hash =
    ((LoadSfxToSlot demoConsts (LoadSfxToSlot demoConsts demoInit "a.wav" 0 1 SCOPE_GLOBAL)
        "a.wav" 1 1 SCOPE_GLOBAL).sfxList 1).hash := by
  decide

/-- A property every step of a loop preserves holds after the loop. -/
theorem foldl_preserves {α β : Type} (P : β → Prop) (f : β → α → β)
    (h : ∀ b a, P b → P (f b a)) : ∀ (l : List α) (b : β), P b → P (l.foldl f b) := by
  intro l
  induction l with
  | nil => intro b hb; exact hb
  | cons a l ih => intro b hb; exact ih (f b a) (h b a hb)

/-- The hash comparison succeeds exactly when the sixteen bytes agree. -/
theorem hashMatch_iff (a b : List Nat) :
    hashMatch a b = true ↔ ∀ h, h < 16 → a.getD h 0 = b.getD h 0 := by
  unfold hashMatch
  simp [List.all_eq_true]

/-- The hash comparison is symmetric. -/
theorem hashMatch_comm (a b : List Nat) : hashMatch a b = hashMatch b a := by
  rw [Bool.eq_iff_iff, hashMatch_iff, hashMatch_iff]
  exact ⟨fun h i hi => (h i hi).symm, fun h i hi => (h i hi).symm⟩

/-- The hash comparison is transitive. -/
theorem hashMatch_trans (a b c : List Nat) (h1 : hashMatch a b = true)
    (h2 : hashMatch b c = true) : hashMatch a c = true := by
  rw [hashMatch_iff] at *
  exact fun i hi => (h1 i hi).trans (h2 i hi)

/-- The copy of a hash has the bytes of the hash. -/
theorem copyHash_getD (x : List Nat) (h : Nat) (hh : h < 16) :
    (copyHash x).getD h 0 = x.getD h 0 := by
  unfold copyHash
  simp [List.getD_eq_getElem?_getD, List.getElem?_map, List.getElem?_range hh]

/-- Comparing the copy of a hash is comparing the hash. -/
theorem hashMatch_copyHash_left (x b : List Nat) : hashMatch (copyHash x) b = hashMatch x b := by
  rw [Bool.eq_iff_iff, hashMatch_iff, hashMatch_iff]
  constructor
  · intro h i hi; rw [← copyHash_getD x i hi]; exact h i hi
  · intro h i hi; rw [copyHash_getD x i hi]; exact h i hi

/-- The copy of a hash matches the hash. -/
theorem hashMatch_copyHash_self (x : List Nat) : hashMatch (copyHash x) x = true := by
  rw [hashMatch_copyHash_left, hashMatch_iff]
  exact fun _ _ => rfl

/-- The duplicate test fails exactly when no live pool entry matches. -/
theorem sfxRegistered_false_iff (k : AudioConsts) (s : AudioState) (h : List Nat) :
    sfxRegistered k s h = false ↔
      ∀ i, i < k.SFX_COUNT - 2 → (s.sfxList i).scope ≠ SCOPE_NONE →
        hashMatch (s.sfxList i).hash h = false := by
  unfold sfxRegistered
  simp [List.any_eq_false]

/-- A live pool entry that matches makes the duplicate test succeed. -/
theorem sfxRegistered_true_of (k : AudioConsts) (s : AudioState) (h : List Nat) (i : Nat)
    (hi : i < k.SFX_COUNT - 2) (hlive : (s.sfxList i).scope ≠ SCOPE_NONE)
    (hm : hashMatch (s.sfxList i).hash h = true) : sfxRegistered k s h = true := by
  unfold sfxRegistered
  rw [List.any_eq_true]
  exact ⟨i, List.mem_range.mpr hi, by simp [hlive, hm]⟩

/-- `StopADPCM` does not touch the registry. -/
theorem StopADPCM_sfxList (k : AudioConsts) (s : AudioState) (c : Int) :
    (StopADPCM k s c).sfxList = s.sfxList := by
  unfold StopADPCM
  split
  · rfl
  · split <;> rfl

/-- `UnloadADPCM` does not touch the registry. -/
theorem UnloadADPCM_sfxList (k : AudioConsts) (s : AudioState) (slot : Nat) :
    (UnloadADPCM k s slot).sfxList = s.sfxList := by
  unfold UnloadADPCM
  split
  · rfl
  · split
    · rfl
    · dsimp only
      apply foldl_preserves (fun t => t.sfxList = s.sfxList) _ _ _ s rfl
      intro t c ht
      split
      · rw [StopADPCM_sfxList]; exact ht
      · exact ht

/-- Stopping the effect channels does not touch the registry. -/
theorem stopEffectChannels_sfxList (k : AudioConsts) (s : AudioState) :
    (stopEffectChannels k s).sfxList = s.sfxList := by
  unfold stopEffectChannels
  apply foldl_preserves (fun t => t.sfxList = s.sfxList) _ _ _ s rfl
  intro t c ht
  split
  · dsimp only [setChannel]
    rw [StopADPCM_sfxList]; exact ht
  · exact ht

/-- Reflexivity of `LiveSub`. -/
theorem LiveSub_refl (s : AudioState) : LiveSub s s := fun _ _ => rfl

/-- Transitivity of `LiveSub`. -/
theorem LiveSub_trans (s t u : AudioState) (h1 : LiveSub s t) (h2 : LiveSub t u) :
    LiveSub s u := by
  intro i hi
  have h := h2 i hi
  rw [h] at hi ⊢
  exact h1 i hi

/-- Zeroing an entry keeps `LiveSub`. -/
theorem LiveSub_zero (s t : AudioState) (i : Nat) (h : LiveSub s t) :
    LiveSub s (setSfx t i { SFXInfo.zero with scope := SCOPE_NONE }) := by
  intro j hj
  unfold setSfx at hj ⊢
  dsimp only at hj ⊢
  by_cases hji : j = i
  · subst hji
    rw [Function.update_same] at hj
    exact absurd rfl hj
  · rw [Function.update_noteq hji] at hj ⊢
    exact h j hj

/-- `LiveSub` only looks at the registry. -/
theorem LiveSub_of_sfxList_eq (s t u : AudioState) (h : LiveSub s t)
    (he : u.sfxList = t.sfxList) : LiveSub s u := by
  intro i hi
  rw [he] at hi ⊢
  exact h i hi

/-- The Stage clear of `LoadSfx` only removes live entries. -/
theorem clearStageEntries_LiveSub (k : AudioConsts) (s : AudioState) :
    LiveSub s (clearStageEntries k s) := by
  unfold clearStageEntries
  apply foldl_preserves (fun t => LiveSub s t) _ _ _ s (LiveSub_refl s)
  intro t i ht
  split
  · exact LiveSub_zero s _ i (LiveSub_of_sfxList_eq s t _ ht (UnloadADPCM_sfxList k t _))
  · exact ht

/-- `ClearStageSfx` only removes live entries. -/
theorem ClearStageSfx_LiveSub (k : AudioConsts) (s : AudioState) :
    LiveSub s (ClearStageSfx k s) := by
  unfold ClearStageSfx
  apply foldl_preserves (fun t => LiveSub s t) _ _ _ _
    (LiveSub_of_sfxList_eq s s _ (LiveSub_refl s) (stopEffectChannels_sfxList k s))
  intro t i ht
  split
  · exact LiveSub_zero s _ i (LiveSub_of_sfxList_eq s t _ ht (UnloadADPCM_sfxList k t _))
  · exact ht

/-- `ClearGlobalSfx` only removes live entries. -/
theorem ClearGlobalSfx_LiveSub (k : AudioConsts) (s : AudioState) :
    LiveSub s (ClearGlobalSfx k s) := by
  unfold ClearGlobalSfx
  apply foldl_preserves (fun t => LiveSub s t) _ _ _ _
    (LiveSub_of_sfxList_eq s s _ (LiveSub_refl s) (stopEffectChannels_sfxList k s))
  intro t i ht
  split
  · exact LiveSub_zero s _ i ht
  · exact ht

/-- Removing live entries keeps the hashes of the live entries different. -/
theorem NoDuplicateHash_of_LiveSub (k : AudioConsts) (s t : AudioState)
    (h : LiveSub s t) (hs : NoDuplicateHash k s) : NoDuplicateHash k t := by
  intro i j hi hj hij hli hlj
  have ei := h i hli
  have ej := h j hlj
  rw [ei] at hli ⊢
  rw [ej] at hlj ⊢
  exact hs i j hi hj hij hli hlj

/-- Removing live entries does not register a hash. -/
theorem sfxRegistered_of_LiveSub (k : AudioConsts) (s t : AudioState) (x : List Nat)
    (h : LiveSub s t) (hs : sfxRegistered k s x = false) : sfxRegistered k t x = false := by
  rw [sfxRegistered_false_iff] at hs ⊢
  intro i hi hli
  have ei := h i hli
  rw [ei] at hli ⊢
  exact hs i hi hli

/-- A free slot found by `LoadSfx` is a slot of the pool. -/
theorem findFreeSfx_lt (k : AudioConsts) (s : AudioState) (h : findFreeSfx k s ≠ 65535) :
    findFreeSfx k s < k.SFX_COUNT - 2 := by
  unfold findFreeSfx at h ⊢
  split
  · rename_i i hfind
    have := List.mem_range.mp (List.mem_of_find?_eq_some hfind)
    exact lt_of_le_of_lt (Nat.mod_le _ _) this
  · rename_i hfind
    rw [hfind] at h
    exact absurd rfl h

/-- Writing an entry whose hash is not registered keeps the live hashes different. -/
theorem NoDuplicateHash_register (k : AudioConsts) (s : AudioState) (id : Nat) (e : SFXInfo)
    (x : List Nat) (he : e.hash = copyHash x) (hs : NoDuplicateHash k s)
    (hreg : sfxRegistered k s x = false) : NoDuplicateHash k (setSfx s id e) := by
  rw [sfxRegistered_false_iff] at hreg
  intro i j hi hj hij hli hlj
  unfold setSfx at hli hlj ⊢
  dsimp only at hli hlj ⊢
  by_cases h1 : i = id
  · have h2 : j ≠ id := fun h => hij (h1.trans h.symm)
    rw [h1, Function.update_same, Function.update_noteq h2]
    rw [Function.update_noteq h2] at hlj
    rw [he, hashMatch_copyHash_left, hashMatch_comm]
    exact hreg j hj hlj
  · rw [Function.update_noteq h1] at hli ⊢
    by_cases h2 : j = id
    · rw [h2, Function.update_same, he, hashMatch_comm, hashMatch_copyHash_left, hashMatch_comm]
      exact hreg i hi hli
    · rw [Function.update_noteq h2] at hlj ⊢
      exact hs i j hi hj hij hli hlj

/-- `LoadSfx` keeps the hashes of the live pool entries different. -/
theorem LoadSfx_NoDuplicateHash (k : AudioConsts) (s : AudioState) (f : String)
    (plays scope : Nat) (hs : NoDuplicateHash k s) :
    NoDuplicateHash k (LoadSfx k s f plays scope) := by
  unfold LoadSfx
  cases hreg : sfxRegistered k s (k.GEN_HASH_MD5 f) with
  | true => simpa using hs
  | false =>
    simp only [Bool.false_eq_true, if_false]
    have hsub : LiveSub s (if scope = SCOPE_STAGE then clearStageEntries k s else s) := by
      split
      · exact clearStageEntries_LiveSub k s
      · exact LiveSub_refl s
    have hs1 := NoDuplicateHash_of_LiveSub k s _ hsub hs
    have hreg1 := sfxRegistered_of_LiveSub k s _ _ hsub hreg
    generalize (if scope = SCOPE_STAGE then clearStageEntries k s else s) = s1 at hs1 hreg1 ⊢
    split
    · exact NoDuplicateHash_register k _ _ _ (k.GEN_HASH_MD5 f) rfl hs1 hreg1
    · exact hs1

/-- A list without repetition in which any two elements that pass a test are equal has at
most one element that passes. -/
theorem filter_length_le_one {α : Type} (p : α → Bool) :
    ∀ (l : List α), l.Nodup → (∀ a ∈ l, ∀ b ∈ l, p a = true → p b = true → a = b) →
      (l.filter p).length ≤ 1 := by
  intro l
  induction l with
  | nil => intro _ _; simp
  | cons x l ih =>
    intro hnd huniq
    have hnd' := (List.nodup_cons.mp hnd)
    have ih' := ih hnd'.2 (fun a ha b hb => huniq a (List.mem_cons_of_mem x ha) b
      (List.mem_cons_of_mem x hb))
    by_cases hx : p x = true
    · have hnil : l.filter p = [] := by
        rw [List.filter_eq_nil_iff]
        intro a ha hpa
        have := huniq a (List.mem_cons_of_mem x ha) x (List.mem_cons_self x l) hpa hx
        rw [this] at ha
        exact hnd'.1 ha
      rw [List.filter_cons_of_pos hx, hnil]
      simp
    · rw [List.filter_cons_of_neg hx]
      exact ih'

/-- When the live hashes are different, at most one live entry has a given hash. -/
theorem liveHashCount_le_one (k : AudioConsts) (s : AudioState) (x : List Nat)
    (hs : NoDuplicateHash k s) : liveHashCount k s x ≤ 1 := by
  unfold liveHashCount
  apply filter_length_le_one _ _ (List.nodup_range _)
  intro a ha b hb hpa hpb
  simp only [Bool.and_eq_true, decide_eq_true_eq] at hpa hpb
  by_contra hab
  have := hs a b (List.mem_range.mp ha) (List.mem_range.mp hb) hab hpa.1 hpb.1
  rw [hashMatch_trans _ _ _ hpa.2 (by rw [hashMatch_comm]; exact hpb.2)] at this
  exact absurd this (by decide)

/-- With a registry of at most 65537 slots, a free pool slot is found when there is one. -/
theorem findFreeSfx_of_free (k : AudioConsts) (s : AudioState) (i : Nat)
    (hk : k.SFX_COUNT ≤ 65537) (hi : i < k.SFX_COUNT - 2)
    (hfree : (s.sfxList i).scope = SCOPE_NONE) : findFreeSfx k s ≠ 65535 := by
  unfold findFreeSfx
  cases hfind : (List.range (k.SFX_COUNT - 2)).find?
      (fun i => decide ((s.sfxList i).scope = SCOPE_NONE)) with
  | none =>
    rw [List.find?_range_eq_none] at hfind
    have := hfind i hi
    simp [hfree] at this
  | some j =>
    have hj := List.mem_range.mp (List.mem_of_find?_eq_some hfind)
    dsimp only
    omega

/-- The registry after the first `n` iterations of the Stage clear of `LoadSfx`. -/
theorem clearStage_fold (k : AudioConsts) (s : AudioState) (n : Nat) :
    ((List.range n).foldl
      (fun t i =>
        if (t.sfxList i).scope = SCOPE_STAGE then
          setSfx (UnloadADPCM k t (i % 256)) i { SFXInfo.zero with scope := SCOPE_NONE }
        else t) s).sfxList =
    fun i => if i < n ∧ (s.sfxList i).scope = SCOPE_STAGE
      then { SFXInfo.zero with scope := SCOPE_NONE } else s.sfxList i := by
  induction n with
  | zero => funext i; simp
  | succ n ih =>
    rw [List.range_succ, List.foldl_append]
    simp only [List.foldl_cons, List.foldl_nil]
    generalize (List.range n).foldl
      (fun t i =>
        if (t.sfxList i).scope = SCOPE_STAGE then
          setSfx (UnloadADPCM k t (i % 256)) i { SFXInfo.zero with scope := SCOPE_NONE }
        else t) s = t at ih ⊢
    have hn : t.sfxList n = s.sfxList n := by rw [ih]; simp
    funext i
    by_cases hst : (t.sfxList n).scope = SCOPE_STAGE
    · rw [if_pos hst]
      unfold setSfx
      dsimp only
      rw [UnloadADPCM_sfxList]
      by_cases hin : i = n
      · subst hin
        rw [Function.update_same, if_pos ⟨Nat.lt_succ_self _, by rw [← hn]; exact hst⟩]
      · rw [Function.update_noteq hin, ih]
        dsimp only
        have : (i < n + 1 ∧ (s.sfxList i).scope = SCOPE_STAGE) ↔
            (i < n ∧ (s.sfxList i).scope = SCOPE_STAGE) := by
          constructor
          · intro h; exact ⟨by omega, h.2⟩
          · intro h; exact ⟨by omega, h.2⟩
        rw [if_congr this rfl rfl]
    · rw [if_neg hst, ih]
      dsimp only
      have : (i < n + 1 ∧ (s.sfxList i).scope = SCOPE_STAGE) ↔
          (i < n ∧ (s.sfxList i).scope = SCOPE_STAGE) := by
        constructor
        · intro h
          refine ⟨?_, h.2⟩
          rcases Nat.lt_succ_iff_lt_or_eq.mp h.1 with h1 | h1
          · exact h1
          · subst h1
            rw [hn] at hst
            exact absurd h.2 hst
        · intro h; exact ⟨by omega, h.2⟩
      rw [if_congr this rfl rfl]

/-- The registry after the Stage clear of `LoadSfx`: the Stage-scoped pool entries are
zeroed, the others are as before. -/
theorem clearStageEntries_sfxList (k : AudioConsts) (s : AudioState) :
    (clearStageEntries k s).sfxList =
    fun i => if i < k.SFX_COUNT - 2 ∧ (s.sfxList i).scope = SCOPE_STAGE
      then { SFXInfo.zero with scope := SCOPE_NONE } else s.sfxList i :=
  clearStage_fold k s (k.SFX_COUNT - 2)

/-- When the name is registered, or a pool slot is free, or the scope is Stage and a pool
slot holds a Stage-scoped entry, the name is registered after `LoadSfx`. -/
theorem LoadSfx_registers (k : AudioConsts) (s : AudioState) (f : String) (plays scope : Nat)
    (hscope : scope ≠ SCOPE_NONE) (hk : k.SFX_COUNT ≤ 65537)
    (h : sfxRegistered k s (k.GEN_HASH_MD5 f) = true ∨
      ∃ i, i < k.SFX_COUNT - 2 ∧
        ((s.sfxList i).scope = SCOPE_NONE ∨
          (scope = SCOPE_STAGE ∧ (s.sfxList i).scope = SCOPE_STAGE))) :
    sfxRegistered k (LoadSfx k s f plays scope) (k.GEN_HASH_MD5 f) = true := by
  unfold LoadSfx
  cases hreg : sfxRegistered k s (k.GEN_HASH_MD5 f) with
  | true => simpa using hreg
  | false =>
    simp only [Bool.false_eq_true, if_false]
    rw [hreg] at h
    rcases h with h | ⟨i, hi, hfree⟩
    · exact absurd h (by decide)
    · have hfree1 : ∃ j, j < k.SFX_COUNT - 2 ∧
          ((if scope = SCOPE_STAGE then clearStageEntries k s else s).sfxList j).scope
            = SCOPE_NONE := by
        by_cases hst : scope = SCOPE_STAGE
        · rw [if_pos hst, clearStageEntries_sfxList]
          refine ⟨i, hi, ?_⟩
          dsimp only
          rcases hfree with h | h
          · by_cases h2 : i < k.SFX_COUNT - 2 ∧ (s.sfxList i).scope = SCOPE_STAGE
            · rw [if_pos h2]
            · rw [if_neg h2]; exact h
          · rw [if_pos ⟨hi, h.2⟩]
        · rw [if_neg hst]
          rcases hfree with h | h
          · exact ⟨i, hi, h⟩
          · exact absurd h.1 hst
      obtain ⟨j, hj, hjfree⟩ := hfree1
      generalize (if scope = SCOPE_STAGE then clearStageEntries k s else s) = s1 at hjfree ⊢
      have hne := findFreeSfx_of_free k s1 j hk hj hjfree
      rw [if_pos hne]
      apply sfxRegistered_true_of k _ _ (findFreeSfx k s1) (findFreeSfx_lt k s1 hne)
      · unfold setSfx newSfxEntry
        dsimp only
        rw [Function.update_same]
        exact hscope
      · unfold setSfx newSfxEntry
        dsimp only
        rw [Function.update_same]
        exact hashMatch_copyHash_self _

/-- After `LoadSfx` the name is registered or the pool has no free slot. -/
theorem LoadSfx_registered_or_full (k : AudioConsts) (s : AudioState) (f : String)
    (plays scope : Nat) (hscope : scope ≠ SCOPE_NONE) :
    sfxRegistered k (LoadSfx k s f plays scope) (k.GEN_HASH_MD5 f) = true ∨
      findFreeSfx k (LoadSfx k s f plays scope) = 65535 := by
  unfold LoadSfx
  cases hreg : sfxRegistered k s (k.GEN_HASH_MD5 f) with
  | true => left; simpa using hreg
  | false =>
    simp only [Bool.false_eq_true, if_false]
    generalize (if scope = SCOPE_STAGE then clearStageEntries k s else s) = s1
    by_cases hne : findFreeSfx k s1 ≠ 65535
    · left
      rw [if_pos hne]
      apply sfxRegistered_true_of k _ _ (findFreeSfx k s1) (findFreeSfx_lt k s1 hne)
      · unfold setSfx newSfxEntry
        dsimp only
        rw [Function.update_same]
        exact hscope
      · unfold setSfx newSfxEntry
        dsimp only
        rw [Function.update_same]
        exact hashMatch_copyHash_self _
    · right
      rw [if_neg hne]
      exact not_not.mp hne

/-- Claim C3 (amended). `LoadSfx` is idempotent whenever the first call leaves the name
registered, or the second scope is not Stage: for every state, every name `f` and every
scope other than None such that `f` is already registered, or a pool slot is free, or the
scope is Stage and the pool holds a Stage-scoped entry (registry of at most 65537 slots,
the range of the `uint16` slot index), and also for every second scope other than Stage,
`LoadSfx(f, plays, scope)` followed by `LoadSfx(f, plays', scope')` leaves the state
exactly as it was after the first call; if no two live pool entries had the same hash
before, at most one live entry has the hash of `f` afterwards. -/
theorem LoadSfx_idempotent (k : AudioConsts) (s : AudioState) (f : String)
    (plays scope plays' scope' : Nat) (hscope : scope ≠ SCOPE_NONE)
    (h : (k.SFX_COUNT ≤ 65537 ∧
          (sfxRegistered k s (k.GEN_HASH_MD5 f) = true ∨
            ∃ i, i < k.SFX_COUNT - 2 ∧
              ((s.sfxList i).scope = SCOPE_NONE ∨
                (scope = SCOPE_STAGE ∧ (s.sfxList i).scope = SCOPE_STAGE)))) ∨
        scope' ≠ SCOPE_STAGE) :
    LoadSfx k (LoadSfx k s f plays scope) f plays' scope' = LoadSfx k s f plays scope ∧
    (NoDuplicateHash k s →
      liveHashCount k (LoadSfx k s f plays scope) (k.GEN_HASH_MD5 f) ≤ 1) := by
  refine ⟨?_, fun hs => liveHashCount_le_one k _ _ (LoadSfx_NoDuplicateHash k s f plays scope hs)⟩
  have hnoop : sfxRegistered k (LoadSfx k s f plays scope) (k.GEN_HASH_MD5 f) = true →
      LoadSfx k (LoadSfx k s f plays scope) f plays' scope' = LoadSfx k s f plays scope := by
    intro hreg
    generalize LoadSfx k s f plays scope = t at hreg ⊢
    unfold LoadSfx
    rw [if_pos hreg]
  rcases h with ⟨hk, h⟩ | h
  · exact hnoop (LoadSfx_registers k s f plays scope hscope hk h)
  · rcases LoadSfx_registered_or_full k s f plays scope hscope with hreg | hfull
    · exact hnoop hreg
    · generalize LoadSfx k s f plays scope = t at hfull ⊢
      unfold LoadSfx
      split
      · rfl
      · dsimp only
        rw [if_neg (by rw [hfull]; exact fun hc => hc rfl)]

/-- Witness of claim C3 (amended): `jump.wav` loaded twice into the initialised state. -/
theorem LoadSfx_idempotent_witness :
    LoadSfx demoConsts (LoadSfx demoConsts demoInit "jump.wav" 3 SCOPE_STAGE) "jump.wav" 5
        SCOPE_GLOBAL = LoadSfx demoConsts demoInit "jump.wav" 3 SCOPE_STAGE ∧
    (NoDuplicateHash demoConsts demoInit →
      liveHashCount demoConsts (LoadSfx demoConsts demoInit "jump.wav" 3 SCOPE_STAGE)
        (demoConsts.GEN_HASH_MD5 "jump.wav") ≤ 1) :=
  LoadSfx_idempotent demoConsts demoInit "jump.wav" 3 SCOPE_STAGE 5 SCOPE_GLOBAL (by decide)
    (Or.inl ⟨by decide, Or.inr ⟨0, by decide, Or.inl (by decide)⟩⟩)

/-- After `InitAudioChannels` on the zero-initialised statics every pool slot is free. -/
theorem InitAudioChannels_pool (k : AudioConsts) (mixAlloc circAlloc : Option (List Nat))
    (en : Bool) (i : Nat) (hi : i < k.SFX_COUNT - 2) :
    ((InitAudioChannels k mixAlloc circAlloc (bootState en)).sfxList i).scope = SCOPE_NONE := by
  unfold InitAudioChannels
  dsimp only [setSfx]
  have hch : ((List.range k.CHANNEL_COUNT).foldl
      (fun t i => setChannel t i { t.channels i with soundID := -1, state := CHANNEL_IDLE })
      (bootState en)).sfxList = (bootState en).sfxList := by
    apply @foldl_preserves Nat AudioState (fun t => t.sfxList = (bootState en).sfxList) _ _ _ _ rfl
    intro t c ht
    exact ht
  rw [Function.update_noteq (by omega), Function.update_noteq (by unfold STREAM_SLOT; omega), hch]
  rfl

/-- Claim C4 (amended). In every state reached from `InitAudioChannels` through `LoadSfx`,
`ClearStageSfx` and `ClearGlobalSfx` no two live entries of the effect pool carry the same
content hash; `LoadSfx` rejects a load whose hash is registered in a live pool slot, while
`LoadSfxToSlot` rejects a load exactly when its target slot is live and otherwise writes
the entry without comparing hashes. -/
theorem SfxReachable_NoDuplicateHash (k : AudioConsts) (s : AudioState)
    (h : SfxReachable k s) :
    NoDuplicateHash k s ∧
    (∀ f plays scope, sfxRegistered k s (k.GEN_HASH_MD5 f) = true →
      LoadSfx k s f plays scope = s) ∧
    (∀ f slot plays scope,
      ((s.sfxList slot).scope ≠ SCOPE_NONE → LoadSfxToSlot k s f slot plays scope = s) ∧
      ((s.sfxList slot).scope = SCOPE_NONE →
        (LoadSfxToSlot k s f slot plays scope).sfxList slot = newSfxEntry k f plays scope)) := by
  refine ⟨?_, ?_, ?_⟩
  · induction h with
    | init mixAlloc circAlloc en =>
      intro i j hi _ _ hli _
      exact absurd (InitAudioChannels_pool k mixAlloc circAlloc en i hi) hli
    | loadSfx s f plays scope _ ih => exact LoadSfx_NoDuplicateHash k s f plays scope ih
    | clearStage s _ ih => exact NoDuplicateHash_of_LiveSub k s _ (ClearStageSfx_LiveSub k s) ih
    | clearGlobal s _ ih => exact NoDuplicateHash_of_LiveSub k s _ (ClearGlobalSfx_LiveSub k s) ih
  · intro f plays scope hreg
    unfold LoadSfx
    rw [if_pos hreg]
  · intro f slot plays scope
    constructor
    · intro hlive
      unfold LoadSfxToSlot
      rw [if_pos hlive]
    · intro hfree
      unfold LoadSfxToSlot
      rw [if_neg (not_not.mpr hfree)]
      unfold setSfx
      dsimp only
      rw [Function.update_same]

/-- Witness of claim C4 (amended): initialisation, two loads of one name and a Stage
clear. -/
theorem SfxReachable_NoDuplicateHash_witness :
    NoDuplicateHash demoConsts
      (ClearStageSfx demoConsts
        (LoadSfx demoConsts
          (LoadSfx demoConsts (InitAudioChannels demoConsts none none (bootState true))
            "jump.wav" 3 SCOPE_GLOBAL)
          "jump.wav" 3 SCOPE_STAGE)) :=
  (SfxReachable_NoDuplicateHash demoConsts _
    (SfxReachable.clearStage _
      (SfxReachable.loadSfx _ "jump.wav" 3 SCOPE_STAGE
        (SfxReachable.loadSfx _ "jump.wav" 3 SCOPE_GLOBAL
          (SfxReachable.init none none true))))).1

/-- A map that commutes with every step of a loop commutes with the loop. -/
theorem foldl_commute {α β : Type} (W : β → β) (f : β → α → β)
    (h : ∀ b a, f (W b) a = W (f b a)) : ∀ (l : List α) (b : β),
    l.foldl f (W b) = W (l.foldl f b) := by
  intro l
  induction l with
  | nil => intro b; rfl
  | cons a l ih => intro b; simp only [List.foldl_cons]; rw [h, ih]

/-- `StopADPCM` does not read `maxConcurrentPlays`. -/
theorem StopADPCM_withMaxPlays (k : AudioConsts) (g : Nat → Nat) (s : AudioState) (c : Int) :
    StopADPCM k (withMaxPlays g s) c = withMaxPlays g (StopADPCM k s c) := by
  unfold StopADPCM
  split
  · rfl
  · split
    · rename_i h
      have : s.adpcm_channels c.toNat ≠ -1 := h
      rw [if_pos this]; rfl
    · rename_i h
      have : ¬ s.adpcm_channels c.toNat ≠ -1 := h
      rw [if_neg this]

/-- The stop loop of `PlaySfx` does not read `maxConcurrentPlays`. -/
theorem stopSfxChannels_withMaxPlays (k : AudioConsts) (g : Nat → Nat) (s : AudioState)
    (sfx : Nat) :
    stopSfxChannels k (withMaxPlays g s) sfx = withMaxPlays g (stopSfxChannels k s sfx) := by
  unfold stopSfxChannels
  apply foldl_commute
  intro t c
  have hc : (withMaxPlays g t).channels = t.channels := rfl
  rw [hc]
  split
  · dsimp only
    rw [StopADPCM_withMaxPlays]
    rfl
  · rfl

/-- `LoadADPCM` does not read `maxConcurrentPlays`. -/
theorem LoadADPCM_withMaxPlays (k : AudioConsts) (fs : String → Option (List Nat))
    (srv : Audsrv) (g : Nat → Nat) (s : AudioState) (name : String) (slot : Nat) :
    LoadADPCM k fs srv (withMaxPlays g s) name slot =
      ((LoadADPCM k fs srv s name slot).1, withMaxPlays g (LoadADPCM k fs srv s name slot).2) := by
  unfold LoadADPCM
  have h1 : (withMaxPlays g s).adpcm_loaded = s.adpcm_loaded := rfl
  have h2 : (withMaxPlays g s).adpcm_system_initialized = s.adpcm_system_initialized := rfl
  rw [h1, h2]
  split
  · rfl
  · split
    · rfl
    · split
      · rfl
      · dsimp only
        cases LoadFile fs name with
        | none => rfl
        | some info =>
          dsimp only
          split
          · rfl
          · split <;> rfl

/-- `PlayADPCM` does not read `maxConcurrentPlays`. -/
theorem PlayADPCM_withMaxPlays (k : AudioConsts) (srv : Audsrv) (g : Nat → Nat)
    (s : AudioState) (slot : Nat) :
    PlayADPCM k srv (withMaxPlays g s) slot =
      (PlayADPCM k srv s slot).map (fun r => (r.1, withMaxPlays g r.2)) := by
  unfold PlayADPCM
  have h1 : (withMaxPlays g s).adpcm_loaded = s.adpcm_loaded := rfl
  have h2 : (withMaxPlays g s).adpcm_channels = s.adpcm_channels := rfl
  have h3 : GetADPCMDuration k (withMaxPlays g s) slot = GetADPCMDuration k s slot := rfl
  rw [h1, h2, h3]
  split
  · rfl
  · cases (List.range k.CHANNEL_COUNT).find? (fun c => decide (s.adpcm_channels c = -1)) with
    | none => rfl
    | some channel =>
      dsimp only
      split
      · rfl
      · cases GetADPCMDuration k s slot with
        | none => rfl
        | some d => rfl

/-- Writing a registry entry commutes with replacing `maxConcurrentPlays`. -/
theorem setSfx_withMaxPlays (g : Nat → Nat) (s : AudioState) (i : Nat) (e : SFXInfo) :
    setSfx (withMaxPlays g s) i { e with maxConcurrentPlays := g i } =
      withMaxPlays g (setSfx s i e) := by
  unfold setSfx withMaxPlays
  dsimp only
  congr 1
  funext j
  by_cases hj : j = i
  · subst hj
    rw [Function.update_same, Function.update_same]
  · rw [Function.update_noteq hj, Function.update_noteq hj]

/-- `PlaySfx` does not read `maxConcurrentPlays`. -/
theorem PlaySfx_ignores_maxConcurrentPlays (k : AudioConsts)
    (fs : String → Option (List Nat)) (srv : Audsrv) (s : AudioState)
    (sfx loopPoint priority : Nat) (g : Nat → Nat) :
    PlaySfx k fs srv (withMaxPlays g s) sfx loopPoint priority =
      (PlaySfx k fs srv s sfx loopPoint priority).map (fun r => (r.1, withMaxPlays g r.2)) := by
  unfold PlaySfx
  have h0 : ∀ i, ((withMaxPlays g s).sfxList i).scope = (s.sfxList i).scope := fun _ => rfl
  rw [h0, stopSfxChannels_withMaxPlays]
  split
  · rfl
  · generalize stopSfxChannels k s sfx = s1
    have hl : IsADPCMLoaded k (withMaxPlays g s1) (sfx % 256) = IsADPCMLoaded k s1 (sfx % 256) :=
      rfl
    have hn : ((withMaxPlays g s1).sfxList sfx).fileName = (s1.sfxList sfx).fileName := rfl
    dsimp only
    rw [hl, hn, LoadADPCM_withMaxPlays]
    have hl2 : ∀ (l : Bool × AudioState),
        (if (!IsADPCMLoaded k s1 (sfx % 256)) = true then (l.1, withMaxPlays g l.2)
          else (true, withMaxPlays g s1)) =
        ((if (!IsADPCMLoaded k s1 (sfx % 256)) = true then l else (true, s1)).1,
          withMaxPlays g (if (!IsADPCMLoaded k s1 (sfx % 256)) = true then l else (true, s1)).2) := by
      intro l; split <;> rfl
    rw [hl2]
    generalize (if (!IsADPCMLoaded k s1 (sfx % 256)) = true then
      LoadADPCM k fs srv s1
        (String.mk (("Data/SoundFX/".toList ++ (s1.sfxList sfx).fileName.toList).take 127))
        (sfx % 256) else (true, s1)) = l
    dsimp only
    split
    · rfl
    · have hc : (withMaxPlays g l.2).channels = l.2.channels := rfl
      rw [hc]
      cases (List.range k.CHANNEL_COUNT).find?
          (fun c => decide ((l.2.channels c).state = CHANNEL_IDLE)) with
      | none => rfl
      | some channel =>
        dsimp only
        rw [PlayADPCM_withMaxPlays]
        cases PlayADPCM k srv l.2 (sfx % 256) with
        | none => rfl
        | some r =>
          obtain ⟨a, s3⟩ := r
          dsimp only [Option.map]
          split
          · congr 2
            exact setSfx_withMaxPlays g
              (setChannel s3 channel
                { s3.channels channel with
                  soundID := toInt16 sfx, state := CHANNEL_SFX, priority := priority % 256,
                  playIndex := (s3.sfxList sfx).playCount, loop := loopPoint,
                  volume := 1, pan := 0 })
              sfx
              { (s3.sfxList sfx) with playCount := (s3.sfxList sfx).playCount + 1 }
          · rfl


set_option maxRecDepth 1000000 in
/-- Claim C5 (amended). With all channels initially `Idle` and a codec backend that always
loads and plays, after `LoadSfx("jump.wav", 3, Stage)` each of four consecutive `PlaySfx`
calls on that effect returns channel index 0 and leaves exactly one channel in
`PlayingEffect` state for it (every call first stops the channels already playing the
effect); in general `PlaySfx` does not read `maxConcurrentPlays`: replacing that field in
any way changes neither the value returned nor the rest of the state that results. -/
theorem PlaySfx_no_concurrency_cap (k : AudioConsts) (fs : String → Option (List Nat))
    (srv : Audsrv) (s : AudioState) (sfx loopPoint priority : Nat) (g : Nat → Nat) :
    (jumpResult 0 = some 0 ∧ jumpResult 1 = some 0 ∧ jumpResult 2 = some 0 ∧
      jumpResult 3 = some 0 ∧
      (jumpState 1).map (fun s => playingCount demoConsts s 0) = some 1 ∧
      (jumpState 2).map (fun s => playingCount demoConsts s 0) = some 1 ∧
      (jumpState 3).map (fun s => playingCount demoConsts s 0) = some 1 ∧
      (jumpState 4).map (fun s => playingCount demoConsts s 0) = some 1) ∧
    PlaySfx k fs srv (withMaxPlays g s) sfx loopPoint priority =
      (PlaySfx k fs srv s sfx loopPoint priority).map (fun r => (r.1, withMaxPlays g r.2)) :=
  ⟨by decide, PlaySfx_ignores_maxConcurrentPlays k fs srv s sfx loopPoint priority g⟩

set_option maxRecDepth 1000000 in
/-- Claim C5 fails as stated: after `LoadSfx("jump.wav", 3, Stage)` and three `PlaySfx`
calls one channel, not three, is in `PlayingEffect` state for the effect, and the fourth
`PlaySfx` returns channel 0, not -1. -/
theorem PlaySfx_fourth_play_succeeds :
    (jumpState 3).map (fun s => playingCount demoConsts s 0) = some 1 ∧
    jumpResult 3 = some 0 := by
  decide

set_option maxRecDepth 1000000 in
/-- Claim C6, the code at the failing input: the effect is registered and loaded, a logical
channel is `Idle`, and the audio server has no free voice (`audsrv_ch_play_adpcm` fails, so
`PlayADPCM` returns -1); `PlaySfx` returns channel 0 although that channel is left `Idle`
with `soundID` -1. -/
theorem PlaySfx_returns_channel_on_failed_hardware_play :
    (playJump busyAudsrv jumpLoaded).map
        (fun r => (r.1, (r.2.channels 0).state, (r.2.channels 0).soundID)) =
      some (0, CHANNEL_IDLE, -1) := by
  decide

/-- A write to sample memory does not touch the stream descriptor. -/
theorem writeSamples_activeStream (p : SamplePtr) (f : List Nat → List Nat) (s : AudioState) :
    (writeSamples p f s).activeStream = s.activeStream := by
  cases p <;> rfl

/-- A write to sample memory does not touch the channel table. -/
theorem writeSamples_channels (p : SamplePtr) (f : List Nat → List Nat) (s : AudioState) :
    (writeSamples p f s).channels = s.channels := by
  cases p <;> rfl

/-- The read the refill sends to the file and what it does to the stream descriptor. -/
theorem streamRefill_spec (k : AudioConsts) (s : AudioState) (c filePos : Nat) :
    (streamRefill k s c filePos).2 =
        some { offset := filePos, length := refillLength k s.activeStream.dataSize filePos } ∧
    (streamRefill k s c filePos).1.activeStream.currentReadPos =
        u32 (s.activeStream.currentReadPos + refillLength k s.activeStream.dataSize filePos) ∧
    (streamRefill k s c filePos).1.activeStream.dataSize = s.activeStream.dataSize ∧
    (streamRefill k s c filePos).1.activeStream.loopPoint = s.activeStream.loopPoint ∧
    (streamRefill k s c filePos).1.activeStream.isActive = s.activeStream.isActive := by
  unfold streamRefill refillLength
  simp [apply_ite AudioState.activeStream, writeSamples_activeStream]

/-- The refill length is a multiple of four, at most the byte size of the mix buffer, and
stays inside the data region. -/
theorem refillLength_bounds (k : AudioConsts) (dataSize filePos : Nat)
    (hd : dataSize < 4294967296) (hf : filePos ≤ dataSize) :
    refillLength k dataSize filePos % 4 = 0 ∧
    refillLength k dataSize filePos ≤ k.MIX_BUFFER_SIZE * 2 ∧
    filePos + refillLength k dataSize filePos ≤ dataSize := by
  unfold refillLength
  have hu : u32 (dataSize + 4294967296 - filePos) = dataSize - filePos := by
    unfold u32; omega
  rw [hu]
  split <;> omega

/-- `UpdateStreamBuffer` keeps the invariant of the stream descriptor, and under it every
read it sends is aligned, bounded and inside the data region. -/
theorem UpdateStreamBuffer_spec (k : AudioConsts) (s : AudioState) (c : Nat)
    (hinv : StreamInv s.activeStream) :
    StreamInv (UpdateStreamBuffer k s c).1.activeStream ∧
    ∀ req, (UpdateStreamBuffer k s c).2 = some req →
      req.offset % 4 = 0 ∧ req.length % 4 = 0 ∧ req.length ≤ k.MIX_BUFFER_SIZE * 2 ∧
      req.offset + req.length ≤ s.activeStream.dataSize ∧
      (UpdateStreamBuffer k s c).1.activeStream.currentReadPos = req.offset + req.length := by
  unfold UpdateStreamBuffer
  dsimp only
  split
  · refine ⟨by rw [writeSamples_activeStream]; exact hinv, fun req h => absurd h (by simp)⟩
  · rename_i hact
    simp only [Bool.or_eq_true, Bool.not_eq_true', not_or, Bool.not_eq_false] at hact
    obtain ⟨hd, hl, hpos⟩ := hinv hact.1
    have key : ∀ (t : AudioState) (filePos : Nat),
        t.activeStream.dataSize = s.activeStream.dataSize →
        t.activeStream.loopPoint = s.activeStream.loopPoint →
        t.activeStream.currentReadPos = filePos → filePos ≤ s.activeStream.dataSize →
        filePos % 4 = 0 →
        StreamInv (streamRefill k t c filePos).1.activeStream ∧
        ∀ req, (streamRefill k t c filePos).2 = some req →
          req.offset % 4 = 0 ∧ req.length % 4 = 0 ∧ req.length ≤ k.MIX_BUFFER_SIZE * 2 ∧
          req.offset + req.length ≤ s.activeStream.dataSize ∧
          (streamRefill k t c filePos).1.activeStream.currentReadPos =
            req.offset + req.length := by
      intro t filePos htd htl htp hle hal
      obtain ⟨hreq, hcrp, hds, hlp, _⟩ := streamRefill_spec k t c filePos
      obtain ⟨b1, b2, b3⟩ := refillLength_bounds k t.activeStream.dataSize filePos
        (by rw [htd]; exact hd) (by rw [htd]; exact hle)
      have hcrp' : (streamRefill k t c filePos).1.activeStream.currentReadPos =
          filePos + refillLength k t.activeStream.dataSize filePos := by
        rw [hcrp, htp]; unfold u32; rw [htd] at b3 ⊢; omega
      constructor
      · intro _
        rw [hds, hlp, hcrp', htd, htl]
        refine ⟨hd, hl, fun _ => ?_⟩
        rw [htd] at b1; omega
      · intro req hr
        rw [hreq] at hr
        simp only [Option.some.injEq] at hr
        subst hr
        dsimp only
        exact ⟨hal, b1, b2, le_trans b3 (le_of_eq htd), hcrp'⟩
    split
    · rename_i hge
      split
      · -- loop branch
        have hal : s.activeStream.loopPoint / 4 * 4 ≤ s.activeStream.dataSize := by omega
        split
        · apply key
          · rw [writeSamples_activeStream]
          · rw [writeSamples_activeStream]
          · rw [writeSamples_activeStream]
          · exact hal
          · omega
        · apply key
          · rfl
          · rfl
          · rfl
          · exact hal
          · omega
      · refine ⟨fun h => absurd h (by simp [setChannel]), fun req h => absurd h (by simp)⟩
    · rename_i hlt
      exact key s _ rfl rfl rfl (by omega) (hpos (by omega))

/-- A little-endian value of `n` bytes is below `256 ^ n`. -/
theorem leDecode_lt (l : List Nat) : leDecode l < 256 ^ l.length := by
  induction l with
  | nil => simp [leDecode]
  | cons b bs ih =>
    simp only [leDecode, List.length_cons, pow_succ]
    have := Nat.mod_lt b (by norm_num : 256 > 0)
    omega

/-- A little-endian value of at most four bytes is a 32-bit value. -/
theorem leDecode_lt_u32 (l : List Nat) (h : l.length ≤ 4) : leDecode l < 4294967296 := by
  have h1 := leDecode_lt l
  have h2 : 256 ^ l.length ≤ 256 ^ 4 := Nat.pow_le_pow_right (by norm_num) h
  have h3 : (256 : Nat) ^ 4 = 4294967296 := by norm_num
  omega

/-- An iteration of the chunk loop keeps the data size a 32-bit value. -/
theorem scanStep_dataSize (st st' : ScanState) (hd : st.dataSize < 4294967296)
    (h : scanStep st = some st') : st'.dataSize < 4294967296 := by
  unfold scanStep at h
  dsimp only at h
  by_cases h8 : (ReadBytes st.info 8).1.length ≠ 8
  · rw [if_pos h8] at h
    exact absurd h (by simp)
  · rw [if_neg h8] at h
    by_cases hf : (ReadBytes st.info 8).1.take 4 = tag "fmt "
    · rw [if_pos hf] at h
      simp only [Option.some.injEq] at h
      rw [← h]; exact hd
    · rw [if_neg hf] at h
      by_cases hdat : (ReadBytes st.info 8).1.take 4 = tag "data"
      · rw [if_pos hdat] at h
        simp only [Option.some.injEq] at h
        rw [← h]
        dsimp only
        apply leDecode_lt_u32
        simp only [List.length_drop]
        have : (ReadBytes st.info 8).1.length = 8 := not_not.mp h8
        omega
      · rw [if_neg hdat] at h
        simp only [Option.some.injEq] at h
        rw [← h]; exact hd

/-- The chunk loop keeps the data size a 32-bit value. -/
theorem scanChunks_dataSize (fuel : Nat) : ∀ (st : ScanState), st.dataSize < 4294967296 →
    (scanChunks fuel st).dataSize < 4294967296 := by
  induction fuel with
  | zero => intro st hd; exact hd
  | succ fuel ih =>
    intro st hd
    unfold scanChunks
    split
    · cases hstep : scanStep st with
      | none => exact hd
      | some st' => exact ih st' (scanStep_dataSize st st' hd hstep)
    · exact hd

/-- After `LoadStream` with an aligned start offset the stream descriptor satisfies the
invariant. -/
theorem LoadStream_StreamInv (k : AudioConsts) (fs : String → Option (List Nat))
    (s : AudioState) (c : Nat) (hstart : s.streamStartPos % 4 = 0) :
    StreamInv (LoadStream k fs s c).activeStream := by
  unfold LoadStream
  cases hact : s.activeStream.isActive <;>
  · simp only [Bool.false_eq_true, if_false, if_true]
    cases hfile : LoadFile fs s.streamFilePath with
    | none => intro h; simp [setChannel, hact] at h
    | some info =>
      dsimp only
      split
      · intro h; simp [setChannel, rejectStream, hact] at h
      · split
        · intro h; simp [setChannel, rejectStream, hact] at h
        · have hds := scanChunks_dataSize (ReadBytes info 12).2.fileSize
            { info := (ReadBytes info 12).2, fmt := List.replicate 16 0, dataSize := 0,
              dataOffset := 0, foundFmt := false, foundData := false } (by norm_num)
          generalize scanChunks (ReadBytes info 12).2.fileSize
            { info := (ReadBytes info 12).2, fmt := List.replicate 16 0, dataSize := 0,
              dataOffset := 0, foundFmt := false, foundData := false } = st at hds ⊢
          apply (UpdateStreamBuffer_spec k _ c _).1
          intro _
          dsimp only
          refine ⟨hds, ?_, ?_⟩
          · split <;> omega
          · unfold u32 STREAM_BUFFER_SIZE
            split <;> split <;> omega

/-- Every reachable stream state satisfies the invariant. -/
theorem StreamReachable_StreamInv (k : AudioConsts) (s : AudioState)
    (h : StreamReachable k s) : StreamInv s.activeStream := by
  induction h with
  | play fs s filename slot startPos loopPoint hen hsel =>
    rw [PlayStream_to_slot k fs s filename slot startPos loopPoint hen hsel]
    apply LoadStream_StreamInv
    unfold prepareStream
    dsimp only
    omega
  | update s c _ ih => exact (UpdateStreamBuffer_spec k s c ih).1

/-- Claim C10. In every stream state reached after a `PlayStream` call that ran
`LoadStream` (any file, any requested start and loop offsets) and any number of later
refills, every read `UpdateStreamBuffer` sends to the file starts at a data-relative offset
that is a multiple of 4, has a length that is a multiple of 4 and at most the byte size of
the mix buffer, ends at or before the end of the data region, and leaves the read cursor
at the offset plus that length. -/
theorem UpdateStreamBuffer_reads_aligned (k : AudioConsts) (s : AudioState) (c : Nat)
    (req : ReadRequest) (h : StreamReachable k s)
    (hreq : (UpdateStreamBuffer k s c).2 = some req) :
    req.offset % 4 = 0 ∧ req.length % 4 = 0 ∧ req.length ≤ k.MIX_BUFFER_SIZE * 2 ∧
    req.offset + req.length ≤ s.activeStream.dataSize ∧
    (UpdateStreamBuffer k s c).1.activeStream.currentReadPos = req.offset + req.length :=
  (UpdateStreamBuffer_spec k s c (StreamReachable_StreamInv k s h)).2 req hreq

set_option maxRecDepth 1000000 in
/-- Witness of claim C10: the refill of the looping stream `loopingStream` reads the 92
bytes from the aligned loop offset 8 to the end of the 100 bytes of data. -/
theorem UpdateStreamBuffer_reads_aligned_witness :
    (8 : Nat) % 4 = 0 ∧ (92 : Nat) % 4 = 0 ∧ 92 ≤ demoConsts.MIX_BUFFER_SIZE * 2 ∧
    8 + 92 ≤ loopingStream.activeStream.dataSize ∧
    (UpdateStreamBuffer demoConsts loopingStream 0).1.activeStream.currentReadPos = 8 + 92 :=
  UpdateStreamBuffer_reads_aligned demoConsts loopingStream 0 { offset := 8, length := 92 }
    (StreamReachable.play (fun _ => some shortWav) demoInit "theme.ogg" 0 0 8 (by decide)
      (by decide))
    (by decide)

/-- `ReadBytes` keeps the recorded size and advances the cursor by the bytes read. -/
theorem ReadBytes_cursor (info : FileInfo) (n : Nat) :
    (ReadBytes info n).2.fileSize = info.fileSize ∧
    (ReadBytes info n).2.readPos = info.readPos + (ReadBytes info n).1.length := ⟨rfl, rfl⟩

/-- The skip loop keeps the recorded size and never moves the cursor back. -/
theorem skipLoop_cursor (fuel : Nat) : ∀ (info : FileInfo) (n : Nat),
    (skipLoop fuel info n).fileSize = info.fileSize ∧
    info.readPos ≤ (skipLoop fuel info n).readPos := by
  induction fuel with
  | zero => intro info n; exact ⟨rfl, le_refl _⟩
  | succ fuel ih =>
    intro info n
    unfold skipLoop
    split
    · dsimp only
      obtain ⟨h1, h2⟩ := ih (ReadBytes info (if n > 256 then 256 else n)).2 (n - if n > 256 then 256 else n)
      obtain ⟨h3, h4⟩ := ReadBytes_cursor info (if n > 256 then 256 else n)
      exact ⟨h1.trans h3, by omega⟩
    · exact ⟨rfl, le_refl _⟩

/-- The bound of the skip loop is sufficient: `n` iterations are enough to skip `n` bytes,
and a larger bound gives the same result. -/
theorem skipLoop_stable (fuel : Nat) : ∀ (info : FileInfo) (n : Nat), n ≤ fuel →
    skipLoop (fuel + 1) info n = skipLoop fuel info n := by
  induction fuel with
  | zero =>
    intro info n hn
    have : n = 0 := by omega
    subst this
    simp [skipLoop]
  | succ fuel ih =>
    intro info n hn
    rw [skipLoop]
    conv => rhs; rw [skipLoop]
    split
    · dsimp only
      apply ih
      split <;> omega
    · rfl

/-- An iteration of the chunk loop that does not break advances the cursor by at least the
eight bytes of the chunk header. -/
theorem scanStep_cursor (st st' : ScanState) (h : scanStep st = some st') :
    st'.info.fileSize = st.info.fileSize ∧ st.info.readPos + 8 ≤ st'.info.readPos := by
  unfold scanStep at h
  dsimp only at h
  obtain ⟨r1, r2⟩ := ReadBytes_cursor st.info 8
  by_cases h8 : (ReadBytes st.info 8).1.length ≠ 8
  · rw [if_pos h8] at h
    exact absurd h (by simp)
  · rw [if_neg h8] at h
    have h8' : (ReadBytes st.info 8).1.length = 8 := not_not.mp h8
    by_cases hf : (ReadBytes st.info 8).1.take 4 = tag "fmt "
    · rw [if_pos hf] at h
      simp only [Option.some.injEq] at h
      rw [← h]
      dsimp only
      obtain ⟨k1, k2⟩ := skipLoop_cursor
        (u32 (leDecode ((ReadBytes st.info 8).1.drop 4) + 4294967296 - 16))
        (ReadBytes (ReadBytes st.info 8).2 16).2
        (u32 (leDecode ((ReadBytes st.info 8).1.drop 4) + 4294967296 - 16))
      obtain ⟨f1, f2⟩ := ReadBytes_cursor (ReadBytes st.info 8).2 16
      exact ⟨k1.trans (f1.trans r1), by omega⟩
    · rw [if_neg hf] at h
      by_cases hdat : (ReadBytes st.info 8).1.take 4 = tag "data"
      · rw [if_pos hdat] at h
        simp only [Option.some.injEq] at h
        rw [← h]
        dsimp only
        exact ⟨r1, by omega⟩
      · rw [if_neg hdat] at h
        simp only [Option.some.injEq] at h
        rw [← h]
        dsimp only
        obtain ⟨k1, k2⟩ := skipLoop_cursor (leDecode ((ReadBytes st.info 8).1.drop 4))
          (ReadBytes st.info 8).2 (leDecode ((ReadBytes st.info 8).1.drop 4))
        exact ⟨k1.trans r1, by omega⟩

/-- Once the bound of the chunk loop covers the bytes between the cursor and the recorded
size, one more iteration changes nothing. -/
theorem scanChunks_stable (fuel : Nat) : ∀ (st : ScanState),
    st.info.fileSize - st.info.readPos ≤ fuel →
    scanChunks (fuel + 1) st = scanChunks fuel st := by
  induction fuel with
  | zero =>
    intro st hst
    unfold scanChunks
    have : ¬ st.info.readPos < st.info.fileSize := by omega
    simp [this]
  | succ fuel ih =>
    intro st hst
    rw [scanChunks]
    conv => rhs; rw [scanChunks]
    split
    · rename_i hcond
      simp only [Bool.and_eq_true, Bool.not_eq_true', decide_eq_true_eq] at hcond
      cases hstep : scanStep st with
      | none => rfl
      | some st' =>
        dsimp only
        obtain ⟨h1, h2⟩ := scanStep_cursor st st' hstep
        apply ih
        omega
    · rfl

/-- The bound `fileSize` that `LoadStream` gives the chunk loop is sufficient: the loop has
stopped by then, and any larger bound gives the same result. -/
theorem scanChunks_enough_fuel (st : ScanState) (extra : Nat) :
    scanChunks (st.info.fileSize + extra) st = scanChunks st.info.fileSize st := by
  induction extra with
  | zero => rfl
  | succ extra ih =>
    rw [← Nat.add_assoc, scanChunks_stable _ st (by omega), ih]

set_option maxRecDepth 1000000 in
/-- Claim C13, the code at the failing input: after two `PlayStream` calls without an
explicit slot (both files load), the first call took channel 0 and the second channel 1,
and both channels are in `PlayingStream` state on the one active stream. -/
theorem PlayStream_two_stream_channels :
    (twoStreams.channels 0).state = CHANNEL_STREAM ∧
    (twoStreams.channels 1).state = CHANNEL_STREAM ∧
    twoStreams.activeStream.isActive = true := by
  decide

set_option maxRecDepth 1000000 in
/-- Claim C14, the code at the failing input: with a stream on channel 0, `PlaySfx` takes
the logical channel 1 (the first `Idle` one) while `PlayADPCM` stores the handle and starts
the timer at the hardware index 0 (the first free one): channel 1 is in `PlayingEffect`
state with no handle and no timer, and the handle and the active timer sit on channel 0,
which plays the stream. -/
theorem PlaySfx_hardware_index_differs :
    streamThenJump.map Prod.fst = some 1 ∧
    streamThenJump.map (fun r => (r.2.channels 1).state) = some CHANNEL_SFX ∧
    streamThenJump.map (fun r => r.2.adpcm_channels 1) = some (-1) ∧
    streamThenJump.map (fun r => (r.2.channel_timers 1).active) = some false ∧
    streamThenJump.map (fun r => (r.2.channels 0).state) = some CHANNEL_STREAM ∧
    streamThenJump.map (fun r => r.2.adpcm_channels 0) = some 3 ∧
    streamThenJump.map (fun r => (r.2.channel_timers 0).active) = some true := by
  decide

set_option maxRecDepth 1000000 in
/-- Claim C16, the code at the failing input: channel 0 plays the Stage-scoped effect of
slot 0 (`jump.adp`); `LoadSfx("ring.wav", 1, Stage)` zeroes that entry and writes the new
effect into slot 0, and channel 0 is still in `PlayingEffect` state with `soundID` 0. -/
theorem LoadSfx_reuses_playing_entry :
    (jumpLoaded.sfxList 0).fileName = "jump.adp" ∧
    jumpThenRing.map (fun s =>
      ((s.channels 0).state, (s.channels 0).soundID, (s.sfxList 0).fileName,
        (s.sfxList 0).maxConcurrentPlays)) =
      some (CHANNEL_SFX, 0, "ring.adp", 1) := by
  decide

set_option maxRecDepth 1000000 in
/-- Claim C20, the code at the failing input: a container with the magic `APCM` and pitch 0
loads, the sample rate `(pitch * 22050) / 4096` is 0, and the duration estimate divides by
it: `GetADPCMDuration`, and with it `PlayADPCM` and `PlaySfx`, has no result. -/
theorem GetADPCMDuration_divides_by_zero :
    (LoadADPCM demoConsts (fun _ => some zeroPitchAdpcm) demoAudsrv jumpLoaded "x" 0).1 = true ∧
    GetADPCMDuration demoConsts
      (LoadADPCM demoConsts (fun _ => some zeroPitchAdpcm) demoAudsrv jumpLoaded "x" 0).2 0
      = none ∧
    (PlaySfx demoConsts (fun _ => some zeroPitchAdpcm) demoAudsrv jumpLoaded 0 0 0).isNone
      = true := by
  decide

/-- The refill does not touch the channel table. -/
theorem streamRefill_channels (k : AudioConsts) (s : AudioState) (c filePos : Nat) :
    (streamRefill k s c filePos).1.channels = s.channels := by
  unfold streamRefill
  simp [apply_ite AudioState.channels, writeSamples_channels]

/-- Claim C19. When `UpdateStreamBuffer` is called for an active stream (circular buffer
allocated) whose read cursor is at or past the end of the data region: if the channel
loops, in a reachable stream state, the refill reads from the loop offset rounded down to
a multiple of 4, the read cursor afterwards is that aligned offset plus the length read,
the stream stays active and the channel keeps its state; if the channel does not loop, no
read is sent, the `MIX_BUFFER_SIZE * 2` bytes of the mix buffer the channel points at are
zero-filled, `activeStream.isActive` becomes false, the channel becomes `Idle` and the read
cursor is unchanged. -/
theorem UpdateStreamBuffer_end_of_data (k : AudioConsts) (s : AudioState) (c : Nat)
    (hact : s.activeStream.isActive = true) (hcirc : s.circularStreamBuffer.isSome = true)
    (hend : s.activeStream.dataSize ≤ s.activeStream.currentReadPos) :
    ((s.channels c).loop ≠ 0 → StreamReachable k s →
      (UpdateStreamBuffer k s c).2 =
        some { offset := s.activeStream.loopPoint / 4 * 4,
               length := refillLength k s.activeStream.dataSize
                 (s.activeStream.loopPoint / 4 * 4) } ∧
      (UpdateStreamBuffer k s c).1.activeStream.currentReadPos =
        s.activeStream.loopPoint / 4 * 4 +
          refillLength k s.activeStream.dataSize (s.activeStream.loopPoint / 4 * 4) ∧
      (UpdateStreamBuffer k s c).1.activeStream.isActive = true ∧
      ((UpdateStreamBuffer k s c).1.channels c).state = (s.channels c).state) ∧
    ((s.channels c).loop = 0 →
      (UpdateStreamBuffer k s c).2 = none ∧
      ((s.channels c).samplePtr = SamplePtr.mixBuffer →
        (UpdateStreamBuffer k s c).1.mixBuffer =
          List.replicate (k.MIX_BUFFER_SIZE * 2) 0 ++ s.mixBuffer.drop (k.MIX_BUFFER_SIZE * 2)) ∧
      (UpdateStreamBuffer k s c).1.activeStream.isActive = false ∧
      ((UpdateStreamBuffer k s c).1.channels c).state = CHANNEL_IDLE ∧
      (UpdateStreamBuffer k s c).1.activeStream.currentReadPos =
        s.activeStream.currentReadPos) := by
  have hcirc' : s.circularStreamBuffer.isNone = false := by
    cases h : s.circularStreamBuffer with
    | none => rw [h] at hcirc; exact absurd hcirc (by decide)
    | some b => rfl
  constructor
  · intro hloop hreach
    obtain ⟨hd, hl, _⟩ := StreamReachable_StreamInv k s hreach hact
    unfold UpdateStreamBuffer
    simp only [hact, hcirc', Bool.not_true, Bool.or_self, Bool.false_eq_true, if_false,
      ge_iff_le, hend, if_true, hloop, ne_eq, not_false_eq_true]
    have hkey : ∀ t : AudioState, t.channels = s.channels →
        (t.activeStream.dataSize = s.activeStream.dataSize ∧
          t.activeStream.currentReadPos = s.activeStream.loopPoint / 4 * 4 ∧
          t.activeStream.isActive = true) →
        (streamRefill k t c (s.activeStream.loopPoint / 4 * 4)).2 =
          some { offset := s.activeStream.loopPoint / 4 * 4,
                 length := refillLength k s.activeStream.dataSize
                   (s.activeStream.loopPoint / 4 * 4) } ∧
        (streamRefill k t c (s.activeStream.loopPoint / 4 * 4)).1.activeStream.currentReadPos =
          s.activeStream.loopPoint / 4 * 4 +
            refillLength k s.activeStream.dataSize (s.activeStream.loopPoint / 4 * 4) ∧
        (streamRefill k t c (s.activeStream.loopPoint / 4 * 4)).1.activeStream.isActive = true ∧
        ((streamRefill k t c (s.activeStream.loopPoint / 4 * 4)).1.channels c).state =
          (s.channels c).state := by
      intro t htc hta
      obtain ⟨h1, h2, _, _, h5⟩ := streamRefill_spec k t c (s.activeStream.loopPoint / 4 * 4)
      rw [hta.1] at h1 h2
      rw [hta.2.1] at h2
      rw [hta.2.2] at h5
      obtain ⟨_, _, b3⟩ := refillLength_bounds k s.activeStream.dataSize
        (s.activeStream.loopPoint / 4 * 4) hd (by omega)
      refine ⟨h1, ?_, h5, by rw [streamRefill_channels, htc]⟩
      rw [h2]; unfold u32; omega
    split
    · exact hkey _ (writeSamples_channels _ _ _)
        (by rw [writeSamples_activeStream]; exact ⟨rfl, rfl, rfl⟩)
    · exact hkey _ rfl ⟨rfl, rfl, rfl⟩
  · intro hloop
    unfold UpdateStreamBuffer
    simp only [hact, hcirc', Bool.not_true, Bool.or_self, Bool.false_eq_true, if_false,
      ge_iff_le, hend, if_true, hloop, ne_eq, not_true_eq_false]
    refine ⟨trivial, ?_, trivial, ?_, ?_⟩
    · intro hptr
      simp [setChannel, hptr, writeSamples, zeroFill, overlay]
    · simp [setChannel]
    · simp [setChannel, writeSamples_activeStream]

set_option maxRecDepth 1000000 in
/-- Witness of claim C19: the looping stream `loopingStream` on its channel 0, and the
stream channel 0 without loop of `mixedStreams`. -/
theorem UpdateStreamBuffer_end_of_data_witness :
    ((UpdateStreamBuffer demoConsts loopingStream 0).2 =
        some { offset := loopingStream.activeStream.loopPoint / 4 * 4,
               length := refillLength demoConsts loopingStream.activeStream.dataSize
                 (loopingStream.activeStream.loopPoint / 4 * 4) } ∧
      (UpdateStreamBuffer demoConsts loopingStream 0).1.activeStream.currentReadPos =
        loopingStream.activeStream.loopPoint / 4 * 4 +
          refillLength demoConsts loopingStream.activeStream.dataSize
            (loopingStream.activeStream.loopPoint / 4 * 4) ∧
      (UpdateStreamBuffer demoConsts loopingStream 0).1.activeStream.isActive = true ∧
      ((UpdateStreamBuffer demoConsts loopingStream 0).1.channels 0).state =
        (loopingStream.channels 0).state) ∧
    ((UpdateStreamBuffer demoConsts mixedStreams 0).2 = none ∧
      ((mixedStreams.channels 0).samplePtr = SamplePtr.mixBuffer →
        (UpdateStreamBuffer demoConsts mixedStreams 0).1.mixBuffer =
          List.replicate (demoConsts.MIX_BUFFER_SIZE * 2) 0 ++
            mixedStreams.mixBuffer.drop (demoConsts.MIX_BUFFER_SIZE * 2)) ∧
      (UpdateStreamBuffer demoConsts mixedStreams 0).1.activeStream.isActive = false ∧
      ((UpdateStreamBuffer demoConsts mixedStreams 0).1.channels 0).state = CHANNEL_IDLE ∧
      (UpdateStreamBuffer demoConsts mixedStreams 0).1.activeStream.currentReadPos =
        mixedStreams.activeStream.currentReadPos) :=
  ⟨(UpdateStreamBuffer_end_of_data demoConsts loopingStream 0 (by decide) (by decide)
      (by decide)).1 (by decide)
      (StreamReachable.play (fun _ => some shortWav) demoInit "theme.ogg" 0 0 8 (by decide)
        (by decide)),
   (UpdateStreamBuffer_end_of_data demoConsts mixedStreams 0 (by decide) (by decide)
      (by decide)).2 (by decide)⟩

/-- A loop over the indices below `n` whose step `i` rewrites entry `i` of a table from the
value of that entry alone rewrites every entry below `n` that way, and no other. -/
theorem foldl_range_pointwise {σ α : Type} (get : σ → Nat → α) (step : σ → Nat → σ)
    (g : Nat → α → α)
    (hother : ∀ t i j, j ≠ i → get (step t i) j = get t j)
    (hsame : ∀ t i, get (step t i) i = g i (get t i)) (s : σ) (n : Nat) :
    get ((List.range n).foldl step s) = fun j => if j < n then g j (get s j) else get s j := by
  induction n with
  | zero => funext j; simp
  | succ n ih =>
    rw [List.range_succ, List.foldl_append]
    simp only [List.foldl_cons, List.foldl_nil]
    funext j
    by_cases hj : j = n
    · subst hj
      rw [hsame, ih]
      simp
    · rw [hother _ _ _ hj, ih]
      dsimp only
      by_cases h1 : j < n
      · rw [if_pos h1, if_pos (by omega)]
      · rw [if_neg h1, if_neg (by omega)]

/-- `StopADPCM` does not touch the channel table. -/
theorem StopADPCM_channels (k : AudioConsts) (s : AudioState) (c : Int) :
    (StopADPCM k s c).channels = s.channels := by
  unfold StopADPCM
  split
  · rfl
  · split <;> rfl

/-- After `StopADPCM(c)` on a channel index the handle of index `c` is -1. -/
theorem StopADPCM_released (k : AudioConsts) (s : AudioState) (c : Nat)
    (hc : c < k.CHANNEL_COUNT) : (StopADPCM k s (c : Int)).adpcm_channels c = -1 := by
  unfold StopADPCM
  rw [if_neg (by omega)]
  simp only [Int.toNat_ofNat]
  split
  · simp
  · rename_i h
    exact not_not.mp h

/-- `StopADPCM` leaves a released handle released. -/
theorem StopADPCM_keeps_released (k : AudioConsts) (s : AudioState) (c : Int) (j : Nat)
    (hj : s.adpcm_channels j = -1) : (StopADPCM k s c).adpcm_channels j = -1 := by
  unfold StopADPCM
  split
  · exact hj
  · split
    · dsimp only
      by_cases h : j = c.toNat
      · rw [h, Function.update_same]
      · rw [Function.update_noteq h]; exact hj
    · exact hj

/-- `UnloadADPCM` does not touch the channel table. -/
theorem UnloadADPCM_channels (k : AudioConsts) (s : AudioState) (slot : Nat) :
    (UnloadADPCM k s slot).channels = s.channels := by
  unfold UnloadADPCM
  split
  · rfl
  · split
    · rfl
    · dsimp only
      apply @foldl_preserves Nat AudioState (fun t => t.channels = s.channels) _ _ _ s rfl
      intro t c ht
      dsimp only
      split
      · rw [StopADPCM_channels]; exact ht
      · exact ht

/-- `UnloadADPCM` leaves a released handle released. -/
theorem UnloadADPCM_keeps_released (k : AudioConsts) (s : AudioState) (slot j : Nat)
    (hj : s.adpcm_channels j = -1) : (UnloadADPCM k s slot).adpcm_channels j = -1 := by
  unfold UnloadADPCM
  split
  · exact hj
  · split
    · exact hj
    · dsimp only
      apply @foldl_preserves Nat AudioState (fun t => t.adpcm_channels j = -1) _ _ _ s hj
      intro t c ht
      dsimp only
      split
      · exact StopADPCM_keeps_released k t _ j ht
      · exact ht

/-- The handle of index `c` after `StopADPCM(c)`. -/
theorem StopADPCM_handle_same (k : AudioConsts) (s : AudioState) (c : Nat) :
    (StopADPCM k s (c : Int)).adpcm_channels c =
      if c < k.CHANNEL_COUNT then -1 else s.adpcm_channels c := by
  by_cases hc : c < k.CHANNEL_COUNT
  · rw [if_pos hc]; exact StopADPCM_released k s c hc
  · rw [if_neg hc]
    unfold StopADPCM
    rw [if_pos (by right; omega)]

/-- `StopADPCM(c)` leaves the handles of the other indices. -/
theorem StopADPCM_handle_other (k : AudioConsts) (s : AudioState) (c j : Nat) (hj : j ≠ c) :
    (StopADPCM k s (c : Int)).adpcm_channels j = s.adpcm_channels j := by
  unfold StopADPCM
  split
  · rfl
  · split
    · dsimp only
      rw [Int.toNat_ofNat, Function.update_noteq hj]
    · rfl

/-- The channel table and the handle table after the channel loop of the scope clears:
every effect channel below `CHANNEL_COUNT` is `Idle` with `soundID` -1 and handle -1, every
other entry is as before. -/
theorem stopEffectChannels_spec (k : AudioConsts) (s : AudioState) :
    (fun c => ((stopEffectChannels k s).channels c, (stopEffectChannels k s).adpcm_channels c)) =
    fun c =>
      if c < k.CHANNEL_COUNT then
        (if effectState (s.channels c)
          then ({ s.channels c with soundID := -1, state := CHANNEL_IDLE }, -1)
          else (s.channels c, s.adpcm_channels c))
      else (s.channels c, s.adpcm_channels c) := by
  unfold stopEffectChannels
  have h := foldl_range_pointwise
    (fun (t : AudioState) c => (t.channels c, t.adpcm_channels c))
    (fun t (c : Nat) =>
      if (t.channels c).state = CHANNEL_SFX ∨
          (t.channels c).state = CHANNEL_SFX ||| CHANNEL_PAUSED then
        let t1 := StopADPCM k t (c : Int)
        setChannel t1 c { t1.channels c with soundID := -1, state := CHANNEL_IDLE }
      else t)
    (fun c (p : ChannelInfo × Int) => if effectState p.1
      then ({ p.1 with soundID := -1, state := CHANNEL_IDLE },
            if c < k.CHANNEL_COUNT then -1 else p.2)
      else p)
    (by
      intro t i j hji
      dsimp only
      split
      · dsimp only [setChannel]
        rw [Function.update_noteq hji, StopADPCM_channels, StopADPCM_handle_other k t i j hji]
      · rfl)
    (by
      intro t i
      dsimp only
      unfold effectState
      split
      · dsimp only [setChannel]
        rw [Function.update_same, StopADPCM_channels, StopADPCM_handle_same]
      · rfl)
    s k.CHANNEL_COUNT
  rw [h]
  funext c
  dsimp only
  by_cases hc : c < k.CHANNEL_COUNT
  · simp only [hc, if_true]
  · simp only [hc, if_false]

/-- The registry after `ClearStageSfx`: the pool entries of scope Stage or above are zeroed,
every other entry is as before. -/
theorem ClearStageSfx_sfxList (k : AudioConsts) (s : AudioState) :
    (ClearStageSfx k s).sfxList = fun i =>
      if i < k.SFX_COUNT - 2 then
        (if (s.sfxList i).scope ≥ SCOPE_STAGE
          then { SFXInfo.zero with scope := SCOPE_NONE } else s.sfxList i)
      else s.sfxList i := by
  unfold ClearStageSfx
  have h := foldl_range_pointwise AudioState.sfxList
    (fun t i =>
      if (t.sfxList i).scope ≥ SCOPE_STAGE then
        setSfx (UnloadADPCM k t (i % 256)) i { SFXInfo.zero with scope := SCOPE_NONE }
      else t)
    (fun _ e => if e.scope ≥ SCOPE_STAGE then { SFXInfo.zero with scope := SCOPE_NONE } else e)
    (by
      intro t i j hji
      dsimp only
      split
      · dsimp only [setSfx]
        rw [Function.update_noteq hji, UnloadADPCM_sfxList]
      · rfl)
    (by
      intro t i
      dsimp only
      split
      · dsimp only [setSfx]
        rw [Function.update_same]
      · rfl)
    (stopEffectChannels k s) (k.SFX_COUNT - 2)
  rw [h, stopEffectChannels_sfxList]

/-- The unload loop of `ClearStageSfx` does not touch the channel table. -/
theorem ClearStageSfx_channels (k : AudioConsts) (s : AudioState) :
    (ClearStageSfx k s).channels = (stopEffectChannels k s).channels := by
  unfold ClearStageSfx
  apply @foldl_preserves Nat AudioState
    (fun t => t.channels = (stopEffectChannels k s).channels) _ _ _ _ rfl
  intro t i ht
  dsimp only
  split
  · dsimp only [setSfx]
    rw [UnloadADPCM_channels]; exact ht
  · exact ht

/-- The unload loop of `ClearStageSfx` leaves a released handle released. -/
theorem ClearStageSfx_keeps_released (k : AudioConsts) (s : AudioState) (c : Nat)
    (h : (stopEffectChannels k s).adpcm_channels c = -1) :
    (ClearStageSfx k s).adpcm_channels c = -1 := by
  unfold ClearStageSfx
  apply @foldl_preserves Nat AudioState (fun t => t.adpcm_channels c = -1) _ _ _ _ h
  intro t i ht
  dsimp only
  split
  · dsimp only [setSfx]
    exact UnloadADPCM_keeps_released k t _ c ht
  · exact ht

/-- The call `SetChannelAttributes(c, 1.0, 0.0, n)` for a positive whole speed `n` in
closed form: the speed stored is `n * 65536`. -/
theorem SetChannelAttributes_whole_speed (k : AudioConsts) (s : AudioState) (c n : Nat)
    (hc : c < k.CHANNEL_COUNT) (hn : 0 < n) :
    SetChannelAttributes k s c 1 0 (n : ℚ) = setChannel s c
      { s.channels c with volume := 1, pan := 0, speed := ((n * 65536 : Nat) : Int) } := by
  have h1 : max (0 : ℚ) (min 4 1) = 1 := by norm_num
  have h2 : max (-1 : ℚ) (min 1 0) = 0 := by norm_num
  have h3 : (n : ℚ) > 0 := by exact_mod_cast hn
  have h4 : ⌊(n : ℚ) * 65536⌋ = ((n * 65536 : Nat) : Int) := by
    have : (n : ℚ) * 65536 = (((n * 65536 : Nat) : ℤ) : ℚ) := by push_cast; ring
    rw [this, Int.floor_intCast]
  unfold SetChannelAttributes
  rw [if_pos hc]
  simp only [h1, h2, h3, h4, if_true, setChannel, Function.update_same, Function.update_idem]

/-- The state `fastStream` in closed form: channel 0 of the looping stream with volume 1,
pan 0 and the speed 10 * 65536. -/
theorem fastStream_eq :
    fastStream = setChannel
      (PlayStream tinyConsts (fun _ => some shortWav) tinyInit "theme.ogg" 0 0 8).2 0
      { (PlayStream tinyConsts (fun _ => some shortWav) tinyInit "theme.ogg" 0 0 8).2.channels 0
          with volume := 1, pan := 0, speed := 655360 } :=
  SetChannelAttributes_whole_speed tinyConsts _ 0 10 (by decide) (by decide)

/-- The accumulator after `speedPercent += speed` for a speed of at least 0: no reduction
modulo 2^32 takes place. -/
theorem addSpeed_of_nonneg (sp : Nat) (speed : Int) (h0 : 0 ≤ speed)
    (h1 : speed < 2147483648) (hsp : sp < 65536) : addSpeed sp speed = sp + speed.toNat := by
  unfold addSpeed
  rw [Int.emod_eq_of_lt (by omega) (by omega)]
  omega

/-- The advance of one frame is at most the speed rounded up to whole samples. -/
theorem FROM_FIXED_addSpeed_le (sp : Nat) (speed : Int) (h0 : 0 ≤ speed)
    (h1 : speed < 2147483648) (hsp : sp < 65536) :
    FROM_FIXED (addSpeed sp speed) ≤ (speed.toNat + 65535) / 65536 := by
  rw [addSpeed_of_nonneg sp speed h0 h1 hsp]
  unfold FROM_FIXED
  omega

/-- The channel table after `UpdateStreamBuffer`: unchanged, or the channel of the call
set to `Idle`. -/
theorem UpdateStreamBuffer_channels (k : AudioConsts) (s : AudioState) (c : Nat) :
    (UpdateStreamBuffer k s c).1.channels = s.channels ∨
    (UpdateStreamBuffer k s c).1.channels =
      Function.update s.channels c { s.channels c with state := CHANNEL_IDLE } := by
  unfold UpdateStreamBuffer
  dsimp only
  split
  · left; rw [writeSamples_channels]
  · split
    · split
      · left
        rw [streamRefill_channels]
        split
        · rw [writeSamples_channels]
        · rfl
      · right
        simp [setChannel, writeSamples_channels]
    · left; exact streamRefill_channels k s c _

/-- A channel after `UpdateStreamBuffer`: unchanged, or unchanged but for the state
`Idle`. -/
theorem UpdateStreamBuffer_channel (k : AudioConsts) (s : AudioState) (c j : Nat) :
    (UpdateStreamBuffer k s c).1.channels j = s.channels j ∨
    (UpdateStreamBuffer k s c).1.channels j = { s.channels j with state := CHANNEL_IDLE } := by
  rcases UpdateStreamBuffer_channels k s c with h | h
  · left; rw [h]
  · rw [h]
    by_cases hj : j = c
    · subst hj; right; rw [Function.update_same]
    · left; rw [Function.update_noteq hj]

/-- One iteration of the stream loop keeps, on every channel, the sample length and the
speed, turns no channel into a stream channel, and moves the cursor of the channel of the
loop only. -/
theorem streamFrame_channel (k : AudioConsts) (c : Nat) (panL panR : ℚ) (b : Bool)
    (m : StreamMix) (f j : Nat) :
    ((streamFrame k c panL panR b m f).state.channels j).sampleLength =
        (m.state.channels j).sampleLength ∧
    ((streamFrame k c panL panR b m f).state.channels j).speed = (m.state.channels j).speed ∧
    (((streamFrame k c panL panR b m f).state.channels j).state = CHANNEL_STREAM →
        (m.state.channels j).state = CHANNEL_STREAM) ∧
    (j ≠ c → ((streamFrame k c panL panR b m f).state.channels j).bufferPos =
        (m.state.channels j).bufferPos) := by
  unfold streamFrame
  split
  · exact ⟨rfl, rfl, id, fun _ => rfl⟩
  · dsimp only
    split
    · generalize hbp : u32 (u32 ((m.state.channels c).bufferPos +
          FROM_FIXED (addSpeed m.speedPercent (m.state.channels c).speed) * 2) + 4294967296 -
          u32 (m.state.channels c).sampleLength) = bp
      have hset : ∀ i, ((setChannel m.state c
          { m.state.channels c with bufferPos := bp }).channels i).sampleLength =
            (m.state.channels i).sampleLength ∧
          ((setChannel m.state c { m.state.channels c with bufferPos := bp }).channels i).speed =
            (m.state.channels i).speed ∧
          ((setChannel m.state c { m.state.channels c with bufferPos := bp }).channels i).state =
            (m.state.channels i).state ∧
          (i ≠ c → ((setChannel m.state c
            { m.state.channels c with bufferPos := bp }).channels i).bufferPos =
            (m.state.channels i).bufferPos) := by
        intro i
        by_cases hi : i = c
        · subst hi; simp [setChannel]
        · simp [setChannel, Function.update_noteq hi]
      obtain ⟨h1, h2, h3, h4⟩ := hset j
      rcases UpdateStreamBuffer_channel k
        (setChannel m.state c { m.state.channels c with bufferPos := bp }) c j with h | h
      · rw [h]; exact ⟨h1, h2, fun hs => h3 ▸ hs, h4⟩
      · rw [h]
        refine ⟨h1, h2, fun hs => absurd (show CHANNEL_IDLE = CHANNEL_STREAM from hs) (by decide), h4⟩
    · by_cases hi : j = c
      · subst hi; simp [setChannel]
      · simp [setChannel, Function.update_noteq hi]

/-- One iteration of the stream loop keeps the cursor of its channel below `sampleLength`
under the bound on the speed, and keeps the accumulator below one unit. -/
theorem streamFrame_same (k : AudioConsts) (c : Nat) (panL panR : ℚ) (b : Bool)
    (m : StreamMix) (f : Nat) (hsp : m.speedPercent < 65536)
    (hpos : (m.state.channels c).bufferPos < (m.state.channels c).sampleLength)
    (hok : streamSpeedOK (m.state.channels c)) :
    (streamFrame k c panL panR b m f).speedPercent < 65536 ∧
    ((streamFrame k c panL panR b m f).state.channels c).bufferPos <
      ((streamFrame k c panL panR b m f).state.channels c).sampleLength := by
  obtain ⟨h0, h1, hL, hadv⟩ := hok
  have hle := FROM_FIXED_addSpeed_le m.speedPercent (m.state.channels c).speed h0 h1 hsp
  have hmod : ∀ x : Nat, x % FIXED_ONE < 65536 := fun x => Nat.mod_lt x (by decide)
  unfold streamFrame
  split
  · exact ⟨hsp, hpos⟩
  · dsimp only
    generalize FROM_FIXED (addSpeed m.speedPercent (m.state.channels c).speed) = adv at hle ⊢
    have hu1 : u32 ((m.state.channels c).bufferPos + adv * 2) =
        (m.state.channels c).bufferPos + adv * 2 := by
      unfold u32; apply Nat.mod_eq_of_lt; omega
    have hu2 : u32 (m.state.channels c).sampleLength = (m.state.channels c).sampleLength := by
      unfold u32; apply Nat.mod_eq_of_lt; omega
    rw [hu1, hu2]
    split
    · rename_i hge
      have hu3 : u32 ((m.state.channels c).bufferPos + adv * 2 + 4294967296 -
          (m.state.channels c).sampleLength) =
          (m.state.channels c).bufferPos + adv * 2 - (m.state.channels c).sampleLength := by
        unfold u32
        have : (m.state.channels c).bufferPos + adv * 2 + 4294967296 -
            (m.state.channels c).sampleLength =
            ((m.state.channels c).bufferPos + adv * 2 - (m.state.channels c).sampleLength) +
              4294967296 := by omega
        rw [this, Nat.add_mod_right]
        apply Nat.mod_eq_of_lt; omega
      rw [hu3]
      refine ⟨hmod _, ?_⟩
      rcases UpdateStreamBuffer_channel k
        (setChannel m.state c { m.state.channels c with
          bufferPos := (m.state.channels c).bufferPos + adv * 2 -
            (m.state.channels c).sampleLength }) c c with h | h
      · rw [h]; simp only [setChannel, Function.update_same]; omega
      · rw [h]; simp only [setChannel, Function.update_same]; omega
    · rename_i hlt
      refine ⟨hmod _, ?_⟩
      simp only [setChannel, Function.update_same]
      omega

/-- The bound on the speed depends on the speed and the sample length only. -/
theorem streamSpeedOK_congr (a b : ChannelInfo) (h1 : a.sampleLength = b.sampleLength)
    (h2 : a.speed = b.speed) (h : streamSpeedOK b) : streamSpeedOK a := by
  unfold streamSpeedOK at h ⊢
  rw [h1, h2]; exact h

/-- The stream loop on the channel `c` keeps the cursor of a channel `j` below its
`sampleLength`: another channel is not moved, and the channel of the loop stays in range
under the bound on its speed. -/
theorem mixStream_cursor (k : AudioConsts) (c : Nat) (vol : ℚ) (b : Bool) (frames : Nat)
    (t : AudioState × (Nat → Int)) (j : Nat)
    (hpos : (t.1.channels j).bufferPos < (t.1.channels j).sampleLength)
    (hok : (t.1.channels j).state = CHANNEL_STREAM → streamSpeedOK (t.1.channels j))
    (hc : j = c → streamSpeedOK (t.1.channels c)) :
    ((mixStream k c vol b frames t).1.channels j).bufferPos <
        ((mixStream k c vol b frames t).1.channels j).sampleLength ∧
    (((mixStream k c vol b frames t).1.channels j).state = CHANNEL_STREAM →
        streamSpeedOK ((mixStream k c vol b frames t).1.channels j)) := by
  unfold mixStream
  dsimp only
  have key := @foldl_preserves Nat StreamMix
    (fun m => m.speedPercent < 65536 ∧
      (m.state.channels j).bufferPos < (m.state.channels j).sampleLength ∧
      ((m.state.channels j).state = CHANNEL_STREAM → streamSpeedOK (m.state.channels j)) ∧
      (j = c → streamSpeedOK (m.state.channels c)))
    (streamFrame k c (panGains (t.1.channels c) vol).1 (panGains (t.1.channels c) vol).2 b)
    (by
      intro m f ⟨hsp, hp, hs, hcc⟩
      obtain ⟨e1, e2, e3, e4⟩ := streamFrame_channel k c
        (panGains (t.1.channels c) vol).1 (panGains (t.1.channels c) vol).2 b m f j
      obtain ⟨c1, c2, _, _⟩ := streamFrame_channel k c
        (panGains (t.1.channels c) vol).1 (panGains (t.1.channels c) vol).2 b m f c
      by_cases hj : j = c
      · subst hj
        obtain ⟨r1, r2⟩ := streamFrame_same k j
          (panGains (t.1.channels j) vol).1 (panGains (t.1.channels j) vol).2 b m f hsp hp
          (hcc rfl)
        exact ⟨r1, r2, fun _ => streamSpeedOK_congr _ _ e1 e2 (hcc rfl),
          fun _ => streamSpeedOK_congr _ _ e1 e2 (hcc rfl)⟩
      · refine ⟨?_, ?_, fun hst => streamSpeedOK_congr _ _ e1 e2 (hs (e3 hst)),
          fun h => absurd h hj⟩
        · unfold streamFrame
          split
          · exact hsp
          · dsimp only
            split <;> exact Nat.mod_lt _ (by decide)
        · rw [e4 hj, e1]; exact hp)
    (List.range frames)
    { state := t.1, streamBuffer := (t.1.channels c).bufferPos, speedPercent := 0,
      outputBuffer := t.2, stopped := false }
    ⟨show (0 : Nat) < 65536 by decide, hpos, hok, hc⟩
  exact ⟨key.2.1, key.2.2.1⟩

/-- The channel loop of a mixing pass, which runs the stream loop on the channels in
`PlayingStream` state, keeps the cursor of a channel `j` below its `sampleLength` when the
speed of `j` satisfies the bound in case `j` is a stream channel. -/
theorem mixPass_cursor (k : AudioConsts) (vol : ℚ) (b : Bool) (frames : Nat)
    (step : AudioState × (Nat → Int) → Nat → AudioState × (Nat → Int))
    (hstep : ∀ t c, step t c = t ∨
      ((t.1.channels c).state = CHANNEL_STREAM ∧ step t c = mixStream k c vol b frames t))
    (l : List Nat) (t : AudioState × (Nat → Int)) (j : Nat)
    (hpos : (t.1.channels j).bufferPos < (t.1.channels j).sampleLength)
    (hok : (t.1.channels j).state = CHANNEL_STREAM → streamSpeedOK (t.1.channels j)) :
    (((l.foldl step t).1.channels j).bufferPos < ((l.foldl step t).1.channels j).sampleLength) := by
  have key := @foldl_preserves Nat (AudioState × (Nat → Int))
    (fun t => (t.1.channels j).bufferPos < (t.1.channels j).sampleLength ∧
      ((t.1.channels j).state = CHANNEL_STREAM → streamSpeedOK (t.1.channels j)))
    step
    (by
      intro t c ⟨hp, hs⟩
      rcases hstep t c with h | ⟨hst, h⟩
      · rw [h]; exact ⟨hp, hs⟩
      · rw [h]
        exact mixStream_cursor k c vol b frames t j hp hs (fun hj => by subst hj; exact hs hst))
    l t ⟨hpos, hok⟩
  exact key.1
/-- A channel after `UpdateADPCMChannels`: the cursor, the sample length and the speed are
unchanged, and no channel has become a stream channel. -/
theorem UpdateADPCMChannels_channel (k : AudioConsts) (s : AudioState) (j : Nat) :
    ((UpdateADPCMChannels k s).channels j).bufferPos = (s.channels j).bufferPos ∧
    ((UpdateADPCMChannels k s).channels j).sampleLength = (s.channels j).sampleLength ∧
    ((UpdateADPCMChannels k s).channels j).speed = (s.channels j).speed ∧
    (((UpdateADPCMChannels k s).channels j).state = CHANNEL_STREAM →
      (s.channels j).state = CHANNEL_STREAM) := by
  unfold UpdateADPCMChannels
  apply @foldl_preserves Nat AudioState
    (fun t => (t.channels j).bufferPos = (s.channels j).bufferPos ∧
      (t.channels j).sampleLength = (s.channels j).sampleLength ∧
      (t.channels j).speed = (s.channels j).speed ∧
      ((t.channels j).state = CHANNEL_STREAM → (s.channels j).state = CHANNEL_STREAM))
  · intro t c ht
    dsimp only
    by_cases h1 : (t.channels c).state = CHANNEL_STREAM ∨
        (t.channels c).state = CHANNEL_LOADING_STREAM
    · rw [if_pos h1]; exact ht
    · rw [if_neg h1]
      by_cases h2 : (t.channel_timers c).active = false
      · rw [if_pos h2]; exact ht
      · rw [if_neg h2]
        by_cases h3 : u32 (t.current_frame + 4294967296 - (t.channel_timers c).startTime) ≥
            (t.channel_timers c).duration
        · rw [if_pos h3]
          by_cases h4 : (t.channels c).soundID ≠ -1 ∧ (t.channels c).state = CHANNEL_SFX
          · rw [if_pos h4]
            by_cases hj : j = c
            · subst hj
              simp only [setChannel, Function.update_same]
              exact ⟨ht.1, ht.2.1, ht.2.2.1,
                fun hs => absurd (show CHANNEL_IDLE = CHANNEL_STREAM from hs) (by decide)⟩
            · simp only [setChannel, Function.update_noteq hj]
              exact ht
          · rw [if_neg h4]; exact ht
        · rw [if_neg h3]; exact ht
  · exact ⟨rfl, rfl, rfl, id⟩

/-- The cursor bound of `FrameInit` for one channel. -/
theorem FrameInit_cursor (k : AudioConsts) (audioState : Bool) (available : Int) (vol : ℚ)
    (s : AudioState) (j : Nat)
    (hpos : (s.channels j).bufferPos < (s.channels j).sampleLength)
    (hok : (s.channels j).state = CHANNEL_STREAM → streamSpeedOK (s.channels j)) :
    ((FrameInit k audioState available vol s).1.channels j).bufferPos <
      ((FrameInit k audioState available vol s).1.channels j).sampleLength := by
  obtain ⟨u1, u2, u3, u4⟩ := UpdateADPCMChannels_channel k s j
  have hpos1 : ((UpdateADPCMChannels k s).channels j).bufferPos <
      ((UpdateADPCMChannels k s).channels j).sampleLength := by rw [u1, u2]; exact hpos
  have hok1 : ((UpdateADPCMChannels k s).channels j).state = CHANNEL_STREAM →
      streamSpeedOK ((UpdateADPCMChannels k s).channels j) :=
    fun h => streamSpeedOK_congr _ _ u2 u3 (hok (u4 h))
  unfold FrameInit
  cases audioState
  · exact hpos
  · simp only [Bool.not_true, Bool.false_eq_true, if_false]
    split
    · exact hpos1
    · dsimp only
      apply mixPass_cursor k vol true (k.MIX_BUFFER_SIZE / AUDIO_CHANNELS) _ _ _ _ j hpos1 hok1
      intro t c
      by_cases h : (t.1.channels c).state ≠ CHANNEL_STREAM
      · left; rw [if_pos h]
      · right; rw [if_neg h]; exact ⟨not_not.mp h, rfl⟩

/-- The cursor bound of `ProcessAudioMixing` for one channel. -/
theorem ProcessAudioMixing_cursor (k : AudioConsts) (vol : ℚ) (length : Nat)
    (s : AudioState) (j : Nat)
    (hpos : (s.channels j).bufferPos < (s.channels j).sampleLength)
    (hok : (s.channels j).state = CHANNEL_STREAM → streamSpeedOK (s.channels j)) :
    ((ProcessAudioMixing k vol length s).1.channels j).bufferPos <
      ((ProcessAudioMixing k vol length s).1.channels j).sampleLength := by
  unfold ProcessAudioMixing
  apply mixPass_cursor k vol false ((length + 1) / 2) _ _ _ _ j hpos hok
  intro t c
  by_cases h : (t.1.channels c).state = CHANNEL_STREAM
  · right; rw [if_pos h]; exact ⟨h, rfl⟩
  · left; rw [if_neg h]

/-- One iteration of the effect loop under the bound on the speed and the loop point keeps
the cursor below `sampleLength` and does not end the effect. -/
theorem effectFrame_loop (samples : Option (Nat → ℚ)) (panL panR : ℚ) (m : EffectMix)
    (f : Nat) (hsp : m.speedPercent < 65536)
    (hpos : m.channel.bufferPos < m.channel.sampleLength) (hok : effectSpeedOK m.channel) :
    (effectFrame samples panL panR m f).speedPercent < 65536 ∧
    (effectFrame samples panL panR m f).channel.bufferPos <
      (effectFrame samples panL panR m f).channel.sampleLength ∧
    effectSpeedOK (effectFrame samples panL panR m f).channel := by
  have hok0 := hok
  obtain ⟨h0, h1, hL, hadv⟩ := hok
  have hle := FROM_FIXED_addSpeed_le m.speedPercent m.channel.speed h0 h1 hsp
  have hmod : ∀ x : Nat, x % FIXED_ONE < 65536 := fun x => Nat.mod_lt x (by decide)
  unfold effectFrame
  split
  · exact ⟨hsp, hpos, hok0⟩
  · dsimp only
    generalize FROM_FIXED (addSpeed m.speedPercent m.channel.speed) = adv at hle ⊢
    have hu1 : u32 (m.channel.bufferPos + adv) = m.channel.bufferPos + adv := by
      unfold u32; apply Nat.mod_eq_of_lt; omega
    have hu2 : u32 m.channel.sampleLength = m.channel.sampleLength := by
      unfold u32; apply Nat.mod_eq_of_lt; omega
    rw [hu1, hu2]
    by_cases hge : m.channel.bufferPos + adv ≥ m.channel.sampleLength
    · rw [if_pos hge, if_neg (by omega)]
      have hu3 : u32 (m.channel.bufferPos + adv + 4294967296 - m.channel.sampleLength) =
          m.channel.bufferPos + adv - m.channel.sampleLength := by
        unfold u32
        have : m.channel.bufferPos + adv + 4294967296 - m.channel.sampleLength =
            (m.channel.bufferPos + adv - m.channel.sampleLength) + 4294967296 := by omega
        rw [this, Nat.add_mod_right]
        apply Nat.mod_eq_of_lt; omega
      have hu4 : u32 (m.channel.bufferPos + adv - m.channel.sampleLength + m.channel.loop) =
          m.channel.bufferPos + adv - m.channel.sampleLength + m.channel.loop := by
        unfold u32; apply Nat.mod_eq_of_lt; omega
      rw [hu3, hu4]
      refine ⟨hmod _, ?_, hok0⟩
      show m.channel.bufferPos + adv - m.channel.sampleLength + m.channel.loop <
        m.channel.sampleLength
      omega
    · rw [if_neg hge]
      refine ⟨hmod _, ?_, hok0⟩
      show m.channel.bufferPos + adv < m.channel.sampleLength
      omega

/-- One iteration of the effect loop of a channel without loop: the cursor stays below
`sampleLength`, or the effect has ended with the channel `Idle`. -/
theorem effectFrame_noloop (samples : Option (Nat → ℚ)) (panL panR : ℚ) (m : EffectMix)
    (f : Nat) (hloop : m.channel.loop = 4294967295)
    (h : (m.stopped = false ∧ m.channel.bufferPos < m.channel.sampleLength) ∨
      (m.stopped = true ∧ m.channel.state = CHANNEL_IDLE ∧ m.channel.soundID = -1 ∧
        m.channel.sampleLength ≤ m.channel.bufferPos)) :
    (effectFrame samples panL panR m f).channel.loop = 4294967295 ∧
    (((effectFrame samples panL panR m f).stopped = false ∧
        (effectFrame samples panL panR m f).channel.bufferPos <
          (effectFrame samples panL panR m f).channel.sampleLength) ∨
      ((effectFrame samples panL panR m f).stopped = true ∧
        (effectFrame samples panL panR m f).channel.state = CHANNEL_IDLE ∧
        (effectFrame samples panL panR m f).channel.soundID = -1 ∧
        (effectFrame samples panL panR m f).channel.sampleLength ≤
          (effectFrame samples panL panR m f).channel.bufferPos)) := by
  unfold effectFrame
  by_cases hst : m.stopped = true
  · rw [if_pos hst]; exact ⟨hloop, h⟩
  · rw [if_neg hst]
    dsimp only
    by_cases hge : u32 (m.channel.bufferPos +
        FROM_FIXED (addSpeed m.speedPercent m.channel.speed)) ≥ m.channel.sampleLength
    · rw [if_pos hge, if_pos hloop]
      exact ⟨hloop, Or.inr ⟨rfl, rfl, rfl, hge⟩⟩
    · rw [if_neg hge]
      exact ⟨hloop, Or.inl ⟨rfl, Nat.lt_of_not_ge hge⟩⟩

/-- Claim C17 (amended). A mixing pass keeps the cursor of a channel below `sampleLength`
under a bound on the advance of one output frame, and not for every speed and loop point.
For every channel `j` with `bufferPos < sampleLength` before the pass whose speed, in case
the channel is in `PlayingStream` state, is at least 0 with twice the speed rounded up to
whole samples at most `sampleLength` (`streamSpeedOK`), `bufferPos < sampleLength` holds
after `AudioDevice::FrameInit` and after `AudioDeviceBase::ProcessAudioMixing` (as this
port compiles it). For the effect loop of `ProcessAudioMixing` (the builds other than PS2)
on a channel with `bufferPos < sampleLength`: when the speed rounded up to whole samples
plus the loop point is at most `sampleLength` (`effectSpeedOK`), `bufferPos < sampleLength`
holds after any number of output frames; and for a channel without loop
(`loop == (uint32)-1`), at any speed, after any number of output frames either
`bufferPos < sampleLength` or the effect has ended: the loop was left, the channel is
`Idle` with `soundID` -1 and its cursor is at or past `sampleLength`. -/
theorem mixing_cursor_in_range (k : AudioConsts) :
    (∀ (s : AudioState) (j : Nat) (audioState : Bool) (available : Int) (vol : ℚ),
      (s.channels j).bufferPos < (s.channels j).sampleLength →
      ((s.channels j).state = CHANNEL_STREAM → streamSpeedOK (s.channels j)) →
      ((FrameInit k audioState available vol s).1.channels j).bufferPos <
        ((FrameInit k audioState available vol s).1.channels j).sampleLength) ∧
    (∀ (s : AudioState) (j : Nat) (vol : ℚ) (length : Nat),
      (s.channels j).bufferPos < (s.channels j).sampleLength →
      ((s.channels j).state = CHANNEL_STREAM → streamSpeedOK (s.channels j)) →
      ((ProcessAudioMixing k vol length s).1.channels j).bufferPos <
        ((ProcessAudioMixing k vol length s).1.channels j).sampleLength) ∧
    (∀ (samples : Option (Nat → ℚ)) (vol : ℚ) (frames : Nat) (ch : ChannelInfo)
        (stream : Nat → ℚ),
      ch.bufferPos < ch.sampleLength → effectSpeedOK ch →
      (mixEffect samples vol frames ch stream).channel.bufferPos <
        (mixEffect samples vol frames ch stream).channel.sampleLength) ∧
    (∀ (samples : Option (Nat → ℚ)) (vol : ℚ) (frames : Nat) (ch : ChannelInfo)
        (stream : Nat → ℚ),
      ch.bufferPos < ch.sampleLength → ch.loop = 4294967295 →
      (mixEffect samples vol frames ch stream).channel.bufferPos <
          (mixEffect samples vol frames ch stream).channel.sampleLength ∨
        ((mixEffect samples vol frames ch stream).stopped = true ∧
          (mixEffect samples vol frames ch stream).channel.state = CHANNEL_IDLE ∧
          (mixEffect samples vol frames ch stream).channel.soundID = -1 ∧
          (mixEffect samples vol frames ch stream).channel.sampleLength ≤
            (mixEffect samples vol frames ch stream).channel.bufferPos)) := by
  refine ⟨?_, ?_, ?_, ?_⟩
  · intro s j audioState available vol hpos hok
    exact FrameInit_cursor k audioState available vol s j hpos hok
  · intro s j vol length hpos hok
    exact ProcessAudioMixing_cursor k vol length s j hpos hok
  · intro samples vol frames ch stream hpos hok
    unfold mixEffect
    dsimp only
    have key := @foldl_preserves Nat EffectMix
      (fun m => m.speedPercent < 65536 ∧ m.channel.bufferPos < m.channel.sampleLength ∧
        effectSpeedOK m.channel)
      (effectFrame samples (panGains ch vol).1 (panGains ch vol).2)
      (fun m f ⟨a, b, c⟩ => effectFrame_loop samples _ _ m f a b c)
      (List.range frames)
      { channel := ch, sfxBuffer := ch.bufferPos, speedPercent := 0, stream := stream,
        frames := [], stopped := false }
      ⟨show (0 : Nat) < 65536 by decide, hpos, hok⟩
    exact key.2.1
  · intro samples vol frames ch stream hpos hloop
    unfold mixEffect
    dsimp only
    have key := @foldl_preserves Nat EffectMix
      (fun m => m.channel.loop = 4294967295 ∧
        ((m.stopped = false ∧ m.channel.bufferPos < m.channel.sampleLength) ∨
          (m.stopped = true ∧ m.channel.state = CHANNEL_IDLE ∧ m.channel.soundID = -1 ∧
            m.channel.sampleLength ≤ m.channel.bufferPos)))
      (effectFrame samples (panGains ch vol).1 (panGains ch vol).2)
      (fun m f ⟨a, b⟩ => effectFrame_noloop samples _ _ m f a b)
      (List.range frames)
      { channel := ch, sfxBuffer := ch.bufferPos, speedPercent := 0, stream := stream,
        frames := [], stopped := false }
      ⟨hloop, Or.inl ⟨rfl, hpos⟩⟩
    rcases key.2 with h | h
    · exact Or.inl h.2
    · exact Or.inr h

/-- The state `doubleStream` in closed form: channel 0 of the looping stream with volume 1,
pan 0 and the speed 2 * 65536. -/
theorem doubleStream_eq :
    doubleStream = setChannel
      (PlayStream tinyConsts (fun _ => some shortWav) tinyInit "theme.ogg" 0 0 8).2 0
      { (PlayStream tinyConsts (fun _ => some shortWav) tinyInit "theme.ogg" 0 0 8).2.channels 0
          with volume := 1, pan := 0, speed := 131072 } :=
  SetChannelAttributes_whole_speed tinyConsts _ 0 2 (by decide) (by decide)

set_option maxRecDepth 1000000 in
/-- Witness of claim C17 (amended), on passes that wrap. The looping stream `doubleStream`
(cursor 0 of 16, four samples per output frame, read cursor 40): the eight frames of
`FrameInit` wrap twice (the cursor ends at 0 and the two refills of the wraps moved the
read cursor to 100), and the five frames of `ProcessAudioMixing` over ten samples wrap once
(the cursor ends at 4, the read cursor at 72). The effect channel `loopingEffect` (cursor 98
of 100, speed 2.0, loop point 10) wraps in its first frame and is at 12 after two. The
effect channel `endingEffect` (no loop) reaches the end and is left `Idle`. -/
theorem mixing_cursor_in_range_witness :
    ((doubleStream.channels 0).bufferPos = 0 ∧ (doubleStream.channels 0).sampleLength = 16 ∧
      doubleStream.activeStream.currentReadPos = 40) ∧
    (((FrameInit tinyConsts true 32 1 doubleStream).1.channels 0).bufferPos <
        ((FrameInit tinyConsts true 32 1 doubleStream).1.channels 0).sampleLength ∧
      ((FrameInit tinyConsts true 32 1 doubleStream).1.channels 0).bufferPos = 0 ∧
      (FrameInit tinyConsts true 32 1 doubleStream).1.activeStream.currentReadPos = 100) ∧
    (((ProcessAudioMixing tinyConsts 1 10 doubleStream).1.channels 0).bufferPos <
        ((ProcessAudioMixing tinyConsts 1 10 doubleStream).1.channels 0).sampleLength ∧
      ((ProcessAudioMixing tinyConsts 1 10 doubleStream).1.channels 0).bufferPos = 4 ∧
      (ProcessAudioMixing tinyConsts 1 10 doubleStream).1.activeStream.currentReadPos = 72) ∧
    ((mixEffect none 1 2 loopingEffect (fun _ => 0)).channel.bufferPos <
        (mixEffect none 1 2 loopingEffect (fun _ => 0)).channel.sampleLength ∧
      (mixEffect none 1 1 loopingEffect (fun _ => 0)).channel.bufferPos = 10 ∧
      (mixEffect none 1 2 loopingEffect (fun _ => 0)).channel.bufferPos = 12) ∧
    ((mixEffect none 1 4 endingEffect (fun _ => 0)).channel.bufferPos <
        (mixEffect none 1 4 endingEffect (fun _ => 0)).channel.sampleLength ∨
      ((mixEffect none 1 4 endingEffect (fun _ => 0)).stopped = true ∧
        (mixEffect none 1 4 endingEffect (fun _ => 0)).channel.state = CHANNEL_IDLE ∧
        (mixEffect none 1 4 endingEffect (fun _ => 0)).channel.soundID = -1 ∧
        (mixEffect none 1 4 endingEffect (fun _ => 0)).channel.sampleLength ≤
          (mixEffect none 1 4 endingEffect (fun _ => 0)).channel.bufferPos)) := by
  rw [doubleStream_eq]
  exact ⟨by decide,
    ⟨(mixing_cursor_in_range tinyConsts).1 _ 0 true 32 1 (by decide) (fun _ => by decide),
      by decide, by decide⟩,
    ⟨(mixing_cursor_in_range tinyConsts).2.1 _ 0 1 10 (by decide) (fun _ => by decide),
      by decide, by decide⟩,
    ⟨(mixing_cursor_in_range tinyConsts).2.2.1 none 1 2 loopingEffect (fun _ => 0) (by decide)
        (by decide),
      by decide, by decide⟩,
    (mixing_cursor_in_range tinyConsts).2.2.2 none 1 4 endingEffect (fun _ => 0) (by decide)
      (by decide)⟩

set_option maxRecDepth 1000000 in
/-- Claim C17 as stated fails. On the looping stream `fastStream` (speed 10.0 on a mix
buffer of sixteen samples), channel 0 has `bufferPos = 0 < sampleLength = 16` before the
pass, and after `ProcessAudioMixing` over sixteen samples, and after `FrameInit`, the
channel is still in `PlayingStream` state with `bufferPos = 32`: the one subtraction of
`sampleLength` at the wrap leaves the cursor at or past `sampleLength`. In the effect loop,
the channel `wrappingEffect` (speed 2.0, loop point 99 of 100) is at `bufferPos = 100`
after two output frames, and the channel `endingEffect` (no loop) ends `Idle` at
`bufferPos = 100 = sampleLength`. -/
theorem mixing_cursor_out_of_range :
    ((fastStream.channels 0).bufferPos = 0 ∧ (fastStream.channels 0).sampleLength = 16) ∧
    (((ProcessAudioMixing tinyConsts 1 16 fastStream).1.channels 0).bufferPos = 32 ∧
      ((ProcessAudioMixing tinyConsts 1 16 fastStream).1.channels 0).sampleLength = 16 ∧
      ((ProcessAudioMixing tinyConsts 1 16 fastStream).1.channels 0).state = CHANNEL_STREAM) ∧
    (((FrameInit tinyConsts true 32 1 fastStream).1.channels 0).bufferPos = 32 ∧
      ((FrameInit tinyConsts true 32 1 fastStream).1.channels 0).sampleLength = 16 ∧
      ((FrameInit tinyConsts true 32 1 fastStream).1.channels 0).state = CHANNEL_STREAM) ∧
    ((mixEffect none 1 2 wrappingEffect (fun _ => 0)).channel.bufferPos = 100 ∧
      (mixEffect none 1 2 wrappingEffect (fun _ => 0)).channel.sampleLength = 100 ∧
      (mixEffect none 1 2 wrappingEffect (fun _ => 0)).channel.state = CHANNEL_SFX) ∧
    ((mixEffect none 1 4 endingEffect (fun _ => 0)).channel.bufferPos = 100 ∧
      (mixEffect none 1 4 endingEffect (fun _ => 0)).channel.sampleLength = 100 ∧
      (mixEffect none 1 4 endingEffect (fun _ => 0)).channel.state = CHANNEL_IDLE) := by
  rw [fastStream_eq]
  decide

/-- One iteration of the effect loop at the speed `TO_FIXED(1)` with a zero accumulator,
one sample or more before the end: the frame is computed from the sample at `sfxBuffer`
with the table index 0, the cursor and the pointer advance by one, and the accumulator is
zero again. -/
theorem effectFrame_unit (buf : Nat → ℚ) (panL panR : ℚ) (m : EffectMix) (f : Nat)
    (hst : m.stopped = false) (hsp : m.speedPercent = 0) (hspeed : m.channel.speed = 65536)
    (hlt : m.channel.bufferPos + 1 < m.channel.sampleLength)
    (h32 : m.channel.sampleLength ≤ 4294967296) :
    effectFrame (some buf) panL panR m f =
      { channel := { m.channel with bufferPos := m.channel.bufferPos + 1 },
        sfxBuffer := m.sfxBuffer + 1, speedPercent := 0,
        stream := Function.update
          (Function.update m.stream (f * 2) (m.stream (f * 2) + buf m.sfxBuffer * panL))
          (f * 2 + 1) (m.stream (f * 2 + 1) + buf m.sfxBuffer * panR),
        frames := m.frames ++ [{ src := m.sfxBuffer, lut := 0, sample := buf m.sfxBuffer }],
        stopped := false } := by
  have ha : addSpeed 0 65536 = 65536 := by decide
  have hf : FROM_FIXED 65536 = 1 := by decide
  have hm : 65536 % FIXED_ONE = 0 := by decide
  have hd : 0 / LINEAR_INTERPOLATION_LOOKUP_DIVISOR = 0 := by decide
  have hl : linearInterpolationLookup 0 = 0 := by simp [linearInterpolationLookup]
  have hu : u32 (m.channel.bufferPos + 1) = m.channel.bufferPos + 1 := by
    unfold u32; apply Nat.mod_eq_of_lt; omega
  unfold effectFrame
  rw [if_neg (by rw [hst]; decide)]
  simp only [hsp, hspeed, ha, hf, hm, hd, hl, hu, mul_zero, zero_add]
  rw [if_neg (by omega)]

/-- The effect loop at the speed `TO_FIXED(1)` over `n` output frames that do not reach
`sampleLength`, in closed form. -/
theorem mixEffect_unit_closed (buf : Nat → ℚ) (panL panR : ℚ) (ch : ChannelInfo)
    (stream : Nat → ℚ) (hspeed : ch.speed = 65536)
    (h32 : ch.sampleLength ≤ 4294967296) (n : Nat) (hend : ch.bufferPos + n < ch.sampleLength) :
    (List.range n).foldl (effectFrame (some buf) panL panR)
      { channel := ch, sfxBuffer := ch.bufferPos, speedPercent := 0, stream := stream,
        frames := [], stopped := false } =
      { channel := { ch with bufferPos := ch.bufferPos + n },
        sfxBuffer := ch.bufferPos + n, speedPercent := 0,
        stream := fun x => if x < 2 * n then
            stream x + buf (ch.bufferPos + x / 2) * (if x % 2 = 0 then panL else panR)
          else stream x,
        frames := (List.range n).map
          (fun i => { src := ch.bufferPos + i, lut := 0, sample := buf (ch.bufferPos + i) }),
        stopped := false } := by
  induction n with
  | zero => simp
  | succ n ih =>
    rw [List.range_succ, List.foldl_append, ih (by omega)]
    simp only [List.foldl_cons, List.foldl_nil]
    rw [effectFrame_unit buf panL panR _ n rfl rfl hspeed (by dsimp only; omega) h32]
    simp only [List.map_append, List.map_cons, List.map_nil, Nat.add_assoc, EffectMix.mk.injEq,
      true_and, and_true]
    funext x
    by_cases h1 : x = n * 2 + 1
    · subst h1
      rw [Function.update_same]
      have e1 : ¬ (n * 2 + 1 < 2 * n) := by omega
      have e2 : n * 2 + 1 < 2 * (n + 1) := by omega
      have e3 : (n * 2 + 1) / 2 = n := by omega
      have e4 : ¬ ((n * 2 + 1) % 2 = 0) := by omega
      rw [if_neg e1, if_pos e2, e3, if_neg e4]
    · rw [Function.update_noteq h1]
      by_cases h2 : x = n * 2
      · subst h2
        rw [Function.update_same]
        have e1 : ¬ (n * 2 < 2 * n) := by omega
        have e2 : n * 2 < 2 * (n + 1) := by omega
        have e3 : (n * 2) / 2 = n := by omega
        have e4 : (n * 2) % 2 = 0 := by omega
        rw [if_neg e1, if_pos e2, e3, if_pos e4]
      · rw [Function.update_noteq h2]
        by_cases h3 : x < 2 * n
        · have h4 : x < 2 * (n + 1) := by omega
          rw [if_pos h3, if_pos h4]
        · have h4 : ¬ (x < 2 * (n + 1)) := by omega
          rw [if_neg h3, if_neg h4]

/-- Claim C18. For an effect channel whose speed is `TO_FIXED(1) = 65536`, the effect loop
of `ProcessAudioMixing` over `N` output frames that do not reach `sampleLength`
(`bufferPos0 + N < sampleLength`, a 32-bit length), from the sample block `buf`: the `i`-th
output frame is computed from the source sample of index `bufferPos0 + i` with the
interpolation-table index 0, whose entry is 0, so its value before the gains is exactly
`buf (bufferPos0 + i)` and the two output samples of the frame receive that value times the
left and the right gain; the cursor ends at `bufferPos0 + N`, the fractional accumulator
ends at zero, and the loop was not left. -/
theorem mixEffect_unit_speed (buf : Nat → ℚ) (vol : ℚ) (N : Nat) (ch : ChannelInfo)
    (stream : Nat → ℚ) (hspeed : ch.speed = 65536)
    (hend : ch.bufferPos + N < ch.sampleLength) (h32 : ch.sampleLength ≤ 4294967296) :
    (mixEffect (some buf) vol N ch stream).frames = (List.range N).map
      (fun i => { src := ch.bufferPos + i, lut := 0, sample := buf (ch.bufferPos + i) }) ∧
    linearInterpolationLookup 0 = 0 ∧
    (∀ i, i < N →
      (mixEffect (some buf) vol N ch stream).stream (2 * i) =
        stream (2 * i) + buf (ch.bufferPos + i) * (panGains ch vol).1 ∧
      (mixEffect (some buf) vol N ch stream).stream (2 * i + 1) =
        stream (2 * i + 1) + buf (ch.bufferPos + i) * (panGains ch vol).2) ∧
    (mixEffect (some buf) vol N ch stream).channel =
      { ch with bufferPos := ch.bufferPos + N } ∧
    (mixEffect (some buf) vol N ch stream).sfxBuffer = ch.bufferPos + N ∧
    (mixEffect (some buf) vol N ch stream).speedPercent = 0 ∧
    (mixEffect (some buf) vol N ch stream).stopped = false := by
  unfold mixEffect
  dsimp only
  rw [mixEffect_unit_closed buf _ _ ch stream hspeed h32 N hend]
  refine ⟨rfl, by simp [linearInterpolationLookup], ?_, rfl, rfl, rfl, rfl⟩
  intro i hi
  dsimp only
  have e1 : 2 * i < 2 * N := by omega
  have e2 : 2 * i + 1 < 2 * N := by omega
  have e3 : (2 * i) / 2 = i := by omega
  have e4 : (2 * i + 1) / 2 = i := by omega
  have e5 : (2 * i) % 2 = 0 := by omega
  have e6 : ¬ ((2 * i + 1) % 2 = 0) := by omega
  rw [if_pos e1, if_pos e2, e3, e4, if_pos e5, if_neg e6]
  exact ⟨rfl, rfl⟩

/-- Witness of claim C18: four output frames of the channel `unitEffect` (speed 65536, at
sample 10 of 100) on the block `rampSamples`. -/
theorem mixEffect_unit_speed_witness :
    (mixEffect (some rampSamples) 1 4 unitEffect (fun _ => 0)).frames = (List.range 4).map
      (fun i => { src := unitEffect.bufferPos + i, lut := 0,
                  sample := rampSamples (unitEffect.bufferPos + i) }) ∧
    (mixEffect (some rampSamples) 1 4 unitEffect (fun _ => 0)).channel =
      { unitEffect with bufferPos := unitEffect.bufferPos + 4 } ∧
    (mixEffect (some rampSamples) 1 4 unitEffect (fun _ => 0)).speedPercent = 0 :=
  ⟨(mixEffect_unit_speed rampSamples 1 4 unitEffect (fun _ => 0) rfl (by decide)
      (by decide)).1,
   (mixEffect_unit_speed rampSamples 1 4 unitEffect (fun _ => 0) rfl (by decide)
      (by decide)).2.2.2.1,
   (mixEffect_unit_speed rampSamples 1 4 unitEffect (fun _ => 0) rfl (by decide)
      (by decide)).2.2.2.2.2.1⟩

/-- The handle after `ReadBytes`: the cursor has advanced by the number of bytes read. -/
theorem ReadBytes_snd (info : FileInfo) (n : Nat) :
    (ReadBytes info n).2 =
      { info with readPos := info.readPos + min n ((info.file.getD []).length - info.readPos) } := by
  unfold ReadBytes
  simp [List.length_take, List.length_drop]

/-- The skip loop in closed form, given at least `n` iterations: the cursor advances by `n`
or to the end of the file. -/
theorem skipLoop_eq (fuel : Nat) : ∀ (info : FileInfo) (n : Nat), n ≤ fuel →
    skipLoop fuel info n =
      { info with readPos := info.readPos + min n ((info.file.getD []).length - info.readPos) } := by
  induction fuel with
  | zero =>
    intro info n hn
    have : n = 0 := by omega
    subst this
    simp [skipLoop]
  | succ fuel ih =>
    intro info n hn
    unfold skipLoop
    by_cases h : n > 0
    · rw [if_pos h]
      dsimp only
      rw [ih _ _ (by split <;> omega), ReadBytes_snd]
      dsimp only
      congr 1
      split <;> omega
    · rw [if_neg h]
      have : n = 0 := by omega
      subst this
      simp

/-- The bytes of a chunk: eight header bytes and the payload. -/
theorem Chunk.encode_length (c : Chunk) (hid : c.id.length = 4) :
    c.encode.length = 8 + c.payload.length := by
  unfold Chunk.encode
  simp [leEncode_length, hid]
  omega

/-- A read of exactly the bytes `x` that follow the cursor. -/
theorem ReadBytes_exact (info : FileInfo) (file x rest : List Nat)
    (hfile : info.file = some file) (hdrop : file.drop info.readPos = x ++ rest) :
    ReadBytes info x.length = (x, { info with readPos := info.readPos + x.length }) := by
  unfold ReadBytes
  simp only [hfile, Option.getD_some, hdrop, List.take_left']

/-- The bytes after a prefix of what follows the cursor. -/
theorem drop_add_of_drop (file x rest : List Nat) (p : Nat)
    (hdrop : file.drop p = x ++ rest) : file.drop (p + x.length) = rest := by
  rw [← List.drop_drop, hdrop]
  simp

/-- One iteration of the chunk loop on a chunk other than the data chunk does what the
walk of the specification says: the chunk is consumed whole, and a format chunk of at
least sixteen bytes yields the format record. -/
theorem scanStep_chunk (file : List Nat) (st : ScanState) (c : Chunk) (rest : List Nat)
    (h : ScanAt file st (c.encode ++ rest)) (hid : c.id.length = 4)
    (hnd : c.id ≠ tag "data") (hsz : c.payload.length < 4294967296)
    (hfmt : c.id = tag "fmt " → 16 ≤ c.payload.length) :
    scanStep st = some (walkChunk st c) ∧ ScanAt file (walkChunk st c) rest := by
  obtain ⟨hfile, hsize, hdrop⟩ := h
  have hhead : file.drop st.info.readPos =
      (c.id ++ leEncode 4 c.payload.length) ++ (c.payload ++ rest) := by
    rw [hdrop]; unfold Chunk.encode; simp [List.append_assoc]
  have hlen8 : (c.id ++ leEncode 4 c.payload.length).length = 8 := by
    simp [hid, leEncode_length]
  have hr := ReadBytes_exact st.info file _ _ hfile hhead
  rw [hlen8] at hr
  have hdrop8 : file.drop (st.info.readPos + 8) = c.payload ++ rest := by
    have := drop_add_of_drop file _ _ _ hhead
    rwa [hlen8] at this
  have hflen : file.length - st.info.readPos = 8 + c.payload.length + rest.length := by
    have := congrArg List.length hdrop
    rw [List.length_drop, List.length_append, Chunk.encode_length c hid] at this
    exact this
  have htake : (c.id ++ leEncode 4 c.payload.length).take 4 = c.id := List.take_left' hid
  have hdec : leDecode ((c.id ++ leEncode 4 c.payload.length).drop 4) = c.payload.length := by
    rw [List.drop_left' hid]
    exact leDecode_leEncode 4 _ (by norm_num; exact hsz)
  refine ⟨?_, ?_⟩
  · unfold scanStep
    dsimp only
    rw [hr]
    dsimp only
    rw [if_neg (by rw [hlen8]; simp), htake, hdec]
    by_cases hf : c.id = tag "fmt "
    · have h16 := hfmt hf
      rw [if_pos hf]
      have hp : file.drop (st.info.readPos + 8) =
          c.payload.take 16 ++ (c.payload.drop 16 ++ rest) := by
        rw [hdrop8, ← List.append_assoc, List.take_append_drop]
      have hl16 : (c.payload.take 16).length = 16 := by
        rw [List.length_take]; omega
      have hf2 := ReadBytes_exact { st.info with readPos := st.info.readPos + 8 } file _ _
        hfile hp
      rw [hl16] at hf2
      rw [hf2]
      dsimp only
      have hu : u32 (c.payload.length + 4294967296 - 16) = c.payload.length - 16 := by
        unfold u32; omega
      rw [hu, skipLoop_eq _ _ _ (le_refl _)]
      unfold walkChunk
      rw [if_pos hf, decide_eq_true hf, Bool.or_true]
      dsimp only
      rw [hfile, Option.getD_some,
        Nat.min_eq_left (by omega : c.payload.length - 16 ≤
          file.length - (st.info.readPos + 8 + 16))]
      have e : st.info.readPos + 8 + 16 + (c.payload.length - 16) =
          st.info.readPos + 8 + c.payload.length := by omega
      rw [e]
    · rw [if_neg hf, if_neg hnd, skipLoop_eq _ _ _ (le_refl _)]
      unfold walkChunk
      rw [if_neg hf, decide_eq_false hf, Bool.or_false]
      dsimp only
      rw [hfile, Option.getD_some,
        Nat.min_eq_left (by omega : c.payload.length ≤ file.length - (st.info.readPos + 8))]
  · refine ⟨hfile, hsize, ?_⟩
    show file.drop (st.info.readPos + 8 + c.payload.length) = rest
    rw [← List.drop_drop, hdrop8]
    simp

/-- One iteration of the chunk loop on a data chunk: the data size is the declared size,
the data offset is the cursor after the eight header bytes, and the cursor stays there. -/
theorem scanStep_data (file : List Nat) (st : ScanState) (c : Chunk) (rest : List Nat)
    (h : ScanAt file st (c.encode ++ rest)) (hid : c.id = tag "data")
    (hsz : c.payload.length < 4294967296) :
    scanStep st = some { st with
      info := { st.info with readPos := st.info.readPos + 8 },
      dataSize := c.payload.length, dataOffset := st.info.readPos + 8, foundData := true } := by
  obtain ⟨hfile, hsize, hdrop⟩ := h
  have hid4 : c.id.length = 4 := by rw [hid]; decide
  have hhead : file.drop st.info.readPos =
      (c.id ++ leEncode 4 c.payload.length) ++ (c.payload ++ rest) := by
    rw [hdrop]; unfold Chunk.encode; simp [List.append_assoc]
  have hlen8 : (c.id ++ leEncode 4 c.payload.length).length = 8 := by
    simp [hid4, leEncode_length]
  have hr := ReadBytes_exact st.info file _ _ hfile hhead
  rw [hlen8] at hr
  have htake : (c.id ++ leEncode 4 c.payload.length).take 4 = c.id := List.take_left' hid4
  have hdec : leDecode ((c.id ++ leEncode 4 c.payload.length).drop 4) = c.payload.length := by
    rw [List.drop_left' hid4]
    exact leDecode_leEncode 4 _ (by norm_num; exact hsz)
  unfold scanStep
  dsimp only
  rw [hr]
  dsimp only
  rw [if_neg (by rw [hlen8]; simp), htake, hdec, hid,
    if_neg (by decide : tag "data" ≠ tag "fmt "), if_pos rfl]
/-- The bytes of a chunk stream made of two parts. -/
theorem encodeChunks_append (a b : List Chunk) :
    encodeChunks (a ++ b) = encodeChunks a ++ encodeChunks b := by
  induction a with
  | nil => rfl
  | cons c a ih => simp [encodeChunks, ih, List.append_assoc]

/-- The walk of the specification over a list of chunks keeps what the data chunk sets. -/
theorem walk_keeps (cs : List Chunk) : ∀ st : ScanState,
    (cs.foldl walkChunk st).foundData = st.foundData ∧
    (cs.foldl walkChunk st).dataSize = st.dataSize ∧
    (cs.foldl walkChunk st).dataOffset = st.dataOffset := by
  induction cs with
  | nil => intro st; exact ⟨rfl, rfl, rfl⟩
  | cons c cs ih => intro st; exact ih (walkChunk st c)

/-- The cursor after the walk of the specification over a list of chunks: the bytes of the
chunks further. -/
theorem walk_readPos (cs : List Chunk) : ∀ st : ScanState,
    (∀ c ∈ cs, c.id.length = 4) →
    (cs.foldl walkChunk st).info.readPos = st.info.readPos + (encodeChunks cs).length := by
  induction cs with
  | nil => intro st _; rfl
  | cons c cs ih =>
    intro st h
    rw [List.foldl_cons, ih (walkChunk st c) (fun x hx => h x (List.mem_cons_of_mem c hx))]
    simp only [encodeChunks, List.length_append,
      Chunk.encode_length c (h c (List.mem_cons_self c cs))]
    show st.info.readPos + 8 + c.payload.length + (encodeChunks cs).length = _
    omega

/-- The walk of the specification over chunks other than format chunks keeps the format
record. -/
theorem walk_nofmt (cs : List Chunk) : ∀ st : ScanState,
    (∀ c ∈ cs, c.id ≠ tag "fmt ") →
    (cs.foldl walkChunk st).fmt = st.fmt ∧ (cs.foldl walkChunk st).foundFmt = st.foundFmt := by
  induction cs with
  | nil => intro st _; exact ⟨rfl, rfl⟩
  | cons c cs ih =>
    intro st h
    have hc := h c (List.mem_cons_self c cs)
    obtain ⟨h1, h2⟩ := ih (walkChunk st c) (fun x hx => h x (List.mem_cons_of_mem c hx))
    rw [List.foldl_cons, h1, h2]
    unfold walkChunk
    dsimp only
    rw [if_neg hc, decide_eq_false hc, Bool.or_false]
    exact ⟨rfl, rfl⟩

/-- The chunk loop over walkable chunks does what the walk of the specification says, one
iteration per chunk. -/
theorem scanChunks_walk (file : List Nat) (cs : List Chunk) : ∀ (st : ScanState)
    (rest : List Nat) (m : Nat), walkableChunks cs →
    ScanAt file st (encodeChunks cs ++ rest) → st.foundData = false →
    scanChunks (cs.length + m) st = scanChunks m (cs.foldl walkChunk st) ∧
    ScanAt file (cs.foldl walkChunk st) rest := by
  induction cs with
  | nil =>
    intro st rest m _ hat _
    show scanChunks (0 + m) st = scanChunks m st ∧ _
    rw [Nat.zero_add]
    exact ⟨rfl, hat⟩
  | cons c cs ih =>
    intro st rest m hw hat hnd
    obtain ⟨hid, hndata, hsz, hfmt⟩ := hw c (List.mem_cons_self c cs)
    have hat1 : ScanAt file st (c.encode ++ (encodeChunks cs ++ rest)) := by
      have : encodeChunks (c :: cs) ++ rest = c.encode ++ (encodeChunks cs ++ rest) := by
        simp [encodeChunks, List.append_assoc]
      rw [← this]; exact hat
    obtain ⟨hstep, hat2⟩ := scanStep_chunk file st c _ hat1 hid hndata hsz hfmt
    have hlt : st.info.readPos < st.info.fileSize := by
      obtain ⟨_, hsize, hdrop⟩ := hat1
      have := congrArg List.length hdrop
      rw [List.length_drop, List.length_append, Chunk.encode_length c hid] at this
      omega
    have hlen : (c :: cs).length + m = (cs.length + m) + 1 := by
      simp only [List.length_cons]; omega
    rw [hlen, scanChunks]
    simp only [hnd, Bool.not_false, Bool.true_and, decide_eq_true hlt, if_true, hstep,
      List.foldl_cons]
    exact ih (walkChunk st c) rest m (fun x hx => hw x (List.mem_cons_of_mem c hx)) hat2 hnd

/-- Once the data chunk is found the chunk loop is over with any number of iterations
left. -/
theorem scanChunks_found (n : Nat) (st : ScanState) (h : st.foundData = true) :
    scanChunks n st = st := by
  cases n with
  | zero => rfl
  | succ n => rw [scanChunks]; simp [h]

/-- The header of a WAV file in the form `wavFile` passes the signature test, and the
chunk loop starts at the chunk stream. -/
theorem wavFile_start (riffSize : Nat) (chunks : List Chunk) :
    ((ReadBytes { file := some (wavFile riffSize chunks), readPos := 0,
                  fileSize := (wavFile riffSize chunks).length } 12).1.take 4 = tag "RIFF" ∧
     ((ReadBytes { file := some (wavFile riffSize chunks), readPos := 0,
                   fileSize := (wavFile riffSize chunks).length } 12).1.drop 8).take 4 =
       tag "WAVE") ∧
    ScanAt (wavFile riffSize chunks) (scanStart (wavFile riffSize chunks))
      (encodeChunks chunks) ∧
    (scanStart (wavFile riffSize chunks)).info.readPos = 12 := by
  have hdrop : (wavFile riffSize chunks).drop 0 =
      (tag "RIFF" ++ leEncode 4 riffSize ++ tag "WAVE") ++ encodeChunks chunks := rfl
  have hlen : (tag "RIFF" ++ leEncode 4 riffSize ++ tag "WAVE").length = 12 := by
    simp [leEncode_length, tag]
  have hr := ReadBytes_exact
    (⟨some (wavFile riffSize chunks), 0, (wavFile riffSize chunks).length⟩ : FileInfo)
    (wavFile riffSize chunks) _ _ rfl hdrop
  rw [hlen] at hr
  have h4 : (tag "RIFF").length = 4 := by decide
  have h8 : (tag "RIFF" ++ leEncode 4 riffSize).length = 8 := by
    simp [leEncode_length, tag]
  refine ⟨⟨?_, ?_⟩, ⟨?_, ?_, ?_⟩, ?_⟩
  · rw [hr]
    dsimp only
    rw [List.append_assoc, List.take_left' h4]
  · rw [hr]
    dsimp only
    rw [List.drop_left' h8]
    exact List.take_of_length_le (by decide)
  · unfold scanStart; rw [hr]
  · unfold scanStart; rw [hr]
  · unfold scanStart; rw [hr]
    show (wavFile riffSize chunks).drop (0 + 12) = encodeChunks chunks
    have := drop_add_of_drop (wavFile riffSize chunks) _ _ 0 hdrop
    rwa [hlen] at this
  · unfold scanStart; rw [hr]

/-- A write to sample memory does not touch the circular stream buffer. -/
theorem writeSamples_circular (p : SamplePtr) (f : List Nat → List Nat) (s : AudioState) :
    (writeSamples p f s).circularStreamBuffer = s.circularStreamBuffer := by
  cases p <;> rfl

/-- The refill keeps what the chunk walk stored in the stream descriptor, and the circular
stream buffer. -/
theorem streamRefill_descriptor (k : AudioConsts) (s : AudioState) (c filePos : Nat) :
    (streamRefill k s c filePos).1.activeStream.dataStartPos = s.activeStream.dataStartPos ∧
    (streamRefill k s c filePos).1.activeStream.numChannels = s.activeStream.numChannels ∧
    (streamRefill k s c filePos).1.activeStream.sampleRate = s.activeStream.sampleRate ∧
    (streamRefill k s c filePos).1.circularStreamBuffer = s.circularStreamBuffer := by
  unfold streamRefill
  simp [apply_ite AudioState.activeStream, apply_ite AudioState.circularStreamBuffer,
    writeSamples_activeStream, writeSamples_circular]

/-- The function `UpdateStreamBuffer` keeps what the chunk walk stored in the stream
descriptor, and the circular stream buffer. -/
theorem UpdateStreamBuffer_descriptor (k : AudioConsts) (s : AudioState) (c : Nat) :
    (UpdateStreamBuffer k s c).1.activeStream.dataStartPos = s.activeStream.dataStartPos ∧
    (UpdateStreamBuffer k s c).1.activeStream.dataSize = s.activeStream.dataSize ∧
    (UpdateStreamBuffer k s c).1.activeStream.numChannels = s.activeStream.numChannels ∧
    (UpdateStreamBuffer k s c).1.activeStream.sampleRate = s.activeStream.sampleRate ∧
    (UpdateStreamBuffer k s c).1.circularStreamBuffer = s.circularStreamBuffer := by
  unfold UpdateStreamBuffer
  dsimp only
  split
  · simp [writeSamples_activeStream, writeSamples_circular]
  · split
    · split
      · obtain ⟨h1, h2, h3, h4⟩ := streamRefill_descriptor k
          (if k.MIX_BUFFER_SIZE * 2 ≥ 16 then
            writeSamples (s.channels c).samplePtr (fun buf => fadeLast buf k.MIX_BUFFER_SIZE)
              { s with activeStream :=
                  { s.activeStream with currentReadPos := (s.activeStream.loopPoint / 4) * 4 } }
          else { s with activeStream :=
                  { s.activeStream with currentReadPos := (s.activeStream.loopPoint / 4) * 4 } }) c
          ((s.activeStream.loopPoint / 4) * 4)
        obtain ⟨_, _, h5, _, _⟩ := streamRefill_spec k
          (if k.MIX_BUFFER_SIZE * 2 ≥ 16 then
            writeSamples (s.channels c).samplePtr (fun buf => fadeLast buf k.MIX_BUFFER_SIZE)
              { s with activeStream :=
                  { s.activeStream with currentReadPos := (s.activeStream.loopPoint / 4) * 4 } }
          else { s with activeStream :=
                  { s.activeStream with currentReadPos := (s.activeStream.loopPoint / 4) * 4 } }) c
          ((s.activeStream.loopPoint / 4) * 4)
        rw [h1, h2, h3, h4, h5]
        split <;> simp [writeSamples_activeStream, writeSamples_circular]
      · simp [setChannel, writeSamples_activeStream, writeSamples_circular]
    · obtain ⟨h1, h2, h3, h4⟩ := streamRefill_descriptor k s c s.activeStream.currentReadPos
      obtain ⟨_, _, h5, _, _⟩ := streamRefill_spec k s c s.activeStream.currentReadPos
      exact ⟨h1, h5, h2, h3, h4⟩

/-- For an accepted file (signature, a format chunk and a data chunk found) `LoadStream` is
the priming of `primeStream`, the call of `UpdateStreamBuffer` and the state
`CHANNEL_STREAM`. -/
theorem LoadStream_accepted (k : AudioConsts) (fs : String → Option (List Nat))
    (s : AudioState) (c : Nat) (file : List Nat) (hfile : fs s.streamFilePath = some file)
    (hriff : (ReadBytes (⟨some file, 0, file.length⟩ : FileInfo) 12).1.take 4 = tag "RIFF")
    (hwave : ((ReadBytes (⟨some file, 0, file.length⟩ : FileInfo) 12).1.drop 8).take 4 =
      tag "WAVE")
    (hfmt : (scanChunks file.length (scanStart file)).foundFmt = true)
    (hdata : (scanChunks file.length (scanStart file)).foundData = true) :
    LoadStream k fs s c =
      setChannel
        (UpdateStreamBuffer k (primeStream s (scanChunks file.length (scanStart file))) c).1 c
        { (UpdateStreamBuffer k
            (primeStream s (scanChunks file.length (scanStart file))) c).1.channels c with
          state := CHANNEL_STREAM } := by
  have hs : scanChunks (ReadBytes (⟨some file, 0, file.length⟩ : FileInfo) 12).2.fileSize
      { info := (ReadBytes (⟨some file, 0, file.length⟩ : FileInfo) 12).2,
        fmt := List.replicate 16 0, dataSize := 0, dataOffset := 0,
        foundFmt := false, foundData := false } =
      scanChunks file.length (scanStart file) := rfl
  unfold LoadStream LoadFile
  cases hact : s.activeStream.isActive <;>
  · simp only [Bool.false_eq_true, if_false, if_true]
    rw [hfile]
    dsimp only
    rw [if_neg (by rw [hriff, hwave]; simp), hs, if_neg (by rw [hfmt, hdata]; simp)]
    rfl

/-- A field of the format record after a format chunk of at least sixteen bytes was read
over it: the bytes of the chunk at the offset of the field. -/
theorem field_of_overlay (p x : List Nat) (i w : Nat) (h : i + w ≤ 16) (hp : 16 ≤ p.length) :
    ((overlay (p.take 16) x).drop i).take w = (p.drop i).take w := by
  unfold overlay
  apply List.ext_getElem?
  intro j
  simp only [List.getElem?_take, List.getElem?_drop]
  by_cases hj : j < w
  · rw [if_pos hj, if_pos hj, List.getElem?_append_left (by rw [List.length_take]; omega),
      List.getElem?_take, if_pos (by omega)]
  · rw [if_neg hj, if_neg hj]

/-- A chunk stream of walkable chunks has at least as many bytes as chunks. -/
theorem encodeChunks_length_ge (cs : List Chunk) (hw : walkableChunks cs) :
    cs.length ≤ (encodeChunks cs).length := by
  induction cs with
  | nil => simp
  | cons c cs ih =>
    have hc := (hw c (List.mem_cons_self c cs)).1
    have := ih (fun x hx => hw x (List.mem_cons_of_mem c hx))
    simp only [encodeChunks, List.length_append, List.length_cons, Chunk.encode_length c hc]
    omega

/-- The size of a file in the form `wavFile`. -/
theorem wavFile_length (riffSize : Nat) (chunks : List Chunk) :
    (wavFile riffSize chunks).length = 12 + (encodeChunks chunks).length := by
  unfold wavFile
  simp [leEncode_length, tag]
  omega

/-- The chunk loop on a file whose chunk stream is walkable chunks followed by a data
chunk: it ends at that data chunk, after the walk of the specification over the chunks
before it, with the data size declared by the chunk and the data offset right after its
eight header bytes. -/
theorem scanChunks_wavFile (riffSize : Nat) (pre : List Chunk) (dat : Chunk)
    (post : List Chunk) (hw : walkableChunks pre) (hdat : dat.id = tag "data")
    (hsz : dat.payload.length < 4294967296) :
    scanChunks (wavFile riffSize (pre ++ dat :: post)).length
        (scanStart (wavFile riffSize (pre ++ dat :: post))) =
      { pre.foldl walkChunk (scanStart (wavFile riffSize (pre ++ dat :: post))) with
        info := { (pre.foldl walkChunk
                    (scanStart (wavFile riffSize (pre ++ dat :: post)))).info with
                  readPos := 12 + (encodeChunks pre).length + 8 },
        dataSize := dat.payload.length,
        dataOffset := 12 + (encodeChunks pre).length + 8,
        foundData := true } ∧
    scanChunks (wavFile riffSize (pre ++ dat :: post)).length
        (scanStart (wavFile riffSize (pre ++ dat :: post))) =
      scanChunks (pre.length + 1) (scanStart (wavFile riffSize (pre ++ dat :: post))) := by
  obtain ⟨_, hat0, hpos0⟩ := wavFile_start riffSize (pre ++ dat :: post)
  generalize hfile : wavFile riffSize (pre ++ dat :: post) = file at hat0 hpos0 ⊢
  have henc : encodeChunks (pre ++ dat :: post) =
      encodeChunks pre ++ (dat.encode ++ encodeChunks post) := by
    rw [encodeChunks_append]; rfl
  rw [henc] at hat0
  have hid4 : dat.id.length = 4 := by rw [hdat]; decide
  have hflen : file.length = pre.length + (1 + (file.length - pre.length - 1)) := by
    have h1 := wavFile_length riffSize (pre ++ dat :: post)
    rw [hfile, henc, List.length_append, List.length_append, Chunk.encode_length dat hid4] at h1
    have h2 := encodeChunks_length_ge pre hw
    omega
  have hidpre : ∀ c ∈ pre, c.id.length = 4 := fun c hc => (hw c hc).1
  have hpos1 := walk_readPos pre (scanStart file) hidpre
  rw [hpos0] at hpos1
  obtain ⟨hnd1, _, _⟩ := walk_keeps pre (scanStart file)
  have hnd : (pre.foldl walkChunk (scanStart file)).foundData = false := hnd1
  have key : ∀ m, scanChunks (pre.length + (1 + m)) (scanStart file) =
      { pre.foldl walkChunk (scanStart file) with
        info := { (pre.foldl walkChunk (scanStart file)).info with
                  readPos := 12 + (encodeChunks pre).length + 8 },
        dataSize := dat.payload.length,
        dataOffset := 12 + (encodeChunks pre).length + 8,
        foundData := true } := by
    intro m
    obtain ⟨h1, hat1⟩ := scanChunks_walk file pre (scanStart file)
      (dat.encode ++ encodeChunks post) (1 + m) hw hat0 rfl
    have hlt : (pre.foldl walkChunk (scanStart file)).info.readPos <
        (pre.foldl walkChunk (scanStart file)).info.fileSize := by
      obtain ⟨_, hsize, hdrop⟩ := hat1
      have := congrArg List.length hdrop
      rw [List.length_drop, List.length_append, Chunk.encode_length dat hid4] at this
      omega
    have hstep := scanStep_data file _ dat _ hat1 hdat hsz
    rw [h1, Nat.add_comm 1 m, scanChunks]
    simp only [hnd, Bool.not_false, Bool.true_and, decide_eq_true hlt, if_true, hstep]
    rw [scanChunks_found m _ rfl, hpos1]
  refine ⟨?_, ?_⟩
  · rw [hflen]; exact key _
  · rw [hflen, key _]
    exact (key 0).symm

/-- On a file whose chunk stream starts with the walkable chunks `p`, the chunk loop after
one iteration per chunk of `p` is where the walk of the specification over `p` is. -/
theorem scanChunks_initial (riffSize : Nat) (p q : List Chunk) (hw : walkableChunks p) :
    scanChunks p.length (scanStart (wavFile riffSize (p ++ q))) =
      p.foldl walkChunk (scanStart (wavFile riffSize (p ++ q))) := by
  obtain ⟨_, hat0, _⟩ := wavFile_start riffSize (p ++ q)
  rw [encodeChunks_append] at hat0
  obtain ⟨h1, _⟩ := scanChunks_walk (wavFile riffSize (p ++ q)) p
    (scanStart (wavFile riffSize (p ++ q))) (encodeChunks q) 0 hw hat0 rfl
  exact h1

/-- The format record and the flag after the walk of the specification over chunks whose
last format chunk is `f`. -/
theorem walk_last_fmt (a b : List Chunk) (f : Chunk) (st : ScanState)
    (hf : f.id = tag "fmt ") (hb : ∀ x ∈ b, x.id ≠ tag "fmt ") :
    ((a ++ f :: b).foldl walkChunk st).fmt =
      overlay (f.payload.take 16) (a.foldl walkChunk st).fmt ∧
    ((a ++ f :: b).foldl walkChunk st).foundFmt = true := by
  rw [List.foldl_append, List.foldl_cons]
  obtain ⟨h1, h2⟩ := walk_nofmt b (walkChunk (a.foldl walkChunk st) f) hb
  rw [h1, h2]
  unfold walkChunk
  dsimp only
  rw [if_pos hf, decide_eq_true hf, Bool.or_true]
  exact ⟨rfl, rfl⟩

/-- Claim C12 (amended). For every file made of the twelve-byte `"RIFF"`/size/`"WAVE"`
header followed by well-formed chunks (four-byte identifier, four-byte little-endian size,
that many payload bytes) whose chunks before the first `"data"` chunk contain a `"fmt "`
chunk and in which every `"fmt "` chunk before the data chunk has a declared size of at
least 16: `LoadStream` succeeds (the channel is in `PlayingStream` state) with
`numChannels` and `sampleRate` taken from the last format chunk `f` before the data chunk,
`dataStartPos` the file offset right after the eight header bytes of the data chunk and
`dataSize` the declared size of that chunk; after the chunks `p` before any chunk `x` that
precedes the data chunk the read position is 12 plus the bytes of `p`, and the iteration on
`x` (a format chunk longer than 16 bytes and an unrecognized chunk included) advances it by
exactly 8 plus the declared size of `x` without ending the scan; and the scan stops at the
first data chunk, with the read position right after its header. -/
theorem LoadStream_walks_chunks (k : AudioConsts) (fs : String → Option (List Nat))
    (s : AudioState) (c riffSize : Nat) (a b post : List Chunk) (f dat : Chunk)
    (hfile : fs s.streamFilePath = some (wavFile riffSize ((a ++ f :: b) ++ dat :: post)))
    (hw : walkableChunks (a ++ f :: b))
    (hf : f.id = tag "fmt ") (hb : ∀ x ∈ b, x.id ≠ tag "fmt ")
    (hdat : dat.id = tag "data") (hsz : dat.payload.length < 4294967296) :
    ((LoadStream k fs s c).channels c).state = CHANNEL_STREAM ∧
    (LoadStream k fs s c).activeStream.numChannels = leDecode ((f.payload.drop 2).take 2) ∧
    (LoadStream k fs s c).activeStream.sampleRate = leDecode ((f.payload.drop 4).take 4) ∧
    (LoadStream k fs s c).activeStream.dataStartPos =
      12 + (encodeChunks (a ++ f :: b)).length + 8 ∧
    (LoadStream k fs s c).activeStream.dataSize = dat.payload.length ∧
    (∀ (p q : List Chunk) (x : Chunk), a ++ f :: b = p ++ x :: q →
      (scanChunks p.length
        (scanStart (wavFile riffSize ((a ++ f :: b) ++ dat :: post)))).info.readPos =
          12 + (encodeChunks p).length ∧
      (scanChunks (p.length + 1)
        (scanStart (wavFile riffSize ((a ++ f :: b) ++ dat :: post)))).info.readPos =
          12 + (encodeChunks p).length + 8 + x.payload.length ∧
      (scanChunks (p.length + 1)
        (scanStart (wavFile riffSize ((a ++ f :: b) ++ dat :: post)))).foundData = false) ∧
    (scanChunks (wavFile riffSize ((a ++ f :: b) ++ dat :: post)).length
      (scanStart (wavFile riffSize ((a ++ f :: b) ++ dat :: post)))).info.readPos =
        12 + (encodeChunks (a ++ f :: b)).length + 8 ∧
    (scanChunks (wavFile riffSize ((a ++ f :: b) ++ dat :: post)).length
      (scanStart (wavFile riffSize ((a ++ f :: b) ++ dat :: post)))).foundData = true ∧
    scanChunks (wavFile riffSize ((a ++ f :: b) ++ dat :: post)).length
        (scanStart (wavFile riffSize ((a ++ f :: b) ++ dat :: post))) =
      scanChunks ((a ++ f :: b).length + 1)
        (scanStart (wavFile riffSize ((a ++ f :: b) ++ dat :: post))) := by
  obtain ⟨⟨hriff, hwave⟩, _, hpos0⟩ := wavFile_start riffSize ((a ++ f :: b) ++ dat :: post)
  obtain ⟨hscan, hstop⟩ := scanChunks_wavFile riffSize (a ++ f :: b) dat post hw hdat hsz
  obtain ⟨hfmtv, hfound⟩ := walk_last_fmt a b f
    (scanStart (wavFile riffSize ((a ++ f :: b) ++ dat :: post))) hf hb
  have h16 : 16 ≤ f.payload.length :=
    (hw f (List.mem_append_right a (List.mem_cons_self f b))).2.2.2 hf
  have hacc := LoadStream_accepted k fs s c _ hfile hriff hwave
    (by rw [hscan]; exact hfound) (by rw [hscan])
  obtain ⟨d1, d2, d3, d4, _⟩ := UpdateStreamBuffer_descriptor k
    (primeStream s (scanChunks (wavFile riffSize ((a ++ f :: b) ++ dat :: post)).length
      (scanStart (wavFile riffSize ((a ++ f :: b) ++ dat :: post))))) c
  refine ⟨?_, ?_, ?_, ?_, ?_, ?_, ?_, ?_, hstop⟩
  · rw [hacc]; simp [setChannel]
  · rw [hacc]
    show (UpdateStreamBuffer k _ c).1.activeStream.numChannels = _
    rw [d3, hscan]
    show leDecode ((((a ++ f :: b).foldl walkChunk _).fmt.drop 2).take 2) = _
    rw [hfmtv, field_of_overlay _ _ 2 2 (by decide) h16]
  · rw [hacc]
    show (UpdateStreamBuffer k _ c).1.activeStream.sampleRate = _
    rw [d4, hscan]
    show leDecode ((((a ++ f :: b).foldl walkChunk _).fmt.drop 4).take 4) = _
    rw [hfmtv, field_of_overlay _ _ 4 4 (by decide) h16]
  · rw [hacc]
    show (UpdateStreamBuffer k _ c).1.activeStream.dataStartPos = _
    rw [d1, hscan]
    rfl
  · rw [hacc]
    show (UpdateStreamBuffer k _ c).1.activeStream.dataSize = _
    rw [d2, hscan]
    rfl
  · intro p q x hsplit
    have hwp : walkableChunks p := fun y hy =>
      hw y (by rw [hsplit]; exact List.mem_append_left _ hy)
    have hwx : walkableChunks (p ++ [x]) := fun y hy => hw y (by
      rw [hsplit]
      rcases List.mem_append.mp hy with h | h
      · exact List.mem_append_left _ h
      · rw [List.mem_singleton] at h
        rw [h]
        exact List.mem_append_right _ (List.mem_cons_self x q))
    have e1 : (a ++ f :: b) ++ dat :: post = p ++ (x :: q ++ dat :: post) := by
      rw [hsplit, List.append_assoc]
    have e2 : (a ++ f :: b) ++ dat :: post = (p ++ [x]) ++ (q ++ dat :: post) := by
      rw [hsplit]; simp
    have hp := scanChunks_initial riffSize p (x :: q ++ dat :: post) hwp
    have hx := scanChunks_initial riffSize (p ++ [x]) (q ++ dat :: post) hwx
    rw [← e1] at hp
    rw [← e2, List.length_append, List.length_singleton] at hx
    have hr1 := walk_readPos p
      (scanStart (wavFile riffSize ((a ++ f :: b) ++ dat :: post))) (fun y hy => (hwp y hy).1)
    rw [hpos0] at hr1
    refine ⟨by rw [hp, hr1], ?_, ?_⟩
    · rw [hx, List.foldl_append]
      show (p.foldl walkChunk _).info.readPos + 8 + x.payload.length = _
      rw [hr1]
    · rw [hx]
      exact (walk_keeps (p ++ [x]) _).1
  · rw [hscan]
  · rw [hscan]

/-- Witness of claim C12 (amended): the file `listWav` (header, an unrecognized chunk of
three bytes, a format chunk and a data chunk of 100 bytes). -/
theorem LoadStream_walks_chunks_witness :
    ((LoadStream demoConsts (fun _ => some listWav) demoInit 0).channels 0).state =
      CHANNEL_STREAM ∧
    (LoadStream demoConsts (fun _ => some listWav) demoInit 0).activeStream.numChannels = 2 ∧
    (LoadStream demoConsts (fun _ => some listWav) demoInit 0).activeStream.sampleRate =
      48000 ∧
    (LoadStream demoConsts (fun _ => some listWav) demoInit 0).activeStream.dataStartPos = 55 ∧
    (LoadStream demoConsts (fun _ => some listWav) demoInit 0).activeStream.dataSize = 100 :=
  have h := LoadStream_walks_chunks demoConsts (fun _ => some listWav) demoInit 0 147
    [listChunk] [] [] demoFmt (demoData 100) rfl (by unfold walkableChunks; decide) rfl
    (by simp) rfl (by decide)
  ⟨h.1, h.2.1.trans (by decide), h.2.2.1.trans (by decide), h.2.2.2.1.trans (by decide),
    h.2.2.2.2.1.trans (by decide)⟩

/-- An iteration of the chunk loop on a format chunk shorter than the format record: the
sixteen-byte read runs into the next chunk, `remaining = chunkSize - 16` wraps around, and
the skip loop runs to the end of the file. -/
theorem scanStep_short_fmt (file : List Nat) (st : ScanState) (c : Chunk) (rest : List Nat)
    (h : ScanAt file st (c.encode ++ rest)) (hid : c.id = tag "fmt ")
    (hshort : c.payload.length < 16) (hlen : file.length < 2147483648) :
    ∃ st', scanStep st = some st' ∧ st'.foundData = st.foundData ∧
      st'.info.fileSize = st.info.fileSize ∧ st'.info.readPos = file.length := by
  obtain ⟨hfile, hsize, hdrop⟩ := h
  have hid4 : c.id.length = 4 := by rw [hid]; decide
  have hhead : file.drop st.info.readPos =
      (c.id ++ leEncode 4 c.payload.length) ++ (c.payload ++ rest) := by
    rw [hdrop]; unfold Chunk.encode; simp [List.append_assoc]
  have hlen8 : (c.id ++ leEncode 4 c.payload.length).length = 8 := by
    simp [hid4, leEncode_length]
  have hr := ReadBytes_exact st.info file _ _ hfile hhead
  rw [hlen8] at hr
  have hflen : file.length - st.info.readPos = 8 + c.payload.length + rest.length := by
    have := congrArg List.length hdrop
    rw [List.length_drop, List.length_append, Chunk.encode_length c hid4] at this
    exact this
  have htake : (c.id ++ leEncode 4 c.payload.length).take 4 = c.id := List.take_left' hid4
  have hdec : leDecode ((c.id ++ leEncode 4 c.payload.length).drop 4) = c.payload.length := by
    rw [List.drop_left' hid4]
    exact leDecode_leEncode 4 _ (by norm_num; omega)
  have hu : u32 (c.payload.length + 4294967296 - 16) = c.payload.length + 4294967296 - 16 := by
    unfold u32; omega
  unfold scanStep
  dsimp only
  rw [hr]
  dsimp only
  rw [if_neg (by rw [hlen8]; simp), htake, hdec, if_pos hid, hu,
    skipLoop_eq _ _ _ (le_refl _), ReadBytes_snd]
  refine ⟨_, rfl, rfl, rfl, ?_⟩
  dsimp only
  rw [hfile, Option.getD_some]
  omega

/-- At the end of the file the chunk loop is over with any number of iterations left. -/
theorem scanChunks_eof (n : Nat) (st : ScanState) (h : ¬ st.info.readPos < st.info.fileSize) :
    scanChunks n st = st := by
  cases n with
  | zero => rfl
  | succ n => rw [scanChunks]; simp [h]

/-- A file with a format chunk shorter than sixteen bytes before its data chunk is rejected
by `LoadStream`, whatever precedes and follows that chunk. -/
theorem wavFile_short_fmt_rejected (fs : String → Option (List Nat)) (path : String)
    (riffSize : Nat) (pre post : List Chunk) (sf : Chunk)
    (hfile : fs path = some (wavFile riffSize (pre ++ sf :: post)))
    (hw : walkableChunks pre) (hid : sf.id = tag "fmt ") (hshort : sf.payload.length < 16)
    (hlen : (wavFile riffSize (pre ++ sf :: post)).length < 2147483648) :
    streamLoadRejected fs path = true := by
  obtain ⟨_, hat0, _⟩ := wavFile_start riffSize (pre ++ sf :: post)
  have henc : encodeChunks (pre ++ sf :: post) =
      encodeChunks pre ++ (sf.encode ++ encodeChunks post) := by
    rw [encodeChunks_append]; rfl
  rw [henc] at hat0
  have hid4 : sf.id.length = 4 := by rw [hid]; decide
  have hscan : (scanChunks (wavFile riffSize (pre ++ sf :: post)).length
      (scanStart (wavFile riffSize (pre ++ sf :: post)))).foundData = false := by
    generalize hfeq : wavFile riffSize (pre ++ sf :: post) = file at hat0 hlen ⊢
    have hflen : file.length = pre.length + ((file.length - pre.length - 1) + 1) := by
      have h1 := wavFile_length riffSize (pre ++ sf :: post)
      rw [hfeq, henc, List.length_append, List.length_append,
        Chunk.encode_length sf hid4] at h1
      have h2 := encodeChunks_length_ge pre hw
      omega
    obtain ⟨h1, hat1⟩ := scanChunks_walk file pre (scanStart file)
      (sf.encode ++ encodeChunks post) ((file.length - pre.length - 1) + 1) hw hat0 rfl
    obtain ⟨hnd1, _, _⟩ := walk_keeps pre (scanStart file)
    have hnd : (pre.foldl walkChunk (scanStart file)).foundData = false := hnd1
    have hlt : (pre.foldl walkChunk (scanStart file)).info.readPos <
        (pre.foldl walkChunk (scanStart file)).info.fileSize := by
      obtain ⟨_, hsize, hdrop⟩ := hat1
      have := congrArg List.length hdrop
      rw [List.length_drop, List.length_append, Chunk.encode_length sf hid4] at this
      omega
    obtain ⟨st', hstep, hfd, hfs, hrp⟩ := scanStep_short_fmt file _ sf _ hat1 hid hshort hlen
    rw [hflen, h1, scanChunks]
    simp only [hnd, Bool.not_false, Bool.true_and, decide_eq_true hlt, if_true, hstep]
    rw [scanChunks_eof _ _ (by rw [hrp, hfs, hat1.2.1]; omega), hfd]
    exact hnd
  unfold streamLoadRejected LoadFile
  rw [hfile]
  dsimp only
  split
  · rfl
  · have hs : scanChunks (ReadBytes (⟨some (wavFile riffSize (pre ++ sf :: post)), 0,
          (wavFile riffSize (pre ++ sf :: post)).length⟩ : FileInfo) 12).2.fileSize
        { info := (ReadBytes (⟨some (wavFile riffSize (pre ++ sf :: post)), 0,
            (wavFile riffSize (pre ++ sf :: post)).length⟩ : FileInfo) 12).2,
          fmt := List.replicate 16 0, dataSize := 0, dataOffset := 0,
          foundFmt := false, foundData := false } =
        scanChunks (wavFile riffSize (pre ++ sf :: post)).length
          (scanStart (wavFile riffSize (pre ++ sf :: post))) := rfl
    rw [hs, hscan]
    simp

set_option maxRecDepth 1000000 in
/-- Claim C12 as stated fails. The file `twoFmtWav` is the header followed by three
well-formed chunks: a format chunk of declared size 16, a second format chunk of declared
size 8 and a data chunk; it has a format chunk of declared size at least 16 before its
first data chunk. `LoadStream` rejects it: the channel is left `Idle` and the stream
descriptor inactive. -/
theorem LoadStream_rejects_short_fmt :
    twoFmtWav = wavFile 152 ([demoFmt] ++ shortFmt :: [demoData 100]) ∧
    (demoFmt.id = tag "fmt " ∧ demoFmt.payload.length = 16) ∧
    (shortFmt.id = tag "fmt " ∧ shortFmt.payload.length = 8) ∧
    ((demoData 100).id = tag "data" ∧ (demoData 100).payload.length = 100) ∧
    twoFmtWav.length = 12 + (8 + 16) + (8 + 8) + (8 + 100) ∧
    streamLoadRejected (fun _ => some twoFmtWav) demoInit.streamFilePath = true ∧
    ((LoadStream demoConsts (fun _ => some twoFmtWav) demoInit 0).channels 0).state =
      CHANNEL_IDLE ∧
    (LoadStream demoConsts (fun _ => some twoFmtWav) demoInit 0).activeStream.isActive =
      false := by
  have hrej : streamLoadRejected (fun _ => some twoFmtWav) demoInit.streamFilePath = true :=
    wavFile_short_fmt_rejected (fun _ => some twoFmtWav) _ 152 [demoFmt] [demoData 100]
      shortFmt rfl (by unfold walkableChunks; decide) rfl (by decide) (by decide)
  obtain ⟨hch, hact⟩ := LoadStream_rejected demoConsts (fun _ => some twoFmtWav) demoInit 0
    hrej
  refine ⟨rfl, by decide, by decide, by decide, by decide, hrej, ?_, hact⟩
  rw [hch, Function.update_same]

/-- The part of `PlayStream` before the load keeps the circular stream buffer. -/
theorem prepareStream_circular (k : AudioConsts) (s : AudioState) (filename : String)
    (slot startPos loopPoint : Nat) :
    (prepareStream k s filename slot startPos loopPoint).circularStreamBuffer =
      s.circularStreamBuffer := by
  unfold prepareStream
  dsimp only
  simp only [setChannel, writeSamples_circular]
  split
  · split <;> rfl
  · rfl

/-- The data region of a file in the form `wavFile`: the bytes after the eight header
bytes of the data chunk are its payload and the chunks that follow. -/
theorem wavFile_data_region (riffSize : Nat) (pre post : List Chunk) (dat : Chunk)
    (hid : dat.id.length = 4) :
    (wavFile riffSize (pre ++ dat :: post)).drop (12 + (encodeChunks pre).length + 8) =
      dat.payload ++ encodeChunks post := by
  obtain ⟨_, hat0, hpos0⟩ := wavFile_start riffSize (pre ++ dat :: post)
  have h0 := hat0.2.2
  rw [hpos0] at h0
  have henc : encodeChunks (pre ++ dat :: post) =
      encodeChunks pre ++ ((dat.id ++ leEncode 4 dat.payload.length) ++
        (dat.payload ++ encodeChunks post)) := by
    rw [encodeChunks_append]
    simp [encodeChunks, Chunk.encode, List.append_assoc]
  rw [henc] at h0
  have h1 := drop_add_of_drop _ _ _ 12 h0
  have h2 := drop_add_of_drop _ _ _ _ h1
  have hlen8 : (dat.id ++ leEncode 4 dat.payload.length).length = 8 := by
    simp [hid, leEncode_length]
  rw [hlen8] at h2
  exact h2

/-- The walk of the specification keeps the file and its recorded size. -/
theorem walk_file (cs : List Chunk) : ∀ st : ScanState,
    (cs.foldl walkChunk st).info.file = st.info.file ∧
    (cs.foldl walkChunk st).info.fileSize = st.info.fileSize := by
  induction cs with
  | nil => intro st; exact ⟨rfl, rfl⟩
  | cons c cs ih => intro st; exact ih (walkChunk st c)

/-- The priming of `LoadStream` from the start offset 0 on a data region of more than
`STREAM_BUFFER_SIZE` bytes: the file cursor is set to the start of the data region, the
first 65,536 bytes of the region are read into the cleared circular buffer, and the read
cursor of the stream is 65536. -/
theorem primeStream_fields (s : AudioState) (st : ScanState) (file payload rest : List Nat)
    (hsp : s.streamStartPos = 0) (hfile : st.info.file = some file)
    (hdrop : file.drop st.dataOffset = payload ++ rest) (hd : st.dataSize = payload.length)
    (hbig : 65536 < payload.length) (hoff : st.dataOffset < 4294967296) :
    (primeStream s st).activeStream.currentReadPos = 65536 ∧
    (primeStream s st).activeStream.dataSize = payload.length ∧
    (primeStream s st).activeStream.isActive = true ∧
    (primeStream s st).activeStream.fileInfo.readPos = st.dataOffset + 65536 ∧
    (primeStream s st).circularStreamBuffer = s.circularStreamBuffer.map
      (fun buf => overlay (payload.take 65536) (zeroFill STREAM_BUFFER_SIZE buf)) ∧
    (primeStream s st).channels = s.channels := by
  have hu : u32 (st.dataOffset + 0) = st.dataOffset := by
    unfold u32; rw [Nat.add_zero]; exact Nat.mod_eq_of_lt hoff
  have hp : file.drop st.dataOffset =
      payload.take 65536 ++ (payload.drop 65536 ++ rest) := by
    rw [hdrop, ← List.append_assoc, List.take_append_drop]
  have hl : (payload.take 65536).length = 65536 := by
    rw [List.length_take]; omega
  have hr := ReadBytes_exact { st.info with readPos := st.dataOffset } file _ _ hfile hp
  rw [hl] at hr
  have hload : (if st.dataSize > STREAM_BUFFER_SIZE then STREAM_BUFFER_SIZE else st.dataSize) =
      65536 := by
    rw [hd, if_pos (by unfold STREAM_BUFFER_SIZE; omega)]; rfl
  unfold primeStream
  dsimp only
  rw [hsp, ite_self, hu, hload, hr]
  exact ⟨by decide, hd, rfl, rfl, rfl, rfl⟩

/-- With an active stream, an allocated circular buffer and the read cursor inside the
data region, `UpdateStreamBuffer` is the refill at the read cursor. -/
theorem UpdateStreamBuffer_refill (k : AudioConsts) (s : AudioState) (c : Nat)
    (hact : s.activeStream.isActive = true) (hcirc : s.circularStreamBuffer.isSome = true)
    (hlt : s.activeStream.currentReadPos < s.activeStream.dataSize) :
    UpdateStreamBuffer k s c = streamRefill k s c s.activeStream.currentReadPos := by
  have hnone : s.circularStreamBuffer.isNone = false := by
    cases h : s.circularStreamBuffer with
    | none => rw [h] at hcirc; exact absurd hcirc (by decide)
    | some _ => rfl
  unfold UpdateStreamBuffer
  dsimp only
  rw [hact, hnone, if_neg (by decide), if_neg (by omega)]

/-- The first refill of a stream on a file with a data region of more than 65,536 bytes,
played from the start offset 0 on an explicit slot: `PlayStream` returns the slot; the
priming read of `LoadStream` puts the data bytes [0, 65536) into the circular buffer; the
first refill is the call of `UpdateStreamBuffer` in `LoadStream` itself, on the primed
state, where the channel still has the cursor 0; it reads at the data offset 65536. -/
theorem PlayStream_first_refill (k : AudioConsts) (fs : String → Option (List Nat))
    (s : AudioState) (filename : String) (slot loopPoint riffSize : Nat)
    (a b post : List Chunk) (f dat : Chunk)
    (hen : s.streamsEnabled = true) (hslot : slot < k.CHANNEL_COUNT)
    (hcirc : s.circularStreamBuffer.isSome = true)
    (hfile : fs (streamPath filename) =
      some (wavFile riffSize ((a ++ f :: b) ++ dat :: post)))
    (hw : walkableChunks (a ++ f :: b))
    (hf : f.id = tag "fmt ") (hb : ∀ x ∈ b, x.id ≠ tag "fmt ")
    (hdat : dat.id = tag "data") (hbig : 65536 < dat.payload.length)
    (hlen : (wavFile riffSize ((a ++ f :: b) ++ dat :: post)).length < 2147483648) :
    (PlayStream k fs s filename slot 0 loopPoint).1 = (slot : Int) ∧
    (PlayStream k fs s filename slot 0 loopPoint).2 =
      setChannel
        (UpdateStreamBuffer k (primeStream (prepareStream k s filename slot 0 loopPoint)
          (scanChunks (wavFile riffSize ((a ++ f :: b) ++ dat :: post)).length
            (scanStart (wavFile riffSize ((a ++ f :: b) ++ dat :: post))))) slot).1 slot
        { (UpdateStreamBuffer k (primeStream (prepareStream k s filename slot 0 loopPoint)
            (scanChunks (wavFile riffSize ((a ++ f :: b) ++ dat :: post)).length
              (scanStart (wavFile riffSize ((a ++ f :: b) ++ dat :: post))))) slot).1.channels
            slot with state := CHANNEL_STREAM } ∧
    (primeStream (prepareStream k s filename slot 0 loopPoint)
      (scanChunks (wavFile riffSize ((a ++ f :: b) ++ dat :: post)).length
        (scanStart (wavFile riffSize ((a ++ f :: b) ++ dat :: post))))).circularStreamBuffer =
      s.circularStreamBuffer.map
        (fun buf => overlay (dat.payload.take 65536) (zeroFill STREAM_BUFFER_SIZE buf)) ∧
    (primeStream (prepareStream k s filename slot 0 loopPoint)
      (scanChunks (wavFile riffSize ((a ++ f :: b) ++ dat :: post)).length
        (scanStart (wavFile riffSize ((a ++ f :: b) ++ dat :: post))))).activeStream.currentReadPos
      = 65536 ∧
    ((primeStream (prepareStream k s filename slot 0 loopPoint)
      (scanChunks (wavFile riffSize ((a ++ f :: b) ++ dat :: post)).length
        (scanStart (wavFile riffSize ((a ++ f :: b) ++ dat :: post))))).channels slot).bufferPos
      = 0 ∧
    (UpdateStreamBuffer k (primeStream (prepareStream k s filename slot 0 loopPoint)
      (scanChunks (wavFile riffSize ((a ++ f :: b) ++ dat :: post)).length
        (scanStart (wavFile riffSize ((a ++ f :: b) ++ dat :: post))))) slot).2 =
      some { offset := 65536, length := refillLength k dat.payload.length 65536 } ∧
    (PlayStream k fs s filename slot 0 loopPoint).2.activeStream.currentReadPos =
      u32 (65536 + refillLength k dat.payload.length 65536) ∧
    (PlayStream k fs s filename slot 0 loopPoint).2.circularStreamBuffer =
      s.circularStreamBuffer.map
        (fun buf => overlay (dat.payload.take 65536) (zeroFill STREAM_BUFFER_SIZE buf)) ∧
    ((PlayStream k fs s filename slot 0 loopPoint).2.channels slot).bufferPos = 0 ∧
    ((PlayStream k fs s filename slot 0 loopPoint).2.channels slot).state = CHANNEL_STREAM := by
  have hsel := selectStreamSlot_explicit k s slot hslot
  have hid4 : dat.id.length = 4 := by rw [hdat]; decide
  have hflen := wavFile_length riffSize ((a ++ f :: b) ++ dat :: post)
  have henc : encodeChunks ((a ++ f :: b) ++ dat :: post) =
      encodeChunks (a ++ f :: b) ++ (dat.encode ++ encodeChunks post) := by
    rw [encodeChunks_append]; rfl
  rw [henc, List.length_append, List.length_append, Chunk.encode_length dat hid4] at hflen
  have hsz : dat.payload.length < 4294967296 := by omega
  obtain ⟨⟨hriff, hwave⟩, hat0, _⟩ := wavFile_start riffSize ((a ++ f :: b) ++ dat :: post)
  obtain ⟨hscan, _⟩ := scanChunks_wavFile riffSize (a ++ f :: b) dat post hw hdat hsz
  obtain ⟨_, hfound⟩ := walk_last_fmt a b f
    (scanStart (wavFile riffSize ((a ++ f :: b) ++ dat :: post))) hf hb
  obtain ⟨hwf, _⟩ := walk_file (a ++ f :: b)
    (scanStart (wavFile riffSize ((a ++ f :: b) ++ dat :: post)))
  have hacc := LoadStream_accepted k fs (prepareStream k s filename slot 0 loopPoint) slot _
    hfile hriff hwave (by rw [hscan]; exact hfound) (by rw [hscan])
  have hregion := wavFile_data_region riffSize (a ++ f :: b) post dat hid4
  generalize hst : scanChunks (wavFile riffSize ((a ++ f :: b) ++ dat :: post)).length
    (scanStart (wavFile riffSize ((a ++ f :: b) ++ dat :: post))) = st at hscan hacc ⊢
  have hstfile : st.info.file = some (wavFile riffSize ((a ++ f :: b) ++ dat :: post)) := by
    rw [hscan]
    show ((a ++ f :: b).foldl walkChunk _).info.file = _
    rw [hwf]; exact hat0.1
  have hstoff : st.dataOffset = 12 + (encodeChunks (a ++ f :: b)).length + 8 := by
    rw [hscan]
  have hstsize : st.dataSize = dat.payload.length := by rw [hscan]
  obtain ⟨p1, p2, p3, _, p5, p6⟩ := primeStream_fields
    (prepareStream k s filename slot 0 loopPoint) st _ dat.payload (encodeChunks post)
    rfl hstfile (by rw [hstoff]; exact hregion) hstsize hbig (by rw [hstoff]; omega)
  rw [prepareStream_circular] at p5
  obtain ⟨_, _, _, pbuf⟩ := prepareStream_channel k s filename slot 0 loopPoint
  have hcirc1 : (primeStream (prepareStream k s filename slot 0 loopPoint)
      st).circularStreamBuffer.isSome = true := by
    rw [p5]; simp [hcirc]
  have husb := UpdateStreamBuffer_refill k
    (primeStream (prepareStream k s filename slot 0 loopPoint) st) slot p3 hcirc1
    (by rw [p1, p2]; exact hbig)
  rw [p1] at husb
  obtain ⟨r1, r2, _, _, _⟩ := streamRefill_spec k
    (primeStream (prepareStream k s filename slot 0 loopPoint) st) slot 65536
  obtain ⟨_, _, _, r6⟩ := streamRefill_descriptor k
    (primeStream (prepareStream k s filename slot 0 loopPoint) st) slot 65536
  have r7 := streamRefill_channels k
    (primeStream (prepareStream k s filename slot 0 loopPoint) st) slot 65536
  rw [p2] at r1
  rw [p1, p2] at r2
  have hplay : PlayStream k fs s filename slot 0 loopPoint = ((slot : Int),
      LoadStream k fs (prepareStream k s filename slot 0 loopPoint) slot) := by
    rw [PlayStream_to_slot k fs s filename slot 0 loopPoint hen (by rw [hsel]; exact hslot),
      hsel]
  rw [hplay, hacc, husb]
  refine ⟨rfl, rfl, p5, p1, ?_, r1, ?_, ?_, ?_, ?_⟩
  · rw [p6]; exact pbuf
  · exact r2
  · show (streamRefill k _ slot 65536).1.circularStreamBuffer = _
    rw [r6, p5]
  · simp only [setChannel, Function.update_same]
    rw [r7, p6]; exact pbuf
  · simp only [setChannel, Function.update_same]

/-- The length of the first refill on a data region of 200,000 bytes: a multiple of 4, at
most the 134,464 bytes left after the primed ones, namely the lesser of those and the byte
size of the mix buffer, rounded down to a multiple of 4. -/
theorem refillLength_first (k : AudioConsts) :
    refillLength k 200000 65536 % 4 = 0 ∧ refillLength k 200000 65536 ≤ 134464 ∧
    refillLength k 200000 65536 = (min 134464 (k.MIX_BUFFER_SIZE * 2)) / 4 * 4 := by
  have hu : u32 (200000 + 4294967296 - 65536) = 134464 := by decide
  unfold refillLength
  rw [hu]
  refine ⟨Nat.mul_mod_left _ _, ?_, ?_⟩
  · split <;> omega
  · split
    · rw [Nat.min_eq_right (by omega)]
    · rw [Nat.min_eq_left (by omega)]

/-- Claim C11 (amended). For `PlayStream("theme.ogg", slot, 0, 0)` with streams enabled, an
explicit slot below `CHANNEL_COUNT` and the circular buffer allocated, against a
well-formed WAV file (header, walkable chunks with a format chunk, data chunk, further
chunks; size below 2 GiB) whose data region is 200,000 bytes: the call returns the slot;
the priming read of `LoadStream` puts exactly the data bytes [0, 65536) into the cleared
circular buffer and leaves the read cursor at 65536; the first refill read is issued by
`LoadStream` itself, by its call of `UpdateStreamBuffer` on the primed state, before
`PlayStream` returns and while the cursor of the channel is still 0 (no mixing pass has
consumed anything); that refill starts at the data offset 65536 with a length that is a
multiple of 4 and at most the 134,464 remaining bytes (the lesser of them and the byte size
of the mix buffer, rounded down to a multiple of 4); and when `PlayStream` returns the read
cursor is 65536 plus that length, the channel is in `PlayingStream` state with the cursor
0. -/
theorem PlayStream_theme_first_refill (k : AudioConsts) (fs : String → Option (List Nat))
    (s : AudioState) (slot riffSize : Nat) (a b post : List Chunk) (f dat : Chunk)
    (hen : s.streamsEnabled = true) (hslot : slot < k.CHANNEL_COUNT)
    (hcirc : s.circularStreamBuffer.isSome = true)
    (hfile : fs (streamPath "theme.ogg") =
      some (wavFile riffSize ((a ++ f :: b) ++ dat :: post)))
    (hw : walkableChunks (a ++ f :: b))
    (hf : f.id = tag "fmt ") (hb : ∀ x ∈ b, x.id ≠ tag "fmt ")
    (hdat : dat.id = tag "data") (hsize : dat.payload.length = 200000)
    (hlen : (wavFile riffSize ((a ++ f :: b) ++ dat :: post)).length < 2147483648) :
    (PlayStream k fs s "theme.ogg" slot 0 0).1 = (slot : Int) ∧
    (PlayStream k fs s "theme.ogg" slot 0 0).2.circularStreamBuffer =
      s.circularStreamBuffer.map
        (fun buf => overlay (dat.payload.take 65536) (zeroFill STREAM_BUFFER_SIZE buf)) ∧
    (primeStream (prepareStream k s "theme.ogg" slot 0 0)
      (scanChunks (wavFile riffSize ((a ++ f :: b) ++ dat :: post)).length
        (scanStart (wavFile riffSize ((a ++ f :: b) ++ dat :: post))))).activeStream.currentReadPos
      = 65536 ∧
    (PlayStream k fs s "theme.ogg" slot 0 0).2 =
      setChannel
        (UpdateStreamBuffer k (primeStream (prepareStream k s "theme.ogg" slot 0 0)
          (scanChunks (wavFile riffSize ((a ++ f :: b) ++ dat :: post)).length
            (scanStart (wavFile riffSize ((a ++ f :: b) ++ dat :: post))))) slot).1 slot
        { (UpdateStreamBuffer k (primeStream (prepareStream k s "theme.ogg" slot 0 0)
            (scanChunks (wavFile riffSize ((a ++ f :: b) ++ dat :: post)).length
              (scanStart (wavFile riffSize ((a ++ f :: b) ++ dat :: post))))) slot).1.channels
            slot with state := CHANNEL_STREAM } ∧
    ((primeStream (prepareStream k s "theme.ogg" slot 0 0)
      (scanChunks (wavFile riffSize ((a ++ f :: b) ++ dat :: post)).length
        (scanStart (wavFile riffSize ((a ++ f :: b) ++ dat :: post))))).channels slot).bufferPos
      = 0 ∧
    (UpdateStreamBuffer k (primeStream (prepareStream k s "theme.ogg" slot 0 0)
      (scanChunks (wavFile riffSize ((a ++ f :: b) ++ dat :: post)).length
        (scanStart (wavFile riffSize ((a ++ f :: b) ++ dat :: post))))) slot).2 =
      some { offset := 65536, length := refillLength k 200000 65536 } ∧
    refillLength k 200000 65536 % 4 = 0 ∧ refillLength k 200000 65536 ≤ 134464 ∧
    refillLength k 200000 65536 = (min 134464 (k.MIX_BUFFER_SIZE * 2)) / 4 * 4 ∧
    (PlayStream k fs s "theme.ogg" slot 0 0).2.activeStream.currentReadPos =
      65536 + refillLength k 200000 65536 ∧
    ((PlayStream k fs s "theme.ogg" slot 0 0).2.channels slot).bufferPos = 0 ∧
    ((PlayStream k fs s "theme.ogg" slot 0 0).2.channels slot).state = CHANNEL_STREAM := by
  obtain ⟨h1, h2, _, h4, h5, h6, h7, h8, h9, h10⟩ := PlayStream_first_refill k fs s
    "theme.ogg" slot 0 riffSize a b post f dat hen hslot hcirc hfile hw hf hb hdat
    (by omega) hlen
  obtain ⟨q1, q2, q3⟩ := refillLength_first k
  rw [hsize] at h6 h7
  have hu : u32 (65536 + refillLength k 200000 65536) = 65536 + refillLength k 200000 65536 := by
    unfold u32; omega
  rw [hu] at h7
  exact ⟨h1, h8, h4, h2, h5, h6, q1, q2, q3, h7, h9, h10⟩

/-- The bytes of a chunk stream of two chunks. -/
theorem encodeChunks_pair (c d : Chunk) :
    (encodeChunks [c, d]).length = c.encode.length + d.encode.length := by
  simp [encodeChunks]

/-- The size of the file `longWav`. -/
theorem longWav_length : longWav.length = 200044 := by
  have h1 : demoFmt.payload.length = 16 := by decide
  have h2 : (demoData 200000).payload.length = 200000 := List.length_replicate _ _
  unfold longWav
  rw [wavFile_length, encodeChunks_pair, Chunk.encode_length demoFmt (by decide),
    Chunk.encode_length (demoData 200000) (by decide), h1, h2]

/-- The file `longWav` is smaller than 2 GiB. -/
theorem longWav_small :
    (wavFile 200036 (([] ++ demoFmt :: []) ++ demoData 200000 :: [])).length < 2147483648 := by
  rw [show wavFile 200036 (([] ++ demoFmt :: []) ++ demoData 200000 :: []) = longWav from rfl,
    longWav_length]
  decide

/-- Witness of claim C11 (amended): the file `longWav` (a format chunk and 200,000 bytes of
data) played on slot 0 of the initialised state; the refill is of 4,096 bytes. -/
theorem PlayStream_theme_first_refill_witness :
    (PlayStream demoConsts (fun _ => some longWav) demoInit "theme.ogg" 0 0 0).1 = 0 ∧
    (PlayStream demoConsts (fun _ => some longWav) demoInit "theme.ogg" 0 0
      0).2.activeStream.currentReadPos = 65536 + refillLength demoConsts 200000 65536 ∧
    refillLength demoConsts 200000 65536 = 4096 :=
  have h := PlayStream_theme_first_refill demoConsts (fun _ => some longWav) demoInit 0 200036
    [] [] [] demoFmt (demoData 200000) (by decide) (by decide) (by decide) rfl
    (by unfold walkableChunks; decide) rfl (by simp) rfl (List.length_replicate _ _)
    longWav_small
  ⟨h.1, h.2.2.2.2.2.2.2.2.2.1, by decide⟩

/-- Claim C11 as stated fails in its middle part. In `PlayStream("theme.ogg", 0, 0, 0)` on
the file `longWav` (data region of 200,000 bytes) from the initialised state, the first
refill read is not held back until the mixer has consumed the 65,536 primed bytes: it is
issued by the call of `UpdateStreamBuffer` in `LoadStream` itself, on the primed state
`primedLongWav`, in which the cursor of channel 0 is 0 and the read cursor 65536; it reads
4,096 bytes at the data offset 65536, and when `PlayStream` returns, with no mixing pass
run and the cursor of the channel still 0, the read cursor is already 69632. -/
theorem PlayStream_refills_before_mixing :
    (primedLongWav.channels 0).bufferPos = 0 ∧
    primedLongWav.activeStream.currentReadPos = 65536 ∧
    (UpdateStreamBuffer demoConsts primedLongWav 0).2 =
      some { offset := 65536, length := 4096 } ∧
    (PlayStream demoConsts (fun _ => some longWav) demoInit "theme.ogg" 0 0
      0).2.activeStream.currentReadPos = 69632 ∧
    ((PlayStream demoConsts (fun _ => some longWav) demoInit "theme.ogg" 0 0
      0).2.channels 0).bufferPos = 0 := by
  obtain ⟨_, _, _, h4, h5, h6, h7, _, h9, _⟩ := PlayStream_first_refill demoConsts
    (fun _ => some longWav) demoInit "theme.ogg" 0 0 200036 [] [] [] demoFmt (demoData 200000)
    (by decide) (by decide) (by decide) rfl (by unfold walkableChunks; decide) rfl (by simp)
    rfl (by rw [show (demoData 200000).payload.length = 200000 from List.length_replicate _ _]
            decide)
    longWav_small
  have hl : (demoData 200000).payload.length = 200000 := List.length_replicate _ _
  have hr : refillLength demoConsts 200000 65536 = 4096 := by decide
  have hu : u32 (65536 + 4096) = 69632 := by decide
  have e : wavFile 200036 (([] ++ demoFmt :: []) ++ demoData 200000 :: []) = longWav := rfl
  rw [hl, hr] at h6 h7
  rw [hu] at h7
  rw [e] at h4 h5 h6
  unfold primedLongWav
  exact ⟨h5, h4, h6, h7, h9⟩

/-- Claim C21 (amended). For every loaded slot whose container starts with the magic
`"APCM"`, with pitch `p` and sample count `n` in its header, `(p * 22050) / 4096 > 0`, and
the three products of the computation within 32 bits (`p * 22050`, `n * 1000` and the
milliseconds times 60 below 2^32), `GetADPCMDuration` returns exactly
`((n * 1000) / ((p * 22050) / 4096)) * 60 / 1000 + 10`, every division being the integer
division over unbounded integers. -/
theorem GetADPCMDuration_exact (k : AudioConsts) (s : AudioState) (slot : Nat)
    (buf : List Nat) (p n : Nat) (hslot : slot < k.SFX_COUNT)
    (hloaded : s.adpcm_loaded slot = true) (hbuf : s.adpcm_buffers slot = some buf)
    (hmagic : buf.take 4 = tag "APCM")
    (hp : leDecode ((buf.drop 8).take 4) = p) (hn : leDecode ((buf.drop 12).take 4) = n)
    (hrate : (p * 22050) / 4096 > 0)
    (h1 : p * 22050 < 4294967296) (h2 : n * 1000 < 4294967296)
    (h3 : (n * 1000) / ((p * 22050) / 4096) * 60 < 4294967296) :
    GetADPCMDuration k s slot = some (specDuration p n) := by
  unfold GetADPCMDuration specDuration
  rw [if_neg (by rw [hloaded]; simp; omega)]
  simp only [hbuf, Option.getD_some]
  rw [if_pos hmagic, hp, hn]
  have e1 : u32 (p * 22050) = p * 22050 := Nat.mod_eq_of_lt h1
  have e2 : u32 (n * 1000) = n * 1000 := Nat.mod_eq_of_lt h2
  have e3 : u32 ((n * 1000) / ((p * 22050) / 4096) * 60) =
      (n * 1000) / ((p * 22050) / 4096) * 60 := Nat.mod_eq_of_lt h3
  rw [e1, e2, e3, if_neg (by omega)]
  have e4 : u32 ((n * 1000) / ((p * 22050) / 4096) * 60 / 1000 + 10) =
      (n * 1000) / ((p * 22050) / 4096) * 60 / 1000 + 10 := by
    apply Nat.mod_eq_of_lt
    have : (n * 1000) / ((p * 22050) / 4096) * 60 / 1000 ≤
        (n * 1000) / ((p * 22050) / 4096) * 60 := Nat.div_le_self _ _
    omega
  rw [e4]

set_option maxRecDepth 1000000 in
/-- Witness of claim C21 (amended): the container `demoAdpcm` (pitch 4096, 22050 samples)
loaded into slot 0 of the initialised state; the estimate is 70 frames. -/
theorem GetADPCMDuration_exact_witness :
    GetADPCMDuration demoConsts
      (LoadADPCM demoConsts (fun _ => some demoAdpcm) demoAudsrv demoInit "x" 0).2 0 =
        some (specDuration 4096 22050) ∧
    specDuration 4096 22050 = 70 :=
  ⟨GetADPCMDuration_exact demoConsts
      (LoadADPCM demoConsts (fun _ => some demoAdpcm) demoAudsrv demoInit "x" 0).2 0 demoAdpcm
      4096 22050 (by decide) (by decide) (by decide) (by decide) (by decide) (by decide)
      (by decide) (by decide) (by decide) (by decide),
   by decide⟩

set_option maxRecDepth 1000000 in
/-- Claim C21 as stated fails. The container `longAdpcm` has the magic `"APCM"`, the
pitch 4096 (`(4096 * 22050) / 4096 = 22050 > 0`) and 5,000,000 samples, both 32-bit values;
loaded into slot 0, `GetADPCMDuration` returns 1928, while the formula over unbounded
integers gives 13615: the product `samples * 1000` is reduced modulo 2^32. -/
theorem GetADPCMDuration_wraps :
    longAdpcmLoaded.adpcm_loaded 0 = true ∧
    (longAdpcmLoaded.adpcm_buffers 0).map (fun b => b.take 4) = some (tag "APCM") ∧
    (longAdpcmLoaded.adpcm_buffers 0).map (fun b => leDecode ((b.drop 8).take 4)) =
      some 4096 ∧
    (longAdpcmLoaded.adpcm_buffers 0).map (fun b => leDecode ((b.drop 12).take 4)) =
      some 5000000 ∧
    GetADPCMDuration demoConsts longAdpcmLoaded 0 = some 1928 ∧
    specDuration 4096 5000000 = 13615 := by
  decide

/-- The slot the search of `LoadSfx` finds, with a registry of at most 65537 slots: the
lowest free slot of the pool. -/
theorem findFreeSfx_spec (k : AudioConsts) (s : AudioState) (hk : k.SFX_COUNT ≤ 65537)
    (h : findFreeSfx k s ≠ 65535) :
    findFreeSfx k s < k.SFX_COUNT - 2 ∧
    (s.sfxList (findFreeSfx k s)).scope = SCOPE_NONE ∧
    ∀ j, j < findFreeSfx k s → (s.sfxList j).scope ≠ SCOPE_NONE := by
  unfold findFreeSfx at h ⊢
  cases hfind : (List.range (k.SFX_COUNT - 2)).find?
      (fun i => decide ((s.sfxList i).scope = SCOPE_NONE)) with
  | none => rw [hfind] at h; exact absurd rfl h
  | some i =>
    rw [List.find?_range_eq_some] at hfind
    obtain ⟨hp, hmem, hlow⟩ := hfind
    have hi := List.mem_range.mp hmem
    have hmod : i % 65536 = i := Nat.mod_eq_of_lt (by omega)
    dsimp only
    rw [hmod]
    refine ⟨hi, by simpa using hp, ?_⟩
    intro j hj
    have := hlow j hj
    simpa using this

/-- Claim C23 (amended). `LoadSfx` performs the Stage-scoped bulk clear whenever the new
effect's scope is Stage (and the name is not registered), whether or not the pool has a
free slot: for every registry state (of at most 65537 slots) and every unregistered `f`,
after `LoadSfx(f, plays, Stage)` every pool entry that was Stage-scoped is zeroed with
scope None, except the one the new effect is written to; every other entry is unchanged;
and when the pool had a free or a Stage-scoped slot, `f` is added in the lowest slot that
was free or Stage-scoped. -/
theorem LoadSfx_stage_always_clears (k : AudioConsts) (s : AudioState) (f : String)
    (plays : Nat) (hk : k.SFX_COUNT ≤ 65537)
    (hreg : sfxRegistered k s (k.GEN_HASH_MD5 f) = false) :
    (∀ i, i < k.SFX_COUNT - 2 → (s.sfxList i).scope = SCOPE_STAGE →
      i ≠ findFreeSfx k (clearStageEntries k s) →
      (LoadSfx k s f plays SCOPE_STAGE).sfxList i = { SFXInfo.zero with scope := SCOPE_NONE }) ∧
    (∀ i, ¬ (i < k.SFX_COUNT - 2 ∧ (s.sfxList i).scope = SCOPE_STAGE) →
      i ≠ findFreeSfx k (clearStageEntries k s) →
      (LoadSfx k s f plays SCOPE_STAGE).sfxList i = s.sfxList i) ∧
    ((∃ i, i < k.SFX_COUNT - 2 ∧
        ((s.sfxList i).scope = SCOPE_NONE ∨ (s.sfxList i).scope = SCOPE_STAGE)) →
      findFreeSfx k (clearStageEntries k s) < k.SFX_COUNT - 2 ∧
      (LoadSfx k s f plays SCOPE_STAGE).sfxList (findFreeSfx k (clearStageEntries k s)) =
        newSfxEntry k f plays SCOPE_STAGE ∧
      ((s.sfxList (findFreeSfx k (clearStageEntries k s))).scope = SCOPE_NONE ∨
        (s.sfxList (findFreeSfx k (clearStageEntries k s))).scope = SCOPE_STAGE) ∧
      ∀ j, j < findFreeSfx k (clearStageEntries k s) →
        (s.sfxList j).scope ≠ SCOPE_NONE ∧ (s.sfxList j).scope ≠ SCOPE_STAGE) := by
  have hclear := clearStageEntries_sfxList k s
  have hload : LoadSfx k s f plays SCOPE_STAGE =
      if findFreeSfx k (clearStageEntries k s) ≠ 65535 then
        setSfx (clearStageEntries k s) (findFreeSfx k (clearStageEntries k s))
          (newSfxEntry k f plays SCOPE_STAGE)
      else clearStageEntries k s := by
    unfold LoadSfx
    rw [hreg]
    simp only [Bool.false_eq_true, if_false, if_true]
  have hentry : ∀ i, i ≠ findFreeSfx k (clearStageEntries k s) →
      (LoadSfx k s f plays SCOPE_STAGE).sfxList i = (clearStageEntries k s).sfxList i := by
    intro i hi
    rw [hload]
    split
    · unfold setSfx; dsimp only; rw [Function.update_noteq hi]
    · rfl
  refine ⟨?_, ?_, ?_⟩
  · intro i hi hst hne
    rw [hentry i hne, hclear]
    dsimp only
    rw [if_pos ⟨hi, hst⟩]
  · intro i hnot hne
    rw [hentry i hne, hclear]
    dsimp only
    rw [if_neg hnot]
  · rintro ⟨i, hi, hfree⟩
    have hfree1 : ((clearStageEntries k s).sfxList i).scope = SCOPE_NONE := by
      rw [hclear]
      dsimp only
      rcases hfree with h | h
      · rw [if_neg (by rintro ⟨_, h2⟩; rw [h] at h2; exact absurd h2 (by decide))]; exact h
      · rw [if_pos ⟨hi, h⟩]
    have hne := findFreeSfx_of_free k (clearStageEntries k s) i hk hi hfree1
    obtain ⟨hlt, hnone, hlow⟩ := findFreeSfx_spec k (clearStageEntries k s) hk hne
    refine ⟨hlt, ?_, ?_, ?_⟩
    · rw [hload, if_pos hne]
      unfold setSfx; dsimp only; rw [Function.update_same]
    · rw [hclear] at hnone
      dsimp only at hnone
      by_cases hc : findFreeSfx k (clearStageEntries k s) < k.SFX_COUNT - 2 ∧
          (s.sfxList (findFreeSfx k (clearStageEntries k s))).scope = SCOPE_STAGE
      · exact Or.inr hc.2
      · rw [if_neg hc] at hnone; exact Or.inl hnone
    · intro j hj
      have := hlow j hj
      rw [hclear] at this
      dsimp only at this
      by_cases hc : j < k.SFX_COUNT - 2 ∧ (s.sfxList j).scope = SCOPE_STAGE
      · rw [if_pos hc] at this; exact absurd rfl this
      · rw [if_neg hc] at this
        exact ⟨this, fun h => hc ⟨by omega, h⟩⟩

set_option maxRecDepth 1000000 in
/-- Witness of claim C23 (amended): `LoadSfx("ring.wav", 1, Stage)` on the state in which
slot 0 holds the Stage-scoped effect `jump.adp`. -/
theorem LoadSfx_stage_always_clears_witness :
    findFreeSfx demoConsts (clearStageEntries demoConsts jumpLoaded) < 254 ∧
    (LoadSfx demoConsts jumpLoaded "ring.wav" 1 SCOPE_STAGE).sfxList
        (findFreeSfx demoConsts (clearStageEntries demoConsts jumpLoaded)) =
      newSfxEntry demoConsts "ring.wav" 1 SCOPE_STAGE :=
  ⟨((LoadSfx_stage_always_clears demoConsts jumpLoaded "ring.wav" 1 (by decide)
      (by decide)).2.2 ⟨0, by decide, Or.inr (by decide)⟩).1,
   ((LoadSfx_stage_always_clears demoConsts jumpLoaded "ring.wav" 1 (by decide)
      (by decide)).2.2 ⟨0, by decide, Or.inr (by decide)⟩).2.1⟩

set_option maxRecDepth 1000000 in
/-- Claim C23 as stated fails. In the state `jumpLoaded` the pool has free slots (slot 1
is free) and slot 0 holds the registered Stage-scoped effect `jump.adp`; the name
`ring.wav` is not registered. After `LoadSfx("ring.wav", 1, Stage)` the effect `jump.wav`
is no longer registered: the bulk clear ran, and slot 0 now holds `ring.adp`. -/
theorem LoadSfx_clears_with_free_slots :
    (jumpLoaded.sfxList 1).scope = SCOPE_NONE ∧
    ((jumpLoaded.sfxList 0).scope = SCOPE_STAGE ∧
      (jumpLoaded.sfxList 0).fileName = "jump.adp") ∧
    sfxRegistered demoConsts jumpLoaded (demoConsts.GEN_HASH_MD5 "jump.wav") = true ∧
    sfxRegistered demoConsts jumpLoaded (demoConsts.GEN_HASH_MD5 "ring.wav") = false ∧
    sfxRegistered demoConsts (LoadSfx demoConsts jumpLoaded "ring.wav" 1 SCOPE_STAGE)
      (demoConsts.GEN_HASH_MD5 "jump.wav") = false ∧
    ((LoadSfx demoConsts jumpLoaded "ring.wav" 1 SCOPE_STAGE).sfxList 0).fileName =
      "ring.adp" ∧
    ((LoadSfx demoConsts jumpLoaded "ring.wav" 1 SCOPE_STAGE).sfxList 1).scope =
      SCOPE_NONE := by
  decide

set_option maxRecDepth 1000000 in
/-- Claim C24, the code at the failing input. In the state `rampAtEnd` (a looping stream
with the read cursor at the end of the data) the last four samples of the mix buffer are
22872, 23386, 23900, 24414, whose halves are 11436, 11693, 11950, 12207. The call of
`UpdateStreamBuffer` takes the loop branch (it reads 32 bytes at the loop offset 32), and
afterwards the last four samples are 14648, 15162, 15676, 16190, the new data bytes 56 to
63: the refill that follows the fade overwrites the whole buffer, the faded samples
included. -/
theorem UpdateStreamBuffer_fade_overwritten :
    (rampAtEnd.activeStream.isActive = true ∧
      rampAtEnd.activeStream.currentReadPos = rampAtEnd.activeStream.dataSize ∧
      (rampAtEnd.channels 0).loop = 1) ∧
    lastFour rampAtEnd.mixBuffer 16 = [22872, 23386, 23900, 24414] ∧
    (lastFour rampAtEnd.mixBuffer 16).map (fun v => Int.tdiv v 2) =
      [11436, 11693, 11950, 12207] ∧
    lastFour (fadeLast rampAtEnd.mixBuffer 16) 16 = [11436, 11693, 11950, 12207] ∧
    (UpdateStreamBuffer tinyConsts rampAtEnd 0).2 = some { offset := 32, length := 32 } ∧
    lastFour (UpdateStreamBuffer tinyConsts rampAtEnd 0).1.mixBuffer 16 =
      [14648, 15162, 15676, 16190] := by
  decide

set_option maxRecDepth 1000000 in
/-- Claim C25, the code at the failing input. After `PlayStream("a.ogg", 0, 0, 0)` on the
file `shortWav` (100 bytes of data, no loop) from the initialised state, the call returned
0 and channel 0 is in `PlayingStream` state, while the stream descriptor is inactive and
its file closed: the `UpdateStreamBuffer` call of `LoadStream` reached the end of the data
and set the channel `Idle`, and `LoadStream` then set `CHANNEL_STREAM`. -/
theorem LoadStream_streams_inactive :
    (PlayStream demoConsts (fun _ => some shortWav) demoInit "a.ogg" 0 0 0).1 = 0 ∧
    ((PlayStream demoConsts (fun _ => some shortWav) demoInit "a.ogg" 0 0 0).2.channels
      0).state = CHANNEL_STREAM ∧
    (PlayStream demoConsts (fun _ => some shortWav) demoInit "a.ogg" 0 0
      0).2.activeStream.isActive = false ∧
    (PlayStream demoConsts (fun _ => some shortWav) demoInit "a.ogg" 0 0
      0).2.activeStream.fileInfo.file = none ∧
    (PlayStream demoConsts (fun _ => some shortWav) demoInit "a.ogg" 0 0
      0).2.activeStream.dataSize = 100 := by
  decide

/-- With less than four bytes left before the end of the data, `UpdateStreamBuffer` reads
nothing and leaves the read cursor where it is. -/
theorem UpdateStreamBuffer_stalls (k : AudioConsts) (s : AudioState) (c : Nat)
    (hact : s.activeStream.isActive = true) (hcirc : s.circularStreamBuffer.isSome = true)
    (hlt : s.activeStream.currentReadPos < s.activeStream.dataSize)
    (hrem : s.activeStream.dataSize - s.activeStream.currentReadPos < 4)
    (h32 : s.activeStream.dataSize < 4294967296) :
    (UpdateStreamBuffer k s c).2 =
      some { offset := s.activeStream.currentReadPos, length := 0 } ∧
    (UpdateStreamBuffer k s c).1.activeStream.currentReadPos = s.activeStream.currentReadPos ∧
    (UpdateStreamBuffer k s c).1.activeStream.dataSize = s.activeStream.dataSize ∧
    (UpdateStreamBuffer k s c).1.activeStream.isActive = true ∧
    (UpdateStreamBuffer k s c).1.circularStreamBuffer.isSome = true := by
  have hzero : refillLength k s.activeStream.dataSize s.activeStream.currentReadPos = 0 := by
    unfold refillLength
    have hu : u32 (s.activeStream.dataSize + 4294967296 - s.activeStream.currentReadPos) =
        s.activeStream.dataSize - s.activeStream.currentReadPos := by
      unfold u32
      have : s.activeStream.dataSize + 4294967296 - s.activeStream.currentReadPos =
          (s.activeStream.dataSize - s.activeStream.currentReadPos) + 4294967296 := by omega
      rw [this, Nat.add_mod_right]
      exact Nat.mod_eq_of_lt (by omega)
    rw [hu]
    split <;> omega
  rw [UpdateStreamBuffer_refill k s c hact hcirc hlt]
  obtain ⟨r1, r2, r3, _, r5⟩ := streamRefill_spec k s c s.activeStream.currentReadPos
  obtain ⟨_, _, _, r6⟩ := streamRefill_descriptor k s c s.activeStream.currentReadPos
  rw [hzero] at r1 r2
  refine ⟨r1, ?_, r3, by rw [r5]; exact hact, by rw [r6]; exact hcirc⟩
  rw [r2]
  unfold u32
  exact Nat.mod_eq_of_lt (by omega)

/-- Any number of `UpdateStreamBuffer` calls leaves a stalled read cursor where it is. -/
theorem refillTimes_stalls (k : AudioConsts) (c n : Nat) : ∀ (s : AudioState),
    s.activeStream.isActive = true → s.circularStreamBuffer.isSome = true →
    s.activeStream.currentReadPos < s.activeStream.dataSize →
    s.activeStream.dataSize - s.activeStream.currentReadPos < 4 →
    s.activeStream.dataSize < 4294967296 →
    (refillTimes k c n s).activeStream.currentReadPos = s.activeStream.currentReadPos ∧
    (refillTimes k c n s).activeStream.dataSize = s.activeStream.dataSize ∧
    (refillTimes k c n s).activeStream.isActive = true := by
  induction n with
  | zero => intro s hact _ _ _ _; exact ⟨rfl, rfl, hact⟩
  | succ n ih =>
    intro s hact hcirc hlt hrem h32
    obtain ⟨_, u2, u3, u4, u5⟩ := UpdateStreamBuffer_stalls k s c hact hcirc hlt hrem h32
    obtain ⟨i1, i2, i3⟩ := ih (UpdateStreamBuffer k s c).1 u4 u5 (by rw [u2, u3]; exact hlt)
      (by rw [u2, u3]; exact hrem) (by rw [u3]; exact h32)
    exact ⟨i1.trans u2, i2.trans u3, i3⟩

set_option maxRecDepth 1000000 in
/-- Claim C27, the code at the failing input. In the state `oddStream` (a looping stream
on a file with 102 bytes of data, after three refills) the stream is active with the read
cursor at 100, below the data size 102. The next `UpdateStreamBuffer` reads 0 bytes and
leaves the cursor at 100, and so does every further call: the measure
`dataSize - currentReadPos` stays 2 and the end-of-data branch is never reached. -/
theorem UpdateStreamBuffer_cursor_stalls :
    (oddStream.activeStream.isActive = true ∧ oddStream.activeStream.currentReadPos = 100 ∧
      oddStream.activeStream.dataSize = 102) ∧
    (UpdateStreamBuffer tinyConsts oddStream 0).2 = some { offset := 100, length := 0 } ∧
    (UpdateStreamBuffer tinyConsts oddStream 0).1.activeStream.currentReadPos = 100 ∧
    ∀ n, (refillTimes tinyConsts 0 n oddStream).activeStream.currentReadPos = 100 ∧
      (refillTimes tinyConsts 0 n oddStream).activeStream.dataSize = 102 ∧
      (refillTimes tinyConsts 0 n oddStream).activeStream.isActive = true := by
  have h0 : oddStream.activeStream.isActive = true ∧
      oddStream.activeStream.currentReadPos = 100 ∧
      oddStream.activeStream.dataSize = 102 ∧
      oddStream.circularStreamBuffer.isSome = true := by decide
  obtain ⟨a1, a2, a3, a4⟩ := h0
  refine ⟨⟨a1, a2, a3⟩, by decide, by decide, ?_⟩
  intro n
  obtain ⟨i1, i2, i3⟩ := refillTimes_stalls tinyConsts 0 n oddStream a1 a4
    (by rw [a2, a3]; decide) (by rw [a2, a3]; decide) (by rw [a3]; decide)
  rw [i1, i2]
  exact ⟨a2, a3, i3⟩

set_option maxRecDepth 1000000 in
/-- Claim C28, the code at the failing input. In `PlayStream("a.ogg", 0, 8, 0)` on the file
`trailedWav` (data region of 100 bytes at the file offset 44, followed by another chunk),
the priming read starts at the data offset 8 and asks for `min(dataSize, 64 KiB)` = 100
bytes: the file cursor ends at 152, eight bytes past the end of the data region (144), the
last eight bytes read are the header of the chunk that follows the data, and the read
cursor is 108, above the data size 100. It is still 108 when `PlayStream` returns. -/
theorem LoadStream_primes_past_data :
    (primedTrailed.activeStream.dataStartPos = 44 ∧ primedTrailed.activeStream.dataSize = 100) ∧
    primedTrailed.activeStream.fileInfo.readPos = 152 ∧
    primedTrailed.circularStreamBuffer.map (fun b => (b.take 100).drop 92) =
      some (tag "LIST" ++ leEncode 4 3) ∧
    primedTrailed.activeStream.currentReadPos = 108 ∧
    (PlayStream demoConsts (fun _ => some trailedWav) demoInit "a.ogg" 0 8 0).1 = 0 ∧
    (PlayStream demoConsts (fun _ => some trailedWav) demoInit "a.ogg" 0 8
      0).2.activeStream.currentReadPos = 108 ∧
    (PlayStream demoConsts (fun _ => some trailedWav) demoInit "a.ogg" 0 8
      0).2.activeStream.dataSize = 100 := by
  decide

/-- A write to sample memory does not touch the registry. -/
theorem writeSamples_sfxList (p : SamplePtr) (f : List Nat → List Nat) (s : AudioState) :
    (writeSamples p f s).sfxList = s.sfxList := by
  cases p <;> rfl

/-- The sample pointer `PlayStream` gives the selected channel is the buffer of the stream
slot. -/
theorem prepareStream_samplePtr (k : AudioConsts) (s : AudioState) (filename : String)
    (slot startPos loopPoint : Nat) :
    ((prepareStream k s filename slot startPos loopPoint).channels slot).samplePtr =
      (s.sfxList (STREAM_SLOT k)).buffer := by
  unfold prepareStream
  dsimp only
  simp only [setChannel, Function.update_same, writeSamples_sfxList]
  split
  · split <;> rfl
  · rfl

/-- The bytes at the start of the mix buffer after a refill that got all the bytes it asked
for: the bytes read. -/
theorem streamRefill_mixBuffer (k : AudioConsts) (s : AudioState) (c filePos : Nat)
    (bytes : List Nat) (hptr : (s.channels c).samplePtr = SamplePtr.mixBuffer)
    (hread : (ReadBytes (Seek_Set s.activeStream.fileInfo
        (u32 (s.activeStream.dataStartPos + filePos)))
        (refillLength k s.activeStream.dataSize filePos)).1 = bytes)
    (hlen : bytes.length = refillLength k s.activeStream.dataSize filePos) :
    (streamRefill k s c filePos).1.mixBuffer.take
      (refillLength k s.activeStream.dataSize filePos) = bytes := by
  have hread1 : (ReadBytes (Seek_Set s.activeStream.fileInfo
      (u32 (s.activeStream.dataStartPos + filePos)))
      ((if u32 (s.activeStream.dataSize + 4294967296 - filePos) > k.MIX_BUFFER_SIZE * 2 then
          k.MIX_BUFFER_SIZE * 2
        else u32 (s.activeStream.dataSize + 4294967296 - filePos)) / 4 * 4)).1 = bytes := hread
  have hlen1 : bytes.length =
      (if u32 (s.activeStream.dataSize + 4294967296 - filePos) > k.MIX_BUFFER_SIZE * 2 then
          k.MIX_BUFFER_SIZE * 2
        else u32 (s.activeStream.dataSize + 4294967296 - filePos)) / 4 * 4 := hlen
  unfold streamRefill refillLength
  dsimp only
  rw [hptr, hread1]
  generalize (if u32 (s.activeStream.dataSize + 4294967296 - filePos) > k.MIX_BUFFER_SIZE * 2
      then k.MIX_BUFFER_SIZE * 2
      else u32 (s.activeStream.dataSize + 4294967296 - filePos)) / 4 * 4 = toRead at hlen1 ⊢
  have h1 : (overlay bytes s.mixBuffer).take toRead = bytes := by
    unfold overlay
    rw [← hlen1, List.take_left']
    rfl
  split
  · show ((writeSamples SamplePtr.mixBuffer _ (writeSamples SamplePtr.mixBuffer _ s)).mixBuffer).take
      toRead = bytes
    show (((overlay bytes s.mixBuffer).take toRead ++ _).take toRead) = bytes
    rw [h1, ← hlen1, List.take_left']
    rfl
  · exact h1

/-- The first samples of a stream on a file with a data region of more than 65,536 bytes,
played from the start offset 0 on an explicit slot with the mix buffer allocated: when
`PlayStream` returns, the mix buffer starts with the data bytes from the offset 65536 on,
as many as the first refill read. -/
theorem PlayStream_first_samples (k : AudioConsts) (fs : String → Option (List Nat))
    (s : AudioState) (filename : String) (slot loopPoint riffSize : Nat)
    (a b post : List Chunk) (f dat : Chunk)
    (hen : s.streamsEnabled = true) (hslot : slot < k.CHANNEL_COUNT)
    (hcirc : s.circularStreamBuffer.isSome = true)
    (hptr : (s.sfxList (STREAM_SLOT k)).buffer = SamplePtr.mixBuffer)
    (hfile : fs (streamPath filename) =
      some (wavFile riffSize ((a ++ f :: b) ++ dat :: post)))
    (hw : walkableChunks (a ++ f :: b))
    (hf : f.id = tag "fmt ") (hb : ∀ x ∈ b, x.id ≠ tag "fmt ")
    (hdat : dat.id = tag "data") (hbig : 65536 < dat.payload.length)
    (hlen : (wavFile riffSize ((a ++ f :: b) ++ dat :: post)).length < 2147483648) :
    (PlayStream k fs s filename slot 0 loopPoint).2.mixBuffer.take
        (refillLength k dat.payload.length 65536) =
      (dat.payload.drop 65536).take (refillLength k dat.payload.length 65536) ∧
    ((PlayStream k fs s filename slot 0 loopPoint).2.channels slot).samplePtr =
      SamplePtr.mixBuffer := by
  have hsel := selectStreamSlot_explicit k s slot hslot
  have hid4 : dat.id.length = 4 := by rw [hdat]; decide
  have hflen := wavFile_length riffSize ((a ++ f :: b) ++ dat :: post)
  have henc : encodeChunks ((a ++ f :: b) ++ dat :: post) =
      encodeChunks (a ++ f :: b) ++ (dat.encode ++ encodeChunks post) := by
    rw [encodeChunks_append]; rfl
  rw [henc, List.length_append, List.length_append, Chunk.encode_length dat hid4] at hflen
  have hsz : dat.payload.length < 4294967296 := by omega
  obtain ⟨⟨hriff, hwave⟩, hat0, _⟩ := wavFile_start riffSize ((a ++ f :: b) ++ dat :: post)
  obtain ⟨hscan, _⟩ := scanChunks_wavFile riffSize (a ++ f :: b) dat post hw hdat hsz
  obtain ⟨_, hfound⟩ := walk_last_fmt a b f
    (scanStart (wavFile riffSize ((a ++ f :: b) ++ dat :: post))) hf hb
  obtain ⟨hwf, _⟩ := walk_file (a ++ f :: b)
    (scanStart (wavFile riffSize ((a ++ f :: b) ++ dat :: post)))
  have hacc := LoadStream_accepted k fs (prepareStream k s filename slot 0 loopPoint) slot _
    hfile hriff hwave (by rw [hscan]; exact hfound) (by rw [hscan])
  have hregion := wavFile_data_region riffSize (a ++ f :: b) post dat hid4
  generalize hst : scanChunks (wavFile riffSize ((a ++ f :: b) ++ dat :: post)).length
    (scanStart (wavFile riffSize ((a ++ f :: b) ++ dat :: post))) = st at hscan hacc ⊢
  have hstfile : st.info.file = some (wavFile riffSize ((a ++ f :: b) ++ dat :: post)) := by
    rw [hscan]
    show ((a ++ f :: b).foldl walkChunk _).info.file = _
    rw [hwf]; exact hat0.1
  have hstoff : st.dataOffset = 12 + (encodeChunks (a ++ f :: b)).length + 8 := by
    rw [hscan]
  have hstsize : st.dataSize = dat.payload.length := by rw [hscan]
  obtain ⟨p1, p2, p3, _, p5, p6⟩ := primeStream_fields
    (prepareStream k s filename slot 0 loopPoint) st _ dat.payload (encodeChunks post)
    rfl hstfile (by rw [hstoff]; exact hregion) hstsize hbig (by rw [hstoff]; omega)
  rw [prepareStream_circular] at p5
  have hcirc1 : (primeStream (prepareStream k s filename slot 0 loopPoint)
      st).circularStreamBuffer.isSome = true := by
    rw [p5]; simp [hcirc]
  have husb := UpdateStreamBuffer_refill k
    (primeStream (prepareStream k s filename slot 0 loopPoint) st) slot p3 hcirc1
    (by rw [p1, p2]; exact hbig)
  rw [p1] at husb
  have hptr1 : ((primeStream (prepareStream k s filename slot 0 loopPoint) st).channels
      slot).samplePtr = SamplePtr.mixBuffer := by
    rw [p6, prepareStream_samplePtr]; exact hptr
  have hpfile : (primeStream (prepareStream k s filename slot 0 loopPoint)
      st).activeStream.fileInfo.file =
      some (wavFile riffSize ((a ++ f :: b) ++ dat :: post)) := hstfile
  have hpstart : (primeStream (prepareStream k s filename slot 0 loopPoint)
      st).activeStream.dataStartPos = 12 + (encodeChunks (a ++ f :: b)).length + 8 := hstoff
  have hle : refillLength k dat.payload.length 65536 ≤ dat.payload.length - 65536 := by
    unfold refillLength
    have hu : u32 (dat.payload.length + 4294967296 - 65536) = dat.payload.length - 65536 := by
      unfold u32
      have : dat.payload.length + 4294967296 - 65536 =
          (dat.payload.length - 65536) + 4294967296 := by omega
      rw [this, Nat.add_mod_right]
      exact Nat.mod_eq_of_lt (by omega)
    rw [hu]
    split <;> omega
  have hxlen : ((dat.payload.drop 65536).take (refillLength k dat.payload.length 65536)).length =
      refillLength k dat.payload.length 65536 := by
    rw [List.length_take, List.length_drop]; exact Nat.min_eq_left hle
  have hu2 : u32 (12 + (encodeChunks (a ++ f :: b)).length + 8 + 65536) =
      12 + (encodeChunks (a ++ f :: b)).length + 8 + 65536 := by
    unfold u32; exact Nat.mod_eq_of_lt (by omega)
  have hdrop : (wavFile riffSize ((a ++ f :: b) ++ dat :: post)).drop
      (12 + (encodeChunks (a ++ f :: b)).length + 8 + 65536) =
      (dat.payload.drop 65536).take (refillLength k dat.payload.length 65536) ++
        ((dat.payload.drop 65536).drop (refillLength k dat.payload.length 65536) ++
          encodeChunks post) := by
    rw [← List.append_assoc, List.take_append_drop, ← List.drop_drop, hregion,
      List.drop_append_of_le_length (by omega)]
  have hread := ReadBytes_exact
    (Seek_Set (primeStream (prepareStream k s filename slot 0 loopPoint) st).activeStream.fileInfo
      (12 + (encodeChunks (a ++ f :: b)).length + 8 + 65536))
    (wavFile riffSize ((a ++ f :: b) ++ dat :: post)) _ _ hpfile hdrop
  rw [hxlen] at hread
  have hmix := streamRefill_mixBuffer k
    (primeStream (prepareStream k s filename slot 0 loopPoint) st) slot 65536
    ((dat.payload.drop 65536).take (refillLength k dat.payload.length 65536)) hptr1
    (by rw [hpstart, hu2, p2, hread]) (by rw [p2, hxlen])
  rw [p2] at hmix
  have hch := streamRefill_channels k
    (primeStream (prepareStream k s filename slot 0 loopPoint) st) slot 65536
  have hplay : PlayStream k fs s filename slot 0 loopPoint = ((slot : Int),
      LoadStream k fs (prepareStream k s filename slot 0 loopPoint) slot) := by
    rw [PlayStream_to_slot k fs s filename slot 0 loopPoint hen (by rw [hsel]; exact hslot),
      hsel]
  rw [hplay, hacc, husb]
  refine ⟨hmix, ?_⟩
  simp only [setChannel, Function.update_same]
  rw [hch]
  exact hptr1

/-- The size of the data chunk `splitData`. -/
theorem splitData_length : splitData.payload.length = 200000 := by
  show (List.replicate 65536 1 ++ List.replicate 134464 2).length = 200000
  rw [List.length_append, List.length_replicate, List.length_replicate]

/-- The file `splitWav` is smaller than 2 GiB. -/
theorem splitWav_small :
    (wavFile 200036 (([] ++ demoFmt :: []) ++ splitData :: [])).length < 2147483648 := by
  have h1 : demoFmt.payload.length = 16 := by decide
  rw [show wavFile 200036 (([] ++ demoFmt :: []) ++ splitData :: []) =
      wavFile 200036 [demoFmt, splitData] from rfl,
    wavFile_length, encodeChunks_pair, Chunk.encode_length demoFmt (by decide),
    Chunk.encode_length splitData (by decide), h1, splitData_length]
  decide

/-- Claim C26, the code at the failing input. After `PlayStream("theme.ogg", 0, 0, 0)` (an
aligned start offset 0) on the file `splitWav`, whose 200,000 data bytes are 65,536 bytes
of value 1 followed by bytes of value 2, the channel reads the mix buffer, and the first
4,096 bytes of the mix buffer are of value 2, the data bytes from the offset 65536 on,
while the data bytes from the start offset 0 on are of value 1: the 65,536 bytes primed
into the circular buffer are skipped, not played first. -/
theorem PlayStream_skips_primed_bytes :
    (PlayStream demoConsts (fun _ => some splitWav) demoInit "theme.ogg" 0 0 0).2.mixBuffer.take
      4096 = List.replicate 4096 2 ∧
    ((PlayStream demoConsts (fun _ => some splitWav) demoInit "theme.ogg" 0 0 0).2.channels
      0).samplePtr = SamplePtr.mixBuffer ∧
    splitData.payload.take 4096 = List.replicate 4096 1 ∧
    (splitData.payload.drop 65536).take 4096 = List.replicate 4096 2 := by
  obtain ⟨h1, h2⟩ := PlayStream_first_samples demoConsts (fun _ => some splitWav) demoInit
    "theme.ogg" 0 0 200036 [] [] [] demoFmt splitData (by decide) (by decide) (by decide)
    (by decide) rfl (by unfold walkableChunks; decide) rfl (by simp) rfl
    (by rw [splitData_length]; decide) splitWav_small
  have hr : refillLength demoConsts 200000 65536 = 4096 := by decide
  have hd : (splitData.payload.drop 65536).take 4096 = List.replicate 4096 2 := by
    show ((List.replicate 65536 1 ++ List.replicate 134464 2).drop 65536).take 4096 = _
    rw [List.drop_left' (List.length_replicate _ _), List.take_replicate]
    rfl
  have ht : splitData.payload.take 4096 = List.replicate 4096 1 := by
    show (List.replicate 65536 1 ++ List.replicate 134464 2).take 4096 = _
    rw [List.take_append_of_le_length (by rw [List.length_replicate]; decide),
      List.take_replicate]
    rfl
  rw [splitData_length, hr, hd] at h1
  exact ⟨h1, h2, ht, hd⟩

/-- The fixed-point step: adding the speed to the fractional part of `n * s` carries the
integer part of `(n + 1) * s`. -/
theorem fixed_step (n s : Nat) :
    (n * s) / 65536 + ((n * s) % 65536 + s) / 65536 = ((n + 1) * s) / 65536 ∧
    ((n * s) % 65536 + s) % 65536 = ((n + 1) * s) % 65536 ∧
    (n * s) / 65536 ≤ ((n + 1) * s) / 65536 := by
  have h : (n + 1) * s = n * s + s := by ring
  rw [h]
  generalize n * s = x
  omega

/-- One iteration of the effect loop keeps the accumulator below `TO_FIXED(1)` and the
table indices of the recorded frames below the table length. -/
theorem effectFrame_accumulator (samples : Option (Nat → ℚ)) (panL panR : ℚ) (m : EffectMix)
    (f : Nat)
    (h : m.speedPercent < 65536 ∧
      ∀ fr ∈ m.frames, fr.lut < LINEAR_INTERPOLATION_LOOKUP_LENGTH) :
    (effectFrame samples panL panR m f).speedPercent < 65536 ∧
      ∀ fr ∈ (effectFrame samples panL panR m f).frames,
        fr.lut < LINEAR_INTERPOLATION_LOOKUP_LENGTH := by
  obtain ⟨hsp, hfr⟩ := h
  have hmod : ∀ x : Nat, x % FIXED_ONE < 65536 := fun x => Nat.mod_lt x (by decide)
  have hlut : m.speedPercent / LINEAR_INTERPOLATION_LOOKUP_DIVISOR <
      LINEAR_INTERPOLATION_LOOKUP_LENGTH := by
    show m.speedPercent / 64 < 1024
    omega
  have hnew : ∀ (x : ℚ), ∀ fr ∈ m.frames ++
      [({ src := m.sfxBuffer, lut := m.speedPercent / LINEAR_INTERPOLATION_LOOKUP_DIVISOR,
          sample := x } : MixFrame)], fr.lut < LINEAR_INTERPOLATION_LOOKUP_LENGTH := by
    intro x fr hmem
    rcases List.mem_append.mp hmem with h1 | h1
    · exact hfr fr h1
    · rw [List.mem_singleton] at h1
      rw [h1]
      exact hlut
  unfold effectFrame
  split
  · exact ⟨hsp, hfr⟩
  · dsimp only
    split
    · split
      · exact ⟨hmod _, hnew _⟩
      · exact ⟨hmod _, hnew _⟩
    · exact ⟨hmod _, hnew _⟩

/-- One iteration of the effect loop that does not reach `sampleLength`, at a speed of at
least 0: the cursor advances by the integer part of the accumulator plus the speed, and the
accumulator keeps the fractional part. -/
theorem effectFrame_advance (samples : Option (Nat → ℚ)) (panL panR : ℚ) (m : EffectMix)
    (f : Nat) (hst : m.stopped = false) (hsp : m.speedPercent < 65536)
    (h0 : 0 ≤ m.channel.speed) (h1 : m.channel.speed < 2147483648)
    (hlt : m.channel.bufferPos + (m.speedPercent + m.channel.speed.toNat) / 65536 <
      m.channel.sampleLength)
    (h32 : m.channel.bufferPos + (m.speedPercent + m.channel.speed.toNat) / 65536 <
      4294967296) :
    (effectFrame samples panL panR m f).channel =
      { m.channel with
        bufferPos := m.channel.bufferPos + (m.speedPercent + m.channel.speed.toNat) / 65536 } ∧
    (effectFrame samples panL panR m f).speedPercent =
      (m.speedPercent + m.channel.speed.toNat) % 65536 ∧
    (effectFrame samples panL panR m f).sfxBuffer =
      m.sfxBuffer + (m.speedPercent + m.channel.speed.toNat) / 65536 ∧
    (effectFrame samples panL panR m f).stopped = false := by
  have hu : u32 (m.channel.bufferPos + (m.speedPercent + m.channel.speed.toNat) / 65536) =
      m.channel.bufferPos + (m.speedPercent + m.channel.speed.toNat) / 65536 := by
    unfold u32; exact Nat.mod_eq_of_lt h32
  unfold effectFrame
  rw [if_neg (by rw [hst]; decide)]
  dsimp only
  rw [addSpeed_of_nonneg m.speedPercent m.channel.speed h0 h1 hsp]
  unfold FROM_FIXED
  rw [hu, if_neg (by omega)]
  exact ⟨rfl, rfl, rfl, rfl⟩

/-- The effect loop at a speed `s` of at least 0 over `n` output frames that do not reach
`sampleLength`, in closed form: the cursor has advanced by the integer part of `n * s` and
the accumulator is its fractional part. -/
theorem effectLoop_closed (samples : Option (Nat → ℚ)) (panL panR : ℚ) (ch : ChannelInfo)
    (stream : Nat → ℚ) (h0 : 0 ≤ ch.speed) (h1 : ch.speed < 2147483648) (n : Nat)
    (hlt : ch.bufferPos + n * ch.speed.toNat / 65536 < ch.sampleLength)
    (h32 : ch.bufferPos + n * ch.speed.toNat / 65536 < 4294967296) :
    ((List.range n).foldl (effectFrame samples panL panR)
      { channel := ch, sfxBuffer := ch.bufferPos, speedPercent := 0, stream := stream,
        frames := [], stopped := false }).channel =
      { ch with bufferPos := ch.bufferPos + n * ch.speed.toNat / 65536 } ∧
    ((List.range n).foldl (effectFrame samples panL panR)
      { channel := ch, sfxBuffer := ch.bufferPos, speedPercent := 0, stream := stream,
        frames := [], stopped := false }).speedPercent = (n * ch.speed.toNat) % 65536 ∧
    ((List.range n).foldl (effectFrame samples panL panR)
      { channel := ch, sfxBuffer := ch.bufferPos, speedPercent := 0, stream := stream,
        frames := [], stopped := false }).sfxBuffer =
      ch.bufferPos + n * ch.speed.toNat / 65536 ∧
    ((List.range n).foldl (effectFrame samples panL panR)
      { channel := ch, sfxBuffer := ch.bufferPos, speedPercent := 0, stream := stream,
        frames := [], stopped := false }).stopped = false := by
  induction n with
  | zero =>
    refine ⟨?_, ?_, ?_, rfl⟩
    · show ch = { ch with bufferPos := ch.bufferPos + 0 * ch.speed.toNat / 65536 }
      rw [Nat.zero_mul, Nat.zero_div, Nat.add_zero]
    · show 0 = 0 * ch.speed.toNat % 65536
      rw [Nat.zero_mul]
    · show ch.bufferPos = ch.bufferPos + 0 * ch.speed.toNat / 65536
      rw [Nat.zero_mul, Nat.zero_div, Nat.add_zero]
  | succ n ih =>
    obtain ⟨e1, e2, e3⟩ := fixed_step n ch.speed.toNat
    obtain ⟨i1, i2, i3, i4⟩ := ih (by omega) (by omega)
    rw [List.range_succ, List.foldl_append]
    simp only [List.foldl_cons, List.foldl_nil]
    generalize (List.range n).foldl (effectFrame samples panL panR)
      { channel := ch, sfxBuffer := ch.bufferPos, speedPercent := 0, stream := stream,
        frames := [], stopped := false } = m at i1 i2 i3 i4 ⊢
    have hsp : m.speedPercent < 65536 := by rw [i2]; omega
    have hspeed : m.channel.speed = ch.speed := by rw [i1]
    have hpos : m.channel.bufferPos = ch.bufferPos + n * ch.speed.toNat / 65536 := by rw [i1]
    have hlen : m.channel.sampleLength = ch.sampleLength := by rw [i1]
    have hadv : m.channel.bufferPos + (m.speedPercent + m.channel.speed.toNat) / 65536 =
        ch.bufferPos + (n + 1) * ch.speed.toNat / 65536 := by
      rw [hpos, hspeed, i2]; omega
    obtain ⟨a1, a2, a3, a4⟩ := effectFrame_advance samples panL panR m n i4 hsp
      (by rw [hspeed]; exact h0) (by rw [hspeed]; exact h1)
      (by rw [hadv, hlen]; exact hlt) (by rw [hadv]; exact h32)
    refine ⟨?_, ?_, ?_, a4⟩
    · rw [a1, hadv, i1]
    · rw [a2, hspeed, i2, e2]
    · rw [a3, i3, hspeed, i2]; omega

/-- One iteration of the stream loop keeps the accumulator below `TO_FIXED(1)`. -/
theorem streamFrame_accumulator (k : AudioConsts) (c : Nat) (panL panR : ℚ) (b : Bool)
    (m : StreamMix) (f : Nat) (hsp : m.speedPercent < 65536) :
    (streamFrame k c panL panR b m f).speedPercent < 65536 := by
  have hmod : ∀ x : Nat, x % FIXED_ONE < 65536 := fun x => Nat.mod_lt x (by decide)
  unfold streamFrame
  split
  · exact hsp
  · dsimp only
    split
    · exact hmod _
    · exact hmod _

/-- One iteration of the stream loop that does not reach `sampleLength`, at a speed of at
least 0: the cursor advances by twice the integer part of the accumulator plus the speed,
and the accumulator keeps the fractional part. -/
theorem streamFrame_advance (k : AudioConsts) (c : Nat) (panL panR : ℚ) (b : Bool)
    (m : StreamMix) (f : Nat) (hst : m.stopped = false) (hsp : m.speedPercent < 65536)
    (h0 : 0 ≤ (m.state.channels c).speed) (h1 : (m.state.channels c).speed < 2147483648)
    (hlt : (m.state.channels c).bufferPos +
      (m.speedPercent + (m.state.channels c).speed.toNat) / 65536 * 2 <
        (m.state.channels c).sampleLength)
    (h32 : (m.state.channels c).bufferPos +
      (m.speedPercent + (m.state.channels c).speed.toNat) / 65536 * 2 < 4294967296) :
    (streamFrame k c panL panR b m f).state.channels c =
      { m.state.channels c with
        bufferPos := (m.state.channels c).bufferPos +
          (m.speedPercent + (m.state.channels c).speed.toNat) / 65536 * 2 } ∧
    (streamFrame k c panL panR b m f).speedPercent =
      (m.speedPercent + (m.state.channels c).speed.toNat) % 65536 ∧
    (streamFrame k c panL panR b m f).streamBuffer =
      m.streamBuffer + (m.speedPercent + (m.state.channels c).speed.toNat) / 65536 * 2 ∧
    (streamFrame k c panL panR b m f).stopped = false := by
  have hu : u32 ((m.state.channels c).bufferPos +
      (m.speedPercent + (m.state.channels c).speed.toNat) / 65536 * 2) =
      (m.state.channels c).bufferPos +
        (m.speedPercent + (m.state.channels c).speed.toNat) / 65536 * 2 := by
    unfold u32; exact Nat.mod_eq_of_lt h32
  unfold streamFrame
  rw [if_neg (by rw [hst]; decide)]
  dsimp only
  rw [addSpeed_of_nonneg m.speedPercent (m.state.channels c).speed h0 h1 hsp]
  unfold FROM_FIXED
  rw [hu, if_neg (by omega)]
  refine ⟨?_, rfl, rfl, rfl⟩
  simp only [setChannel, Function.update_same]

/-- The stream loop at a speed `s` of at least 0 over `n` output frames that do not reach
`sampleLength`, in closed form: the cursor has advanced by twice the integer part of
`n * s` and the accumulator is its fractional part. -/
theorem streamLoop_closed (k : AudioConsts) (c : Nat) (vol : ℚ) (b : Bool) (s : AudioState)
    (out : Nat → Int) (h0 : 0 ≤ (s.channels c).speed)
    (h1 : (s.channels c).speed < 2147483648) (n : Nat)
    (hlt : (s.channels c).bufferPos + 2 * (n * (s.channels c).speed.toNat / 65536) <
      (s.channels c).sampleLength)
    (h32 : (s.channels c).bufferPos + 2 * (n * (s.channels c).speed.toNat / 65536) <
      4294967296) :
    (streamLoop k c vol b n s out).state.channels c =
      { s.channels c with
        bufferPos := (s.channels c).bufferPos +
          2 * (n * (s.channels c).speed.toNat / 65536) } ∧
    (streamLoop k c vol b n s out).speedPercent = (n * (s.channels c).speed.toNat) % 65536 ∧
    (streamLoop k c vol b n s out).streamBuffer =
      (s.channels c).bufferPos + 2 * (n * (s.channels c).speed.toNat / 65536) ∧
    (streamLoop k c vol b n s out).stopped = false := by
  unfold streamLoop
  dsimp only
  generalize (panGains (s.channels c) vol).1 = panL
  generalize (panGains (s.channels c) vol).2 = panR
  induction n with
  | zero =>
    refine ⟨?_, ?_, ?_, rfl⟩
    · show s.channels c = { s.channels c with
        bufferPos := (s.channels c).bufferPos + 2 * (0 * (s.channels c).speed.toNat / 65536) }
      rw [Nat.zero_mul, Nat.zero_div, Nat.mul_zero, Nat.add_zero]
    · show 0 = 0 * (s.channels c).speed.toNat % 65536
      rw [Nat.zero_mul]
    · show (s.channels c).bufferPos =
        (s.channels c).bufferPos + 2 * (0 * (s.channels c).speed.toNat / 65536)
      rw [Nat.zero_mul, Nat.zero_div, Nat.mul_zero, Nat.add_zero]
  | succ n ih =>
    obtain ⟨e1, e2, e3⟩ := fixed_step n (s.channels c).speed.toNat
    obtain ⟨i1, i2, i3, i4⟩ := ih (by omega) (by omega)
    rw [List.range_succ, List.foldl_append]
    simp only [List.foldl_cons, List.foldl_nil]
    generalize (List.range n).foldl (streamFrame k c panL panR b)
      { state := s, streamBuffer := (s.channels c).bufferPos, speedPercent := 0,
        outputBuffer := out, stopped := false } = m at i1 i2 i3 i4 ⊢
    have hsp : m.speedPercent < 65536 := by rw [i2]; omega
    have hspeed : (m.state.channels c).speed = (s.channels c).speed := by rw [i1]
    have hpos : (m.state.channels c).bufferPos =
        (s.channels c).bufferPos + 2 * (n * (s.channels c).speed.toNat / 65536) := by rw [i1]
    have hlen : (m.state.channels c).sampleLength = (s.channels c).sampleLength := by rw [i1]
    have hadv : (m.state.channels c).bufferPos +
        (m.speedPercent + (m.state.channels c).speed.toNat) / 65536 * 2 =
        (s.channels c).bufferPos + 2 * ((n + 1) * (s.channels c).speed.toNat / 65536) := by
      rw [hpos, hspeed, i2]; omega
    obtain ⟨a1, a2, a3, a4⟩ := streamFrame_advance k c panL panR b m n i4 hsp
      (by rw [hspeed]; exact h0) (by rw [hspeed]; exact h1)
      (by rw [hadv, hlen]; exact hlt) (by rw [hadv]; exact h32)
    refine ⟨?_, ?_, ?_, a4⟩
    · rw [a1, hadv, i1]
    · rw [a2, hspeed, i2, e2]
    · rw [a3, i3, hspeed, i2]; omega

/-- Claim C30. Within one mixing pass over a channel whose fixed-point speed `s` has
`0 ≤ s < 2^31`, for the effect loop (`mixEffect`) and for the stream loop (`streamLoop`,
the loop of `mixStream`), before every output frame `n` (after `n` iterations, each pass
one more iteration of the loop body on the locals of the pass before): the accumulator
`speedPercent` is below 65536, so the table index `speedPercent / 64` of the effect loop,
and every table index it has used, is below the table length 1024; and while the cursor has
neither reached `sampleLength` nor 2^32, after `n` output frames the cursor is the start
cursor plus `n * s / 65536` (plus twice that for a stream channel), the accumulator is
`(n * s) mod 65536`, and the loop has not been left. -/
theorem mixing_accumulator_exact (k : AudioConsts) (c : Nat) (vol : ℚ) (b : Bool)
    (s : AudioState) (out : Nat → Int) (samples : Option (Nat → ℚ)) (sv : ℚ)
    (ch : ChannelInfo) (stream : Nat → ℚ)
    (he0 : 0 ≤ ch.speed) (he1 : ch.speed < 2147483648)
    (hs0 : 0 ≤ (s.channels c).speed) (hs1 : (s.channels c).speed < 2147483648) :
    LINEAR_INTERPOLATION_LOOKUP_LENGTH = 1024 ∧
    (∀ n : Nat,
      mixEffect samples sv (n + 1) ch stream =
        effectFrame samples (panGains ch sv).1 (panGains ch sv).2
          (mixEffect samples sv n ch stream) n ∧
      (mixEffect samples sv n ch stream).speedPercent < 65536 ∧
      (mixEffect samples sv n ch stream).speedPercent / LINEAR_INTERPOLATION_LOOKUP_DIVISOR <
        LINEAR_INTERPOLATION_LOOKUP_LENGTH ∧
      (∀ fr ∈ (mixEffect samples sv n ch stream).frames,
        fr.lut < LINEAR_INTERPOLATION_LOOKUP_LENGTH) ∧
      (ch.bufferPos + n * ch.speed.toNat / 65536 < ch.sampleLength →
        ch.bufferPos + n * ch.speed.toNat / 65536 < 4294967296 →
        (mixEffect samples sv n ch stream).channel.bufferPos =
          ch.bufferPos + n * ch.speed.toNat / 65536 ∧
        (mixEffect samples sv n ch stream).sfxBuffer =
          ch.bufferPos + n * ch.speed.toNat / 65536 ∧
        (mixEffect samples sv n ch stream).speedPercent = (n * ch.speed.toNat) % 65536 ∧
        (mixEffect samples sv n ch stream).stopped = false)) ∧
    (∀ n : Nat,
      mixStream k c vol b n (s, out) =
        ((streamLoop k c vol b n s out).state, (streamLoop k c vol b n s out).outputBuffer) ∧
      streamLoop k c vol b (n + 1) s out =
        streamFrame k c (panGains (s.channels c) vol).1 (panGains (s.channels c) vol).2 b
          (streamLoop k c vol b n s out) n ∧
      (streamLoop k c vol b n s out).speedPercent < 65536 ∧
      ((s.channels c).bufferPos + 2 * (n * (s.channels c).speed.toNat / 65536) <
          (s.channels c).sampleLength →
        (s.channels c).bufferPos + 2 * (n * (s.channels c).speed.toNat / 65536) <
          4294967296 →
        ((streamLoop k c vol b n s out).state.channels c).bufferPos =
          (s.channels c).bufferPos + 2 * (n * (s.channels c).speed.toNat / 65536) ∧
        (streamLoop k c vol b n s out).streamBuffer =
          (s.channels c).bufferPos + 2 * (n * (s.channels c).speed.toNat / 65536) ∧
        (streamLoop k c vol b n s out).speedPercent =
          (n * (s.channels c).speed.toNat) % 65536 ∧
        (streamLoop k c vol b n s out).stopped = false)) := by
  refine ⟨by decide, ?_, ?_⟩
  · intro n
    have hacc := foldl_preserves
      (fun m : EffectMix => m.speedPercent < 65536 ∧
        ∀ fr ∈ m.frames, fr.lut < LINEAR_INTERPOLATION_LOOKUP_LENGTH)
      (effectFrame samples (panGains ch sv).1 (panGains ch sv).2)
      (fun m f h => effectFrame_accumulator samples _ _ m f h) (List.range n)
      { channel := ch, sfxBuffer := ch.bufferPos, speedPercent := 0, stream := stream,
        frames := [], stopped := false }
      ⟨show (0 : Nat) < 65536 by decide, fun fr hfr => absurd hfr (List.not_mem_nil fr)⟩
    refine ⟨?_, hacc.1, ?_, hacc.2, ?_⟩
    · unfold mixEffect
      dsimp only
      rw [List.range_succ, List.foldl_append]
      rfl
    · have h := hacc.1
      show (mixEffect samples sv n ch stream).speedPercent / 64 < 1024
      have h2 : (mixEffect samples sv n ch stream).speedPercent < 65536 := h
      omega
    · intro hlt h32
      obtain ⟨c1, c2, c3, c4⟩ := effectLoop_closed samples (panGains ch sv).1
        (panGains ch sv).2 ch stream he0 he1 n hlt h32
      refine ⟨?_, c3, c2, c4⟩
      show ((List.range n).foldl (effectFrame samples (panGains ch sv).1 (panGains ch sv).2)
        { channel := ch, sfxBuffer := ch.bufferPos, speedPercent := 0, stream := stream,
          frames := [], stopped := false }).channel.bufferPos = _
      rw [c1]
  · intro n
    have hacc := foldl_preserves (fun m : StreamMix => m.speedPercent < 65536)
      (streamFrame k c (panGains (s.channels c) vol).1 (panGains (s.channels c) vol).2 b)
      (fun m f h => streamFrame_accumulator k c _ _ b m f h) (List.range n)
      { state := s, streamBuffer := (s.channels c).bufferPos, speedPercent := 0,
        outputBuffer := out, stopped := false } (show (0 : Nat) < 65536 by decide)
    refine ⟨rfl, ?_, hacc, ?_⟩
    · unfold streamLoop
      dsimp only
      rw [List.range_succ, List.foldl_append]
      rfl
    · intro hlt h32
      obtain ⟨c1, c2, c3, c4⟩ := streamLoop_closed k c vol b s out hs0 hs1 n hlt h32
      refine ⟨?_, c3, c2, c4⟩
      rw [c1]

set_option maxRecDepth 1000000 in
/-- Claim C30 at a concrete input: the effect channel `sesquiEffect` (speed 1.5, cursor 10
of 100) and channel 0 of the stream state after `PlayStream("theme.ogg", 0, 0, 8)` on
`shortWav`. -/
theorem mixing_accumulator_exact_witness :
    (0 : Int) ≤ sesquiEffect.speed ∧ sesquiEffect.speed < 2147483648 ∧
    (mixEffect none 1 3 sesquiEffect (fun _ => 0)).channel.bufferPos = 14 ∧
    (mixEffect none 1 3 sesquiEffect (fun _ => 0)).speedPercent = 32768 ∧
    (mixEffect none 1 3 sesquiEffect (fun _ => 0)).speedPercent /
        LINEAR_INTERPOLATION_LOOKUP_DIVISOR < LINEAR_INTERPOLATION_LOOKUP_LENGTH := by
  have h := mixing_accumulator_exact tinyConsts 0 1 false
    (PlayStream tinyConsts (fun _ => some shortWav) tinyInit "theme.ogg" 0 0 8).2
    (fun _ => 0) none 1 sesquiEffect (fun _ => 0) (by decide) (by decide) (by decide)
    (by decide)
  obtain ⟨_, he, _⟩ := h
  obtain ⟨_, _, h3, _, h5⟩ := he 3
  obtain ⟨c1, _, c3, _⟩ := h5 (by decide) (by decide)
  exact ⟨by decide, by decide, c1, c3, h3⟩

/-- `LoadADPCM` does not touch the channel table. -/
theorem LoadADPCM_channels (k : AudioConsts) (fs : String → Option (List Nat)) (srv : Audsrv)
    (s : AudioState) (filename : String) (slot : Nat) :
    (LoadADPCM k fs srv s filename slot).2.channels = s.channels := by
  unfold LoadADPCM
  split
  · rfl
  · split
    · rfl
    · split
      · rfl
      · dsimp only
        split
        · rfl
        · split
          · rfl
          · split <;> rfl

/-- `PlayADPCM` does not touch the channel table. -/
theorem PlayADPCM_channels (k : AudioConsts) (srv : Audsrv) (s : AudioState) (slot : Nat)
    (a : Int) (s3 : AudioState) (h : PlayADPCM k srv s slot = some (a, s3)) :
    s3.channels = s.channels := by
  unfold PlayADPCM at h
  split at h
  · simp only [Option.some.injEq, Prod.mk.injEq] at h
    rw [← h.2]
  · split at h
    · simp only [Option.some.injEq, Prod.mk.injEq] at h
      rw [← h.2]
    · split at h
      · simp only [Option.some.injEq, Prod.mk.injEq] at h
        rw [← h.2]
      · split at h
        · exact absurd h (by simp)
        · simp only [Option.some.injEq, Prod.mk.injEq] at h
          rw [← h.2]

/-- The channel table and the handle table after the stop loop of `PlaySfx`: every channel
below `CHANNEL_COUNT` whose `soundID` is `sfx` is `Idle` with `soundID` -1 and handle -1,
every other entry is as before. -/
theorem stopSfxChannels_spec (k : AudioConsts) (s : AudioState) (sfx : Nat) :
    (fun c => ((stopSfxChannels k s sfx).channels c,
      (stopSfxChannels k s sfx).adpcm_channels c)) =
    fun c =>
      if c < k.CHANNEL_COUNT then
        (if (s.channels c).soundID = (sfx : Int)
          then ({ s.channels c with state := CHANNEL_IDLE, soundID := -1 }, -1)
          else (s.channels c, s.adpcm_channels c))
      else (s.channels c, s.adpcm_channels c) := by
  unfold stopSfxChannels
  have h := foldl_range_pointwise
    (fun (t : AudioState) c => (t.channels c, t.adpcm_channels c))
    (fun t (c : Nat) =>
      if (t.channels c).soundID = (sfx : Int) then
        let t1 := StopADPCM k t (c : Int)
        setChannel t1 c { t1.channels c with state := CHANNEL_IDLE, soundID := -1 }
      else t)
    (fun c (p : ChannelInfo × Int) => if p.1.soundID = (sfx : Int)
      then ({ p.1 with state := CHANNEL_IDLE, soundID := -1 },
            if c < k.CHANNEL_COUNT then -1 else p.2)
      else p)
    (by
      intro t i j hji
      dsimp only
      split
      · dsimp only [setChannel]
        rw [Function.update_noteq hji, StopADPCM_channels, StopADPCM_handle_other k t i j hji]
      · rfl)
    (by
      intro t i
      dsimp only
      split
      · dsimp only [setChannel]
        rw [Function.update_same, StopADPCM_channels, StopADPCM_handle_same]
      · rfl)
    s k.CHANNEL_COUNT
  rw [h]
  funext c
  dsimp only
  by_cases hc : c < k.CHANNEL_COUNT
  · simp only [hc, if_true]
  · simp only [hc, if_false]

/-- The channel table after a `PlaySfx` that returns a channel index: the index is below
`CHANNEL_COUNT`, that channel was `Idle` after the stop loop, every other channel is as the
stop loop left it, and the channel of the index is either configured for `sfx` or as the
stop loop left it. -/
theorem PlaySfx_channels (k : AudioConsts) (fs : String → Option (List Nat)) (srv : Audsrv)
    (s : AudioState) (sfx loopPoint priority : Nat) (c : Int) (t : AudioState)
    (h : PlaySfx k fs srv s sfx loopPoint priority = some (c, t)) (hc : 0 ≤ c) :
    ∃ ch : Nat, c = (ch : Int) ∧ ch < k.CHANNEL_COUNT ∧
      ((stopSfxChannels k s sfx).channels ch).state = CHANNEL_IDLE ∧
      (∀ i, i ≠ ch → t.channels i = (stopSfxChannels k s sfx).channels i) ∧
      (((t.channels ch).soundID = toInt16 sfx ∧ (t.channels ch).state = CHANNEL_SFX) ∨
        t.channels ch = (stopSfxChannels k s sfx).channels ch) := by
  unfold PlaySfx at h
  split at h
  · simp only [Option.some.injEq, Prod.mk.injEq] at h
    omega
  · dsimp only at h
    have hlch : (if (!IsADPCMLoaded k (stopSfxChannels k s sfx) (sfx % 256)) = true then
        LoadADPCM k fs srv (stopSfxChannels k s sfx)
          (String.mk (("Data/SoundFX/".toList ++
            ((stopSfxChannels k s sfx).sfxList sfx).fileName.toList).take 127))
          (sfx % 256)
        else (true, stopSfxChannels k s sfx)).2.channels =
        (stopSfxChannels k s sfx).channels := by
      split
      · exact LoadADPCM_channels _ _ _ _ _ _
      · rfl
    generalize (if (!IsADPCMLoaded k (stopSfxChannels k s sfx) (sfx % 256)) = true then
        LoadADPCM k fs srv (stopSfxChannels k s sfx)
          (String.mk (("Data/SoundFX/".toList ++
            ((stopSfxChannels k s sfx).sfxList sfx).fileName.toList).take 127))
          (sfx % 256)
        else (true, stopSfxChannels k s sfx)) = l at h hlch
    split at h
    · simp only [Option.some.injEq, Prod.mk.injEq] at h
      omega
    · split at h
      · simp only [Option.some.injEq, Prod.mk.injEq] at h
        omega
      · rename_i channel hfind
        have hidle := List.find?_some hfind
        have hmem := List.mem_of_find?_eq_some hfind
        rw [List.mem_range] at hmem
        rw [hlch] at hidle
        have hidle1 : ((stopSfxChannels k s sfx).channels channel).state = CHANNEL_IDLE :=
          of_decide_eq_true hidle
        split at h
        · exact absurd h (by simp)
        · rename_i a s3 hplay
          have h3 := PlayADPCM_channels k srv l.2 (sfx % 256) a s3 hplay
          rw [hlch] at h3
          split at h
          · simp only [Option.some.injEq, Prod.mk.injEq] at h
            obtain ⟨e1, e2⟩ := h
            refine ⟨channel, e1.symm, hmem, hidle1, ?_, ?_⟩
            · intro i hi
              rw [← e2]
              simp only [setSfx, setChannel]
              rw [Function.update_noteq hi, h3]
            · left
              rw [← e2]
              simp only [setSfx, setChannel, Function.update_same]
              exact ⟨trivial, trivial⟩
          · simp only [Option.some.injEq, Prod.mk.injEq] at h
            obtain ⟨e1, e2⟩ := h
            refine ⟨channel, e1.symm, hmem, hidle1, ?_, ?_⟩
            · intro i _
              rw [← e2, h3]
            · right
              rw [← e2, h3]

set_option maxRecDepth 1000000 in
/-- The second `PlaySfx(0, 0, 0)` on `playingJump` returns channel 0 and the state
`playingJump2`. -/
theorem playingJump2_eq :
    PlaySfx demoConsts (fun _ => some demoAdpcm) demoAudsrv playingJump 0 0 0 =
      some (0, playingJump2) := by
  have h1 : (PlaySfx demoConsts (fun _ => some demoAdpcm) demoAudsrv playingJump 0 0 0).map
      Prod.fst = some 0 := by decide
  unfold playingJump2 playJump
  generalize PlaySfx demoConsts (fun _ => some demoAdpcm) demoAudsrv playingJump 0 0 0 = r
    at h1 ⊢
  cases r with
  | none => exact absurd h1 (by simp)
  | some p =>
    obtain ⟨c, t⟩ := p
    simp only [Option.map_some', Option.some.injEq] at h1
    simp only [Option.map_some', Option.getD_some]
    rw [h1]

/-- The skip loop reads from the same file. -/
theorem skipLoop_file (fuel : Nat) : ∀ (info : FileInfo) (n : Nat),
    (skipLoop fuel info n).file = info.file := by
  induction fuel with
  | zero => intro info n; rfl
  | succ fuel ih =>
    intro info n
    unfold skipLoop
    split
    · dsimp only
      rw [ih]
      rfl
    · rfl

/-- An iteration of the chunk loop reads from the same file. -/
theorem scanStep_file (st st' : ScanState) (h : scanStep st = some st') :
    st'.info.file = st.info.file := by
  unfold scanStep at h
  dsimp only at h
  by_cases h8 : (ReadBytes st.info 8).1.length ≠ 8
  · rw [if_pos h8] at h
    exact absurd h (by simp)
  · rw [if_neg h8] at h
    by_cases hf : (ReadBytes st.info 8).1.take 4 = tag "fmt "
    · rw [if_pos hf] at h
      simp only [Option.some.injEq] at h
      rw [← h]
      dsimp only
      rw [skipLoop_file]
      rfl
    · rw [if_neg hf] at h
      by_cases hdat : (ReadBytes st.info 8).1.take 4 = tag "data"
      · rw [if_pos hdat] at h
        simp only [Option.some.injEq] at h
        rw [← h]
        rfl
      · rw [if_neg hdat] at h
        simp only [Option.some.injEq] at h
        rw [← h]
        dsimp only
        rw [skipLoop_file]
        rfl

/-- The chunk loop reads from the same file. -/
theorem scanChunks_file (fuel : Nat) : ∀ (st : ScanState),
    (scanChunks fuel st).info.file = st.info.file := by
  induction fuel with
  | zero => intro st; rfl
  | succ fuel ih =>
    intro st
    unfold scanChunks
    split
    · cases hstep : scanStep st with
      | none => rfl
      | some st' =>
        dsimp only
        rw [ih st', scanStep_file st st' hstep]
    · rfl

/-- The refill keeps the file of an active stream open. -/
theorem streamRefill_fileOpen (k : AudioConsts) (t : AudioState) (c filePos : Nat)
    (h : StreamFileOpen t.activeStream) :
    StreamFileOpen (streamRefill k t c filePos).1.activeStream := by
  intro ha
  rw [(streamRefill_spec k t c filePos).2.2.2.2] at ha
  have h1 : (streamRefill k t c filePos).1.activeStream.fileInfo.file =
      t.activeStream.fileInfo.file := by
    unfold streamRefill
    rfl
  rw [h1]
  exact h ha

/-- The function `UpdateStreamBuffer` keeps the file of an active stream open. -/
theorem UpdateStreamBuffer_fileOpen (k : AudioConsts) (s : AudioState) (c : Nat)
    (h : StreamFileOpen s.activeStream) :
    StreamFileOpen (UpdateStreamBuffer k s c).1.activeStream := by
  unfold UpdateStreamBuffer
  dsimp only
  split
  · rw [writeSamples_activeStream]; exact h
  · split
    · split
      · apply streamRefill_fileOpen
        split
        · rw [writeSamples_activeStream]; exact h
        · exact h
      · intro ha
        exact absurd ha (by simp [setChannel])
    · exact streamRefill_fileOpen k s c _ h

/-- A refill of an active stream with an empty data range on a channel without loop, with
the circular buffer allocated, stops the stream. -/
theorem UpdateStreamBuffer_empty_stops (k : AudioConsts) (s : AudioState) (c : Nat)
    (hact : s.activeStream.isActive = true) (hcirc : s.circularStreamBuffer.isSome = true)
    (hloop : (s.channels c).loop = 0) (hd : s.activeStream.dataSize = 0) :
    (UpdateStreamBuffer k s c).1.activeStream.isActive = false := by
  have hnone : s.circularStreamBuffer.isNone = false := by
    cases h : s.circularStreamBuffer with
    | none => rw [h] at hcirc; exact absurd hcirc (by decide)
    | some _ => rfl
  unfold UpdateStreamBuffer
  dsimp only
  rw [hact, hnone, if_neg (by decide), if_pos (by omega), if_neg (not_not.mpr hloop)]

/-- After the refill `LoadStream` ends with, on a channel without loop and with the
circular buffer allocated, an active stream has a non-empty data range. -/
theorem UpdateStreamBuffer_nonEmpty (k : AudioConsts) (s : AudioState) (c : Nat)
    (ch : ChannelInfo)
    (hact : s.activeStream.isActive = true) (hcirc : s.circularStreamBuffer.isSome = true)
    (hloop : (s.channels c).loop = 0) :
    StreamNonEmpty (setChannel (UpdateStreamBuffer k s c).1 c ch).activeStream := by
  intro h
  have h1 : (UpdateStreamBuffer k s c).1.activeStream.isActive = true := h
  show 0 < (UpdateStreamBuffer k s c).1.activeStream.dataSize
  rw [(UpdateStreamBuffer_descriptor k s c).2.1]
  by_contra h0
  rw [UpdateStreamBuffer_empty_stops k s c hact hcirc hloop (by omega)] at h1
  exact absurd h1 (by decide)

/-- After `LoadStream` the file of an active stream is open. -/
theorem LoadStream_fileOpen (k : AudioConsts) (fs : String → Option (List Nat))
    (s : AudioState) (c : Nat) : StreamFileOpen (LoadStream k fs s c).activeStream := by
  unfold LoadStream
  cases hact : s.activeStream.isActive <;>
  · simp only [Bool.false_eq_true, if_false, if_true]
    cases hfile : LoadFile fs s.streamFilePath with
    | none => intro h; simp [setChannel, hact] at h
    | some info =>
      have hopen : info.file.isSome = true := by
        unfold LoadFile at hfile
        split at hfile
        · simp only [Option.some.injEq] at hfile
          rw [← hfile]
          rfl
        · exact absurd hfile (by simp)
      dsimp only
      split
      · intro h; simp [setChannel, rejectStream, hact] at h
      · split
        · intro h; simp [setChannel, rejectStream, hact] at h
        · have hsf := scanChunks_file (ReadBytes info 12).2.fileSize
            { info := (ReadBytes info 12).2, fmt := List.replicate 16 0, dataSize := 0,
              dataOffset := 0, foundFmt := false, foundData := false }
          generalize scanChunks (ReadBytes info 12).2.fileSize
            { info := (ReadBytes info 12).2, fmt := List.replicate 16 0, dataSize := 0,
              dataOffset := 0, foundFmt := false, foundData := false } = st at hsf ⊢
          apply UpdateStreamBuffer_fileOpen
          intro _
          show st.info.file.isSome = true
          rw [hsf]
          exact hopen

/-- After `LoadStream` on a channel without loop, with the circular buffer allocated, an
active stream has a non-empty data range. -/
theorem LoadStream_nonEmpty (k : AudioConsts) (fs : String → Option (List Nat))
    (s : AudioState) (c : Nat) (hcirc : s.circularStreamBuffer.isSome = true)
    (hloop : (s.channels c).loop = 0) :
    StreamNonEmpty (LoadStream k fs s c).activeStream := by
  unfold LoadStream
  cases hact : s.activeStream.isActive <;>
  · simp only [Bool.false_eq_true, if_false, if_true]
    cases hfile : LoadFile fs s.streamFilePath with
    | none => intro h; simp [setChannel, hact] at h
    | some info =>
      dsimp only
      split
      · intro h; simp [setChannel, rejectStream, hact] at h
      · split
        · intro h; simp [setChannel, rejectStream, hact] at h
        · apply UpdateStreamBuffer_nonEmpty
          · rfl
          · show (Option.map _ s.circularStreamBuffer).isSome = true
            rw [Option.isSome_map']
            exact hcirc
          · exact hloop

/-- One iteration of the stream loop keeps the file of an active stream open. -/
theorem streamFrame_fileOpen (k : AudioConsts) (c : Nat) (panL panR : ℚ) (b : Bool)
    (m : StreamMix) (f : Nat) (h : StreamFileOpen m.state.activeStream) :
    StreamFileOpen (streamFrame k c panL panR b m f).state.activeStream := by
  unfold streamFrame
  split
  · exact h
  · dsimp only
    split
    · exact UpdateStreamBuffer_fileOpen k _ c h
    · exact h

/-- The stream loop keeps the file of an active stream open. -/
theorem mixStream_fileOpen (k : AudioConsts) (c : Nat) (vol : ℚ) (b : Bool) (frames : Nat)
    (t : AudioState × (Nat → Int)) (h : StreamFileOpen t.1.activeStream) :
    StreamFileOpen (mixStream k c vol b frames t).1.activeStream := by
  unfold mixStream
  dsimp only
  exact foldl_preserves (fun m : StreamMix => StreamFileOpen m.state.activeStream) _
    (fun m f hm => streamFrame_fileOpen k c _ _ b m f hm) (List.range frames) _ h

/-- The function `UpdateADPCMChannels` does not touch the stream descriptor. -/
theorem UpdateADPCMChannels_activeStream (k : AudioConsts) (s : AudioState) :
    (UpdateADPCMChannels k s).activeStream = s.activeStream := by
  unfold UpdateADPCMChannels
  apply foldl_preserves (fun t : AudioState => t.activeStream = s.activeStream)
  · intro t c ht
    dsimp only
    split
    · exact ht
    · split
      · exact ht
      · split
        · split
          · exact ht
          · exact ht
        · exact ht
  · rfl

/-- The function `FrameInit` keeps the file of an active stream open. -/
theorem FrameInit_fileOpen (k : AudioConsts) (audioState : Bool) (available : Int) (vol : ℚ)
    (s : AudioState) (h : StreamFileOpen s.activeStream) :
    StreamFileOpen (FrameInit k audioState available vol s).1.activeStream := by
  have h1 : StreamFileOpen (UpdateADPCMChannels k s).activeStream := by
    rw [UpdateADPCMChannels_activeStream]; exact h
  unfold FrameInit
  split
  · exact h
  · dsimp only
    split
    · exact h1
    · dsimp only
      exact foldl_preserves
        (fun t : AudioState × (Nat → Int) => StreamFileOpen t.1.activeStream) _
        (fun t c ht => by
          dsimp only
          split
          · exact ht
          · exact mixStream_fileOpen k c vol true _ t ht)
        (List.range k.CHANNEL_COUNT) _ h1

/-- The function `ProcessAudioMixing` keeps the file of an active stream open. -/
theorem ProcessAudioMixing_fileOpen (k : AudioConsts) (vol : ℚ) (length : Nat)
    (s : AudioState) (h : StreamFileOpen s.activeStream) :
    StreamFileOpen (ProcessAudioMixing k vol length s).1.activeStream := by
  unfold ProcessAudioMixing
  exact foldl_preserves
    (fun t : AudioState × (Nat → Int) => StreamFileOpen t.1.activeStream) _
    (fun t c ht => by
      dsimp only
      split
      · exact mixStream_fileOpen k c vol false _ t ht
      · exact ht)
    (List.range k.CHANNEL_COUNT) _ h

/-- The channel `PlayStream` prepares without a loop point does not loop. -/
theorem prepareStream_noloop (k : AudioConsts) (s : AudioState) (filename : String)
    (slot startPos : Nat) :
    ((prepareStream k s filename slot startPos 0).channels slot).loop = 0 := by
  unfold prepareStream
  simp [setChannel]

/-- Claim C22 (amended). In every state reachable through `PlayStream`, `LoadStream`,
`UpdateStreamBuffer` and the mixing passes, `activeStream.isActive` implies that the file
handle of the stream is open; and on return from a `PlayStream` call without a loop point
(`loopPoint` 0) that ran `LoadStream` with the circular buffer allocated, an active stream
has a non-empty data range, so that a file whose data chunk declares the size 0 leaves the
descriptor inactive there. -/
theorem PlaybackReachable_file_open (k : AudioConsts) (s : AudioState)
    (h : PlaybackReachable k s) :
    StreamFileOpen s.activeStream ∧
    ∀ (fs : String → Option (List Nat)) (t : AudioState) (filename : String)
      (slot startPos : Nat),
      t.streamsEnabled = true → selectStreamSlot k t slot < k.CHANNEL_COUNT →
      t.circularStreamBuffer.isSome = true →
      StreamNonEmpty (PlayStream k fs t filename slot startPos 0).2.activeStream := by
  constructor
  · induction h with
    | play fs s filename slot startPos loopPoint hen hsel =>
      rw [PlayStream_to_slot k fs s filename slot startPos loopPoint hen hsel]
      exact LoadStream_fileOpen k fs _ _
    | load fs s c => exact LoadStream_fileOpen k fs s c
    | update s c _ ih => exact UpdateStreamBuffer_fileOpen k s c ih
    | frameInit s audioState available vol _ ih =>
      exact FrameInit_fileOpen k audioState available vol s ih
    | mixing s vol length _ ih => exact ProcessAudioMixing_fileOpen k vol length s ih
  · intro fs t filename slot startPos hen hsel hcirc
    rw [PlayStream_to_slot k fs t filename slot startPos 0 hen hsel]
    apply LoadStream_nonEmpty
    · rw [prepareStream_circular]; exact hcirc
    · exact prepareStream_noloop k t filename _ startPos

set_option maxRecDepth 1000000 in
/-- Claim C22 (amended) at a concrete input: the state after `PlayStream("theme.ogg", 0, 0, 8)`
on `shortWav` and one refill is reachable, and the file of its stream is open. -/
theorem PlaybackReachable_file_open_witness :
    PlaybackReachable demoConsts (UpdateStreamBuffer demoConsts
      (PlayStream demoConsts (fun _ => some shortWav) demoInit "theme.ogg" 0 0 8).2 0).1 ∧
    (UpdateStreamBuffer demoConsts
      (PlayStream demoConsts (fun _ => some shortWav) demoInit "theme.ogg" 0 0 8).2
        0).1.activeStream.isActive = true ∧
    StreamFileOpen (UpdateStreamBuffer demoConsts
      (PlayStream demoConsts (fun _ => some shortWav) demoInit "theme.ogg" 0 0 8).2
        0).1.activeStream :=
  ⟨PlaybackReachable.update _ 0
      (PlaybackReachable.play (fun _ => some shortWav) demoInit "theme.ogg" 0 0 8 (by decide)
        (by decide)),
    by decide,
    (PlaybackReachable_file_open demoConsts _
      (PlaybackReachable.update _ 0
        (PlaybackReachable.play (fun _ => some shortWav) demoInit "theme.ogg" 0 0 8
          (by decide) (by decide)))).1⟩

set_option maxRecDepth 1000000 in
/-- Claim C22 fails as stated: `emptyDataWav` is a WAV file whose data chunk declares the
size 0, and the state after `PlayStream("a.ogg", 0, 0, 8)` on it (a looping stream) is
reachable with the stream descriptor active and the data size 0. -/
theorem PlayStream_empty_data_stays_active :
    (demoData 0).payload.length = 0 ∧
    PlaybackReachable demoConsts
      (PlayStream demoConsts (fun _ => some emptyDataWav) demoInit "a.ogg" 0 0 8).2 ∧
    (PlayStream demoConsts (fun _ => some emptyDataWav) demoInit "a.ogg" 0 0
      8).2.activeStream.isActive = true ∧
    (PlayStream demoConsts (fun _ => some emptyDataWav) demoInit "a.ogg" 0 0
      8).2.activeStream.dataSize = 0 :=
  ⟨by decide,
    PlaybackReachable.play (fun _ => some emptyDataWav) demoInit "a.ogg" 0 0 8 (by decide)
      (by decide),
    by decide, by decide⟩

/-- A state with the same channel table and the same registry has the same bounds. -/
theorem LengthsBounded_congr (k : AudioConsts) (s t : AudioState)
    (hc : t.channels = s.channels) (hs : t.sfxList = s.sfxList) (h : LengthsBounded k s) :
    LengthsBounded k t := by
  unfold LengthsBounded
  rw [hc, hs]
  exact h

/-- Writing a channel whose `sampleLength` is bounded keeps the bounds. -/
theorem LengthsBounded_setChannel (k : AudioConsts) (s : AudioState) (c : Nat)
    (ch : ChannelInfo) (h : LengthsBounded k s) (hch : ch.sampleLength ≤ k.MIX_BUFFER_SIZE) :
    LengthsBounded k (setChannel s c ch) := by
  refine ⟨fun j => ?_, h.2⟩
  show (Function.update s.channels c ch j).sampleLength ≤ k.MIX_BUFFER_SIZE
  by_cases hj : j = c
  · subst hj; rw [Function.update_same]; exact hch
  · rw [Function.update_noteq hj]; exact h.1 j

/-- Writing a registry entry whose `length` is bounded keeps the bounds. -/
theorem LengthsBounded_setSfx (k : AudioConsts) (s : AudioState) (i : Nat)
    (e : SFXInfo) (h : LengthsBounded k s) (he : e.length ≤ k.MIX_BUFFER_SIZE) :
    LengthsBounded k (setSfx s i e) := by
  refine ⟨h.1, fun j => ?_⟩
  show (Function.update s.sfxList i e j).length ≤ k.MIX_BUFFER_SIZE
  by_cases hj : j = i
  · subst hj; rw [Function.update_same]; exact he
  · rw [Function.update_noteq hj]; exact h.2 j

/-- A write to sample memory keeps the bounds. -/
theorem LengthsBounded_writeSamples (k : AudioConsts) (p : SamplePtr)
    (f : List Nat → List Nat) (s : AudioState) (h : LengthsBounded k s) :
    LengthsBounded k (writeSamples p f s) :=
  LengthsBounded_congr k s _ (writeSamples_channels p f s) (writeSamples_sfxList p f s) h

/-- `StopADPCM` keeps the bounds. -/
theorem LengthsBounded_StopADPCM (k : AudioConsts) (s : AudioState) (c : Int)
    (h : LengthsBounded k s) : LengthsBounded k (StopADPCM k s c) :=
  LengthsBounded_congr k s _ (StopADPCM_channels k s c) (StopADPCM_sfxList k s c) h

/-- `UnloadADPCM` keeps the bounds. -/
theorem LengthsBounded_UnloadADPCM (k : AudioConsts) (s : AudioState) (slot : Nat)
    (h : LengthsBounded k s) : LengthsBounded k (UnloadADPCM k s slot) :=
  LengthsBounded_congr k s _ (UnloadADPCM_channels k s slot) (UnloadADPCM_sfxList k s slot) h

/-- `LoadADPCM` keeps the bounds. -/
theorem LengthsBounded_LoadADPCM (k : AudioConsts) (fs : String → Option (List Nat))
    (srv : Audsrv) (s : AudioState) (filename : String) (slot : Nat)
    (h : LengthsBounded k s) : LengthsBounded k (LoadADPCM k fs srv s filename slot).2 := by
  unfold LoadADPCM
  split
  · exact h
  · split
    · exact h
    · split
      · exact h
      · dsimp only
        split
        · exact h
        · split
          · exact h
          · split <;> exact h

/-- `PlayADPCM` keeps the bounds. -/
theorem LengthsBounded_PlayADPCM (k : AudioConsts) (srv : Audsrv) (s : AudioState)
    (slot : Nat) (a : Int) (t : AudioState) (hp : PlayADPCM k srv s slot = some (a, t))
    (h : LengthsBounded k s) : LengthsBounded k t := by
  unfold PlayADPCM at hp
  split at hp
  · simp only [Option.some.injEq, Prod.mk.injEq] at hp
    rw [← hp.2]; exact h
  · split at hp
    · simp only [Option.some.injEq, Prod.mk.injEq] at hp
      rw [← hp.2]; exact h
    · split at hp
      · simp only [Option.some.injEq, Prod.mk.injEq] at hp
        rw [← hp.2]; exact h
      · split at hp
        · exact absurd hp (by simp)
        · simp only [Option.some.injEq, Prod.mk.injEq] at hp
          rw [← hp.2]; exact h

/-- The refill keeps the bounds. -/
theorem LengthsBounded_streamRefill (k : AudioConsts) (s : AudioState) (c filePos : Nat)
    (h : LengthsBounded k s) : LengthsBounded k (streamRefill k s c filePos).1 := by
  have hs : (streamRefill k s c filePos).1.sfxList = s.sfxList := by
    unfold streamRefill
    simp [apply_ite AudioState.sfxList, writeSamples_sfxList]
  exact LengthsBounded_congr k s _ (streamRefill_channels k s c filePos) hs h

/-- `UpdateStreamBuffer` keeps the bounds. -/
theorem LengthsBounded_UpdateStreamBuffer (k : AudioConsts) (s : AudioState) (c : Nat)
    (h : LengthsBounded k s) : LengthsBounded k (UpdateStreamBuffer k s c).1 := by
  unfold UpdateStreamBuffer
  dsimp only
  split
  · exact LengthsBounded_writeSamples k _ _ _ h
  · split
    · split
      · apply LengthsBounded_streamRefill
        split
        · exact LengthsBounded_writeSamples k _ _ _ h
        · exact h
      · exact LengthsBounded_setChannel k _ c _ (LengthsBounded_writeSamples k _ _ _ h)
          ((LengthsBounded_writeSamples k _ _ _ h).1 c)
    · exact LengthsBounded_streamRefill k s c _ h

/-- `LoadStream` keeps the bounds. -/
theorem LengthsBounded_LoadStream (k : AudioConsts) (fs : String → Option (List Nat))
    (s : AudioState) (c : Nat) (h : LengthsBounded k s) :
    LengthsBounded k (LoadStream k fs s c) := by
  have key : ∀ s1 : AudioState, LengthsBounded k s1 →
      LengthsBounded k (setChannel (UpdateStreamBuffer k s1 c).1 c
        { (UpdateStreamBuffer k s1 c).1.channels c with state := CHANNEL_STREAM }) :=
    fun s1 h1 => LengthsBounded_setChannel k _ c _ (LengthsBounded_UpdateStreamBuffer k s1 c h1)
      ((LengthsBounded_UpdateStreamBuffer k s1 c h1).1 c)
  unfold LoadStream
  cases hact : s.activeStream.isActive <;>
  · simp only [Bool.false_eq_true, if_false, if_true]
    cases hfile : LoadFile fs s.streamFilePath with
    | none => exact LengthsBounded_setChannel k _ c _ h (h.1 c)
    | some info =>
      dsimp only
      split
      · exact LengthsBounded_setChannel k _ c _ h (h.1 c)
      · split
        · exact LengthsBounded_setChannel k _ c _ h (h.1 c)
        · apply key
          exact LengthsBounded_congr k s _ rfl rfl h

/-- The preparation of the selected channel in `PlayStream` keeps the bounds: the
`sampleLength` it writes is the `length` of the stream slot. -/
theorem LengthsBounded_prepareStream (k : AudioConsts) (s : AudioState) (filename : String)
    (slot startPos loopPoint : Nat) (h : LengthsBounded k s) :
    LengthsBounded k (prepareStream k s filename slot startPos loopPoint) := by
  unfold prepareStream
  dsimp only
  have h1 : LengthsBounded k
      (if (s.channels slot).state = CHANNEL_STREAM ∨
          (s.channels slot).state = CHANNEL_LOADING_STREAM then
        setChannel
          (if s.activeStream.isActive then
            { s with activeStream :=
                { s.activeStream with fileInfo := CloseFile s.activeStream.fileInfo,
                                      isActive := false } }
          else s) slot { s.channels slot with state := CHANNEL_IDLE }
      else s) := by
    split
    · apply LengthsBounded_setChannel
      · split
        · exact h
        · exact h
      · exact h.1 slot
    · exact h
  generalize (if (s.channels slot).state = CHANNEL_STREAM ∨
          (s.channels slot).state = CHANNEL_LOADING_STREAM then
        setChannel
          (if s.activeStream.isActive then
            { s with activeStream :=
                { s.activeStream with fileInfo := CloseFile s.activeStream.fileInfo,
                                      isActive := false } }
          else s) slot { s.channels slot with state := CHANNEL_IDLE }
      else s) = s1 at h1 ⊢
  have h2 := LengthsBounded_writeSamples k (s1.sfxList (STREAM_SLOT k)).buffer
    (zeroFill (k.MIX_BUFFER_SIZE * 2)) s1 h1
  exact LengthsBounded_congr k _ _ rfl rfl
    (LengthsBounded_setChannel k _ slot _ h2 (h2.2 (STREAM_SLOT k)))

/-- `PlayStream` keeps the bounds. -/
theorem LengthsBounded_PlayStream (k : AudioConsts) (fs : String → Option (List Nat))
    (s : AudioState) (filename : String) (slot startPos loopPoint : Nat)
    (h : LengthsBounded k s) :
    LengthsBounded k (PlayStream k fs s filename slot startPos loopPoint).2 := by
  unfold PlayStream
  split
  · exact h
  · dsimp only
    split
    · exact h
    · exact LengthsBounded_LoadStream k fs _ _ (LengthsBounded_prepareStream k s _ _ _ _ h)

/-- The stop loop of `PlaySfx` keeps the bounds. -/
theorem LengthsBounded_stopSfxChannels (k : AudioConsts) (s : AudioState) (sfx : Nat)
    (h : LengthsBounded k s) : LengthsBounded k (stopSfxChannels k s sfx) := by
  unfold stopSfxChannels
  apply foldl_preserves (LengthsBounded k) _ _ _ s h
  intro t c ht
  split
  · exact LengthsBounded_setChannel k _ c _ (LengthsBounded_StopADPCM k t _ ht)
      ((LengthsBounded_StopADPCM k t _ ht).1 c)
  · exact ht

/-- A `PlaySfx` call that returns keeps the bounds. -/
theorem LengthsBounded_PlaySfx (k : AudioConsts) (fs : String → Option (List Nat))
    (srv : Audsrv) (s : AudioState) (sfx loopPoint priority : Nat) (c : Int) (t : AudioState)
    (hp : PlaySfx k fs srv s sfx loopPoint priority = some (c, t))
    (h : LengthsBounded k s) : LengthsBounded k t := by
  unfold PlaySfx at hp
  split at hp
  · simp only [Option.some.injEq, Prod.mk.injEq] at hp
    rw [← hp.2]; exact h
  · dsimp only at hp
    have h1 := LengthsBounded_stopSfxChannels k s sfx h
    have hl : LengthsBounded k
        (if (!IsADPCMLoaded k (stopSfxChannels k s sfx) (sfx % 256)) = true then
          LoadADPCM k fs srv (stopSfxChannels k s sfx)
            (String.mk (("Data/SoundFX/".toList ++
              ((stopSfxChannels k s sfx).sfxList sfx).fileName.toList).take 127))
            (sfx % 256)
          else (true, stopSfxChannels k s sfx)).2 := by
      split
      · exact LengthsBounded_LoadADPCM k fs srv _ _ _ h1
      · exact h1
    generalize (if (!IsADPCMLoaded k (stopSfxChannels k s sfx) (sfx % 256)) = true then
        LoadADPCM k fs srv (stopSfxChannels k s sfx)
          (String.mk (("Data/SoundFX/".toList ++
            ((stopSfxChannels k s sfx).sfxList sfx).fileName.toList).take 127))
          (sfx % 256)
        else (true, stopSfxChannels k s sfx)) = l at hp hl
    split at hp
    · simp only [Option.some.injEq, Prod.mk.injEq] at hp
      rw [← hp.2]; exact hl
    · split at hp
      · simp only [Option.some.injEq, Prod.mk.injEq] at hp
        rw [← hp.2]; exact hl
      · rename_i channel hfind
        split at hp
        · exact absurd hp (by simp)
        · rename_i a s3 hplay
          have h3 := LengthsBounded_PlayADPCM k srv l.2 (sfx % 256) a s3 hplay hl
          split at hp
          · simp only [Option.some.injEq, Prod.mk.injEq] at hp
            rw [← hp.2]
            have h4 := LengthsBounded_setChannel k s3 channel
              { s3.channels channel with
                soundID := toInt16 sfx, state := CHANNEL_SFX, priority := priority % 256,
                playIndex := (s3.sfxList sfx).playCount, loop := loopPoint,
                volume := 1, pan := 0 } h3 (h3.1 channel)
            exact LengthsBounded_setSfx k _ sfx _ h4 (h4.2 sfx)
          · simp only [Option.some.injEq, Prod.mk.injEq] at hp
            rw [← hp.2]; exact h3

/-- `SetChannelAttributes` keeps the bounds. -/
theorem LengthsBounded_SetChannelAttributes (k : AudioConsts) (s : AudioState)
    (channel : Nat) (volume panning speed : ℚ) (h : LengthsBounded k s) :
    LengthsBounded k (SetChannelAttributes k s channel volume panning speed) := by
  unfold SetChannelAttributes
  split
  · dsimp only
    have h1 := LengthsBounded_setChannel k s channel
      { s.channels channel with volume := max 0 (min 4 volume) } h (h.1 channel)
    have h2 := LengthsBounded_setChannel k _ channel
      { (setChannel s channel
          { s.channels channel with volume := max 0 (min 4 volume) }).channels channel with
        pan := max (-1) (min 1 panning) } h1 (h1.1 channel)
    split
    · exact LengthsBounded_setChannel k _ channel _ h2 (h2.1 channel)
    · split
      · exact LengthsBounded_setChannel k _ channel _ h2 (h2.1 channel)
      · exact h2
  · exact h

/-- The Stage clear of `LoadSfx` keeps the bounds. -/
theorem LengthsBounded_clearStageEntries (k : AudioConsts) (s : AudioState)
    (h : LengthsBounded k s) : LengthsBounded k (clearStageEntries k s) := by
  unfold clearStageEntries
  apply foldl_preserves (LengthsBounded k) _ _ _ s h
  intro t i ht
  split
  · exact LengthsBounded_setSfx k _ i _ (LengthsBounded_UnloadADPCM k t _ ht) (Nat.zero_le _)
  · exact ht

/-- `LoadSfx` keeps the bounds. -/
theorem LengthsBounded_LoadSfx (k : AudioConsts) (s : AudioState) (filename : String)
    (plays scope : Nat) (h : LengthsBounded k s) :
    LengthsBounded k (LoadSfx k s filename plays scope) := by
  unfold LoadSfx
  split
  · exact h
  · dsimp only
    have h1 : LengthsBounded k (if scope = SCOPE_STAGE then clearStageEntries k s else s) := by
      split
      · exact LengthsBounded_clearStageEntries k s h
      · exact h
    generalize (if scope = SCOPE_STAGE then clearStageEntries k s else s) = s1 at h1 ⊢
    split
    · exact LengthsBounded_setSfx k s1 _ (newSfxEntry k filename plays scope) h1
        (Nat.zero_le _)
    · exact h1

/-- `LoadSfxToSlot` keeps the bounds. -/
theorem LengthsBounded_LoadSfxToSlot (k : AudioConsts) (s : AudioState) (filename : String)
    (slot plays scope : Nat) (h : LengthsBounded k s) :
    LengthsBounded k (LoadSfxToSlot k s filename slot plays scope) := by
  unfold LoadSfxToSlot
  split
  · exact h
  · exact LengthsBounded_setSfx k _ _ _ h (Nat.zero_le _)

/-- The channel loop of the scope clears keeps the bounds. -/
theorem LengthsBounded_stopEffectChannels (k : AudioConsts) (s : AudioState)
    (h : LengthsBounded k s) : LengthsBounded k (stopEffectChannels k s) := by
  unfold stopEffectChannels
  apply foldl_preserves (LengthsBounded k) _ _ _ s h
  intro t c ht
  split
  · exact LengthsBounded_setChannel k _ c _ (LengthsBounded_StopADPCM k t _ ht)
      ((LengthsBounded_StopADPCM k t _ ht).1 c)
  · exact ht

/-- `ClearStageSfx` keeps the bounds. -/
theorem LengthsBounded_ClearStageSfx (k : AudioConsts) (s : AudioState)
    (h : LengthsBounded k s) : LengthsBounded k (ClearStageSfx k s) := by
  unfold ClearStageSfx
  apply foldl_preserves (LengthsBounded k) _ _ _ _ (LengthsBounded_stopEffectChannels k s h)
  intro t i ht
  split
  · exact LengthsBounded_setSfx k _ i _ (LengthsBounded_UnloadADPCM k t _ ht) (Nat.zero_le _)
  · exact ht

/-- `ClearGlobalSfx` keeps the bounds. -/
theorem LengthsBounded_ClearGlobalSfx (k : AudioConsts) (s : AudioState)
    (h : LengthsBounded k s) : LengthsBounded k (ClearGlobalSfx k s) := by
  unfold ClearGlobalSfx
  apply foldl_preserves (LengthsBounded k) _ _ _ _ (LengthsBounded_stopEffectChannels k s h)
  intro t i ht
  split
  · exact LengthsBounded_setSfx k _ i _ ht (Nat.zero_le _)
  · exact ht

/-- `UpdateADPCMChannels` keeps the bounds. -/
theorem LengthsBounded_UpdateADPCMChannels (k : AudioConsts) (s : AudioState)
    (h : LengthsBounded k s) : LengthsBounded k (UpdateADPCMChannels k s) := by
  unfold UpdateADPCMChannels
  apply foldl_preserves (LengthsBounded k) _ _ _ _
    (LengthsBounded_congr k s { s with current_frame := u32 (s.current_frame + 1) } rfl rfl h)
  intro t c ht
  dsimp only
  split
  · exact ht
  · split
    · exact ht
    · split
      · split
        · exact LengthsBounded_setChannel k _ c _ (LengthsBounded_congr k t _ rfl rfl ht)
            (ht.1 c)
        · exact LengthsBounded_congr k t _ rfl rfl ht
      · exact ht

/-- One iteration of the stream loop keeps the bounds. -/
theorem LengthsBounded_streamFrame (k : AudioConsts) (c : Nat) (panL panR : ℚ) (b : Bool)
    (m : StreamMix) (f : Nat) (h : LengthsBounded k m.state) :
    LengthsBounded k (streamFrame k c panL panR b m f).state := by
  unfold streamFrame
  split
  · exact h
  · dsimp only
    split
    · exact LengthsBounded_UpdateStreamBuffer k _ c
        (LengthsBounded_setChannel k _ c _ h (h.1 c))
    · exact LengthsBounded_setChannel k _ c _ h (h.1 c)

/-- The stream loop keeps the bounds. -/
theorem LengthsBounded_mixStream (k : AudioConsts) (c : Nat) (vol : ℚ) (b : Bool)
    (frames : Nat) (t : AudioState × (Nat → Int)) (h : LengthsBounded k t.1) :
    LengthsBounded k (mixStream k c vol b frames t).1 := by
  unfold mixStream
  dsimp only
  exact foldl_preserves (fun m : StreamMix => LengthsBounded k m.state) _
    (fun m f hm => LengthsBounded_streamFrame k c _ _ b m f hm) (List.range frames) _ h

/-- `FrameInit` keeps the bounds. -/
theorem LengthsBounded_FrameInit (k : AudioConsts) (audioState : Bool) (available : Int)
    (vol : ℚ) (s : AudioState) (h : LengthsBounded k s) :
    LengthsBounded k (FrameInit k audioState available vol s).1 := by
  have h1 := LengthsBounded_UpdateADPCMChannels k s h
  unfold FrameInit
  split
  · exact h
  · dsimp only
    split
    · exact h1
    · dsimp only
      exact foldl_preserves
        (fun t : AudioState × (Nat → Int) => LengthsBounded k t.1) _
        (fun t c ht => by
          dsimp only
          split
          · exact ht
          · exact LengthsBounded_mixStream k c vol true _ t ht)
        (List.range k.CHANNEL_COUNT) _ h1

/-- `ProcessAudioMixing` keeps the bounds. -/
theorem LengthsBounded_ProcessAudioMixing (k : AudioConsts) (vol : ℚ) (length : Nat)
    (s : AudioState) (h : LengthsBounded k s) :
    LengthsBounded k (ProcessAudioMixing k vol length s).1 := by
  unfold ProcessAudioMixing
  exact foldl_preserves
    (fun t : AudioState × (Nat → Int) => LengthsBounded k t.1) _
    (fun t c ht => by
      dsimp only
      split
      · exact LengthsBounded_mixStream k c vol false _ t ht
      · exact ht)
    (List.range k.CHANNEL_COUNT) _ h

/-- `InitAudioChannels` keeps the bounds: it writes `MIX_BUFFER_SIZE` to the `length` of
the stream slot. -/
theorem LengthsBounded_InitAudioChannels (k : AudioConsts)
    (mixAlloc circAlloc : Option (List Nat)) (s : AudioState) (h : LengthsBounded k s) :
    LengthsBounded k (InitAudioChannels k mixAlloc circAlloc s) := by
  unfold InitAudioChannels
  dsimp only
  have h1 : LengthsBounded k ((List.range k.CHANNEL_COUNT).foldl
      (fun t i => setChannel t i { t.channels i with soundID := -1, state := CHANNEL_IDLE })
      s) := by
    apply foldl_preserves (LengthsBounded k) _ _ _ s h
    intro t i ht
    exact LengthsBounded_setChannel k t i _ ht (ht.1 i)
  have h2 := LengthsBounded_setSfx k _ (STREAM_SLOT k)
    { ((List.range k.CHANNEL_COUNT).foldl
        (fun t i => setChannel t i { t.channels i with soundID := -1, state := CHANNEL_IDLE })
        s).sfxList (STREAM_SLOT k) with
      hash := copyHash (k.GEN_HASH_MD5 "Stream Channel 0"), scope := SCOPE_NONE,
      maxConcurrentPlays := 1, length := k.MIX_BUFFER_SIZE,
      buffer := if mixAlloc.isSome then SamplePtr.mixBuffer else SamplePtr.null }
    h1 (Nat.le_refl _)
  exact LengthsBounded_congr k _ _ rfl rfl
    (LengthsBounded_setSfx k _ (k.SFX_COUNT - 1) SFXInfo.zero
      (LengthsBounded_congr k _ _ rfl rfl h2) (Nat.zero_le _))

/-- In every reachable state no `sampleLength` and no `length` of a registry entry exceeds
`MIX_BUFFER_SIZE`. -/
theorem AudioReachable_LengthsBounded (k : AudioConsts) (s : AudioState)
    (h : AudioReachable k s) : LengthsBounded k s := by
  induction h with
  | init mixAlloc circAlloc streamsEnabled =>
    unfold Init
    apply LengthsBounded_InitAudioChannels
    exact ⟨fun _ => Nat.zero_le _, fun _ => Nat.zero_le _⟩
  | playStream fs s filename slot startPos loopPoint _ ih =>
    exact LengthsBounded_PlayStream k fs s filename slot startPos loopPoint ih
  | updateStream s c _ ih => exact LengthsBounded_UpdateStreamBuffer k s c ih
  | playSfx fs srv s sfx loopPoint priority c t _ hp ih =>
    exact LengthsBounded_PlaySfx k fs srv s sfx loopPoint priority c t hp ih
  | setAttributes s channel volume panning speed _ ih =>
    exact LengthsBounded_SetChannelAttributes k s channel volume panning speed ih
  | loadSfx s filename plays scope _ ih => exact LengthsBounded_LoadSfx k s filename plays scope ih
  | loadSfxToSlot s filename slot plays scope _ ih =>
    exact LengthsBounded_LoadSfxToSlot k s filename slot plays scope ih
  | clearStage s _ ih => exact LengthsBounded_ClearStageSfx k s ih
  | clearGlobal s _ ih => exact LengthsBounded_ClearGlobalSfx k s ih
  | frameInit s audioState available vol _ ih =>
    exact LengthsBounded_FrameInit k audioState available vol s ih
  | mixing s vol length _ ih => exact LengthsBounded_ProcessAudioMixing k vol length s ih

/-- In a state with bounded lengths, and a mix buffer of less than `0xFFFFFFFF` samples,
the test of the second selection loop on the initial running minimum is the test of the
channel state alone. -/
theorem secondPassEligible_iff (k : AudioConsts) (s : AudioState) (c : Nat)
    (h : LengthsBounded k s) (hmix : k.MIX_BUFFER_SIZE < 0xFFFFFFFF) :
    secondPassEligible s c ↔ (s.channels c).state ≠ CHANNEL_LOADING_STREAM := by
  unfold secondPassEligible
  constructor
  · intro h1; exact h1.1
  · intro h1; exact ⟨h1, lt_of_le_of_lt (h.1 c) hmix⟩

/-- Claim C8. In every reachable state (with a mix buffer of less than `0xFFFFFFFF`
samples, the initial value of the running minimum): with streams disabled `PlayStream`
returns -1 and changes nothing; with streams enabled, no explicit slot and a first pass
that finds no channel, it selects and returns the lowest-indexed channel of least
`sampleLength` among the channels that are not in `LoadingStream` state, and it returns -1
(changing nothing) exactly when every channel is in `LoadingStream` state. -/
theorem PlayStream_evicts_shortest (k : AudioConsts) (fs : String → Option (List Nat))
    (s : AudioState) (filename : String) (slot startPos loopPoint : Nat)
    (hreach : AudioReachable k s) (hmix : k.MIX_BUFFER_SIZE < 0xFFFFFFFF) :
    (s.streamsEnabled = false →
      PlayStream k fs s filename slot startPos loopPoint = (-1, s)) ∧
    (s.streamsEnabled = true → k.CHANNEL_COUNT ≤ slot →
      (∀ c, c < k.CHANNEL_COUNT → ¬ firstPassEligible s c) →
      ((PlayStream k fs s filename slot startPos loopPoint).1 = -1 ↔
        ∀ c, c < k.CHANNEL_COUNT → (s.channels c).state = CHANNEL_LOADING_STREAM) ∧
      ((∀ c, c < k.CHANNEL_COUNT → (s.channels c).state = CHANNEL_LOADING_STREAM) →
        PlayStream k fs s filename slot startPos loopPoint = (-1, s)) ∧
      ((∃ c, c < k.CHANNEL_COUNT ∧ (s.channels c).state ≠ CHANNEL_LOADING_STREAM) →
        ∃ m, m < k.CHANNEL_COUNT ∧ selectStreamSlot k s slot = m ∧
          (PlayStream k fs s filename slot startPos loopPoint).1 = (m : Int) ∧
          (s.channels m).state ≠ CHANNEL_LOADING_STREAM ∧
          (∀ j, j < k.CHANNEL_COUNT → (s.channels j).state ≠ CHANNEL_LOADING_STREAM →
            (s.channels m).sampleLength ≤ (s.channels j).sampleLength) ∧
          (∀ j, j < m → (s.channels j).state ≠ CHANNEL_LOADING_STREAM →
            (s.channels m).sampleLength < (s.channels j).sampleLength))) := by
  have hb := AudioReachable_LengthsBounded k s hreach
  have hel := fun c => secondPassEligible_iff k s c hb hmix
  obtain ⟨hdis, hsecond⟩ := PlayStream_second_pass k fs s filename slot startPos loopPoint
  refine ⟨hdis, fun hen hslot hfirst => ?_⟩
  obtain ⟨hret, hnone, hsome⟩ := hsecond hen hslot hfirst
  have hall : (∀ c, c < k.CHANNEL_COUNT → ¬ secondPassEligible s c) ↔
      ∀ c, c < k.CHANNEL_COUNT → (s.channels c).state = CHANNEL_LOADING_STREAM := by
    constructor
    · intro h c hc
      by_contra hne
      exact h c hc ((hel c).mpr hne)
    · intro h c hc he
      exact (hel c).mp he (h c hc)
  refine ⟨hret.trans hall, fun h => hnone (hall.mpr h), ?_⟩
  rintro ⟨c, hc, hne⟩
  obtain ⟨m, hm, hsel, hval, hem, hmin, hlow⟩ := hsome ⟨c, hc, (hel c).mpr hne⟩
  exact ⟨m, hm, hsel, hval, (hel m).mp hem,
    fun j hj hjne => hmin j hj ((hel j).mpr hjne),
    fun j hj hjne => hlow j hj ((hel j).mpr hjne)⟩

/-- A result of `PlaySfx` that is not the division by zero is the pair of its parts. -/
theorem option_pair_eq (o : Option (Int × AudioState)) (d : AudioState)
    (h : o.isSome = true) :
    o = some ((o.map Prod.fst).getD 0, (o.map Prod.snd).getD d) := by
  cases o with
  | none => exact absurd h (by decide)
  | some p => rfl

set_option maxRecDepth 1000000 in
/-- The states `crowdedChannels n` are reachable. -/
theorem crowdedChannels_reachable (n : Nat) : AudioReachable demoConsts (crowdedChannels n) := by
  unfold crowdedChannels
  apply foldl_preserves (AudioReachable demoConsts)
  · intro s _ hs
    exact AudioReachable.playStream (fun _ => none) s "b.ogg" 16 0 0 hs
  · have h1 : AudioReachable demoConsts
        (PlayStream demoConsts (fun _ => some shortWav) jumpLoaded "theme.ogg" 0 0 8).2 :=
      AudioReachable.playStream _ _ _ _ _ _
        (AudioReachable.loadSfx _ "jump.wav" 3 SCOPE_STAGE
          (AudioReachable.init (some (List.replicate 4096 0)) (some (List.replicate 65536 0))
            true))
    exact AudioReachable.playSfx (fun _ => some demoAdpcm) demoAudsrv _ 0 0 0 _ _ h1
      (option_pair_eq streamThenJump demoInit (by decide))

set_option maxRecDepth 1000000 in
/-- Claim C8 at a concrete input: in the reachable state `crowdedChannels 14` channel 0
plays a stream, channel 1 plays an effect with the `sampleLength` 0 it never had written,
and the channels 2 to 15 are `Idle` with the `soundID` 0xFF and the `sampleLength` 2048 of
a stream that failed to load. No channel passes the first test, and a `PlayStream` without
an explicit slot takes channel 1, the lowest channel of least `sampleLength`. -/
theorem PlayStream_evicts_shortest_witness :
    (∀ c, c < demoConsts.CHANNEL_COUNT → ¬ firstPassEligible (crowdedChannels 14) c) ∧
    (((crowdedChannels 14).channels 0).sampleLength = 2048 ∧
      ((crowdedChannels 14).channels 1).sampleLength = 0 ∧
      ((crowdedChannels 14).channels 2).sampleLength = 2048) ∧
    (PlayStream demoConsts (fun _ => none) (crowdedChannels 14) "c.ogg" 16 0 0).1 = 1 ∧
    ∃ m, m < demoConsts.CHANNEL_COUNT ∧ selectStreamSlot demoConsts (crowdedChannels 14) 16 = m ∧
      (PlayStream demoConsts (fun _ => none) (crowdedChannels 14) "c.ogg" 16 0 0).1 = (m : Int) ∧
      ((crowdedChannels 14).channels m).state ≠ CHANNEL_LOADING_STREAM ∧
      (∀ j, j < demoConsts.CHANNEL_COUNT →
        ((crowdedChannels 14).channels j).state ≠ CHANNEL_LOADING_STREAM →
        ((crowdedChannels 14).channels m).sampleLength ≤
          ((crowdedChannels 14).channels j).sampleLength) ∧
      (∀ j, j < m → ((crowdedChannels 14).channels j).state ≠ CHANNEL_LOADING_STREAM →
        ((crowdedChannels 14).channels m).sampleLength <
          ((crowdedChannels 14).channels j).sampleLength) :=
  ⟨by decide, by decide, by decide,
    ((PlayStream_evicts_shortest demoConsts (fun _ => none) (crowdedChannels 14) "c.ogg" 16 0 0
      (crowdedChannels_reachable 14) (by decide)).2 (by decide) (by decide) (by decide)).2.2
      ⟨0, by decide, by decide⟩⟩

end RSDK
